import Mathlib

/-!
UartSecureDFU: the DFU protocol engine of the serial DFU host.

A shallow embedding of `slip_enc.c`, `uart_slip.c`, `dfu_serial.c`, `dfu.c` and
of `main` in `UartSecureDFU.c`.
Bytes and machine words are natural numbers; `uint32_t` arithmetic that can
overflow is reduced modulo `2 ^ 32` explicitly.
-/

namespace UartSecureDFU

/-! ## slip_enc.c -/

/-- SLIP frame terminator, octal 0300. -/
def SLIP_END : Nat := 192
/-- SLIP escape byte, octal 0333. -/
def SLIP_ESC : Nat := 219
/-- Escaped terminator, octal 0334. -/
def SLIP_ESC_END : Nat := 220
/-- Escaped escape byte, octal 0335. -/
def SLIP_ESC_ESC : Nat := 221

/-- Range of `uint32_t`. -/
def U32 : Nat := 4294967296

/-- The `for` loop of `encode_slip`: `src` holds the source bytes still to be
read, `dst` the bytes written to `pDestData` so far, `nDestSize` the counter. -/
def encode_slip_loop : List Nat → List Nat → Nat → List Nat × Nat
  | [], dst, nDestSize => (dst, nDestSize)
  | nSrcByte :: rest, dst, nDestSize =>
    if nSrcByte = SLIP_END then
      encode_slip_loop rest (dst ++ [SLIP_ESC, SLIP_ESC_END]) ((nDestSize + 2) % U32)
    else if nSrcByte = SLIP_ESC then
      encode_slip_loop rest (dst ++ [SLIP_ESC, SLIP_ESC_ESC]) ((nDestSize + 2) % U32)
    else
      encode_slip_loop rest (dst ++ [nSrcByte]) ((nDestSize + 1) % U32)

/-- Embedding of `encode_slip`: returns the bytes written to `pDestData` and the
value stored in `*pDestSize`. -/
def encode_slip (pSrcData : List Nat) (nSrcSize : Nat) : List Nat × Nat :=
  let r := encode_slip_loop (pSrcData.take nSrcSize) [] 0
  (r.1 ++ [SLIP_END], (r.2 + 1) % U32)

/-- The `for` loop of `decode_slip`; `err_code` is 1 until an unescaped
terminator is met. Returns `(err_code, bytes written, nDestSize)`. -/
def decode_slip_loop : List Nat → List Nat → Nat → Bool → Int × List Nat × Nat
  | [], dst, nDestSize, _ => (1, dst, nDestSize)
  | nSrcByte :: rest, dst, nDestSize, is_escaped =>
    if nSrcByte = SLIP_END then
      (if !is_escaped then 0 else 1, dst, nDestSize)
    else if nSrcByte = SLIP_ESC then
      if is_escaped then (1, dst, nDestSize)
      else decode_slip_loop rest dst nDestSize true
    else if nSrcByte = SLIP_ESC_END then
      if is_escaped then decode_slip_loop rest (dst ++ [SLIP_END]) (nDestSize + 1) false
      else decode_slip_loop rest (dst ++ [nSrcByte]) (nDestSize + 1) is_escaped
    else if nSrcByte = SLIP_ESC_ESC then
      if is_escaped then decode_slip_loop rest (dst ++ [SLIP_ESC]) (nDestSize + 1) false
      else decode_slip_loop rest (dst ++ [nSrcByte]) (nDestSize + 1) is_escaped
    else
      decode_slip_loop rest (dst ++ [nSrcByte]) (nDestSize + 1) is_escaped

/-- Embedding of `decode_slip`: reads the first `nSrcSize` bytes of `pSrcData`
and returns `(err_code, bytes written to pDestData, *pDestSize)`. -/
def decode_slip (pSrcData : List Nat) (nSrcSize : Nat) : Int × List Nat × Nat :=
  decode_slip_loop (pSrcData.take nSrcSize) [] 0 false

/-- The escaped image of a byte sequence, without the terminator: the bytes
`encode_slip` writes before the final `SLIP_END`. -/
def slip_stuffed : List Nat → List Nat
  | [] => []
  | b :: rest =>
    (if b = SLIP_END then [SLIP_ESC, SLIP_ESC_END]
     else if b = SLIP_ESC then [SLIP_ESC, SLIP_ESC_ESC]
     else [b]) ++ slip_stuffed rest

/-! ## Parts of the program declared outside the translated sources -/

/-- The two items the sources take from headers that are not part of the
translated files: the constant `UART_SLIP_SIZE_MAX` of `uart_slip.h` and the
function `crc32_compute` of `crc32.h`. `crc32_compute d c` stands for
`crc32_compute(p, n, p_crc)` where `d` is `p[0..n)` and `c` is `none` for a
`NULL` `p_crc` and `some v` for a pointer to `v`. -/
structure Platform where
  UART_SLIP_SIZE_MAX : Nat
  crc32_compute : List Nat → Option Nat → Nat

/-- One round of the bitwise CRC-32 update (reflected polynomial 0xEDB88320). -/
def crc32_bit (crc : Nat) : Nat :=
  (crc >>> 1) ^^^ (if crc % 2 = 1 then 3988292384 else 0)

/-- CRC-32 update of the register with one data byte. -/
def crc32_byte (crc : Nat) (b : Nat) : Nat :=
  crc32_bit (crc32_bit (crc32_bit (crc32_bit (crc32_bit (crc32_bit (crc32_bit
    (crc32_bit (crc ^^^ (b % 256)))))))))

/-- Modelled from the spec: `crc32_compute` of `crc32.c`, which is not among the
sources; the spec calls it a stock IEEE-802.3 CRC-32 that can be continued from
a previous value. The register starts from the complement of the previous value
(all ones when there is none) and the result is complemented. -/
def crc32_ieee (data : List Nat) (p_crc : Option Nat) : Nat :=
  let start := match p_crc with
    | none => 4294967295
    | some c => 4294967295 - c % U32
  4294967295 - (data.foldl crc32_byte start) % U32

/-- A concrete platform, used to run the model: 128-byte messages and the
IEEE CRC-32. -/
def nrf : Platform := { UART_SLIP_SIZE_MAX := 128, crc32_compute := crc32_ieee }

/-! ## The serial driver and the program state -/

/-- What the protocol engine does at the transport boundary. -/
inductive Event where
  /-- A message handed to `dfu_serial_send`: `pData[0..nSize)`. -/
  | send (msg : List Nat)
  /-- One call of `uart_slip_receive`. -/
  | receive
  deriving DecidableEq

/-- Program state together with the behaviour of the serial driver.
`mtu`, `ping_id`, `prn` and `receive_data` are the statics of `dfu_serial.c`.
`log` and `wire` record what has been handed to `dfu_serial_send` and to
`uart_drv_send`; `checks` records the pair (expected offset, expected crc) each
time `dfu_serial_stream_data_crc` compares a `CrcGet` response. `send_results`
and `recv_results` are the outcomes of the coming calls of `uart_drv_send` and
`uart_drv_receive` (result code, and for a read the bytes stored). -/
structure World where
  mtu : Nat
  ping_id : Nat
  prn : Nat
  receive_data : List Nat
  log : List Event
  wire : List (List Nat)
  checks : List (Nat × Nat)
  send_results : List Int
  recv_results : List (Int × List Nat)
  deriving DecidableEq

/-- The messages handed to `dfu_serial_send`, oldest first. -/
def requests : List Event → List (List Nat)
  | [] => []
  | Event.send msg :: rest => msg :: requests rest
  | Event.receive :: rest => requests rest

/-- The driver call `uart_drv_send(p_uart, pData, nSize)`: records the bytes and
returns the next scripted result; once the script is used up writes succeed. -/
def uart_drv_send (w : World) (pData : List Nat) (nSize : Nat) : Int × World :=
  match w.send_results with
  | [] => (0, { w with wire := w.wire ++ [pData.take nSize] })
  | r :: rest => (r, { w with wire := w.wire ++ [pData.take nSize], send_results := rest })

/-! ## uart_slip.c -/

/-- `UART_SLIP_BUFF_SIZE`. -/
def UART_SLIP_BUFF_SIZE (cfg : Platform) : Nat := cfg.UART_SLIP_SIZE_MAX * 2 + 1

/-- Embedding of `uart_slip_send`. -/
def uart_slip_send (cfg : Platform) (w : World) (pData : List Nat) (nSize : Nat) : Int × World :=
  if nSize > cfg.UART_SLIP_SIZE_MAX then (1, w)
  else
    let e := encode_slip pData nSize
    uart_drv_send w e.1 e.2

/-- The `do ... while` loop of `uart_slip_receive`. `reads` are the outcomes of
the coming driver reads (an exhausted script reads no data), `buff` is
`uart_slip_buff[0..slip_len)`, `pData` and `pSize` are the destination as left
by the last `decode_slip`. Returns `(err_code, pData, *pSize, remaining reads)`. -/
def uart_slip_receive_loop (cfg : Platform) :
    List (Int × List Nat) → List Nat → Nat → List Nat → Nat →
      Int × List Nat × Nat × List (Int × List Nat)
  | reads, buff, slip_len, pData, pSize =>
    let sizeBuffer := (UART_SLIP_BUFF_SIZE cfg + U32 - slip_len % U32) % U32
    if sizeBuffer = 0 then (1, pData, pSize, reads)
    else
      match reads with
      | [] => (1, pData, pSize, [])
      | (err_code, bytes) :: rest =>
        if err_code ≠ 0 then (err_code, pData, pSize, rest)
        else if bytes.length = 0 then (1, pData, pSize, rest)
        else
          let slip_len1 := (slip_len + bytes.length) % U32
          let d := decode_slip (buff ++ bytes) slip_len1
          if d.1 = 0 then (0, d.2.1, d.2.2, rest)
          else uart_slip_receive_loop cfg rest (buff ++ bytes) slip_len1 d.2.1 d.2.2

/-- Embedding of `uart_slip_receive(p_uart, receive_data, sizeof(receive_data),
p_data_cnt)`: returns `(err_code, *pSize, state)`; the decoded bytes are left in
`receive_data`. `pSize0` is the previous content of `*pSize`. -/
def uart_slip_receive (cfg : Platform) (w : World) (pSize0 : Nat) : Int × Nat × World :=
  let r := uart_slip_receive_loop cfg w.recv_results [] 0 w.receive_data pSize0
  (r.1, r.2.2.1,
    { w with receive_data := r.2.1, recv_results := r.2.2.2, log := w.log ++ [Event.receive] })

/-! ## dfu_serial.c -/

def NRF_DFU_OP_OBJECT_CREATE : Nat := 1
def NRF_DFU_OP_RECEIPT_NOTIF_SET : Nat := 2
def NRF_DFU_OP_CRC_GET : Nat := 3
def NRF_DFU_OP_OBJECT_EXECUTE : Nat := 4
def NRF_DFU_OP_OBJECT_SELECT : Nat := 6
def NRF_DFU_OP_MTU_GET : Nat := 7
def NRF_DFU_OP_OBJECT_WRITE : Nat := 8
def NRF_DFU_OP_PING : Nat := 9
def NRF_DFU_OP_RESPONSE : Nat := 96
def NRF_DFU_RES_CODE_SUCCESS : Nat := 1

/-- Response details of `NRF_DFU_OP_OBJECT_SELECT`. -/
structure nrf_dfu_response_select_t where
  offset : Nat
  crc : Nat
  max_size : Nat
  deriving DecidableEq

/-- Response details of `NRF_DFU_OP_CRC_GET`. -/
structure nrf_dfu_response_crc_t where
  offset : Nat
  crc : Nat
  deriving DecidableEq

/-- Embedding of `get_uint16_le`. -/
def get_uint16_le (p_data : List Nat) : Nat :=
  ((p_data.getD 0 0 <<< 0) + (p_data.getD 1 0 <<< 8)) % 65536

/-- Embedding of `put_uint16_le`: the two bytes written. -/
def put_uint16_le (data : Nat) : List Nat :=
  [(data >>> 0) % 256, (data >>> 8) % 256]

/-- Embedding of `get_uint32_le`. -/
def get_uint32_le (p_data : List Nat) : Nat :=
  ((p_data.getD 0 0 <<< 0) + (p_data.getD 1 0 <<< 8) + (p_data.getD 2 0 <<< 16)
    + (p_data.getD 3 0 <<< 24)) % U32

/-- Embedding of `put_uint32_le`: the four bytes written. -/
def put_uint32_le (data : Nat) : List Nat :=
  [(data >>> 0) % 256, (data >>> 8) % 256, (data >>> 16) % 256, (data >>> 24) % 256]

/-- Embedding of `dfu_serial_send` (the trace output is not modelled). -/
def dfu_serial_send (cfg : Platform) (w : World) (pData : List Nat) (nSize : Nat) : Int × World :=
  uart_slip_send cfg { w with log := w.log ++ [Event.send (pData.take nSize)] } pData nSize

/-- Embedding of `dfu_serial_get_rsp`: returns `(err_code, *p_data_cnt, state)`. -/
def dfu_serial_get_rsp (cfg : Platform) (w : World) (oper : Nat) (data_cnt0 : Nat) :
    Int × Nat × World :=
  let r := uart_slip_receive cfg w data_cnt0
  let err_code := r.1
  let data_cnt := r.2.1
  let w1 := r.2.2
  if err_code = 0 then
    if data_cnt ≥ 3 ∧ w1.receive_data.getD 0 0 = NRF_DFU_OP_RESPONSE
        ∧ w1.receive_data.getD 1 0 = oper then
      if w1.receive_data.getD 2 0 ≠ NRF_DFU_RES_CODE_SUCCESS then (1, data_cnt, w1)
      else (err_code, data_cnt, w1)
    else (1, data_cnt, w1)
  else (err_code, data_cnt, w1)

/-- Embedding of `dfu_serial_ping`. -/
def dfu_serial_ping (cfg : Platform) (w : World) (id : Nat) : Int × World :=
  let s := dfu_serial_send cfg w [NRF_DFU_OP_PING, id] 2
  if s.1 = 0 then
    let r := dfu_serial_get_rsp cfg s.2 NRF_DFU_OP_PING 0
    if r.1 = 0 then
      if r.2.1 ≠ 4 ∨ r.2.2.receive_data.getD 3 0 ≠ id then (1, r.2.2) else (r.1, r.2.2)
    else (r.1, r.2.2)
  else s

/-- Embedding of `dfu_serial_set_prn`. -/
def dfu_serial_set_prn (cfg : Platform) (w : World) (prn : Nat) : Int × World :=
  let s := dfu_serial_send cfg w ([NRF_DFU_OP_RECEIPT_NOTIF_SET] ++ put_uint16_le prn) 3
  if s.1 = 0 then
    let r := dfu_serial_get_rsp cfg s.2 NRF_DFU_OP_RECEIPT_NOTIF_SET 0
    (r.1, r.2.2)
  else s

/-- Embedding of `dfu_serial_get_mtu`: returns `(err_code, *p_mtu, state)`;
`p_mtu` is the previous content of `*p_mtu`. -/
def dfu_serial_get_mtu (cfg : Platform) (w : World) (p_mtu : Nat) : Int × Nat × World :=
  let s := dfu_serial_send cfg w [NRF_DFU_OP_MTU_GET] 1
  if s.1 = 0 then
    let r := dfu_serial_get_rsp cfg s.2 NRF_DFU_OP_MTU_GET 0
    if r.1 = 0 then
      if r.2.1 = 5 then (r.1, get_uint16_le (r.2.2.receive_data.drop 3), r.2.2)
      else (1, p_mtu, r.2.2)
    else (r.1, p_mtu, r.2.2)
  else (s.1, p_mtu, s.2)

/-- Embedding of `dfu_serial_select_obj`: returns `(err_code, *p_select_rsp,
state)`; `p_select_rsp` is the previous content of the response structure. -/
def dfu_serial_select_obj (cfg : Platform) (w : World) (obj_type : Nat)
    (p_select_rsp : nrf_dfu_response_select_t) : Int × nrf_dfu_response_select_t × World :=
  let s := dfu_serial_send cfg w [NRF_DFU_OP_OBJECT_SELECT, obj_type] 2
  if s.1 = 0 then
    let r := dfu_serial_get_rsp cfg s.2 NRF_DFU_OP_OBJECT_SELECT 0
    if r.1 = 0 then
      if r.2.1 = 15 then
        (r.1,
          { max_size := get_uint32_le (r.2.2.receive_data.drop 3),
            offset := get_uint32_le (r.2.2.receive_data.drop 7),
            crc := get_uint32_le (r.2.2.receive_data.drop 11) },
          r.2.2)
      else (1, p_select_rsp, r.2.2)
    else (r.1, p_select_rsp, r.2.2)
  else (s.1, p_select_rsp, s.2)

/-- Embedding of `dfu_serial_create_obj`. -/
def dfu_serial_create_obj (cfg : Platform) (w : World) (obj_type obj_size : Nat) : Int × World :=
  let s := dfu_serial_send cfg w ([NRF_DFU_OP_OBJECT_CREATE, obj_type] ++ put_uint32_le obj_size) 6
  if s.1 = 0 then
    let r := dfu_serial_get_rsp cfg s.2 NRF_DFU_OP_OBJECT_CREATE 0
    (r.1, r.2.2)
  else s

/-- The `for` loop of `dfu_serial_stream_data`, entered with the current `pos`
and `err_code`. `p_data` is the memory the pointer designates. The loop is run
with a budget of iterations; `none` means the budget ran out. -/
def dfu_serial_stream_data_loop (cfg : Platform) :
    Nat → World → List Nat → Nat → Nat → Nat → Int → Option (Int × World)
  | fuel, w, p_data, data_size, stp_max, pos, err_code =>
    if err_code = 0 ∧ pos < data_size then
      match fuel with
      | 0 => none
      | fuel1 + 1 =>
        let stp := min (data_size - pos) stp_max
        let s := dfu_serial_send cfg w
          ([NRF_DFU_OP_OBJECT_WRITE] ++ (p_data.drop pos).take stp) (stp + 1)
        dfu_serial_stream_data_loop cfg fuel1 s.2 p_data data_size stp_max (pos + stp) s.1
    else some (err_code, w)

/-- Embedding of `dfu_serial_stream_data`. The pointer test `p_data == NULL` is
always false for the memory `p_data` modelled here. -/
def dfu_serial_stream_data (cfg : Platform) (w : World) (p_data : List Nat) (data_size : Nat) :
    Option (Int × World) :=
  let err_code : Int := if data_size = 0 then 1 else 0
  let err_code : Int := if err_code = 0 then (if w.mtu ≥ 5 then err_code else 1) else err_code
  let stp_max := (w.mtu - 1) / 2 - 1
  dfu_serial_stream_data_loop cfg data_size w p_data data_size stp_max 0 err_code

/-- Embedding of `dfu_serial_get_crc`: returns `(err_code, *p_crc_rsp, state)`. -/
def dfu_serial_get_crc (cfg : Platform) (w : World) (p_crc_rsp : nrf_dfu_response_crc_t) :
    Int × nrf_dfu_response_crc_t × World :=
  let s := dfu_serial_send cfg w [NRF_DFU_OP_CRC_GET] 1
  if s.1 = 0 then
    let r := dfu_serial_get_rsp cfg s.2 NRF_DFU_OP_CRC_GET 0
    if r.1 = 0 then
      if r.2.1 = 11 then
        (r.1,
          { offset := get_uint32_le (r.2.2.receive_data.drop 3),
            crc := get_uint32_le (r.2.2.receive_data.drop 7) },
          r.2.2)
      else (1, p_crc_rsp, r.2.2)
    else (r.1, p_crc_rsp, r.2.2)
  else (s.1, p_crc_rsp, s.2)

/-- Embedding of `dfu_serial_execute_obj`. -/
def dfu_serial_execute_obj (cfg : Platform) (w : World) : Int × World :=
  let s := dfu_serial_send cfg w [NRF_DFU_OP_OBJECT_EXECUTE] 1
  if s.1 = 0 then
    let r := dfu_serial_get_rsp cfg s.2 NRF_DFU_OP_OBJECT_EXECUTE 0
    (r.1, r.2.2)
  else s

/-- The comparison of the `CrcGet` response at the end of
`dfu_serial_stream_data_crc`. -/
def crc_check (rsp_crc : nrf_dfu_response_crc_t) (pos data_size crc : Nat) : Int :=
  let err_code : Int := 0
  let err_code : Int := if rsp_crc.offset ≠ (pos + data_size) % U32 then 2 else err_code
  let err_code : Int := if rsp_crc.crc ≠ crc then 2 else err_code
  err_code

/-- Embedding of `dfu_serial_stream_data_crc`: returns `(err_code, *p_crc,
state)`; `crc` is the previous content of `*p_crc`. -/
def dfu_serial_stream_data_crc (cfg : Platform) (w : World) (p_data : List Nat)
    (data_size pos crc : Nat) : Option (Int × Nat × World) :=
  match dfu_serial_stream_data cfg w p_data data_size with
  | none => none
  | some s =>
    if s.1 = 0 then
      let crc1 := cfg.crc32_compute (p_data.take data_size) (some crc)
      let g := dfu_serial_get_crc cfg s.2 { offset := 0, crc := 0 }
      if g.1 = 0 then
        some (crc_check g.2.1 pos data_size crc1, crc1,
          { g.2.2 with checks := g.2.2.checks ++ [((pos + data_size) % U32, crc1)] })
      else some (g.1, crc1, g.2.2)
    else some (s.1, crc, s.2)

/-- Embedding of `dfu_serial_try_to_recover_ip`: returns `(err_code,
*p_rsp_recover, state)`. -/
def dfu_serial_try_to_recover_ip (cfg : Platform) (w : World) (p_data : List Nat)
    (data_size : Nat) (p_rsp_select : nrf_dfu_response_select_t) :
    Option (Int × nrf_dfu_response_select_t × World) :=
  let p_rsp_recover := p_rsp_select
  let pos_start := p_rsp_recover.offset
  let crc_32 : Nat :=
    if pos_start > 0 ∧ pos_start ≤ data_size then cfg.crc32_compute (p_data.take pos_start) none
    else 0
  let pos_start : Nat :=
    if pos_start > 0 ∧ pos_start ≤ data_size then
      (if p_rsp_select.crc ≠ crc_32 then 0 else pos_start)
    else 0
  if pos_start > 0 ∧ pos_start < data_size then
    let len_remain := data_size - pos_start
    match dfu_serial_stream_data_crc cfg w (p_data.drop pos_start) len_remain pos_start crc_32 with
    | none => none
    | some s =>
      if s.1 = 0 then
        let pos_start := (pos_start + len_remain) % U32
        if pos_start = data_size then
          let e := dfu_serial_execute_obj cfg s.2.2
          some (e.1, { p_rsp_recover with offset := pos_start }, e.2)
        else some (s.1, { p_rsp_recover with offset := pos_start }, s.2.2)
      else if s.1 = 2 then
        let pos_start := 0
        if pos_start = data_size then
          let e := dfu_serial_execute_obj cfg s.2.2
          some (e.1, { p_rsp_recover with offset := pos_start }, e.2)
        else some (0, { p_rsp_recover with offset := pos_start }, s.2.2)
      else some (s.1, { p_rsp_recover with offset := pos_start }, s.2.2)
  else if pos_start = data_size then
    let e := dfu_serial_execute_obj cfg w
    some (e.1, { p_rsp_recover with offset := pos_start }, e.2)
  else some (0, { p_rsp_recover with offset := pos_start }, w)

/-- Embedding of `dfu_serial_try_to_recover_fw`: returns `(err_code,
*p_rsp_recover, state)`, or `none` when the run has no defined result (the
remainder by a zero `max_size`, or a write loop that ran out of budget). -/
def dfu_serial_try_to_recover_fw (cfg : Platform) (w : World) (p_data : List Nat)
    (data_size : Nat) (p_rsp_select : nrf_dfu_response_select_t) :
    Option (Int × nrf_dfu_response_select_t × World) :=
  let p_rsp_recover := p_rsp_select
  let pos_start := p_rsp_recover.offset
  if pos_start > data_size then some (1, p_rsp_recover, w)
  else if pos_start > 0 then
    let max_size := p_rsp_select.max_size
    let crc_32 := cfg.crc32_compute (p_data.take pos_start) none
    if max_size = 0 then none
    else
      let len_remain := pos_start % max_size
      if p_rsp_select.crc ≠ crc_32 then
        let pos_start := pos_start - (if len_remain > 0 then len_remain else max_size)
        some (0, { p_rsp_recover with offset := pos_start }, w)
      else if len_remain > 0 then
        let stp_size := max_size - len_remain
        match dfu_serial_stream_data_crc cfg w (p_data.drop pos_start) stp_size pos_start crc_32 with
        | none => none
        | some s =>
          if s.1 = 0 then
            let e := dfu_serial_execute_obj cfg s.2.2
            some (e.1, { p_rsp_recover with offset := (pos_start + stp_size) % U32 }, e.2)
          else if s.1 = 2 then
            some (0, { p_rsp_recover with offset := pos_start - len_remain }, s.2.2)
          else some (s.1, { p_rsp_recover with offset := pos_start }, s.2.2)
      else
        let e := dfu_serial_execute_obj cfg w
        some (e.1, p_rsp_recover, e.2)
  else some (0, p_rsp_recover, w)

/-- Embedding of `dfu_serial_open`. -/
def dfu_serial_open (cfg : Platform) (w : World) : Int × World :=
  let w := { w with ping_id := (w.ping_id + 1) % 256 }
  let p := dfu_serial_ping cfg w w.ping_id
  if p.1 = 0 then
    let s := dfu_serial_set_prn cfg p.2 p.2.prn
    if s.1 = 0 then
      let m := dfu_serial_get_mtu cfg s.2 s.2.mtu
      (m.1, { m.2.2 with mtu := m.2.1 })
    else s
  else p

/-- Embedding of `dfu_serial_close`. -/
def dfu_serial_close (w : World) : Int × World := (0, w)

/-- Embedding of `dfu_serial_send_init_packet`; `p_data` is `none` for a `NULL`
pointer. -/
def dfu_serial_send_init_packet (cfg : Platform) (w : World) (p_data : Option (List Nat))
    (data_size : Nat) : Option (Int × World) :=
  match p_data with
  | none => some (1, w)
  | some mem =>
    if data_size = 0 then some (1, w)
    else
      let sel := dfu_serial_select_obj cfg w 1 { offset := 0, crc := 0, max_size := 0 }
      if sel.1 ≠ 0 then some (sel.1, sel.2.2)
      else
        match dfu_serial_try_to_recover_ip cfg sel.2.2 mem data_size sel.2.1 with
        | none => none
        | some rec =>
          if rec.1 ≠ 0 then some (rec.1, rec.2.2)
          else if rec.2.1.offset = data_size then some (rec.1, rec.2.2)
          else if data_size > sel.2.1.max_size then some (1, rec.2.2)
          else
            let c := dfu_serial_create_obj cfg rec.2.2 1 data_size
            if c.1 ≠ 0 then some c
            else
              match dfu_serial_stream_data_crc cfg c.2 mem data_size 0 0 with
              | none => none
              | some s =>
                if s.1 ≠ 0 then some (s.1, s.2.2)
                else some (dfu_serial_execute_obj cfg s.2.2)

/-- The object loop of `dfu_serial_send_firmware`, entered with the current
`pos` and running `crc_32`. The loop is run with a budget of iterations; `none`
means the budget ran out (or the write loop did). -/
def dfu_serial_send_firmware_loop (cfg : Platform) :
    Nat → World → List Nat → Nat → Nat → Nat → Nat → Option (Int × World)
  | fuel, w, p_data, data_size, max_size, pos, crc_32 =>
    if pos < data_size then
      match fuel with
      | 0 => none
      | fuel1 + 1 =>
        let stp_size := min (data_size - pos) max_size
        let c := dfu_serial_create_obj cfg w 2 stp_size
        if c.1 ≠ 0 then some c
        else
          match dfu_serial_stream_data_crc cfg c.2 (p_data.drop pos) stp_size pos crc_32 with
          | none => none
          | some s =>
            if s.1 ≠ 0 then some (s.1, s.2.2)
            else
              let e := dfu_serial_execute_obj cfg s.2.2
              if e.1 ≠ 0 then some e
              else dfu_serial_send_firmware_loop cfg fuel1 e.2 p_data data_size max_size
                (pos + stp_size) s.2.1
    else some (0, w)

/-- Embedding of `dfu_serial_send_firmware`; `p_data` is `none` for a `NULL`
pointer. -/
def dfu_serial_send_firmware (cfg : Platform) (w : World) (p_data : Option (List Nat))
    (data_size : Nat) : Option (Int × World) :=
  match p_data with
  | none => some (1, w)
  | some mem =>
    if data_size = 0 then some (1, w)
    else
      let sel := dfu_serial_select_obj cfg w 2 { offset := 0, crc := 0, max_size := 0 }
      if sel.1 ≠ 0 then some (sel.1, sel.2.2)
      else
        match dfu_serial_try_to_recover_fw cfg sel.2.2 mem data_size sel.2.1 with
        | none => none
        | some rec =>
          if rec.1 ≠ 0 then some (rec.1, rec.2.2)
          else
            let max_size := sel.2.1.max_size
            let pos_start := rec.2.1.offset
            let crc_32 := cfg.crc32_compute (mem.take pos_start) (some 0)
            dfu_serial_send_firmware_loop cfg data_size rec.2.2 mem data_size max_size
              pos_start crc_32

/-! ## Reading the trace of a firmware transfer -/

/-- The message of `ObjectCreate` for a Data object (type 0x02) of the given
size. -/
def create_request (size : Nat) : List Nat := [1, 2] ++ put_uint32_le size

/-- The requests of a sequence of objects transferred from position `pos` of a
buffer of `N` bytes with objects of at most `max` bytes. Each object is given by
its `ObjectWrite` messages; it is created with size `min (N - pos) max`, written,
checked with one `CrcGet` and executed once, and the next object starts where
it ends. -/
def object_requests (N max : Nat) : Nat → List (List (List Nat)) → List (List Nat)
  | _, [] => []
  | pos, writes :: rest =>
    [create_request (min (N - pos) max)] ++ writes ++ [[3], [4]]
      ++ object_requests N max (pos + min (N - pos) max) rest

/-- The write messages of each object are `ObjectWrite` messages, their payload
lengths sum to the created size and their payloads concatenate to the slice of
`mem` the object covers. -/
def object_writes_ok (mem : List Nat) (N max : Nat) : Nat → List (List (List Nat)) → Prop
  | _, [] => True
  | pos, writes :: rest =>
    (∀ m ∈ writes, m.head? = some 8)
    ∧ ((writes.map (List.drop 1)).map List.length).sum = min (N - pos) max
    ∧ (writes.map (List.drop 1)).flatten = (mem.drop pos).take (min (N - pos) max)
    ∧ object_writes_ok mem N max (pos + min (N - pos) max) rest

/-- Every recorded checkpoint of the list pairs an offset with the CRC of that
many leading bytes of `p`. -/
def checks_ok (cfg : Platform) (p : List Nat) (cs : List (Nat × Nat)) : Prop :=
  ∀ oc ∈ cs, oc.2 = cfg.crc32_compute (p.take oc.1) none

/-- The serial driver returns only the result codes 0 and 1, as
`uart_linux.c` and `uart_win32.c` do. -/
def driver_01 (w : World) : Prop :=
  (∀ r ∈ w.send_results, r = 0 ∨ r = 1) ∧ (∀ r ∈ w.recv_results, r.1 = 0 ∨ r.1 = 1)

/-! ## Reading a response frame -/

/-- The frame has at least 3 bytes, byte 0 is 0x60 (response), byte 1 is the
opcode `oper` and byte 2 is 0x01 (success). -/
def valid_header (oper : Nat) (frame : List Nat) : Prop :=
  3 ≤ frame.length ∧ frame.getD 0 0 = 96 ∧ frame.getD 1 0 = oper ∧ frame.getD 2 0 = 1

/-- The little-endian 16-bit value at byte offset `k` of a frame. -/
def le16_at (frame : List Nat) (k : Nat) : Nat :=
  (frame.getD k 0 + 256 * frame.getD (k + 1) 0) % 65536

/-- The little-endian 32-bit value at byte offset `k` of a frame. -/
def le32_at (frame : List Nat) (k : Nat) : Nat :=
  (frame.getD k 0 + 256 * frame.getD (k + 1) 0 + 65536 * frame.getD (k + 2) 0
    + 16777216 * frame.getD (k + 3) 0) % U32

/-! ## Concrete runs -/

/-- A state with the given cached `mtu` in which the driver accepts every write
and delivers the given reads. -/
def start_world (mtu : Nat) (reads : List (Int × List Nat)) : World :=
  { mtu := mtu, ping_id := 1, prn := 0, receive_data := [], log := [], wire := [], checks := [],
    send_results := [], recv_results := reads }

/-- A successful driver read that delivers one whole SLIP frame carrying `msg`. -/
def reply (msg : List Nat) : Int × List Nat := (0, (encode_slip msg msg.length).1)

/-- The response to `ObjectSelect`. -/
def select_reply (max_size offset crc : Nat) : Int × List Nat :=
  reply ([96, 6, 1] ++ put_uint32_le max_size ++ put_uint32_le offset ++ put_uint32_le crc)

/-- The response to `CrcGet`. -/
def crc_reply (offset crc : Nat) : Int × List Nat :=
  reply ([96, 3, 1] ++ put_uint32_le offset ++ put_uint32_le crc)

/-- A ten-byte firmware image followed in memory by two bytes that do not
belong to it. -/
def fw_mem : List Nat := [1, 2, 3, 4, 5, 6, 7, 8, 9, 10, 170, 187]

/-- The ten-byte firmware image alone. -/
def fw10 : List Nat := [1, 2, 3, 4, 5, 6, 7, 8, 9, 10]

/-- The device holds the first 5 bytes of `fw10` in objects of 4 bytes and
reports the matching CRC. -/
def resume_state : nrf_dfu_response_select_t :=
  { offset := 5, crc := crc32_ieee (fw10.take 5) none, max_size := 4 }

/-- A device that accepts the completion of the object `[4..8)` of `fw10` and
its execution. -/
def resume_world : World :=
  start_world 64 [crc_reply 8 (crc32_ieee (fw10.take 8) none), reply [96, 4, 1]]

/-- The device holds 5 bytes in objects of 4 bytes and reports a CRC that is not
the CRC of `fw10[0..5)`. -/
def stale_state : nrf_dfu_response_select_t := { offset := 5, crc := 0, max_size := 4 }

/-- A device that reports `stale_state` and then accepts the objects `[4..8)`
and `[8..10)` of `fw10`. -/
def stale_world : World :=
  start_world 64
    [select_reply 4 5 0,
     reply [96, 1, 1], crc_reply 8 (crc32_ieee (fw10.take 8) none), reply [96, 4, 1],
     reply [96, 1, 1], crc_reply 10 (crc32_ieee fw10 none), reply [96, 4, 1]]

/-- A device that answers the completion of the object `[4..8)` of `fw10` with
an offset of 7 instead of 8. -/
def reject_world : World :=
  start_world 64 [crc_reply 7 (crc32_ieee (fw10.take 8) none)]

/-- The device holds the first 8 bytes of `fw10`, two full objects of 4 bytes,
and reports the matching CRC. -/
def aligned_state : nrf_dfu_response_select_t :=
  { offset := 8, crc := crc32_ieee (fw10.take 8) none, max_size := 4 }

/-- A device that answers one request with a successful `ObjectExecute`
response. -/
def aligned_world : World := start_world 64 [reply [96, 4, 1]]

/-- A device that reports 11 bytes accepted, more than the 10 bytes of `fw10`. -/
def beyond_world : World := start_world 64 [select_reply 4 11 0]

/-- A device with nothing stored for the Command object (`max_size = 16`) that
accepts `fw10` sent as an init packet. -/
def init_world : World :=
  start_world 64
    [select_reply 16 0 0, reply [96, 1, 1], crc_reply 10 (crc32_ieee fw10 none),
     reply [96, 4, 1]]

/-- The device holds the first 5 bytes of `fw10` as a Command object and
reports the matching CRC and the given `max_size`. -/
def init_partial_state (max_size : Nat) : nrf_dfu_response_select_t :=
  { offset := 5, crc := crc32_ieee (fw10.take 5) none, max_size := max_size }

/-- A device that reports `init_partial_state 8` and answers the completion of
the init packet `fw10` with an offset of 7 instead of 10. -/
def init_small_world : World :=
  start_world 64
    [select_reply 8 5 (crc32_ieee (fw10.take 5) none), crc_reply 7 (crc32_ieee fw10 none)]

/-- A device that reports `init_partial_state 16`, answers the completion of
the init packet `fw10` with an offset of 7 instead of 10, and then accepts the
whole packet sent again. -/
def init_restart_world : World :=
  start_world 64
    [select_reply 16 5 (crc32_ieee (fw10.take 5) none), crc_reply 7 (crc32_ieee fw10 none),
     reply [96, 1, 1], crc_reply 10 (crc32_ieee fw10 none), reply [96, 4, 1]]

/-- A device that accepts the completion of the init packet `fw10` from offset
5 and its execution. -/
def init_resume_world : World :=
  start_world 64 [crc_reply 10 (crc32_ieee fw10 none), reply [96, 4, 1]]

/-- A device that reports 3 bytes of `fw10` held with the matching CRC and
`max_size = 4`, and answers the completion of the packet with a wrong CRC. -/
def init_tiny_world : World :=
  start_world 64
    [select_reply 4 3 (crc32_ieee (fw10.take 3) none), crc_reply 10 0]

/-- A device that reports the whole of `fw10` held as a Command object, with the
matching CRC and `max_size = 4`, and accepts its execution. -/
def init_done_world : World :=
  start_world 64 [select_reply 4 10 (crc32_ieee fw10 none), reply [96, 4, 1]]

/-- An init packet of 130 bytes. -/
def packet130 : List Nat := List.replicate 130 7

/-- A device that reported an MTU of 300, has nothing stored for the Command
object (`max_size = 512`) and answers every request of a transfer of
`packet130` with success. -/
def wide_world : World :=
  start_world 300
    [select_reply 512 0 0, reply [96, 1, 1], crc_reply 130 (crc32_ieee packet130 none),
     reply [96, 4, 1]]

/-- The events a request function adds to the log for the message `msg`: the
message handed to `dfu_serial_send`, followed by one call of
`uart_slip_receive` when the send returned 0. -/
def exchange_events (cfg : Platform) (w : World) (msg : List Nat) : List Event :=
  Event.send msg ::
    (if (dfu_serial_send cfg w msg msg.length).1 = 0 then [Event.receive] else [])

/-- A state in which the driver fails the next write and would deliver the
response to a ping with id 5. -/
def deaf_world : World :=
  { start_world 64 [reply [96, 9, 1, 5]] with send_results := [1] }

/-- The statics `ping_id` and `prn` of `dfu_serial.c`. -/
def statics (w : World) : Nat × Nat := (w.ping_id, w.prn)

/-- The states of the protocol engine in a running process: `Process cfg k w`
says that `w` is reached from a start with zero-initialised statics by calls of
the public functions of `dfu_serial.c`, `k` of them calls of
`dfu_serial_open`. -/
inductive Process (cfg : Platform) : Nat → World → Prop where
  | start (w : World) (hid : w.ping_id = 0) (hprn : w.prn = 0) (hmtu : w.mtu = 0) :
      Process cfg 0 w
  | opened (k : Nat) (w : World) (h : Process cfg k w) :
      Process cfg (k + 1) (dfu_serial_open cfg w).2
  | init_sent (k : Nat) (w : World) (p_data : Option (List Nat)) (data_size : Nat)
      (r : Int × World) (h : Process cfg k w)
      (hr : dfu_serial_send_init_packet cfg w p_data data_size = some r) : Process cfg k r.2
  | firmware_sent (k : Nat) (w : World) (p_data : Option (List Nat)) (data_size : Nat)
      (r : Int × World) (h : Process cfg k w)
      (hr : dfu_serial_send_firmware cfg w p_data data_size = some r) : Process cfg k r.2
  | closed (k : Nat) (w : World) (h : Process cfg k w) : Process cfg k (dfu_serial_close w).2

/-- A state at the start of a process: the statics are zero, nothing has been
sent, the driver accepts every write and delivers the given reads. -/
def boot_world (reads : List (Int × List Nat)) : World :=
  { mtu := 0, ping_id := 0, prn := 0, receive_data := [], log := [], wire := [], checks := [],
    send_results := [], recv_results := reads }

/-! ## Reading the run of `uart_slip_receive` -/

/-- The number of iterations of the `do ... while` loop of `uart_slip_receive`,
with the arguments of `uart_slip_receive_loop`. -/
def uart_slip_receive_iterations (cfg : Platform) :
    List (Int × List Nat) → List Nat → Nat → Nat
  | reads, buff, slip_len =>
    let sizeBuffer := (UART_SLIP_BUFF_SIZE cfg + U32 - slip_len % U32) % U32
    if sizeBuffer = 0 then 1
    else
      match reads with
      | [] => 1
      | (err_code, bytes) :: rest =>
        if err_code ≠ 0 then 1
        else if bytes.length = 0 then 1
        else
          let slip_len1 := (slip_len + bytes.length) % U32
          if (decode_slip (buff ++ bytes) slip_len1).1 = 0 then 1
          else 1 + uart_slip_receive_iterations cfg rest (buff ++ bytes) slip_len1

/-- Every read that the loop of `uart_slip_receive` performs returns an error,
no data, or at most the `sizeBuffer` bytes requested. -/
def reads_fit (cfg : Platform) : List (Int × List Nat) → List Nat → Nat → Bool
  | reads, buff, slip_len =>
    let sizeBuffer := (UART_SLIP_BUFF_SIZE cfg + U32 - slip_len % U32) % U32
    if sizeBuffer = 0 then true
    else
      match reads with
      | [] => true
      | (err_code, bytes) :: rest =>
        if err_code ≠ 0 then true
        else if bytes.length = 0 then true
        else
          let slip_len1 := (slip_len + bytes.length) % U32
          decide (bytes.length ≤ sizeBuffer) &&
            (if (decode_slip (buff ++ bytes) slip_len1).1 = 0 then true
             else reads_fit cfg rest (buff ++ bytes) slip_len1)

/-- The bytes stored by the first `k` reads of a script. -/
def stored (reads : List (Int × List Nat)) (k : Nat) : List Nat :=
  ((reads.take k).map Prod.snd).flatten

/-- Starting with `buff` in `uart_slip_buff`, the first `k` reads of the script
are performed and none of them ends the loop: each is made with room left in
the buffer, returns 0 with at least one byte, and `decode_slip` does not report
a complete frame on the bytes accumulated after it. -/
def continues (cfg : Platform) (buff : List Nat) (reads : List (Int × List Nat)) (k : Nat) :
    Prop :=
  ∀ j, j < k →
    (buff ++ stored reads j).length < UART_SLIP_BUFF_SIZE cfg
    ∧ (∃ bytes, reads.get? j = some (0, bytes) ∧ bytes ≠ [])
    ∧ (decode_slip (buff ++ stored reads (j + 1)) (buff ++ stored reads (j + 1)).length).1 ≠ 0

/-- A device whose response `[0x60, 0x04, 0x01]` arrives in two reads. -/
def split_world : World := start_world 64 [(0, [96, 4]), (0, [1, 192])]

/-! ## dfu.c -/

def DFU_IMG_NIL : Nat := 0
def DFU_IMG_APP : Nat := 1
def DFU_IMG_BL : Nat := 2
def DFU_IMG_SD : Nat := 3
def DFU_IMG_SD_BL : Nat := 4

/-- Embedding of `dfu_json_object_t`; a file name is the bytes of the string,
`none` for a `NULL` pointer. -/
structure dfu_json_object_t where
  img_type : Nat
  file_bin : Option (List Nat)
  file_dat : Option (List Nat)
  deriving DecidableEq

/-- What the archive reader of `zip.h`, which is not among the sources, does
with one entry: `zip_entry_open` fails; or it succeeds and `zip_entry_read`
fails; or the entry is read and has the given content. -/
inductive ZipEntry where
  | cannot_open
  | cannot_read
  | content (bytes : List Nat)
  deriving DecidableEq

/-- What `dfu.c` does, in the order it does it. -/
inductive Step where
  /-- The message "Sending ... image." of `dfu_send_package` for an image type. -/
  | image (img_type : Nat)
  /-- A call of `zip_entry_open` with the given entry name. -/
  | entry_open (name : Option (List Nat))
  /-- A call of `zip_entry_read`. -/
  | entry_read
  /-- A call of `zip_entry_close`. -/
  | entry_close
  /-- A call of `dfu_serial_open`. -/
  | session_open
  /-- A call of `dfu_serial_send_init_packet`. -/
  | init_packet
  /-- A call of `dfu_serial_send_firmware`. -/
  | firmware
  /-- A call of `dfu_serial_close`. -/
  | session_close
  /-- A call of `delay_connect`. -/
  | delay
  deriving DecidableEq

/-- The state of the host program: the protocol engine with the serial driver
(`dev`), the calls made so far (`steps`), and the behaviour of the archive and
of `delay_connect`: `zip_results` gives the outcome of the entries opened next,
`delay_results` the results of the coming calls of `delay_connect`. -/
structure Host where
  dev : World
  steps : List Step
  zip_results : List ZipEntry
  delay_results : List Int
  deriving DecidableEq

/-- The library call `zip_entry_open(zip, name)`: non-zero when the entry cannot
be opened (an exhausted script has no entry to open). -/
def zip_entry_open (h : Host) (name : Option (List Nat)) : Int × Host :=
  match h.zip_results with
  | [] => (-1, { h with steps := h.steps ++ [Step.entry_open name] })
  | ZipEntry.cannot_open :: rest =>
    (-1, { h with steps := h.steps ++ [Step.entry_open name], zip_results := rest })
  | _ :: _ => (0, { h with steps := h.steps ++ [Step.entry_open name] })

/-- The library call `zip_entry_read(zip, &buf, &bufsize)` on the open entry:
returns `(result, buf, state)`, with `buf` left `NULL` when the read fails. -/
def zip_entry_read (h : Host) : Int × Option (List Nat) × Host :=
  match h.zip_results with
  | ZipEntry.content bytes :: _ =>
    (0, some bytes, { h with steps := h.steps ++ [Step.entry_read] })
  | _ => (-1, none, { h with steps := h.steps ++ [Step.entry_read] })

/-- The library call `zip_entry_close(zip)`: the open entry is done with. -/
def zip_entry_close (h : Host) : Host :=
  { h with steps := h.steps ++ [Step.entry_close], zip_results := h.zip_results.tail }

/-- The call `delay_connect()` of `delay_connect.h`, which is not among the
sources: returns the next scripted result, 0 once the script is used up. -/
def delay_connect (h : Host) : Int × Host :=
  match h.delay_results with
  | [] => (0, { h with steps := h.steps ++ [Step.delay] })
  | r :: rest => (r, { h with steps := h.steps ++ [Step.delay], delay_results := rest })

/-- Embedding of `dfu_send_image`; the four arguments are the fields of
`dfu_img_param_t`. -/
def dfu_send_image (cfg : Platform) (h : Host) (p_img_dat : Option (List Nat))
    (n_dat_size : Nat) (p_img_bin : Option (List Nat)) (n_bin_size : Nat) :
    Option (Int × Host) :=
  let o := dfu_serial_open cfg h.dev
  let h := { h with dev := o.2, steps := h.steps ++ [Step.session_open] }
  if o.1 ≠ 0 then some (o.1, h)
  else
    match dfu_serial_send_init_packet cfg h.dev p_img_dat n_dat_size with
    | none => none
    | some i =>
      let h := { h with dev := i.2, steps := h.steps ++ [Step.init_packet] }
      if i.1 ≠ 0 then some (i.1, h)
      else
        match dfu_serial_send_firmware cfg h.dev p_img_bin n_bin_size with
        | none => none
        | some f =>
          let h := { h with dev := f.2, steps := h.steps ++ [Step.firmware] }
          if f.1 ≠ 0 then some (f.1, h)
          else
            let c := dfu_serial_close h.dev
            some (c.1, { h with dev := c.2, steps := h.steps ++ [Step.session_close] })

/-- The part of `dfu_send_object` that reads one file of the archive: returns
`(err_code, buf, buf_size, state)`. -/
def dfu_send_object_read (h : Host) (name : Option (List Nat)) :
    Int × Option (List Nat) × Nat × Host :=
  let o := zip_entry_open h name
  if o.1 ≠ 0 then (1, none, 0, o.2)
  else
    let r := zip_entry_read o.2
    (if r.1 ≠ 0 then 1 else 0, r.2.1, (r.2.1.getD []).length, zip_entry_close r.2.2)

/-- Embedding of `dfu_send_object`. The sizes are stored into the `uint32_t`
fields of `dfu_img_param_t`. -/
def dfu_send_object (cfg : Platform) (h : Host) (p_dfu_obj : dfu_json_object_t) :
    Option (Int × Host) :=
  let d := dfu_send_object_read h p_dfu_obj.file_dat
  if d.1 ≠ 0 then some (d.1, d.2.2.2)
  else
    let b := dfu_send_object_read d.2.2.2 p_dfu_obj.file_bin
    if b.1 ≠ 0 then some (b.1, b.2.2.2)
    else dfu_send_image cfg b.2.2.2 d.2.1 (d.2.2.1 % U32) b.2.1 (b.2.2.1 % U32)

/-- Embedding of `find_dfu_object`. -/
def find_dfu_object : List dfu_json_object_t → Nat → Nat → Option dfu_json_object_t
  | [], _, _ => none
  | _ :: _, 0, _ => none
  | obj :: rest, num_obj + 1, img_type =>
    if obj.img_type = img_type then some obj else find_dfu_object rest num_obj img_type

/-- One of the four blocks of `dfu_send_package` that send an image of a given
type, entered with the current `err_code` and state. `settle` tells whether the
block calls `delay_connect` (the blocks of the SoftDevice+Bootloader, SoftDevice
and Bootloader images do, the block of the Application image does not). -/
def dfu_send_package_block (cfg : Platform) (r : Int × Host)
    (dfu_objects : List dfu_json_object_t) (num_images : Nat) (img_type : Nat)
    (settle : Bool) : Option (Int × Host) :=
  if r.1 ≠ 0 then some r
  else
    match find_dfu_object dfu_objects num_images img_type with
    | none => some r
    | some p_dfu_object =>
      match dfu_send_object cfg { r.2 with steps := r.2.steps ++ [Step.image img_type] }
          p_dfu_object with
      | none => none
      | some s =>
        if s.1 = 0 ∧ num_images > 1 ∧ settle = true then some (delay_connect s.2)
        else some s

/-- The part of `dfu_send_package` after the manifest has been read: the four
blocks that send the SoftDevice+Bootloader, SoftDevice, Bootloader and
Application images, entered with the current `err_code`, the objects stored in
`dfu_objects` and `num_images`. Returns `(err_code, state)`. -/
def dfu_send_package_images (cfg : Platform) (h : Host) (err_code : Int)
    (dfu_objects : List dfu_json_object_t) (num_images : Nat) : Option (Int × Host) :=
  (((dfu_send_package_block cfg (err_code, h) dfu_objects num_images DFU_IMG_SD_BL true).bind
    fun r => dfu_send_package_block cfg r dfu_objects num_images DFU_IMG_SD true).bind
    fun r => dfu_send_package_block cfg r dfu_objects num_images DFU_IMG_BL true).bind
    fun r => dfu_send_package_block cfg r dfu_objects num_images DFU_IMG_APP false

/-- The responses of a device to one image transfer opened with ping id `id`:
the session is opened with an MTU of 64, the init packet `dat` and the firmware
`bin` are new to the device and accepted in one object each. -/
def image_replies (id : Nat) (dat bin : List Nat) : List (Int × List Nat) :=
  [reply [96, 9, 1, id], reply [96, 2, 1], reply [96, 7, 1, 64, 0],
   select_reply 256 0 0, reply [96, 1, 1], crc_reply dat.length (crc32_ieee dat none),
   reply [96, 4, 1],
   select_reply 4096 0 0, reply [96, 1, 1], crc_reply bin.length (crc32_ieee bin none),
   reply [96, 4, 1]]

/-- A package with a bootloader and an application, as stored by
`dfu_send_package` from the manifest. -/
def two_images : List dfu_json_object_t :=
  [{ img_type := DFU_IMG_APP, file_bin := some [97], file_dat := some [98] },
   { img_type := DFU_IMG_BL, file_bin := some [99], file_dat := some [100] },
   { img_type := DFU_IMG_NIL, file_bin := none, file_dat := none }]

/-- A host at the start of the transfer of `two_images`: the archive holds the
four files and the device accepts both images. -/
def two_image_host : Host :=
  { dev := boot_world (image_replies 1 [1, 2] [3, 4, 5] ++ image_replies 2 [6] [7, 8]),
    steps := [],
    zip_results := [ZipEntry.content [1, 2], ZipEntry.content [3, 4, 5],
                    ZipEntry.content [6], ZipEntry.content [7, 8]],
    delay_results := [] }

/-! ## Reading the steps of a package transfer -/

/-- The four calls of `dfu_send_image`, in their order. -/
def session_steps : List Step :=
  [Step.session_open, Step.init_packet, Step.firmware, Step.session_close]

/-- The steps that are calls of the archive reader. -/
def Step.is_entry : Step → Bool
  | Step.entry_open _ => true
  | Step.entry_read => true
  | Step.entry_close => true
  | _ => false

/-- What `dfu_send_package` does for one image: it announces the image type,
reads the archive (`entries`), calls the protocol engine (`session`) and may
call `delay_connect` (`settled`). -/
structure ImageRun where
  img_type : Nat
  entries : List Step
  session : List Step
  settled : Bool

/-- The steps of an image run, in order. -/
def ImageRun.steps (run : ImageRun) : List Step :=
  [Step.image run.img_type] ++ run.entries ++ run.session
    ++ (if run.settled = true then [Step.delay] else [])

/-- The parts of an image run are of the right kind: `entries` holds only calls
of the archive reader and `session` is an initial part of `session_steps`. -/
def ImageRun.well_formed (run : ImageRun) : Prop :=
  (∀ s ∈ run.entries, s.is_entry = true) ∧ run.session <+: session_steps

/-- The state of `two_image_host` after the transfer of `two_images`. -/
def two_image_done : Host :=
  ((dfu_send_package_images nrf two_image_host 0 two_images 2).getD (1, two_image_host)).2

/-- A package with an application only. -/
def one_image : List dfu_json_object_t :=
  [{ img_type := DFU_IMG_APP, file_bin := some [97], file_dat := some [98] },
   { img_type := DFU_IMG_NIL, file_bin := none, file_dat := none },
   { img_type := DFU_IMG_NIL, file_bin := none, file_dat := none }]

/-- A host at the start of the transfer of `one_image`: the archive holds the
two files and the device accepts the image. -/
def one_image_host : Host :=
  { dev := boot_world (image_replies 1 [1, 2] [3, 4, 5]),
    steps := [],
    zip_results := [ZipEntry.content [1, 2], ZipEntry.content [3, 4, 5]],
    delay_results := [] }

/-- The state of `one_image_host` after the transfer of `one_image`. -/
def one_image_done : Host :=
  ((dfu_send_package_images nrf one_image_host 0 one_image 1).getD (1, one_image_host)).2

/-! ## Reading the writes of `dfu_serial_stream_data` -/

/-- The payload of the `i`-th write message of a slice of `len` bytes cut into
chunks of `write_max` bytes: `data[i * write_max .. min(len, (i + 1) * write_max))`. -/
def write_chunk (data : List Nat) (len write_max i : Nat) : List Nat :=
  (data.drop (i * write_max)).take (min len ((i + 1) * write_max) - i * write_max)

/-- The result of the send of the `i`-th write message when all sends before it
returned 0: `uart_slip_send` refuses a message longer than `UART_SLIP_SIZE_MAX`,
otherwise the result is that of the `i`-th write of the driver. -/
def write_result (cfg : Platform) (w : World) (len write_max i : Nat) : Int :=
  if min len ((i + 1) * write_max) - i * write_max + 1 > cfg.UART_SLIP_SIZE_MAX then 1
  else w.send_results.getD i 0

/-! ## dfu.c: the manifest -/

def JSON_TOKEN_NUM_MAX : Nat := 30
def DFU_OBJECT_NUM_MAX : Nat := 3

/-- Modelled from the spec: the token types of `jsmn.h`, which is not among the
sources. `dfu.c` names `JSMN_UNDEFINED`, `JSMN_OBJECT`, `JSMN_STRING` and
`JSMN_PRIMITIVE`; the spec calls the parser a JSON parser, whose tokens are
objects, arrays, strings and primitives. -/
inductive jsmntype_t where
  | JSMN_UNDEFINED
  | JSMN_OBJECT
  | JSMN_ARRAY
  | JSMN_STRING
  | JSMN_PRIMITIVE
  deriving DecidableEq

/-- Modelled from the spec: the token of `jsmn.h`, with the four fields that
`dfu.c` reads: the type, the positions `start` and `end` of the text in the
parsed buffer, and the number `size` of child tokens. -/
structure jsmntok_t where
  type : jsmntype_t
  start : Int
  end_ : Int
  size : Int
  deriving DecidableEq

/-- Embedding of `dfu_json_str_t`. -/
inductive dfu_json_str_t where
  | STR_UNDEFINED
  | STR_FILE_BIN
  | STR_FILE_DAT
  deriving DecidableEq

/-- Embedding of `jsmn_entity_t`; `str` is `none` for `NULL`. -/
structure jsmn_entity_t where
  type : jsmntype_t
  size : Int
  str : Option (List Nat)
  str_type : dfu_json_str_t
  deriving DecidableEq

open jsmntype_t dfu_json_str_t

/-- The bytes of `"manifest"`. -/
def str_manifest : List Nat := [109, 97, 110, 105, 102, 101, 115, 116]

/-- The bytes of `"application"`. -/
def str_application : List Nat := [97, 112, 112, 108, 105, 99, 97, 116, 105, 111, 110]

/-- The bytes of `"bootloader"`. -/
def str_bootloader : List Nat := [98, 111, 111, 116, 108, 111, 97, 100, 101, 114]

/-- The bytes of `"softdevice"`. -/
def str_softdevice : List Nat := [115, 111, 102, 116, 100, 101, 118, 105, 99, 101]

/-- The bytes of `"softdevice_bootloader"`. -/
def str_softdevice_bootloader : List Nat :=
  [115, 111, 102, 116, 100, 101, 118, 105, 99, 101, 95, 98, 111, 111, 116, 108, 111, 97, 100,
   101, 114]

/-- The bytes of `"bin_file"`. -/
def str_bin_file : List Nat := [98, 105, 110, 95, 102, 105, 108, 101]

/-- The bytes of `"dat_file"`. -/
def str_dat_file : List Nat := [100, 97, 116, 95, 102, 105, 108, 101]

/-- The bytes of `"info_read_only_metadata"`. -/
def str_info_read_only_metadata : List Nat :=
  [105, 110, 102, 111, 95, 114, 101, 97, 100, 95, 111, 110, 108, 121, 95, 109, 101, 116, 97,
   100, 97, 116, 97]

/-- The bytes of `"bl_size"`. -/
def str_bl_size : List Nat := [98, 108, 95, 115, 105, 122, 101]

/-- The bytes of `"sd_size"`. -/
def str_sd_size : List Nat := [115, 100, 95, 115, 105, 122, 101]

/-- The bytes of `"manifest.json"`. -/
def str_manifest_json : List Nat := [109, 97, 110, 105, 102, 101, 115, 116, 46, 106, 115, 111, 110]

/-- Embedding of `dfu_mft_pattern`. -/
def dfu_mft_pattern : List jsmn_entity_t :=
  [{ type := JSMN_OBJECT, size := 1, str := none, str_type := STR_UNDEFINED },
   { type := JSMN_STRING, size := 1, str := some str_manifest, str_type := STR_UNDEFINED },
   { type := JSMN_UNDEFINED, size := 0, str := none, str_type := STR_UNDEFINED }]

/-- Embedding of `dfu_img_1_pattern`. -/
def dfu_img_1_pattern : List jsmn_entity_t :=
  [{ type := JSMN_OBJECT, size := 1, str := none, str_type := STR_UNDEFINED },
   { type := JSMN_UNDEFINED, size := 0, str := none, str_type := STR_UNDEFINED }]

/-- Embedding of `dfu_img_2_pattern`. -/
def dfu_img_2_pattern : List jsmn_entity_t :=
  [{ type := JSMN_OBJECT, size := 2, str := none, str_type := STR_UNDEFINED },
   { type := JSMN_UNDEFINED, size := 0, str := none, str_type := STR_UNDEFINED }]

/-- Embedding of `dfu_app_pattern`. -/
def dfu_app_pattern : List jsmn_entity_t :=
  [{ type := JSMN_STRING, size := 1, str := some str_application, str_type := STR_UNDEFINED },
   { type := JSMN_OBJECT, size := 2, str := none, str_type := STR_UNDEFINED },
   { type := JSMN_STRING, size := 1, str := some str_bin_file, str_type := STR_UNDEFINED },
   { type := JSMN_STRING, size := 0, str := none, str_type := STR_FILE_BIN },
   { type := JSMN_STRING, size := 1, str := some str_dat_file, str_type := STR_UNDEFINED },
   { type := JSMN_STRING, size := 0, str := none, str_type := STR_FILE_DAT },
   { type := JSMN_UNDEFINED, size := 0, str := none, str_type := STR_UNDEFINED }]

/-- Embedding of `dfu_bl_pattern`. -/
def dfu_bl_pattern : List jsmn_entity_t :=
  [{ type := JSMN_STRING, size := 1, str := some str_bootloader, str_type := STR_UNDEFINED },
   { type := JSMN_OBJECT, size := 2, str := none, str_type := STR_UNDEFINED },
   { type := JSMN_STRING, size := 1, str := some str_bin_file, str_type := STR_UNDEFINED },
   { type := JSMN_STRING, size := 0, str := none, str_type := STR_FILE_BIN },
   { type := JSMN_STRING, size := 1, str := some str_dat_file, str_type := STR_UNDEFINED },
   { type := JSMN_STRING, size := 0, str := none, str_type := STR_FILE_DAT },
   { type := JSMN_UNDEFINED, size := 0, str := none, str_type := STR_UNDEFINED }]

/-- Embedding of `dfu_sd_pattern`. -/
def dfu_sd_pattern : List jsmn_entity_t :=
  [{ type := JSMN_STRING, size := 1, str := some str_softdevice, str_type := STR_UNDEFINED },
   { type := JSMN_OBJECT, size := 2, str := none, str_type := STR_UNDEFINED },
   { type := JSMN_STRING, size := 1, str := some str_bin_file, str_type := STR_UNDEFINED },
   { type := JSMN_STRING, size := 0, str := none, str_type := STR_FILE_BIN },
   { type := JSMN_STRING, size := 1, str := some str_dat_file, str_type := STR_UNDEFINED },
   { type := JSMN_STRING, size := 0, str := none, str_type := STR_FILE_DAT },
   { type := JSMN_UNDEFINED, size := 0, str := none, str_type := STR_UNDEFINED }]

/-- Embedding of `dfu_sd_bl_pattern`. -/
def dfu_sd_bl_pattern : List jsmn_entity_t :=
  [{ type := JSMN_STRING, size := 1, str := some str_softdevice_bootloader,
     str_type := STR_UNDEFINED },
   { type := JSMN_OBJECT, size := 3, str := none, str_type := STR_UNDEFINED },
   { type := JSMN_STRING, size := 1, str := some str_bin_file, str_type := STR_UNDEFINED },
   { type := JSMN_STRING, size := 0, str := none, str_type := STR_FILE_BIN },
   { type := JSMN_STRING, size := 1, str := some str_dat_file, str_type := STR_UNDEFINED },
   { type := JSMN_STRING, size := 0, str := none, str_type := STR_FILE_DAT },
   { type := JSMN_STRING, size := 1, str := some str_info_read_only_metadata,
     str_type := STR_UNDEFINED },
   { type := JSMN_OBJECT, size := 2, str := none, str_type := STR_UNDEFINED },
   { type := JSMN_STRING, size := 1, str := some str_bl_size, str_type := STR_UNDEFINED },
   { type := JSMN_PRIMITIVE, size := 0, str := none, str_type := STR_UNDEFINED },
   { type := JSMN_STRING, size := 1, str := some str_sd_size, str_type := STR_UNDEFINED },
   { type := JSMN_PRIMITIVE, size := 0, str := none, str_type := STR_UNDEFINED },
   { type := JSMN_UNDEFINED, size := 0, str := none, str_type := STR_UNDEFINED }]

/-- Embedding of `dfu_pattern_tbl`: pairs `(img_type, p_pattern)`, the pattern of
the last entry being `NULL`. -/
def dfu_pattern_tbl : List (Nat × List jsmn_entity_t) :=
  [(DFU_IMG_APP, dfu_app_pattern),
   (DFU_IMG_BL, dfu_bl_pattern),
   (DFU_IMG_SD, dfu_sd_pattern),
   (DFU_IMG_SD_BL, dfu_sd_bl_pattern),
   (DFU_IMG_NIL, [])]

/-- The value of a C string held in a buffer: the bytes before the first NUL. -/
def c_str (bytes : List Nat) : List Nat := bytes.takeWhile (fun b => b != 0)

/-- Embedding of `put_json_to_string`: `none` for `NULL`. The allocation is
taken to succeed; the result is the string value of the allocated buffer, which
holds the `len` bytes copied from `p_data` and a terminating NUL. -/
def put_json_to_string (p_data : List Nat) (len : Int) : Option (List Nat) :=
  if len ≥ 0 then some (c_str (p_data.take len.toNat)) else none

/-- Embedding of `free_dfu_json_obj`. -/
def free_dfu_json_obj (p_dfu_obj : dfu_json_object_t) : dfu_json_object_t :=
  { p_dfu_obj with file_dat := none, file_bin := none }

/-- The `for` loop of `map_jsmn_token_to_pattern` from index `i` on: `p_pattern`
and `p_tokens` are what is left of the pattern and of the `num_tokens` tokens.
Returns `(i, *p_dfu_obj)` at the end of the pattern and `(-1, *p_dfu_obj)` when
the loop is left with `j = -1`; `p_dfu_obj` is `none` for `NULL`. -/
def map_jsmn_token_to_pattern_loop (p_data : List Nat) :
    List jsmn_entity_t → List jsmntok_t → Option dfu_json_object_t → Int →
      Int × Option dfu_json_object_t
  | [], _, p_dfu_obj, i => (i, p_dfu_obj)
  | e :: p_pattern, p_tokens, p_dfu_obj, i =>
    if e.type = JSMN_UNDEFINED then (i, p_dfu_obj)
    else
      match p_tokens with
      | [] => (-1, p_dfu_obj)
      | t :: rest =>
        if e.type ≠ t.type ∨ e.size ≠ t.size then (-1, p_dfu_obj)
        else if e.type = JSMN_STRING then
          match put_json_to_string (p_data.drop t.start.toNat) (t.end_ - t.start) with
          | none => (-1, p_dfu_obj)
          | some p_str =>
            if e.str ≠ none ∧ e.str ≠ some p_str then (-1, p_dfu_obj)
            else
              let p_dfu_obj :=
                match e.str_type with
                | STR_FILE_DAT => p_dfu_obj.map (fun o => { o with file_dat := some p_str })
                | STR_FILE_BIN => p_dfu_obj.map (fun o => { o with file_bin := some p_str })
                | STR_UNDEFINED => p_dfu_obj
              map_jsmn_token_to_pattern_loop p_data p_pattern rest p_dfu_obj (i + 1)
        else map_jsmn_token_to_pattern_loop p_data p_pattern rest p_dfu_obj (i + 1)

/-- Embedding of `map_jsmn_token_to_pattern(p_dfu_obj, p_pattern, p_tokens,
num_tokens, p_data)`: `p_tokens` lists the `num_tokens` tokens from the pointer
on. Returns the result and the object `*p_dfu_obj`. -/
def map_jsmn_token_to_pattern (p_dfu_obj : Option dfu_json_object_t)
    (p_pattern : List jsmn_entity_t) (p_tokens : List jsmntok_t) (p_data : List Nat) :
    Int × Option dfu_json_object_t :=
  let r := map_jsmn_token_to_pattern_loop p_data p_pattern p_tokens p_dfu_obj 0
  if r.1 < 0 then (r.1, r.2.map free_dfu_json_obj) else r

/-- The loop of `dfu_send_package` that determines the image type of the entry
at `p_tokens`: the patterns of the table are tried in order on `dfu_objects +
img_n`. Returns `(i, dfu_objects[img_n])`; `i` is the result of the last call of
`map_jsmn_token_to_pattern`. -/
def dfu_send_package_type (p_data : List Nat) (p_tokens : List jsmntok_t) :
    List (Nat × List jsmn_entity_t) → dfu_json_object_t → Int → Int × dfu_json_object_t
  | [], obj, i => (i, obj)
  | (img_type, p_pattern) :: tbl, obj, i =>
    if img_type = DFU_IMG_NIL then (i, obj)
    else
      let r := map_jsmn_token_to_pattern (some obj) p_pattern p_tokens p_data
      if r.1 > 0 then (r.1, { r.2.getD obj with img_type := img_type })
      else dfu_send_package_type p_data p_tokens tbl (r.2.getD obj) r.1

/-- The `while` loop of `dfu_send_package` over the image entries of the
manifest. The state is `(err_code, dfu_objects, n, img_n)`; `i` is the variable
of that name. -/
def dfu_send_package_entries (buf_json : List Nat) (json_tokens : List jsmntok_t) :
    Nat → List dfu_json_object_t → Int → Int → Nat →
      Option (Int × List dfu_json_object_t × Int × Nat)
  | fuel, dfu_objects, i, n, img_n =>
    if n < (json_tokens.length : Int) then
      if img_n ≥ DFU_OBJECT_NUM_MAX then some (1, dfu_objects, n, img_n)
      else
        match fuel with
        | 0 => none
        | fuel1 + 1 =>
          let r := dfu_send_package_type buf_json (json_tokens.drop n.toNat) dfu_pattern_tbl
            (dfu_objects.getD img_n { img_type := DFU_IMG_NIL, file_bin := none, file_dat := none })
            i
          let dfu_objects := dfu_objects.set img_n r.2
          if r.1 ≤ 0 then some (1, dfu_objects, n, img_n)
          else dfu_send_package_entries buf_json json_tokens fuel1 dfu_objects r.1 (n + r.1)
            (img_n + 1)
    else some (0, dfu_objects, n, img_n)

/-- The part of `dfu_send_package` that checks the tokens of the manifest and
fills `dfu_objects`, entered with `err_code = 0`: `json_tokens` lists the
`num_tokens` tokens that the parser returned. The file names of the static
`dfu_objects` have been set to `NULL`, their image types are those of the start
of the program. Returns `(err_code, dfu_objects, num_images)`; `num_images` is
left at 0 here when the code does not assign it. -/
def dfu_send_package_manifest (buf_json : List Nat) (json_tokens : List jsmntok_t) :
    Option (Int × List dfu_json_object_t × Nat) :=
  let dfu_objects := List.replicate DFU_OBJECT_NUM_MAX
    { img_type := DFU_IMG_NIL, file_bin := none, file_dat := none : dfu_json_object_t }
  let i := (map_jsmn_token_to_pattern none dfu_mft_pattern json_tokens buf_json).1
  let err_code : Int := if i < 0 then 1 else 0
  let n := i
  let c : Int × Nat × Int :=
    if err_code = 0 then
      let i1 := (map_jsmn_token_to_pattern none dfu_img_1_pattern (json_tokens.drop n.toNat)
        buf_json).1
      if i1 > 0 then (i1, 1, err_code)
      else
        let i2 := (map_jsmn_token_to_pattern none dfu_img_2_pattern (json_tokens.drop n.toNat)
          buf_json).1
        if i2 > 0 then (i2, 2, err_code) else (i2, 0, 1)
    else (i, 0, err_code)
  let i := c.1
  let num_images := c.2.1
  let err_code := c.2.2
  let n := n + i
  if err_code ≠ 0 then some (err_code, dfu_objects, num_images)
  else
    match dfu_send_package_entries buf_json json_tokens DFU_OBJECT_NUM_MAX dfu_objects i n 0 with
    | none => none
    | some w =>
      if w.1 = 0 ∧ (w.2.2.1 ≠ (json_tokens.length : Int) ∨ w.2.2.2 ≠ num_images) then
        some (1, w.2.1, num_images)
      else some (w.1, w.2.1, num_images)

/-- Embedding of `dfu_send_package`. `zip_pkg` tells whether `zip_open` returned
an archive; the first entry of `zip_results` is what the archive reader does
with `manifest.json`; `jsmn_parse` is the parser of `jsmn.h`, which is not among
the sources: for the bytes of the manifest it gives the tokens it stored, their
number being its result, or `none` for a negative result. -/
def dfu_send_package (cfg : Platform) (h : Host) (zip_pkg : Bool)
    (jsmn_parse : List Nat → Option (List jsmntok_t)) : Option (Int × Host) :=
  let m : Int × Option (List Nat) × Host :=
    if zip_pkg = false then (1, none, h)
    else
      let o := zip_entry_open h (some str_manifest_json)
      if o.1 ≠ 0 then (1, none, o.2)
      else
        let r := zip_entry_read o.2
        if r.1 ≠ 0 then (1, r.2.1, r.2.2) else (0, r.2.1, zip_entry_close r.2.2)
  let dfu_objects := List.replicate DFU_OBJECT_NUM_MAX
    { img_type := DFU_IMG_NIL, file_bin := none, file_dat := none : dfu_json_object_t }
  if m.1 ≠ 0 then dfu_send_package_images cfg m.2.2 m.1 dfu_objects 0
  else
    match jsmn_parse (m.2.1.getD []) with
    | none => dfu_send_package_images cfg m.2.2 1 dfu_objects 0
    | some json_tokens =>
      match dfu_send_package_manifest (m.2.1.getD []) json_tokens with
      | none => none
      | some p => dfu_send_package_images cfg m.2.2 p.1 p.2.1 p.2.2

/-! ## Reading the tokens of a manifest -/

/-- The text of a token as `map_jsmn_token_to_pattern` reads it from the
buffer: the string made of the bytes `start .. end`, `none` when `end < start`. -/
def token_str (p_data : List Nat) (t : jsmntok_t) : Option (List Nat) :=
  put_json_to_string (p_data.drop t.start.toNat) (t.end_ - t.start)

/-- An object token with `size` members. -/
def is_object (size : Int) (t : jsmntok_t) : Prop :=
  t.type = JSMN_OBJECT ∧ t.size = size

/-- The key string `key` of a member: a string token with one child, its
value. -/
def is_key (p_data : List Nat) (key : List Nat) (t : jsmntok_t) : Prop :=
  t.type = JSMN_STRING ∧ t.size = 1 ∧ token_str p_data t = some key

/-- A string value with the text `name`: a string token without children. -/
def is_name (p_data : List Nat) (name : List Nat) (t : jsmntok_t) : Prop :=
  t.type = JSMN_STRING ∧ t.size = 0 ∧ token_str p_data t = some name

/-- A primitive value: a primitive token without children. -/
def is_primitive (t : jsmntok_t) : Prop :=
  t.type = JSMN_PRIMITIVE ∧ t.size = 0

/-- The tokens of an image entry `key: { "bin_file": bin, "dat_file": dat }`. -/
def simple_entry (p_data : List Nat) (key bin dat : List Nat) (toks : List jsmntok_t) : Prop :=
  ∃ t0 t1 t2 t3 t4 t5, toks = [t0, t1, t2, t3, t4, t5]
    ∧ is_key p_data key t0 ∧ is_object 2 t1
    ∧ is_key p_data str_bin_file t2 ∧ is_name p_data bin t3
    ∧ is_key p_data str_dat_file t4 ∧ is_name p_data dat t5

/-- The tokens of an image entry `"softdevice_bootloader": { "bin_file": bin,
"dat_file": dat, "info_read_only_metadata": { "bl_size": primitive, "sd_size":
primitive } }`. -/
def sd_bl_entry (p_data : List Nat) (bin dat : List Nat) (toks : List jsmntok_t) : Prop :=
  ∃ t0 t1 t2 t3 t4 t5 t6 t7 t8 t9 t10 t11,
    toks = [t0, t1, t2, t3, t4, t5, t6, t7, t8, t9, t10, t11]
    ∧ is_key p_data str_softdevice_bootloader t0 ∧ is_object 3 t1
    ∧ is_key p_data str_bin_file t2 ∧ is_name p_data bin t3
    ∧ is_key p_data str_dat_file t4 ∧ is_name p_data dat t5
    ∧ is_key p_data str_info_read_only_metadata t6 ∧ is_object 2 t7
    ∧ is_key p_data str_bl_size t8 ∧ is_primitive t9
    ∧ is_key p_data str_sd_size t10 ∧ is_primitive t11

/-- The tokens `toks` are one image entry of the manifest that matches one of
the four patterns, and `obj` has the kind of that pattern and the two file
names of the entry. -/
def image_entry (p_data : List Nat) (obj : dfu_json_object_t) (toks : List jsmntok_t) : Prop :=
  ∃ bin dat, obj.file_bin = some bin ∧ obj.file_dat = some dat
    ∧ ((obj.img_type = DFU_IMG_APP ∧ simple_entry p_data str_application bin dat toks)
      ∨ (obj.img_type = DFU_IMG_BL ∧ simple_entry p_data str_bootloader bin dat toks)
      ∨ (obj.img_type = DFU_IMG_SD ∧ simple_entry p_data str_softdevice bin dat toks)
      ∨ (obj.img_type = DFU_IMG_SD_BL ∧ sd_bl_entry p_data bin dat toks))

/-- The structure of the manifest in the words of the specification: the tokens
are an object of size 1, the key `"manifest"`, an object of size `k` with `k`
1 or 2, and then exactly `k` image entries and nothing more; `objs` lists the
kinds and file names of the `k` entries. -/
def manifest_tokens (p_data : List Nat) (toks : List jsmntok_t)
    (objs : List dfu_json_object_t) : Prop :=
  ∃ t0 t1 t2 entries, toks = t0 :: t1 :: t2 :: List.flatten entries
    ∧ is_object 1 t0 ∧ is_key p_data str_manifest t1 ∧ is_object objs.length t2
    ∧ (objs.length = 1 ∨ objs.length = 2)
    ∧ List.Forall₂ (image_entry p_data) objs entries

/-- An entry of a pattern agrees with a token: same type, same size and, for a
string, a text that is the string of the pattern when the pattern has one. -/
def entity_matches (p_data : List Nat) (e : jsmn_entity_t) (t : jsmntok_t) : Prop :=
  e.type = t.type ∧ e.size = t.size
    ∧ (e.type = JSMN_STRING →
        ∃ s, token_str p_data t = some s ∧ (e.str = none ∨ e.str = some s))

/-- The entries of a pattern before its `JSMN_UNDEFINED` terminator. -/
def pattern_body (p_pattern : List jsmn_entity_t) : List jsmn_entity_t :=
  p_pattern.takeWhile (fun e => decide (e.type ≠ JSMN_UNDEFINED))

/-- The pattern of an image entry with the files alone, for the key `key`:
`dfu_app_pattern`, `dfu_bl_pattern` and `dfu_sd_pattern` are of this form. -/
def simple_pattern (key : List Nat) : List jsmn_entity_t :=
  [{ type := JSMN_STRING, size := 1, str := some key, str_type := STR_UNDEFINED },
   { type := JSMN_OBJECT, size := 2, str := none, str_type := STR_UNDEFINED },
   { type := JSMN_STRING, size := 1, str := some str_bin_file, str_type := STR_UNDEFINED },
   { type := JSMN_STRING, size := 0, str := none, str_type := STR_FILE_BIN },
   { type := JSMN_STRING, size := 1, str := some str_dat_file, str_type := STR_UNDEFINED },
   { type := JSMN_STRING, size := 0, str := none, str_type := STR_FILE_DAT },
   { type := JSMN_UNDEFINED, size := 0, str := none, str_type := STR_UNDEFINED }]


/-- An image entry whose members are not in the order of the patterns: its
object lists `"dat_file"` first, before `"bin_file"`; or it lists
`"info_read_only_metadata"` before a file name, as first or as second member;
or it is a `"softdevice_bootloader"` entry whose metadata list `"sd_size"`
where `"bl_size"` is expected. Token 0 is the key of the entry, token 1 its
object, tokens 2 and 4 are the keys of the first two members when the first
value is a string, token 8 is the first key of the metadata. -/
def misordered (p_data : List Nat) (e : List jsmntok_t) : Prop :=
  (∃ t, e.get? 2 = some t ∧ token_str p_data t = some str_dat_file)
  ∨ (∃ t, e.get? 2 = some t ∧ token_str p_data t = some str_info_read_only_metadata)
  ∨ (∃ t, e.get? 4 = some t ∧ token_str p_data t = some str_info_read_only_metadata)
  ∨ (∃ t0 t8, e.get? 0 = some t0 ∧ token_str p_data t0 = some str_softdevice_bootloader
      ∧ e.get? 8 = some t8 ∧ token_str p_data t8 = some str_sd_size)

/-- The state after `dfu_send_package` has read `manifest.json` from the
archive. -/
def manifest_read (h : Host) : Host :=
  { h with
    steps := h.steps ++ [Step.entry_open (some str_manifest_json), Step.entry_read,
      Step.entry_close],
    zip_results := h.zip_results.tail }

/-- The manifest
`{"manifest":{"application":{"bin_file":"a.bin","dat_file":"a.dat"}}}`. -/
def app_manifest_json : List Nat :=
  [123, 34, 109, 97, 110, 105, 102, 101, 115, 116, 34, 58, 123, 34, 97, 112, 112, 108, 105, 99,
   97, 116, 105, 111, 110, 34, 58, 123, 34, 98, 105, 110, 95, 102, 105, 108, 101, 34, 58, 34,
   97, 46, 98, 105, 110, 34, 44, 34, 100, 97, 116, 95, 102, 105, 108, 101, 34, 58, 34, 97, 46,
   100, 97, 116, 34, 125, 125, 125]

/-- The manifest
`{"manifest":{"application":{"dat_file":"a.dat","bin_file":"a.bin"}}}`, with
`"dat_file"` before `"bin_file"`. -/
def swapped_manifest_json : List Nat :=
  [123, 34, 109, 97, 110, 105, 102, 101, 115, 116, 34, 58, 123, 34, 97, 112, 112, 108, 105, 99,
   97, 116, 105, 111, 110, 34, 58, 123, 34, 100, 97, 116, 95, 102, 105, 108, 101, 34, 58, 34,
   97, 46, 100, 97, 116, 34, 44, 34, 98, 105, 110, 95, 102, 105, 108, 101, 34, 58, 34, 97, 46,
   98, 105, 110, 34, 125, 125, 125]

/-- The tokens of a JSON parser for `app_manifest_json` and for
`swapped_manifest_json`, which have their texts at the same positions: the three
objects, and the strings without their quotes. -/
def app_manifest_tokens : List jsmntok_t :=
  [{ type := JSMN_OBJECT, start := 0, end_ := 68, size := 1 },
   { type := JSMN_STRING, start := 2, end_ := 10, size := 1 },
   { type := JSMN_OBJECT, start := 12, end_ := 67, size := 1 },
   { type := JSMN_STRING, start := 14, end_ := 25, size := 1 },
   { type := JSMN_OBJECT, start := 27, end_ := 66, size := 2 },
   { type := JSMN_STRING, start := 29, end_ := 37, size := 1 },
   { type := JSMN_STRING, start := 40, end_ := 45, size := 0 },
   { type := JSMN_STRING, start := 48, end_ := 56, size := 1 },
   { type := JSMN_STRING, start := 59, end_ := 64, size := 0 }]

/-- A host whose archive holds `swapped_manifest_json` as `manifest.json`. -/
def swapped_host : Host :=
  { dev := boot_world [],
    steps := [],
    zip_results := [ZipEntry.content swapped_manifest_json],
    delay_results := [] }

/-- A host whose archive holds `app_manifest_json` and the two files of the
application, which the device accepts. -/
def app_package_host : Host :=
  { dev := boot_world (image_replies 1 [1, 2] [3, 4, 5]),
    steps := [],
    zip_results := [ZipEntry.content app_manifest_json, ZipEntry.content [1, 2],
                    ZipEntry.content [3, 4, 5]],
    delay_results := [] }


/-! ## Reading the calls of a package transfer with their results -/

/-- One call of `dfu.c` named by a step, made in the state `h`: the constructors
give the result of the call and the state it leaves, as `dfu_send_object`,
`dfu_send_image` and `dfu_send_package` make it. -/
inductive Attempt (cfg : Platform) : Host → Step → Int → Host → Prop where
  | image (h : Host) (t : Nat) :
    Attempt cfg h (Step.image t) 0 { h with steps := h.steps ++ [Step.image t] }
  | entry_open (h : Host) (name : Option (List Nat)) :
    Attempt cfg h (Step.entry_open name) (zip_entry_open h name).1 (zip_entry_open h name).2
  | entry_read (h : Host) :
    Attempt cfg h Step.entry_read (zip_entry_read h).1 (zip_entry_read h).2.2
  | entry_close (h : Host) :
    Attempt cfg h Step.entry_close 0 (zip_entry_close h)
  | session_open (h : Host) :
    Attempt cfg h Step.session_open (dfu_serial_open cfg h.dev).1
      { h with dev := (dfu_serial_open cfg h.dev).2, steps := h.steps ++ [Step.session_open] }
  | init_packet (h : Host) (p_img_dat : Option (List Nat)) (n_dat_size : Nat) (i : Int × World)
    (hi : dfu_serial_send_init_packet cfg h.dev p_img_dat n_dat_size = some i) :
    Attempt cfg h Step.init_packet i.1
      { h with dev := i.2, steps := h.steps ++ [Step.init_packet] }
  | firmware (h : Host) (p_img_bin : Option (List Nat)) (n_bin_size : Nat) (f : Int × World)
    (hf : dfu_serial_send_firmware cfg h.dev p_img_bin n_bin_size = some f) :
    Attempt cfg h Step.firmware f.1
      { h with dev := f.2, steps := h.steps ++ [Step.firmware] }
  | session_close (h : Host) :
    Attempt cfg h Step.session_close (dfu_serial_close h.dev).1
      { h with dev := (dfu_serial_close h.dev).2, steps := h.steps ++ [Step.session_close] }
  | delay (h : Host) :
    Attempt cfg h Step.delay (delay_connect h).1 (delay_connect h).2

/-- A sequence of calls, each made in the state left by the one before, with
their results. -/
inductive Execution (cfg : Platform) : Host → List (Step × Int) → Host → Prop where
  | nil (h : Host) : Execution cfg h [] h
  | cons (h h1 h2 : Host) (s : Step) (e : Int) (tr : List (Step × Int))
    (first : Attempt cfg h s e h1) (others : Execution cfg h1 tr h2) :
    Execution cfg h ((s, e) :: tr) h2

/-- Every call of the sequence returned 0. -/
def clean (tr : List (Step × Int)) : Prop := ∀ x ∈ tr, x.2 = 0

/-- The sequence stops at the first call that did not return 0; only the
`zip_entry_close` of an entry whose read failed comes after it. -/
def stopped (tr : List (Step × Int)) : Prop :=
  ∃ pre s e, e ≠ 0 ∧ clean pre
    ∧ (tr = pre ++ [(s, e)]
      ∨ (s = Step.entry_read ∧ tr = pre ++ [(s, e), (Step.entry_close, 0)]))

/-- The given calls, all with the result 0. -/
def succeeded (steps : List Step) : List (Step × Int) := steps.map (fun s => (s, 0))

/-- All the steps of one image: the announcement, the two files read from the
archive, the four calls of `dfu_send_image`, and `delay_connect` when
`settled`. -/
def image_steps (t : Nat) (obj : dfu_json_object_t) (settled : Bool) : List Step :=
  [Step.image t, Step.entry_open obj.file_dat, Step.entry_read, Step.entry_close,
   Step.entry_open obj.file_bin, Step.entry_read, Step.entry_close]
  ++ session_steps ++ (if settled = true then [Step.delay] else [])

/-- The calls are those of complete images, one after the other, and all
returned 0. -/
def complete_images (tr : List (Step × Int)) : Prop :=
  ∃ runs : List (Nat × dfu_json_object_t × Bool),
    tr = succeeded (runs.map (fun x => image_steps x.1 x.2.1 x.2.2)).flatten

/-- What a part of the transfer that starts in the state `h` comes to. When it
returns `r`, the calls it made lead from `h` to the state `r.2`, and either the
result is 0 and the calls are `good`, or the result is not 0 and the calls
stopped at the one that failed. When it has no result, it made calls that all
returned 0 up to a call of `dfu_serial_send_firmware` that has no result. -/
def Outcome (cfg : Platform) (h : Host) (res : Option (Int × Host))
    (good : List (Step × Int) → Prop) : Prop :=
  match res with
  | some r => ∃ tr, Execution cfg h tr r.2 ∧ ((r.1 = 0 ∧ good tr) ∨ (r.1 ≠ 0 ∧ stopped tr))
  | none => ∃ tr h1 img len, Execution cfg h tr h1 ∧ clean tr
      ∧ dfu_serial_send_firmware cfg h1.dev img len = none


/-! ## UartSecureDFU.c -/

/-- Modelled from the spec: `LOGGER_INFO_LVL_0` of `logging.h`, which is not
among the sources; the spec names four levels of verbosity, from off to the
byte-level trace, and this is the first. -/
def LOGGER_INFO_LVL_0 : Int := 0

/-- Modelled from the spec: `LOGGER_INFO_LVL_3` of `logging.h`, the fourth level
of verbosity, reached from `LOGGER_INFO_LVL_0` with three `-v`. -/
def LOGGER_INFO_LVL_3 : Int := 3

/-- The bytes of `"-v"`. -/
def str_dash_v : List Nat := [45, 118]

/-- The bytes of `"-V"`. -/
def str_dash_V : List Nat := [45, 86]

/-- Embedding of `is_argv_verbose`; an argument is the bytes of its string. -/
def is_argv_verbose (p_argv : List Nat) : Int :=
  if p_argv = str_dash_v ∨ p_argv = str_dash_V then 0 else 1

/-- What `main` does that can be seen from outside `dfu.c`. -/
inductive MainEvent where
  /-- The usage line is printed. -/
  | usage
  /-- A call of `uart_slip_open` for the given port name. -/
  | port_open (portName : Option (List Nat))
  /-- A call of `dfu_send_package` for the given package file. -/
  | package (zipName : Option (List Nat))
  /-- A call of `uart_slip_close`. -/
  | port_close
  deriving DecidableEq

/-- The `for` loop of `main` over the arguments from `argv[3]` on, entered with
`err_code = 0`: `args` is what is left of the arguments. Returns `(err_code,
show_usage, info_lvl)`. -/
def main_flags : List (List Nat) → Int → Int × Bool × Int
  | [], info_lvl => (0, false, info_lvl)
  | p_argv :: args, info_lvl =>
    if is_argv_verbose p_argv = 0 then
      if info_lvl + 1 ≥ LOGGER_INFO_LVL_3 then (0, false, info_lvl + 1)
      else main_flags args (info_lvl + 1)
    else (1, true, info_lvl)

/-- The part of `main` that reads the arguments: `argv` lists the `argc`
strings. Returns `(err_code, show_usage, portName, zipName, info_lvl)`. -/
def main_arguments (argv : List (List Nat)) :
    Int × Bool × Option (List Nat) × Option (List Nat) × Int :=
  let a1 : Int × Bool × Option (List Nat) :=
    match argv.get? 1 with
    | some p => if p.length > 0 then (0, false, some p) else (1, true, none)
    | none => (1, true, none)
  let a2 : Int × Bool × Option (List Nat) :=
    match argv.get? 2 with
    | some p => if p.length > 0 then (a1.1, a1.2.1, some p) else (1, true, none)
    | none => (1, true, none)
  if a2.1 ≠ 0 then (a2.1, a2.2.1, a1.2.2, a2.2.2, LOGGER_INFO_LVL_0)
  else
    let f := main_flags (argv.drop 3) LOGGER_INFO_LVL_0
    (f.1, a2.2.1 || f.2.1, a1.2.2, a2.2.2, f.2.2)

/-- Embedding of `main`. `open_result` and `close_result` are the results of
`uart_slip_open` and `uart_slip_close`, which come from the serial driver;
`h`, `zip_pkg` and `jsmn_parse` are what `dfu_send_package` meets. Returns the
exit code, what was done and the state left by the transfer. -/
def main (cfg : Platform) (argv : List (List Nat)) (h : Host) (open_result close_result : Int)
    (zip_pkg : Bool) (jsmn_parse : List Nat → Option (List jsmntok_t)) :
    Option (Int × List MainEvent × Host) :=
  let a := main_arguments argv
  let err_code := a.1
  let show_usage := a.2.1
  let portName := a.2.2.1
  let zipName := a.2.2.2.1
  let events : List MainEvent := if show_usage = true then [MainEvent.usage] else []
  let o : Int × List MainEvent :=
    if err_code = 0 then (open_result, events ++ [MainEvent.port_open portName])
    else (err_code, events)
  let p : Option (Int × List MainEvent × Host) :=
    if o.1 = 0 then
      match dfu_send_package cfg h zip_pkg jsmn_parse with
      | none => none
      | some r => some (r.1, o.2 ++ [MainEvent.package zipName], r.2)
    else some (o.1, o.2, h)
  match p with
  | none => none
  | some s =>
    if show_usage = false then
      some (if s.1 = 0 then close_result else s.1, s.2.1 ++ [MainEvent.port_close], s.2.2)
    else some s

/-- The argument lists that the specification has `main` refuse, but for the
number of arguments looked at: the serial port or the package is missing or
empty, or one of the first three arguments after them is not `-v` or `-V`. -/
def arguments_rejected (argv : List (List Nat)) : Prop :=
  argv.length < 2 ∨ argv.get? 1 = some [] ∨ argv.length < 3 ∨ argv.get? 2 = some []
    ∨ ∃ i a, i < 3 ∧ (argv.drop 3).get? i = some a ∧ a ≠ str_dash_v ∧ a ≠ str_dash_V

/-- The arguments `tool ttyS0 p.zip -v -v -v -x`. -/
def unknown_flag_argv : List (List Nat) :=
  [[116, 111, 111, 108], [116, 116, 121, 83, 48], [112, 46, 122, 105, 112],
   str_dash_v, str_dash_v, str_dash_v, [45, 120]]

/-! ## Theorems -/

theorem encode_slip_loop_bytes (src dst : List Nat) (n : Nat) :
    (encode_slip_loop src dst n).1 = dst ++ slip_stuffed src := by
  induction src generalizing dst n with
  | nil => simp [encode_slip_loop, slip_stuffed]
  | cons b rest ih =>
    unfold encode_slip_loop slip_stuffed
    split_ifs <;> simp [ih]

theorem encode_slip_loop_size (src dst : List Nat) (n : Nat) :
    (encode_slip_loop src dst n).2 % U32 = (n + (slip_stuffed src).length) % U32 := by
  induction src generalizing dst n with
  | nil => simp [encode_slip_loop, slip_stuffed]
  | cons b rest ih =>
    unfold encode_slip_loop slip_stuffed
    split_ifs <;> rw [ih] <;>
      simp only [List.length_append, List.length_cons, List.length_nil, U32] <;> omega

theorem slip_stuffed_length_le (b : List Nat) : (slip_stuffed b).length ≤ 2 * b.length := by
  induction b with
  | nil => simp [slip_stuffed]
  | cons x rest ih =>
    unfold slip_stuffed
    split_ifs <;> simp only [List.length_append, List.length_cons, List.length_nil] <;> omega

theorem slip_stuffed_length_ge (b : List Nat) : b.length ≤ (slip_stuffed b).length := by
  induction b with
  | nil => simp [slip_stuffed]
  | cons x rest ih =>
    unfold slip_stuffed
    split_ifs <;> simp only [List.length_append, List.length_cons, List.length_nil] <;> omega

theorem encode_slip_eq (b : List Nat) :
    encode_slip b b.length = (slip_stuffed b ++ [SLIP_END], ((slip_stuffed b).length + 1) % U32) := by
  unfold encode_slip
  have h1 := encode_slip_loop_bytes b [] 0
  have h2 := encode_slip_loop_size b [] 0
  simp only [List.take_length, List.nil_append, Nat.zero_add] at *
  rw [h1]
  congr 1
  simp only [U32] at *
  omega

theorem decode_slip_loop_stuffed (b tail dst : List Nat) (n : Nat) :
    decode_slip_loop (slip_stuffed b ++ SLIP_END :: tail) dst n false = (0, dst ++ b, n + b.length) := by
  induction b generalizing dst n with
  | nil => simp [slip_stuffed, decode_slip_loop]
  | cons x rest ih =>
    unfold slip_stuffed
    by_cases h1 : x = SLIP_END
    · subst h1
      simp [decode_slip_loop, SLIP_END, SLIP_ESC, SLIP_ESC_END, SLIP_ESC_ESC] at ih ⊢
      rw [ih]; simp; omega
    · by_cases h2 : x = SLIP_ESC
      · subst h2
        simp [decode_slip_loop, SLIP_END, SLIP_ESC, SLIP_ESC_END, SLIP_ESC_ESC] at ih ⊢
        rw [ih]; simp; omega
      · simp only [h1, h2, if_false, List.singleton_append, List.cons_append]
        unfold decode_slip_loop
        simp only [h1, h2, if_false, List.nil_append, Bool.false_eq_true]
        split_ifs <;> (rw [ih]; simp; omega)

/-- C1: SLIP round trip. For every byte sequence `b` whose encoded size fits the
`uint32_t` size arguments, decoding the output of `encode_slip` returns status 0
and yields exactly `b` with decoded size `len b`. -/
theorem slip_round_trip (b : List Nat) (hsize : 2 * b.length + 1 < U32) :
    decode_slip (encode_slip b b.length).1 (encode_slip b b.length).2 = (0, b, b.length) := by
  rw [encode_slip_eq]
  have hle := slip_stuffed_length_le b
  have hmod : ((slip_stuffed b).length + 1) % U32 = (slip_stuffed b).length + 1 :=
    Nat.mod_eq_of_lt (by omega)
  simp only [hmod]
  unfold decode_slip
  have htake : List.take ((slip_stuffed b).length + 1) (slip_stuffed b ++ [SLIP_END])
      = slip_stuffed b ++ [SLIP_END] := by
    apply List.take_of_length_le
    simp
  rw [htake, decode_slip_loop_stuffed]
  simp

theorem slip_round_trip_witness :
    2 * [192, 1, 219, 2].length + 1 < U32 ∧
    decode_slip (encode_slip [192, 1, 219, 2] 4).1 (encode_slip [192, 1, 219, 2] 4).2
      = (0, [192, 1, 219, 2], 4) :=
  ⟨by decide, slip_round_trip [192, 1, 219, 2] (by decide)⟩

/-! ### What each request function adds to the trace -/

theorem requests_append (l1 l2 : List Event) :
    requests (l1 ++ l2) = requests l1 ++ requests l2 := by
  induction l1 with
  | nil => simp [requests]
  | cons e rest ih => cases e <;> simp [requests, ih]

theorem uart_drv_send_frame (w : World) (d : List Nat) (n : Nat) :
    (uart_drv_send w d n).2.log = w.log ∧ (uart_drv_send w d n).2.checks = w.checks
    ∧ (uart_drv_send w d n).2.mtu = w.mtu := by
  unfold uart_drv_send
  split <;> simp

theorem dfu_serial_send_frame (cfg : Platform) (w : World) (d : List Nat) (n : Nat) :
    (dfu_serial_send cfg w d n).2.log = w.log ++ [Event.send (d.take n)]
    ∧ (dfu_serial_send cfg w d n).2.checks = w.checks
    ∧ (dfu_serial_send cfg w d n).2.mtu = w.mtu := by
  unfold dfu_serial_send uart_slip_send
  split_ifs
  · simp
  · have h := uart_drv_send_frame { w with log := w.log ++ [Event.send (d.take n)] }
      (encode_slip d n).1 (encode_slip d n).2
    simpa using h

theorem dfu_serial_get_rsp_frame (cfg : Platform) (w : World) (oper c0 : Nat) :
    (dfu_serial_get_rsp cfg w oper c0).2.2.log = w.log ++ [Event.receive]
    ∧ (dfu_serial_get_rsp cfg w oper c0).2.2.checks = w.checks
    ∧ (dfu_serial_get_rsp cfg w oper c0).2.2.mtu = w.mtu := by
  unfold dfu_serial_get_rsp uart_slip_receive
  simp only
  split_ifs <;> simp

theorem send_requests (cfg : Platform) (w : World) (d : List Nat) (n : Nat) :
    requests (dfu_serial_send cfg w d n).2.log = requests w.log ++ [d.take n]
    ∧ (dfu_serial_send cfg w d n).2.checks = w.checks
    ∧ (dfu_serial_send cfg w d n).2.mtu = w.mtu := by
  obtain ⟨h1, h2, h3⟩ := dfu_serial_send_frame cfg w d n
  refine ⟨?_, h2, h3⟩
  rw [h1, requests_append]
  rfl

theorem exchange_requests (cfg : Platform) (w : World) (d : List Nat) (n oper c0 : Nat) :
    requests (dfu_serial_get_rsp cfg (dfu_serial_send cfg w d n).2 oper c0).2.2.log
      = requests w.log ++ [d.take n]
    ∧ (dfu_serial_get_rsp cfg (dfu_serial_send cfg w d n).2 oper c0).2.2.checks = w.checks
    ∧ (dfu_serial_get_rsp cfg (dfu_serial_send cfg w d n).2 oper c0).2.2.mtu = w.mtu := by
  obtain ⟨h1, h2, h3⟩ := send_requests cfg w d n
  obtain ⟨g1, g2, g3⟩ := dfu_serial_get_rsp_frame cfg (dfu_serial_send cfg w d n).2 oper c0
  refine ⟨?_, g2.trans h2, g3.trans h3⟩
  rw [g1, requests_append, h1]
  simp [requests]

theorem dfu_serial_execute_obj_frame (cfg : Platform) (w : World) :
    requests (dfu_serial_execute_obj cfg w).2.log = requests w.log ++ [[4]]
    ∧ (dfu_serial_execute_obj cfg w).2.checks = w.checks
    ∧ (dfu_serial_execute_obj cfg w).2.mtu = w.mtu := by
  unfold dfu_serial_execute_obj
  simp only
  split_ifs
  · exact exchange_requests cfg w _ _ _ _
  · exact send_requests cfg w _ _

theorem dfu_serial_create_obj_frame (cfg : Platform) (w : World) (t n : Nat) :
    requests (dfu_serial_create_obj cfg w t n).2.log
      = requests w.log ++ [[1, t] ++ put_uint32_le n]
    ∧ (dfu_serial_create_obj cfg w t n).2.checks = w.checks
    ∧ (dfu_serial_create_obj cfg w t n).2.mtu = w.mtu := by
  unfold dfu_serial_create_obj
  simp only
  split_ifs
  · exact exchange_requests cfg w _ _ _ _
  · exact send_requests cfg w _ _

theorem dfu_serial_get_crc_frame (cfg : Platform) (w : World) (r0 : nrf_dfu_response_crc_t) :
    requests (dfu_serial_get_crc cfg w r0).2.2.log = requests w.log ++ [[3]]
    ∧ (dfu_serial_get_crc cfg w r0).2.2.checks = w.checks
    ∧ (dfu_serial_get_crc cfg w r0).2.2.mtu = w.mtu := by
  unfold dfu_serial_get_crc
  simp only
  split_ifs
  · exact exchange_requests cfg w _ _ _ _
  · exact exchange_requests cfg w _ _ _ _
  · exact exchange_requests cfg w _ _ _ _
  · exact send_requests cfg w _ _

theorem dfu_serial_select_obj_frame (cfg : Platform) (w : World) (t : Nat)
    (r0 : nrf_dfu_response_select_t) :
    requests (dfu_serial_select_obj cfg w t r0).2.2.log = requests w.log ++ [[6, t]]
    ∧ (dfu_serial_select_obj cfg w t r0).2.2.checks = w.checks
    ∧ (dfu_serial_select_obj cfg w t r0).2.2.mtu = w.mtu := by
  unfold dfu_serial_select_obj
  simp only
  split_ifs
  · exact exchange_requests cfg w _ _ _ _
  · exact exchange_requests cfg w _ _ _ _
  · exact exchange_requests cfg w _ _ _ _
  · exact send_requests cfg w _ _

/-! ### The write loop -/

theorem stream_loop_requests (cfg : Platform) (p : List Nat) (n stp_max : Nat) :
    ∀ (fuel : Nat) (w : World) (pos : Nat) (err e : Int) (w1 : World),
      dfu_serial_stream_data_loop cfg fuel w p n stp_max pos err = some (e, w1) →
      ∃ writes : List (List Nat),
        requests w1.log = requests w.log ++ writes
        ∧ (∀ m ∈ writes, m.head? = some 8)
        ∧ w1.checks = w.checks ∧ w1.mtu = w.mtu
        ∧ (e = 0 → (writes.map (List.drop 1)).flatten = (p.drop pos).take (n - pos)) := by
  intro fuel
  induction fuel with
  | zero =>
    intro w pos err e w1 h
    unfold dfu_serial_stream_data_loop at h
    split_ifs at h with hc
    simp only [Option.some.injEq, Prod.mk.injEq] at h
    obtain ⟨rfl, rfl⟩ := h
    refine ⟨[], by simp, by simp, rfl, rfl, ?_⟩
    intro he
    have : n - pos = 0 := by
      have : ¬ pos < n := fun hlt => hc ⟨he, hlt⟩
      omega
    simp [this]
  | succ fuel ih =>
    intro w pos err e w1 h
    unfold dfu_serial_stream_data_loop at h
    split_ifs at h with hc
    · simp only at h
      obtain ⟨writes, h1, h2, h3, h4, h5⟩ := ih _ _ _ _ _ h
      obtain ⟨s1, s2, s3⟩ := send_requests cfg w
        ([NRF_DFU_OP_OBJECT_WRITE] ++ (p.drop pos).take (min (n - pos) stp_max))
        (min (n - pos) stp_max + 1)
      have htake : List.take (min (n - pos) stp_max + 1)
          ([NRF_DFU_OP_OBJECT_WRITE] ++ (p.drop pos).take (min (n - pos) stp_max))
          = 8 :: (p.drop pos).take (min (n - pos) stp_max) := by
        apply List.take_of_length_le
        simp
      rw [htake] at s1
      refine ⟨(8 :: (p.drop pos).take (min (n - pos) stp_max)) :: writes, ?_, ?_, ?_, ?_, ?_⟩
      · rw [h1, s1]; simp
      · intro m hm
        rcases List.mem_cons.mp hm with rfl | hm
        · rfl
        · exact h2 m hm
      · rw [h3, s2]
      · rw [h4, s3]
      · intro he
        have h5 := h5 he
        simp only [List.map_cons, List.flatten_cons, List.drop_succ_cons, List.drop_zero, h5]
        have hle : min (n - pos) stp_max ≤ n - pos := Nat.min_le_left _ _
        have hsplit : n - pos = min (n - pos) stp_max + (n - (pos + min (n - pos) stp_max)) := by
          omega
        conv_rhs => rw [hsplit, List.take_add]
        rw [List.drop_drop]
    · simp only [Option.some.injEq, Prod.mk.injEq] at h
      obtain ⟨rfl, rfl⟩ := h
      refine ⟨[], by simp, by simp, rfl, rfl, ?_⟩
      intro he
      have : n - pos = 0 := by
        have : ¬ pos < n := fun hlt => hc ⟨he, hlt⟩
        omega
      simp [this]

theorem stream_data_requests (cfg : Platform) (w : World) (p : List Nat) (n : Nat)
    (e : Int) (w1 : World) (h : dfu_serial_stream_data cfg w p n = some (e, w1)) :
    ∃ writes : List (List Nat),
      requests w1.log = requests w.log ++ writes
      ∧ (∀ m ∈ writes, m.head? = some 8)
      ∧ w1.checks = w.checks ∧ w1.mtu = w.mtu
      ∧ (e = 0 → (writes.map (List.drop 1)).flatten = p.take n) := by
  unfold dfu_serial_stream_data at h
  obtain ⟨writes, h1, h2, h3, h4, h5⟩ := stream_loop_requests cfg p n _ _ _ _ _ _ _ h
  exact ⟨writes, h1, h2, h3, h4, fun he => by simpa using h5 he⟩

/-- The three ways `dfu_serial_stream_data_crc` can end, with what each leaves
in the trace: the writes failed; the writes were sent and the `CrcGet` exchange
failed; the `CrcGet` response was compared. -/
theorem stream_data_crc_cases (cfg : Platform) (w : World) (p : List Nat) (n pos crc : Nat)
    (e : Int) (c : Nat) (w1 : World)
    (h : dfu_serial_stream_data_crc cfg w p n pos crc = some (e, c, w1)) :
    ∃ writes : List (List Nat),
      (∀ m ∈ writes, m.head? = some 8) ∧ w1.mtu = w.mtu ∧
      ((e ≠ 0 ∧ c = crc ∧ requests w1.log = requests w.log ++ writes ∧ w1.checks = w.checks)
       ∨ ((writes.map (List.drop 1)).flatten = p.take n
          ∧ c = cfg.crc32_compute (p.take n) (some crc)
          ∧ requests w1.log = requests w.log ++ writes ++ [[3]]
          ∧ ((e ≠ 0 ∧ w1.checks = w.checks)
             ∨ w1.checks = w.checks ++ [((pos + n) % U32, c)]))) := by
  unfold dfu_serial_stream_data_crc at h
  split at h
  · simp at h
  · rename_i s hs
    obtain ⟨writes, h1, h2, h3, h4, h5⟩ := stream_data_requests cfg w p n s.1 s.2 hs
    refine ⟨writes, h2, ?_⟩
    obtain ⟨g1, g2, g3⟩ := dfu_serial_get_crc_frame cfg s.2 { offset := 0, crc := 0 }
    by_cases hs0 : s.1 = 0
    · by_cases hg0 : (dfu_serial_get_crc cfg s.2 { offset := 0, crc := 0 }).1 = 0
      · simp only [hs0, hg0, if_true, Option.some.injEq, Prod.mk.injEq] at h
        obtain ⟨-, rfl, rfl⟩ := h
        refine ⟨by simp [g3, h4], Or.inr ⟨h5 hs0, rfl, ?_, Or.inr ?_⟩⟩
        · simp [g1, h1]
        · simp [g2, h3]
      · simp only [hs0, hg0, if_true, if_false, Option.some.injEq, Prod.mk.injEq] at h
        obtain ⟨rfl, rfl, rfl⟩ := h
        refine ⟨by simp [g3, h4], Or.inr ⟨h5 hs0, rfl, ?_, Or.inl ⟨hg0, ?_⟩⟩⟩
        · simp [g1, h1]
        · simp [g2, h3]
    · simp only [hs0, if_false, Option.some.injEq, Prod.mk.injEq] at h
      obtain ⟨rfl, rfl, rfl⟩ := h
      exact ⟨h4, Or.inl ⟨hs0, rfl, h1, h3⟩⟩

theorem stream_data_crc_ok (cfg : Platform) (w : World) (p : List Nat) (n pos crc : Nat)
    (c : Nat) (w1 : World)
    (h : dfu_serial_stream_data_crc cfg w p n pos crc = some (0, c, w1)) :
    ∃ writes : List (List Nat),
      (∀ m ∈ writes, m.head? = some 8) ∧ w1.mtu = w.mtu
      ∧ (writes.map (List.drop 1)).flatten = p.take n
      ∧ c = cfg.crc32_compute (p.take n) (some crc)
      ∧ requests w1.log = requests w.log ++ writes ++ [[3]]
      ∧ w1.checks = w.checks ++ [((pos + n) % U32, c)] := by
  obtain ⟨writes, h1, h2, h3⟩ := stream_data_crc_cases cfg w p n pos crc 0 c w1 h
  rcases h3 with ⟨h0, -⟩ | ⟨h4, h5, h6, h7⟩
  · exact absurd rfl h0
  · rcases h7 with ⟨h0, -⟩ | h7
    · exact absurd rfl h0
    · exact ⟨writes, h1, h2, h4, h5, h6, h7⟩

/-! ### Recovery of a firmware transfer -/

set_option maxRecDepth 1000000 in
/-- C2: a run of `dfu_serial_try_to_recover_fw` that returns success with a
recovered offset beyond the buffer. The image has 10 bytes, the device reports
`max_size = 4`, `offset = 9` and the matching CRC, accepts the write and confirms
offset 12: the host streams `p_data[9..12)`, two bytes past the image, and
reports the recovered offset 12. -/
theorem recover_fw_offset_past_end :
    (dfu_serial_try_to_recover_fw nrf
        (start_world 64 [crc_reply 12 (crc32_ieee fw_mem none), reply [96, 4, 1]])
        fw_mem 10 { offset := 9, crc := crc32_ieee (fw_mem.take 9) none, max_size := 4 }).map
      (fun r => (r.1, r.2.1.offset, requests r.2.2.log))
      = some (0, 12, [[8, 10, 170, 187], [3], [4]]) := by
  decide

/-- C3: whenever `dfu_serial_try_to_recover_fw` returns success for a reported
state with `max_size > 0` (and `offset + max_size` within the 32-bit range, so
that the position does not wrap), the recovered offset is a multiple of
`max_size` or equal to the size of the buffer. -/
theorem recover_fw_offset_aligned (cfg : Platform) (w : World) (p_data : List Nat)
    (data_size : Nat) (sel rec : nrf_dfu_response_select_t) (w1 : World)
    (hmax : 0 < sel.max_size) (hrange : sel.offset + sel.max_size ≤ U32)
    (h : dfu_serial_try_to_recover_fw cfg w p_data data_size sel = some (0, rec, w1)) :
    sel.max_size ∣ rec.offset ∨ rec.offset = data_size := by
  left
  have hsub : sel.max_size ∣ sel.offset - sel.offset % sel.max_size :=
    Nat.dvd_sub_mod sel.offset
  have hlt : sel.offset % sel.max_size < sel.max_size := Nat.mod_lt _ hmax
  have hle : sel.offset % sel.max_size ≤ sel.offset := Nat.mod_le _ _
  unfold dfu_serial_try_to_recover_fw at h
  simp only at h
  by_cases h1 : sel.offset > data_size
  · simp [h1] at h
  rw [if_neg h1] at h
  by_cases h2 : sel.offset > 0
  swap
  · rw [if_neg h2] at h
    simp only [Option.some.injEq, Prod.mk.injEq] at h
    obtain ⟨-, rfl, -⟩ := h
    have : sel.offset = 0 := by omega
    simp [this]
  rw [if_pos h2, if_neg (Nat.pos_iff_ne_zero.mp hmax)] at h
  by_cases h4 : sel.crc ≠ cfg.crc32_compute (List.take sel.offset p_data) none
  · rw [if_pos h4] at h
    simp only [Option.some.injEq, Prod.mk.injEq] at h
    obtain ⟨-, rfl, -⟩ := h
    simp only
    by_cases h5 : sel.offset % sel.max_size > 0
    · rw [if_pos h5]; exact hsub
    · rw [if_neg h5]
      have h7 : sel.offset % sel.max_size = 0 := by omega
      exact Nat.dvd_sub' (Nat.dvd_of_mod_eq_zero h7) (dvd_refl _)
  rw [if_neg h4] at h
  by_cases h5 : sel.offset % sel.max_size > 0
  swap
  · rw [if_neg h5] at h
    simp only [Option.some.injEq, Prod.mk.injEq] at h
    obtain ⟨-, rfl, -⟩ := h
    have h7 : sel.offset % sel.max_size = 0 := by omega
    exact Nat.dvd_of_mod_eq_zero h7
  rw [if_pos h5] at h
  split at h
  · simp at h
  rename_i s hs
  by_cases h6 : s.1 = 0
  · rw [if_pos h6] at h
    simp only [Option.some.injEq, Prod.mk.injEq] at h
    obtain ⟨-, rfl, -⟩ := h
    simp only
    have hmod : (sel.offset + (sel.max_size - sel.offset % sel.max_size)) % U32
        = (sel.offset - sel.offset % sel.max_size) + sel.max_size := by
      rw [Nat.mod_eq_of_lt (by simp only [U32] at *; omega)]
      omega
    rw [hmod]
    exact Dvd.dvd.add hsub (dvd_refl _)
  rw [if_neg h6] at h
  by_cases h7 : s.1 = 2
  · rw [if_pos h7] at h
    simp only [Option.some.injEq, Prod.mk.injEq] at h
    obtain ⟨-, rfl, -⟩ := h
    exact hsub
  · rw [if_neg h7] at h
    simp only [Option.some.injEq, Prod.mk.injEq] at h
    exact absurd h.1 h6

set_option maxRecDepth 1000000 in
theorem recover_fw_offset_aligned_witness :
    (dfu_serial_try_to_recover_fw nrf resume_world fw10 10 resume_state).map
        (fun r => (r.1, r.2.1.offset)) = some (0, 8)
    ∧ ((4 : Nat) ∣ 8 ∨ (8 : Nat) = 10) :=
  ⟨by decide,
   recover_fw_offset_aligned nrf resume_world fw10 10 resume_state
    { resume_state with offset := 8 }
    ((dfu_serial_try_to_recover_fw nrf resume_world fw10 10 resume_state).getD
      (1, resume_state, resume_world)).2.2
    (by decide) (by decide) (by decide)⟩

theorem crc32_ieee_zero (d : List Nat) : crc32_ieee d (some 0) = crc32_ieee d none := rfl

/-- C4: a reported state with `0 < offset ≤ N`, `max_size > 0` and a CRC that
differs from the host CRC of `buf[0..offset)`. `dfu_serial_try_to_recover_fw`
returns success and leaves the state untouched (no request is sent); the
recovered offset is `offset - tail` when `tail = offset mod max_size` is positive
and `offset - max_size` otherwise, the subtrahend is positive and at most
`offset`, so nothing wraps. `dfu_serial_send_firmware` then returns exactly what
the object loop returns when started at that boundary with the running CRC
`crc32(buf[0..recovered))`: the rewind itself adds no error, and an accepted
re-transfer gives result 0. -/
theorem recover_fw_crc_mismatch_rewinds (cfg : Platform) (buf : List Nat) (N : Nat)
    (sel : nrf_dfu_response_select_t)
    (h0 : 0 < sel.offset) (hle : sel.offset ≤ N) (hmax : 0 < sel.max_size)
    (hcrc : cfg.crc32_compute (buf.take sel.offset) none ≠ sel.crc)
    (hzero : ∀ d, cfg.crc32_compute d (some 0) = cfg.crc32_compute d none) :
    (∀ w : World, dfu_serial_try_to_recover_fw cfg w buf N sel
        = some (0, { sel with offset := sel.offset -
            (if sel.offset % sel.max_size > 0 then sel.offset % sel.max_size
             else sel.max_size) }, w))
    ∧ 0 < (if sel.offset % sel.max_size > 0 then sel.offset % sel.max_size else sel.max_size)
    ∧ (if sel.offset % sel.max_size > 0 then sel.offset % sel.max_size else sel.max_size)
        ≤ sel.offset
    ∧ (∀ w w1 : World,
        dfu_serial_select_obj cfg w 2 { offset := 0, crc := 0, max_size := 0 } = (0, sel, w1) →
        dfu_serial_send_firmware cfg w (some buf) N
          = dfu_serial_send_firmware_loop cfg N w1 buf N sel.max_size
              (sel.offset - (if sel.offset % sel.max_size > 0 then sel.offset % sel.max_size
                else sel.max_size))
              (cfg.crc32_compute (buf.take (sel.offset -
                (if sel.offset % sel.max_size > 0 then sel.offset % sel.max_size
                 else sel.max_size))) none)
        ∧ ∀ w2 : World,
            dfu_serial_send_firmware_loop cfg N w1 buf N sel.max_size
              (sel.offset - (if sel.offset % sel.max_size > 0 then sel.offset % sel.max_size
                else sel.max_size))
              (cfg.crc32_compute (buf.take (sel.offset -
                (if sel.offset % sel.max_size > 0 then sel.offset % sel.max_size
                 else sel.max_size))) none) = some (0, w2) →
            dfu_serial_send_firmware cfg w (some buf) N = some (0, w2)) := by
  have hrec : ∀ w : World, dfu_serial_try_to_recover_fw cfg w buf N sel
      = some (0, { sel with offset := sel.offset -
          (if sel.offset % sel.max_size > 0 then sel.offset % sel.max_size
           else sel.max_size) }, w) := by
    intro w
    unfold dfu_serial_try_to_recover_fw
    simp only
    rw [if_neg (by omega), if_pos h0, if_neg (Nat.pos_iff_ne_zero.mp hmax), if_pos (Ne.symm hcrc)]
  have hpos : 0 < (if sel.offset % sel.max_size > 0 then sel.offset % sel.max_size
      else sel.max_size) := by
    split_ifs with h
    · exact h
    · exact hmax
  have hback : (if sel.offset % sel.max_size > 0 then sel.offset % sel.max_size
      else sel.max_size) ≤ sel.offset := by
    split_ifs with h
    · exact Nat.mod_le _ _
    · have h7 : sel.offset % sel.max_size = 0 := by omega
      exact Nat.le_of_dvd h0 (Nat.dvd_of_mod_eq_zero h7)
  refine ⟨hrec, hpos, hback, ?_⟩
  intro w w1 hsel
  have hfw : dfu_serial_send_firmware cfg w (some buf) N
      = dfu_serial_send_firmware_loop cfg N w1 buf N sel.max_size
          (sel.offset - (if sel.offset % sel.max_size > 0 then sel.offset % sel.max_size
            else sel.max_size))
          (cfg.crc32_compute (buf.take (sel.offset -
            (if sel.offset % sel.max_size > 0 then sel.offset % sel.max_size
             else sel.max_size))) none) := by
    unfold dfu_serial_send_firmware
    simp only
    rw [if_neg (by omega), hsel]
    simp only [ne_eq, not_true_eq_false, if_false]
    rw [hrec w1]
    simp only [ne_eq, not_true_eq_false, if_false, hzero]
  exact ⟨hfw, fun w2 h2 => hfw.trans h2⟩

set_option maxRecDepth 1000000 in
theorem recover_fw_crc_mismatch_rewinds_witness :
    crc32_ieee (fw10.take 5) none ≠ 0
    ∧ dfu_serial_try_to_recover_fw nrf stale_world fw10 10 stale_state
        = some (0, { stale_state with offset := 4 }, stale_world)
    ∧ (dfu_serial_send_firmware nrf stale_world (some fw10) 10).map Prod.fst = some 0
    ∧ (dfu_serial_send_firmware nrf stale_world (some fw10) 10).map (fun r => requests r.2.log)
        = some [[6, 2], [1, 2, 4, 0, 0, 0], [8, 5, 6, 7, 8], [3], [4],
                [1, 2, 2, 0, 0, 0], [8, 9, 10], [3], [4]] :=
  have T := recover_fw_crc_mismatch_rewinds nrf fw10 10 stale_state
    (by decide) (by decide) (by decide) (by decide) crc32_ieee_zero
  ⟨by decide, T.1 stale_world,
   congrArg (Option.map Prod.fst)
    ((T.2.2.2 stale_world
        (dfu_serial_select_obj nrf stale_world 2 { offset := 0, crc := 0, max_size := 0 }).2.2
        (by decide)).2
      ((dfu_serial_send_firmware nrf stale_world (some fw10) 10).getD (1, stale_world)).2
      (by decide)),
   by decide⟩

/-- C5: a reported state with `0 < offset ≤ N`, the matching CRC and a positive
`tail = offset mod max_size`. The only call `dfu_serial_try_to_recover_fw` makes
before deciding is `dfu_serial_stream_data_crc` on `p_data[offset .. offset +
(max_size - tail))` at position `offset` with the CRC `crc32(buf[0..offset))`.
Whenever that call reaches the comparison of the `CrcGet` response, the requests
it sent are `ObjectWrite` messages whose payloads concatenate to exactly that
slice, followed by one `CrcGet`, and the expected pair is `offset + (max_size -
tail)` (32-bit) with the CRC continued from `crc32(buf[0..offset))`. If the call
returns 0 the function sends one `ObjectExecute`, returns its result and reports
`offset + (max_size - tail)`; if it returns 2 the function sends nothing more,
returns 0 and reports `offset - tail`. -/
theorem recover_fw_completes_object (cfg : Platform) (w : World) (p_data : List Nat)
    (data_size : Nat) (sel : nrf_dfu_response_select_t)
    (h0 : 0 < sel.offset) (hle : sel.offset ≤ data_size) (hmax : 0 < sel.max_size)
    (hcrc : cfg.crc32_compute (p_data.take sel.offset) none = sel.crc)
    (htail : 0 < sel.offset % sel.max_size)
    (e : Int) (c : Nat) (w1 : World)
    (hstream : dfu_serial_stream_data_crc cfg w (p_data.drop sel.offset)
        (sel.max_size - sel.offset % sel.max_size) sel.offset
        (cfg.crc32_compute (p_data.take sel.offset) none) = some (e, c, w1)) :
    (w1.checks ≠ w.checks →
      ∃ writes : List (List Nat),
        requests w1.log = requests w.log ++ writes ++ [[3]]
        ∧ (∀ m ∈ writes, m.head? = some 8)
        ∧ (writes.map (List.drop 1)).flatten
            = (p_data.drop sel.offset).take (sel.max_size - sel.offset % sel.max_size)
        ∧ w1.checks = w.checks ++
            [((sel.offset + (sel.max_size - sel.offset % sel.max_size)) % U32,
              cfg.crc32_compute
                ((p_data.drop sel.offset).take (sel.max_size - sel.offset % sel.max_size))
                (some (cfg.crc32_compute (p_data.take sel.offset) none)))])
    ∧ (e = 0 →
        w1.checks ≠ w.checks
        ∧ dfu_serial_try_to_recover_fw cfg w p_data data_size sel
          = some ((dfu_serial_execute_obj cfg w1).1,
              { sel with offset :=
                  (sel.offset + (sel.max_size - sel.offset % sel.max_size)) % U32 },
              (dfu_serial_execute_obj cfg w1).2)
        ∧ requests (dfu_serial_execute_obj cfg w1).2.log = requests w1.log ++ [[4]])
    ∧ (e = 2 →
        dfu_serial_try_to_recover_fw cfg w p_data data_size sel
          = some (0, { sel with offset := sel.offset - sel.offset % sel.max_size }, w1))
    ∧ (sel.offset + sel.max_size ≤ U32 →
        (sel.offset + (sel.max_size - sel.offset % sel.max_size)) % U32
          = sel.offset + (sel.max_size - sel.offset % sel.max_size)) := by
  have hrec : dfu_serial_try_to_recover_fw cfg w p_data data_size sel
      = (if e = 0 then
          some ((dfu_serial_execute_obj cfg w1).1,
            { sel with offset :=
                (sel.offset + (sel.max_size - sel.offset % sel.max_size)) % U32 },
            (dfu_serial_execute_obj cfg w1).2)
        else if e = 2 then
          some (0, { sel with offset := sel.offset - sel.offset % sel.max_size }, w1)
        else some (e, sel, w1)) := by
    unfold dfu_serial_try_to_recover_fw
    simp only
    rw [if_neg (by omega), if_pos h0, if_neg (Nat.pos_iff_ne_zero.mp hmax),
      if_neg (by simp [hcrc]), if_pos htail, hstream]
  obtain ⟨writes, hw1, -, hw3⟩ := stream_data_crc_cases cfg w _ _ _ _ e c w1 hstream
  have hreach : w1.checks ≠ w.checks →
      ∃ writes : List (List Nat),
        requests w1.log = requests w.log ++ writes ++ [[3]]
        ∧ (∀ m ∈ writes, m.head? = some 8)
        ∧ (writes.map (List.drop 1)).flatten
            = (p_data.drop sel.offset).take (sel.max_size - sel.offset % sel.max_size)
        ∧ w1.checks = w.checks ++
            [((sel.offset + (sel.max_size - sel.offset % sel.max_size)) % U32,
              cfg.crc32_compute
                ((p_data.drop sel.offset).take (sel.max_size - sel.offset % sel.max_size))
                (some (cfg.crc32_compute (p_data.take sel.offset) none)))] := by
    intro hne
    rcases hw3 with ⟨-, -, -, h4⟩ | ⟨h4, h5, h6, h7⟩
    · exact absurd h4 hne
    · rcases h7 with ⟨-, h8⟩ | h8
      · exact absurd h8 hne
      · exact ⟨writes, h6, hw1, h4, by rw [h8, h5]⟩
  refine ⟨hreach, ?_, ?_, ?_⟩
  · intro he
    subst he
    obtain ⟨ws, -, -, -, -, -, hck⟩ := stream_data_crc_ok cfg w _ _ _ _ c w1 hstream
    refine ⟨?_, ?_, (dfu_serial_execute_obj_frame cfg w1).1⟩
    · rw [hck]; simp
    · rw [hrec]; simp
  · intro he
    subst he
    rw [hrec]; simp
  · intro hr
    apply Nat.mod_eq_of_lt
    simp only [U32] at *
    omega

set_option maxRecDepth 1000000 in
theorem recover_fw_completes_object_witness :
    (crc32_ieee (fw10.take 5) none = resume_state.crc ∧ 0 < 5 % 4)
    ∧ (dfu_serial_try_to_recover_fw nrf resume_world fw10 10 resume_state).map
        (fun r => (r.1, r.2.1.offset, requests r.2.2.log, r.2.2.checks))
        = some (0, 8, [[8, 6, 7, 8], [3], [4]], [(8, crc32_ieee (fw10.take 8) none)])
    ∧ (dfu_serial_try_to_recover_fw nrf reject_world fw10 10 resume_state).map
        (fun r => (r.1, r.2.1.offset, requests r.2.2.log, r.2.2.checks))
        = some (0, 4, [[8, 6, 7, 8], [3]], [(8, crc32_ieee (fw10.take 8) none)]) :=
  ⟨⟨by decide, by decide⟩,
   (congrArg (Option.map fun r => (r.1, r.2.1.offset, requests r.2.2.log, r.2.2.checks))
      ((recover_fw_completes_object nrf resume_world fw10 10 resume_state
          (by decide) (by decide) (by decide) (by decide) (by decide)
          0 (crc32_ieee (fw10.take 8) none)
          ((dfu_serial_stream_data_crc nrf resume_world (fw10.drop 5) 3 5
              (crc32_ieee (fw10.take 5) none)).getD (1, 0, resume_world)).2.2
          (by decide)).2.1 rfl).2.1).trans (by decide),
   (congrArg (Option.map fun r => (r.1, r.2.1.offset, requests r.2.2.log, r.2.2.checks))
      ((recover_fw_completes_object nrf reject_world fw10 10 resume_state
          (by decide) (by decide) (by decide) (by decide) (by decide)
          2 (crc32_ieee (fw10.take 8) none)
          ((dfu_serial_stream_data_crc nrf reject_world (fw10.drop 5) 3 5
              (crc32_ieee (fw10.take 5) none)).getD (1, 0, reject_world)).2.2
          (by decide)).2.2.1 rfl)).trans (by decide)⟩

set_option maxRecDepth 1000000 in
/-- C6, as stated, fails: with `fw10`, `max_size = 4`, reported offset 8 and the
matching CRC (so `offset mod max_size = 0`), `dfu_serial_try_to_recover_fw`
reports offset 8 but does send a request, `ObjectExecute`. -/
theorem recover_fw_aligned_sends_request :
    (crc32_ieee (fw10.take 8) none = aligned_state.crc ∧ 8 % 4 = 0)
    ∧ (dfu_serial_try_to_recover_fw nrf aligned_world fw10 10 aligned_state).map
        (fun r => (r.1, r.2.1.offset, requests r.2.2.log)) = some (0, 8, [[4]])
    ∧ ¬ (dfu_serial_try_to_recover_fw nrf aligned_world fw10 10 aligned_state).map
        (fun r => requests r.2.2.log) = some (requests aligned_world.log) := by
  decide

/-- C6, amended: for a reported state with `0 < offset ≤ N`, the matching CRC and
`offset mod max_size = 0`, the recovered offset is the reported offset (the
response is returned unchanged); the function sends no `ObjectWrite` and no
`CrcGet`, it sends exactly one request, `ObjectExecute`, and returns the result
of that exchange. -/
theorem recover_fw_aligned_executes (cfg : Platform) (w : World) (p_data : List Nat)
    (data_size : Nat) (sel : nrf_dfu_response_select_t)
    (h0 : 0 < sel.offset) (hle : sel.offset ≤ data_size) (hmax : 0 < sel.max_size)
    (hcrc : cfg.crc32_compute (p_data.take sel.offset) none = sel.crc)
    (htail : sel.offset % sel.max_size = 0) :
    dfu_serial_try_to_recover_fw cfg w p_data data_size sel
      = some ((dfu_serial_execute_obj cfg w).1, sel, (dfu_serial_execute_obj cfg w).2)
    ∧ requests (dfu_serial_execute_obj cfg w).2.log = requests w.log ++ [[4]]
    ∧ (dfu_serial_execute_obj cfg w).2.checks = w.checks := by
  refine ⟨?_, (dfu_serial_execute_obj_frame cfg w).1, (dfu_serial_execute_obj_frame cfg w).2.1⟩
  unfold dfu_serial_try_to_recover_fw
  simp only
  rw [if_neg (by omega), if_pos h0, if_neg (Nat.pos_iff_ne_zero.mp hmax),
    if_neg (by simp [hcrc]), if_neg (by omega)]

set_option maxRecDepth 1000000 in
theorem recover_fw_aligned_executes_witness :
    (crc32_ieee (fw10.take 8) none = aligned_state.crc ∧ 8 % 4 = 0)
    ∧ (dfu_serial_try_to_recover_fw nrf aligned_world fw10 10 aligned_state).map
        (fun r => (r.1, r.2.1, requests r.2.2.log)) = some (0, aligned_state, [[4]]) :=
  ⟨⟨by decide, by decide⟩,
   (congrArg (Option.map fun r => (r.1, r.2.1, requests r.2.2.log))
      (recover_fw_aligned_executes nrf aligned_world fw10 10 aligned_state
        (by decide) (by decide) (by decide) (by decide) (by decide)).1).trans (by decide)⟩

/-- C7: `dfu_serial_try_to_recover_fw` returns 1 and leaves the state untouched
(no request) when the reported offset exceeds `N`, and returns 0 with recovered
offset 0 and the state untouched when the reported offset is 0. In the failing
case `dfu_serial_send_firmware` returns 1 right after the `ObjectSelect`
exchange: the only request it sent is `ObjectSelect(0x02)`, so no object is
created. -/
theorem recover_fw_offset_limits (cfg : Platform) (p_data : List Nat) (data_size : Nat)
    (sel : nrf_dfu_response_select_t) :
    (data_size < sel.offset →
      ∀ w : World, dfu_serial_try_to_recover_fw cfg w p_data data_size sel = some (1, sel, w))
    ∧ (sel.offset = 0 →
      ∀ w : World, dfu_serial_try_to_recover_fw cfg w p_data data_size sel = some (0, sel, w))
    ∧ (data_size < sel.offset → 0 < data_size →
      ∀ w w1 : World,
        dfu_serial_select_obj cfg w 2 { offset := 0, crc := 0, max_size := 0 } = (0, sel, w1) →
        dfu_serial_send_firmware cfg w (some p_data) data_size = some (1, w1)
        ∧ requests w1.log = requests w.log ++ [[6, 2]]) := by
  have hfail : data_size < sel.offset →
      ∀ w : World, dfu_serial_try_to_recover_fw cfg w p_data data_size sel
        = some (1, sel, w) := by
    intro h w
    unfold dfu_serial_try_to_recover_fw
    simp only
    rw [if_pos h]
  refine ⟨hfail, ?_, ?_⟩
  · intro h w
    unfold dfu_serial_try_to_recover_fw
    simp only
    rw [if_neg (by omega), if_neg (by omega)]
  · intro h hN w w1 hsel
    constructor
    · unfold dfu_serial_send_firmware
      simp only
      rw [if_neg (by omega), hsel]
      simp only [ne_eq, not_true_eq_false, if_false]
      rw [hfail h w1]
      simp
    · have hf := (dfu_serial_select_obj_frame cfg w 2 { offset := 0, crc := 0, max_size := 0 }).1
      rw [hsel] at hf
      exact hf

set_option maxRecDepth 1000000 in
theorem recover_fw_offset_limits_witness :
    dfu_serial_try_to_recover_fw nrf beyond_world fw10 10 { offset := 11, crc := 0, max_size := 4 }
      = some (1, { offset := 11, crc := 0, max_size := 4 }, beyond_world)
    ∧ dfu_serial_try_to_recover_fw nrf beyond_world fw10 10 { offset := 0, crc := 0, max_size := 4 }
      = some (0, { offset := 0, crc := 0, max_size := 4 }, beyond_world)
    ∧ (dfu_serial_send_firmware nrf beyond_world (some fw10) 10).map
        (fun r => (r.1, requests r.2.log)) = some (1, [[6, 2]]) :=
  ⟨(recover_fw_offset_limits nrf fw10 10 { offset := 11, crc := 0, max_size := 4 }).1
      (by decide) beyond_world,
   (recover_fw_offset_limits nrf fw10 10 { offset := 0, crc := 0, max_size := 4 }).2.1
      rfl beyond_world,
   (congrArg (Option.map fun r => (r.1, requests r.2.log))
      ((recover_fw_offset_limits nrf fw10 10 { offset := 11, crc := 0, max_size := 4 }).2.2
        (by decide) (by decide) beyond_world
        (dfu_serial_select_obj nrf beyond_world 2 { offset := 0, crc := 0, max_size := 0 }).2.2
        (by decide)).1).trans (by decide)⟩

/-! ### The object loop -/

theorem ceil_div_step (n max : Nat) (hmax : 0 < max) (hn : 0 < n) :
    (n - min n max + max - 1) / max + 1 = (n + max - 1) / max := by
  by_cases h : n ≤ max
  · rw [Nat.min_eq_left h]
    have h1 : (n - n + max - 1) / max = 0 := Nat.div_eq_of_lt (by omega)
    have h2 : (n + max - 1) / max = 1 :=
      Nat.div_eq_of_lt_le (by omega) (by omega)
    omega
  · rw [Nat.min_eq_right (by omega)]
    have h1 : n + max - 1 = (n - max + max - 1) + max := by omega
    rw [h1, Nat.add_div_right _ hmax]

theorem send_firmware_loop_trace (cfg : Platform) (p : List Nat) (N max : Nat)
    (hmax : 0 < max) (hmem : N ≤ p.length) :
    ∀ (fuel : Nat) (w : World) (pos crc : Nat) (w2 : World),
      pos ≤ N →
      dfu_serial_send_firmware_loop cfg fuel w p N max pos crc = some (0, w2) →
      ∃ objs : List (List (List Nat)),
        objs.length = (N - pos + max - 1) / max
        ∧ requests w2.log = requests w.log ++ object_requests N max pos objs
        ∧ object_writes_ok p N max pos objs := by
  intro fuel
  induction fuel with
  | zero =>
    intro w pos crc w2 hpos h
    unfold dfu_serial_send_firmware_loop at h
    split_ifs at h with hc
    simp only [Option.some.injEq, Prod.mk.injEq, true_and] at h
    subst h
    have : N - pos = 0 := by omega
    refine ⟨[], ?_, by simp [object_requests], by simp [object_writes_ok]⟩
    rw [this]
    simp only [List.length_nil, Nat.zero_add]
    exact (Nat.div_eq_of_lt (by omega)).symm
  | succ fuel ih =>
    intro w pos crc w2 hpos h
    unfold dfu_serial_send_firmware_loop at h
    by_cases hc : pos < N
    swap
    · rw [if_neg hc] at h
      simp only [Option.some.injEq, Prod.mk.injEq, true_and] at h
      subst h
      have : N - pos = 0 := by omega
      refine ⟨[], ?_, by simp [object_requests], by simp [object_writes_ok]⟩
      rw [this]
      simp only [List.length_nil, Nat.zero_add]
      exact (Nat.div_eq_of_lt (by omega)).symm
    rw [if_pos hc] at h
    simp only at h
    by_cases hc1 : (dfu_serial_create_obj cfg w 2 (min (N - pos) max)).1 ≠ 0
    · rw [if_pos hc1] at h
      simp only [Option.some.injEq] at h
      rw [h] at hc1
      exact absurd rfl hc1
    rw [if_neg hc1] at h
    split at h
    · simp at h
    rename_i s hs
    by_cases hs1 : s.1 ≠ 0
    · rw [if_pos hs1] at h
      simp only [Option.some.injEq, Prod.mk.injEq] at h
      exact absurd h.1 hs1
    rw [if_neg hs1] at h
    by_cases he1 : (dfu_serial_execute_obj cfg s.2.2).1 ≠ 0
    · rw [if_pos he1] at h
      simp only [Option.some.injEq] at h
      rw [h] at he1
      exact absurd rfl he1
    rw [if_neg he1] at h
    have hsize : min (N - pos) max ≤ N - pos := Nat.min_le_left _ _
    obtain ⟨objs, o1, o2, o3⟩ := ih _ _ _ _ (by omega) h
    have hs0 : s.1 = 0 := by simpa using hs1
    have hs' : dfu_serial_stream_data_crc cfg (dfu_serial_create_obj cfg w 2 (min (N - pos) max)).2
        (List.drop pos p) (min (N - pos) max) pos crc = some (0, s.2.1, s.2.2) := by
      rw [hs, ← hs0]
    obtain ⟨writes, k1, -, k3, -, k5, -⟩ := stream_data_crc_ok cfg _ _ _ _ _ _ _ hs'
    obtain ⟨c1, -, -⟩ := dfu_serial_create_obj_frame cfg w 2 (min (N - pos) max)
    obtain ⟨e1, -, -⟩ := dfu_serial_execute_obj_frame cfg s.2.2
    refine ⟨writes :: objs, ?_, ?_, ?_⟩
    · rw [List.length_cons, o1]
      have := ceil_div_step (N - pos) max hmax (by omega)
      rw [← this]
      congr 2
      omega
    · rw [o2, e1, k5, c1]
      simp [object_requests, create_request]
    · refine ⟨k1, ?_, k3, o3⟩
      rw [← List.length_flatten, k3, List.length_take, List.length_drop]
      omega

theorem recover_fw_requests (cfg : Platform) (w : World) (p : List Nat) (N : Nat)
    (sel rec : nrf_dfu_response_select_t) (e : Int) (w1 : World)
    (h : dfu_serial_try_to_recover_fw cfg w p N sel = some (e, rec, w1)) :
    ∃ added : List (List Nat),
      requests w1.log = requests w.log ++ added
      ∧ ∀ m ∈ added, m.head? = some 8 ∨ m = [3] ∨ m = [4] := by
  have hnil : ∃ added : List (List Nat), requests w.log = requests w.log ++ added
      ∧ ∀ m ∈ added, m.head? = some 8 ∨ m = [3] ∨ m = [4] := ⟨[], by simp, by simp⟩
  unfold dfu_serial_try_to_recover_fw at h
  simp only at h
  by_cases h1 : sel.offset > N
  · rw [if_pos h1] at h
    simp only [Option.some.injEq, Prod.mk.injEq] at h
    obtain ⟨-, -, rfl⟩ := h
    exact hnil
  rw [if_neg h1] at h
  by_cases h2 : sel.offset > 0
  swap
  · rw [if_neg h2] at h
    simp only [Option.some.injEq, Prod.mk.injEq] at h
    obtain ⟨-, -, rfl⟩ := h
    exact hnil
  rw [if_pos h2] at h
  by_cases h3 : sel.max_size = 0
  · rw [if_pos h3] at h
    simp at h
  rw [if_neg h3] at h
  by_cases h4 : sel.crc ≠ cfg.crc32_compute (List.take sel.offset p) none
  · rw [if_pos h4] at h
    simp only [Option.some.injEq, Prod.mk.injEq] at h
    obtain ⟨-, -, rfl⟩ := h
    exact hnil
  rw [if_neg h4] at h
  obtain ⟨e2, -, -⟩ := dfu_serial_execute_obj_frame cfg w
  by_cases h5 : sel.offset % sel.max_size > 0
  swap
  · rw [if_neg h5] at h
    simp only [Option.some.injEq, Prod.mk.injEq] at h
    obtain ⟨-, -, rfl⟩ := h
    exact ⟨[[4]], e2, by simp⟩
  rw [if_pos h5] at h
  split at h
  · simp at h
  rename_i s hs
  obtain ⟨writes, k1, -, k3⟩ := stream_data_crc_cases cfg w _ _ _ _ s.1 s.2.1 s.2.2 hs
  have hstream : ∃ added : List (List Nat), requests s.2.2.log = requests w.log ++ added
      ∧ ∀ m ∈ added, m.head? = some 8 ∨ m = [3] ∨ m = [4] := by
    rcases k3 with ⟨-, -, k4, -⟩ | ⟨-, -, k4, -⟩
    · exact ⟨writes, k4, fun m hm => Or.inl (k1 m hm)⟩
    · refine ⟨writes ++ [[3]], by rw [k4, List.append_assoc], fun m hm => ?_⟩
      rcases List.mem_append.mp hm with hm | hm
      · exact Or.inl (k1 m hm)
      · exact Or.inr (Or.inl (List.mem_singleton.mp hm))
  obtain ⟨added, a1, a2⟩ := hstream
  obtain ⟨e3, -, -⟩ := dfu_serial_execute_obj_frame cfg s.2.2
  by_cases h6 : s.1 = 0
  · rw [if_pos h6] at h
    simp only [Option.some.injEq, Prod.mk.injEq] at h
    obtain ⟨-, -, rfl⟩ := h
    refine ⟨added ++ [[4]], by rw [e3, a1, List.append_assoc], fun m hm => ?_⟩
    rcases List.mem_append.mp hm with hm | hm
    · exact a2 m hm
    · exact Or.inr (Or.inr (List.mem_singleton.mp hm))
  rw [if_neg h6] at h
  by_cases h7 : s.1 = 2
  · rw [if_pos h7] at h
    simp only [Option.some.injEq, Prod.mk.injEq] at h
    obtain ⟨-, -, rfl⟩ := h
    exact ⟨added, a1, a2⟩
  · rw [if_neg h7] at h
    simp only [Option.some.injEq, Prod.mk.injEq] at h
    obtain ⟨-, -, rfl⟩ := h
    exact ⟨added, a1, a2⟩

theorem object_requests_creates (p : List Nat) (N max : Nat) :
    ∀ (objs : List (List (List Nat))) (pos : Nat), object_writes_ok p N max pos objs →
      (object_requests N max pos objs).countP (fun m => decide (m.head? = some 1))
        = objs.length := by
  intro objs
  induction objs with
  | nil => intro pos _; simp [object_requests]
  | cons writes rest ih =>
    intro pos h
    obtain ⟨h1, -, -, h4⟩ := h
    have hw : writes.countP (fun m => decide (m.head? = some 1)) = 0 := by
      rw [List.countP_eq_zero]
      intro m hm
      simp [h1 m hm]
    unfold object_requests
    simp only [List.countP_append, ih _ h4, hw]
    simp [create_request, List.countP_cons]
    omega

/-- C8: chunking. Take a successful run of `dfu_serial_send_firmware` on a buffer
of `N` bytes in which `ObjectSelect` reported `max_size > 0` and recovery
returned the offset `r ≤ N`. After recovery the requests are exactly those of
`ceil((N - r) / max_size)` objects: the k-th is created (type 0x02) with size
`min (N - pos_k) max_size`, where `pos_0 = r` and `pos_(k+1) = pos_k + size_k`,
followed by `ObjectWrite` messages whose payload lengths sum to that size and
whose payloads concatenate to `buf[pos_k .. pos_k + size_k)`, then one `CrcGet`
and one `ObjectExecute`. Over the whole run the number of `ObjectCreate`
requests is that number of objects. -/
theorem send_firmware_chunking (cfg : Platform) (w : World) (p_data : List Nat)
    (data_size : Nat) (sel rec : nrf_dfu_response_select_t) (ws w1 w2 : World)
    (hmem : data_size ≤ p_data.length)
    (hsel : dfu_serial_select_obj cfg w 2 { offset := 0, crc := 0, max_size := 0 }
      = (0, sel, ws))
    (hrec : dfu_serial_try_to_recover_fw cfg ws p_data data_size sel = some (0, rec, w1))
    (hr : rec.offset ≤ data_size) (hmax : 0 < sel.max_size)
    (hrun : dfu_serial_send_firmware cfg w (some p_data) data_size = some (0, w2)) :
    (∃ objs : List (List (List Nat)),
      objs.length = (data_size - rec.offset + sel.max_size - 1) / sel.max_size
      ∧ requests w2.log
          = requests w1.log ++ object_requests data_size sel.max_size rec.offset objs
      ∧ object_writes_ok p_data data_size sel.max_size rec.offset objs)
    ∧ (∃ run : List (List Nat),
      requests w2.log = requests w.log ++ run
      ∧ run.countP (fun m => decide (m.head? = some 1))
          = (data_size - rec.offset + sel.max_size - 1) / sel.max_size) := by
  unfold dfu_serial_send_firmware at hrun
  simp only at hrun
  by_cases hN : data_size = 0
  · rw [if_pos hN] at hrun
    simp at hrun
  rw [if_neg hN, hsel] at hrun
  simp only [ne_eq, not_true_eq_false, if_false] at hrun
  rw [hrec] at hrun
  simp only [ne_eq, not_true_eq_false, if_false] at hrun
  obtain ⟨objs, o1, o2, o3⟩ := send_firmware_loop_trace cfg p_data data_size sel.max_size
    hmax hmem data_size w1 rec.offset _ w2 hr hrun
  refine ⟨⟨objs, o1, o2, o3⟩, ?_⟩
  obtain ⟨added, a1, a2⟩ := recover_fw_requests cfg ws p_data data_size sel rec 0 w1 hrec
  have hs := (dfu_serial_select_obj_frame cfg w 2 { offset := 0, crc := 0, max_size := 0 }).1
  rw [hsel] at hs
  simp only at hs
  refine ⟨[[6, 2]] ++ added ++ object_requests data_size sel.max_size rec.offset objs, ?_, ?_⟩
  · rw [o2, a1, hs]
    simp
  · have hadd : added.countP (fun m => decide (m.head? = some 1)) = 0 := by
      rw [List.countP_eq_zero]
      intro m hm
      rcases a2 m hm with h8 | h3 | h4
      · simp [h8]
      · simp [h3]
      · simp [h4]
    rw [List.countP_append, List.countP_append, hadd,
      object_requests_creates p_data data_size sel.max_size objs rec.offset o3, o1]
    simp [List.countP_cons]

set_option maxRecDepth 1000000 in
theorem send_firmware_chunking_witness :
    (dfu_serial_send_firmware nrf stale_world (some fw10) 10).map Prod.fst = some 0
    ∧ (∃ objs : List (List (List Nat)),
      objs.length = (10 - 4 + 4 - 1) / 4
      ∧ requests ((dfu_serial_send_firmware nrf stale_world (some fw10) 10).getD
            (1, stale_world)).2.log
          = [[6, 2]] ++ object_requests 10 4 4 objs
      ∧ object_writes_ok fw10 10 4 4 objs)
    ∧ (∃ run : List (List Nat),
      requests ((dfu_serial_send_firmware nrf stale_world (some fw10) 10).getD
            (1, stale_world)).2.log = requests stale_world.log ++ run
      ∧ run.countP (fun m => decide (m.head? = some 1)) = (10 - 4 + 4 - 1) / 4) :=
  ⟨by decide,
   send_firmware_chunking nrf stale_world fw10 10 stale_state { stale_state with offset := 4 }
    (dfu_serial_select_obj nrf stale_world 2 { offset := 0, crc := 0, max_size := 0 }).2.2
    (dfu_serial_select_obj nrf stale_world 2 { offset := 0, crc := 0, max_size := 0 }).2.2
    ((dfu_serial_send_firmware nrf stale_world (some fw10) 10).getD (1, stale_world)).2
    (by decide) (by decide) (by decide) (by decide) (by decide) (by decide)⟩

/-! ### The modelled CRC-32 can be continued -/

theorem crc32_bit_lt (crc : Nat) (h : crc < U32) : crc32_bit crc < U32 := by
  unfold crc32_bit
  have h1 : crc >>> 1 < 2 ^ 32 := by
    rw [Nat.shiftRight_eq_div_pow]
    simp only [U32] at h
    omega
  have h2 : (if crc % 2 = 1 then 3988292384 else 0) < 2 ^ 32 := by
    split_ifs <;> norm_num
  exact Nat.xor_lt_two_pow h1 h2

theorem crc32_byte_lt (crc b : Nat) (h : crc < U32) : crc32_byte crc b < U32 := by
  unfold crc32_byte
  have h0 : crc ^^^ (b % 256) < U32 := by
    have hb : b % 256 < 2 ^ 32 := by omega
    have hc : crc < 2 ^ 32 := by simpa [U32] using h
    exact Nat.xor_lt_two_pow hc hb
  exact crc32_bit_lt _ (crc32_bit_lt _ (crc32_bit_lt _ (crc32_bit_lt _
    (crc32_bit_lt _ (crc32_bit_lt _ (crc32_bit_lt _ (crc32_bit_lt _ h0)))))))

theorem crc32_foldl_lt (d : List Nat) (crc : Nat) (h : crc < U32) :
    d.foldl crc32_byte crc < U32 := by
  induction d generalizing crc with
  | nil => simpa using h
  | cons b rest ih => exact ih _ (crc32_byte_lt crc b h)

theorem crc32_ieee_continue (a b : List Nat) :
    crc32_ieee b (some (crc32_ieee a none)) = crc32_ieee (a ++ b) none := by
  unfold crc32_ieee
  simp only [List.foldl_append]
  have h := crc32_foldl_lt a 4294967295 (by simp [U32])
  have h1 : List.foldl crc32_byte 4294967295 a % U32 = List.foldl crc32_byte 4294967295 a :=
    Nat.mod_eq_of_lt h
  have h2 : 4294967295 - (4294967295 - List.foldl crc32_byte 4294967295 a % U32) % U32
      = List.foldl crc32_byte 4294967295 a := by
    rw [h1]
    simp only [U32] at h ⊢
    omega
  rw [h2]

/-! ### The running CRC -/

theorem stream_data_crc_checks (cfg : Platform) (w : World) (p q : List Nat)
    (n pos crc0 : Nat) (e : Int) (c : Nat) (w1 : World)
    (hgood : cfg.crc32_compute (q.take n) (some crc0) = cfg.crc32_compute (p.take (pos + n)) none)
    (hrange : pos + n < U32)
    (h : dfu_serial_stream_data_crc cfg w q n pos crc0 = some (e, c, w1)) :
    (∃ new, w1.checks = w.checks ++ new ∧ checks_ok cfg p new)
    ∧ (e = 0 → c = cfg.crc32_compute (p.take (pos + n)) none) := by
  obtain ⟨writes, -, -, h3⟩ := stream_data_crc_cases cfg w q n pos crc0 e c w1 h
  rcases h3 with ⟨h0, -, -, h4⟩ | ⟨-, h5, -, h7⟩
  · exact ⟨⟨[], by simp [h4], by simp [checks_ok]⟩, fun he => absurd he h0⟩
  · refine ⟨?_, fun _ => by rw [h5, hgood]⟩
    rcases h7 with ⟨-, h8⟩ | h8
    · exact ⟨[], by simp [h8], by simp [checks_ok]⟩
    · refine ⟨[((pos + n) % U32, c)], h8, ?_⟩
      intro oc hoc
      simp only [List.mem_singleton] at hoc
      subst hoc
      simp only
      rw [Nat.mod_eq_of_lt hrange, h5, hgood]

theorem send_firmware_loop_checks (cfg : Platform) (p : List Nat) (N max : Nat)
    (hcont : ∀ a b, cfg.crc32_compute b (some (cfg.crc32_compute a none))
      = cfg.crc32_compute (a ++ b) none)
    (hN : N < U32) :
    ∀ (fuel : Nat) (w : World) (pos crc : Nat) (e : Int) (w2 : World),
      crc = cfg.crc32_compute (p.take pos) none →
      dfu_serial_send_firmware_loop cfg fuel w p N max pos crc = some (e, w2) →
      ∃ new, w2.checks = w.checks ++ new ∧ checks_ok cfg p new := by
  intro fuel
  induction fuel with
  | zero =>
    intro w pos crc e w2 hcrc h
    unfold dfu_serial_send_firmware_loop at h
    split_ifs at h with hc
    simp only [Option.some.injEq, Prod.mk.injEq] at h
    obtain ⟨-, rfl⟩ := h
    exact ⟨[], by simp, by simp [checks_ok]⟩
  | succ fuel ih =>
    intro w pos crc e w2 hcrc h
    unfold dfu_serial_send_firmware_loop at h
    by_cases hc : pos < N
    swap
    · rw [if_neg hc] at h
      simp only [Option.some.injEq, Prod.mk.injEq] at h
      obtain ⟨-, rfl⟩ := h
      exact ⟨[], by simp, by simp [checks_ok]⟩
    rw [if_pos hc] at h
    simp only at h
    obtain ⟨-, c2, -⟩ := dfu_serial_create_obj_frame cfg w 2 (min (N - pos) max)
    by_cases hc1 : (dfu_serial_create_obj cfg w 2 (min (N - pos) max)).1 ≠ 0
    · rw [if_pos hc1] at h
      simp only [Option.some.injEq] at h
      rw [h] at c2
      exact ⟨[], by simpa using c2, by simp [checks_ok]⟩
    rw [if_neg hc1] at h
    split at h
    · simp at h
    rename_i s hs
    have hsize : min (N - pos) max ≤ N - pos := Nat.min_le_left _ _
    have hgood : cfg.crc32_compute ((p.drop pos).take (min (N - pos) max)) (some crc)
        = cfg.crc32_compute (p.take (pos + min (N - pos) max)) none := by
      rw [hcrc, hcont, List.take_add]
    obtain ⟨⟨new1, n1, n2⟩, n3⟩ := stream_data_crc_checks cfg _ p _ _ pos crc s.1 s.2.1 s.2.2
      hgood (by omega) hs
    rw [c2] at n1
    by_cases hs1 : s.1 ≠ 0
    · rw [if_pos hs1] at h
      simp only [Option.some.injEq, Prod.mk.injEq] at h
      obtain ⟨-, rfl⟩ := h
      exact ⟨new1, n1, n2⟩
    rw [if_neg hs1] at h
    obtain ⟨-, e2, -⟩ := dfu_serial_execute_obj_frame cfg s.2.2
    by_cases he1 : (dfu_serial_execute_obj cfg s.2.2).1 ≠ 0
    · rw [if_pos he1] at h
      simp only [Option.some.injEq] at h
      rw [h] at e2
      simp only at e2
      exact ⟨new1, by rw [e2, n1], n2⟩
    rw [if_neg he1] at h
    obtain ⟨new2, m1, m2⟩ := ih _ _ _ _ _ (n3 (by simpa using hs1)) h
    refine ⟨new1 ++ new2, by rw [m1, e2, n1, List.append_assoc], ?_⟩
    intro oc hoc
    rcases List.mem_append.mp hoc with h' | h'
    · exact n2 oc h'
    · exact m2 oc h'

theorem recover_fw_checks (cfg : Platform) (w : World) (p : List Nat) (N : Nat)
    (sel rec : nrf_dfu_response_select_t) (e : Int) (w1 : World)
    (hcont : ∀ a b, cfg.crc32_compute b (some (cfg.crc32_compute a none))
      = cfg.crc32_compute (a ++ b) none)
    (hrange : sel.offset + sel.max_size ≤ U32)
    (h : dfu_serial_try_to_recover_fw cfg w p N sel = some (e, rec, w1)) :
    ∃ new, w1.checks = w.checks ++ new ∧ checks_ok cfg p new := by
  have hnil : ∃ new, w.checks = w.checks ++ new ∧ checks_ok cfg p new :=
    ⟨[], by simp, by simp [checks_ok]⟩
  unfold dfu_serial_try_to_recover_fw at h
  simp only at h
  by_cases h1 : sel.offset > N
  · rw [if_pos h1] at h
    simp only [Option.some.injEq, Prod.mk.injEq] at h
    obtain ⟨-, -, rfl⟩ := h
    exact hnil
  rw [if_neg h1] at h
  by_cases h2 : sel.offset > 0
  swap
  · rw [if_neg h2] at h
    simp only [Option.some.injEq, Prod.mk.injEq] at h
    obtain ⟨-, -, rfl⟩ := h
    exact hnil
  rw [if_pos h2] at h
  by_cases h3 : sel.max_size = 0
  · rw [if_pos h3] at h
    simp at h
  rw [if_neg h3] at h
  by_cases h4 : sel.crc ≠ cfg.crc32_compute (List.take sel.offset p) none
  · rw [if_pos h4] at h
    simp only [Option.some.injEq, Prod.mk.injEq] at h
    obtain ⟨-, -, rfl⟩ := h
    exact hnil
  rw [if_neg h4] at h
  obtain ⟨-, e2, -⟩ := dfu_serial_execute_obj_frame cfg w
  by_cases h5 : sel.offset % sel.max_size > 0
  swap
  · rw [if_neg h5] at h
    simp only [Option.some.injEq, Prod.mk.injEq] at h
    obtain ⟨-, -, rfl⟩ := h
    exact ⟨[], by simp [e2], by simp [checks_ok]⟩
  rw [if_pos h5] at h
  split at h
  · simp at h
  rename_i s hs
  have hlt : sel.offset % sel.max_size < sel.max_size := Nat.mod_lt _ (Nat.pos_of_ne_zero h3)
  have hgood : cfg.crc32_compute ((p.drop sel.offset).take (sel.max_size - sel.offset % sel.max_size))
        (some (cfg.crc32_compute (p.take sel.offset) none))
      = cfg.crc32_compute (p.take (sel.offset + (sel.max_size - sel.offset % sel.max_size))) none := by
    rw [hcont, List.take_add]
  obtain ⟨⟨new1, n1, n2⟩, -⟩ := stream_data_crc_checks cfg _ p _ _ sel.offset _ s.1 s.2.1 s.2.2
    hgood (by simp only [U32] at *; omega) hs
  obtain ⟨-, e3, -⟩ := dfu_serial_execute_obj_frame cfg s.2.2
  by_cases h6 : s.1 = 0
  · rw [if_pos h6] at h
    simp only [Option.some.injEq, Prod.mk.injEq] at h
    obtain ⟨-, -, rfl⟩ := h
    exact ⟨new1, by rw [e3, n1], n2⟩
  rw [if_neg h6] at h
  by_cases h7 : s.1 = 2
  · rw [if_pos h7] at h
    simp only [Option.some.injEq, Prod.mk.injEq] at h
    obtain ⟨-, -, rfl⟩ := h
    exact ⟨new1, n1, n2⟩
  · rw [if_neg h7] at h
    simp only [Option.some.injEq, Prod.mk.injEq] at h
    obtain ⟨-, -, rfl⟩ := h
    exact ⟨new1, n1, n2⟩

theorem recover_ip_checks (cfg : Platform) (w : World) (p : List Nat) (N : Nat)
    (sel rec : nrf_dfu_response_select_t) (e : Int) (w1 : World)
    (hcont : ∀ a b, cfg.crc32_compute b (some (cfg.crc32_compute a none))
      = cfg.crc32_compute (a ++ b) none)
    (hN : N < U32)
    (h : dfu_serial_try_to_recover_ip cfg w p N sel = some (e, rec, w1)) :
    ∃ new, w1.checks = w.checks ++ new ∧ checks_ok cfg p new := by
  have hnil : ∃ new, w.checks = w.checks ++ new ∧ checks_ok cfg p new :=
    ⟨[], by simp, by simp [checks_ok]⟩
  have hexe : ∃ new, (dfu_serial_execute_obj cfg w).2.checks = w.checks ++ new
      ∧ checks_ok cfg p new :=
    ⟨[], by simp [(dfu_serial_execute_obj_frame cfg w).2.1], by simp [checks_ok]⟩
  unfold dfu_serial_try_to_recover_ip at h
  simp only at h
  by_cases hcond : sel.offset > 0 ∧ sel.offset ≤ N
  swap
  · simp only [hcond, if_false, gt_iff_lt, lt_self_iff_false, false_and] at h
    split_ifs at h <;>
      (simp only [Option.some.injEq, Prod.mk.injEq] at h; obtain ⟨-, -, rfl⟩ := h)
    · exact hexe
    · exact hnil
  by_cases hm : sel.crc ≠ cfg.crc32_compute (List.take sel.offset p) none
  · simp only [hcond, hm, if_true, and_self, gt_iff_lt, lt_self_iff_false, false_and,
      if_false, ne_eq, not_false_eq_true] at h
    split_ifs at h <;>
      (simp only [Option.some.injEq, Prod.mk.injEq] at h; obtain ⟨-, -, rfl⟩ := h)
    · exact hexe
    · exact hnil
  simp only [hcond, hm, if_true, and_self, if_false] at h
  by_cases hlt : sel.offset < N
  swap
  · simp only [hlt, and_false, if_false] at h
    split_ifs at h <;>
      (simp only [Option.some.injEq, Prod.mk.injEq] at h; obtain ⟨-, -, rfl⟩ := h)
    · exact hexe
    · exact hnil
  simp only [hcond.1, hlt, and_self, if_true] at h
  split at h
  · simp at h
  rename_i s hs
  have hgood : cfg.crc32_compute ((p.drop sel.offset).take (N - sel.offset))
        (some (cfg.crc32_compute (p.take sel.offset) none))
      = cfg.crc32_compute (p.take (sel.offset + (N - sel.offset))) none := by
    rw [hcont, List.take_add]
  obtain ⟨⟨new1, n1, n2⟩, -⟩ := stream_data_crc_checks cfg _ p _ _ sel.offset _ s.1 s.2.1 s.2.2
    hgood (by omega) hs
  obtain ⟨-, e3, -⟩ := dfu_serial_execute_obj_frame cfg s.2.2
  split_ifs at h <;>
    (simp only [Option.some.injEq, Prod.mk.injEq] at h; obtain ⟨-, -, rfl⟩ := h)
  · exact ⟨new1, by rw [e3, n1], n2⟩
  · exact ⟨new1, n1, n2⟩
  · exact ⟨new1, by rw [e3, n1], n2⟩
  · exact ⟨new1, n1, n2⟩
  · exact ⟨new1, n1, n2⟩

/-- C9: assume `crc32_compute` continues a CRC (`crc32_compute(b, &crc32(a))` is
`crc32(a ++ b)`) and gives the CRC of the data alone when started from 0 as it
does from `NULL`. Then every `CrcGet` checkpoint reached by
`dfu_serial_send_firmware` (recovery and every object, the last one included)
and by `dfu_serial_send_init_packet` compares the response with a pair
`(offset, crc)` in which `crc` is `crc32(buf[0..offset))`, `offset` being the
position the host has streamed up to. Sizes are 32-bit: `N < 2^32`, and for the
firmware the reported `offset + max_size` does not exceed `2^32`. -/
theorem crc_checkpoints (cfg : Platform) (w : World) (buf : List Nat) (N : Nat)
    (hcont : ∀ a b, cfg.crc32_compute b (some (cfg.crc32_compute a none))
      = cfg.crc32_compute (a ++ b) none)
    (hzero : ∀ d, cfg.crc32_compute d (some 0) = cfg.crc32_compute d none)
    (hN : N < U32) :
    (∀ (e : Int) (w2 : World),
      (dfu_serial_select_obj cfg w 2 { offset := 0, crc := 0, max_size := 0 }).2.1.offset
        + (dfu_serial_select_obj cfg w 2 { offset := 0, crc := 0, max_size := 0 }).2.1.max_size
        ≤ U32 →
      dfu_serial_send_firmware cfg w (some buf) N = some (e, w2) →
      ∃ new, w2.checks = w.checks ++ new ∧ checks_ok cfg buf new)
    ∧ (∀ (e : Int) (w2 : World),
      dfu_serial_send_init_packet cfg w (some buf) N = some (e, w2) →
      ∃ new, w2.checks = w.checks ++ new ∧ checks_ok cfg buf new) := by
  have hnil : ∃ new, w.checks = w.checks ++ new ∧ checks_ok cfg buf new :=
    ⟨[], by simp, by simp [checks_ok]⟩
  constructor
  · intro e w2 hrange h
    unfold dfu_serial_send_firmware at h
    simp only at h
    by_cases hN0 : N = 0
    · rw [if_pos hN0] at h
      simp only [Option.some.injEq, Prod.mk.injEq] at h
      obtain ⟨-, rfl⟩ := h
      exact hnil
    rw [if_neg hN0] at h
    obtain ⟨-, s2, -⟩ := dfu_serial_select_obj_frame cfg w 2 { offset := 0, crc := 0, max_size := 0 }
    by_cases hs : (dfu_serial_select_obj cfg w 2 { offset := 0, crc := 0, max_size := 0 }).1 ≠ 0
    · rw [if_pos hs] at h
      simp only [Option.some.injEq, Prod.mk.injEq] at h
      obtain ⟨-, rfl⟩ := h
      exact ⟨[], by simp [s2], by simp [checks_ok]⟩
    rw [if_neg hs] at h
    split at h
    · simp at h
    rename_i rec hrec
    obtain ⟨new1, n1, n2⟩ := recover_fw_checks cfg _ buf N _ rec.2.1 rec.1 rec.2.2 hcont hrange hrec
    rw [s2] at n1
    by_cases hr : rec.1 ≠ 0
    · rw [if_pos hr] at h
      simp only [Option.some.injEq, Prod.mk.injEq] at h
      obtain ⟨-, rfl⟩ := h
      exact ⟨new1, n1, n2⟩
    rw [if_neg hr] at h
    obtain ⟨new2, m1, m2⟩ := send_firmware_loop_checks cfg buf N _ hcont hN N rec.2.2
      rec.2.1.offset _ e w2 (hzero _) h
    refine ⟨new1 ++ new2, by rw [m1, n1, List.append_assoc], ?_⟩
    intro oc hoc
    rcases List.mem_append.mp hoc with h' | h'
    · exact n2 oc h'
    · exact m2 oc h'
  · intro e w2 h
    unfold dfu_serial_send_init_packet at h
    simp only at h
    by_cases hN0 : N = 0
    · rw [if_pos hN0] at h
      simp only [Option.some.injEq, Prod.mk.injEq] at h
      obtain ⟨-, rfl⟩ := h
      exact hnil
    rw [if_neg hN0] at h
    obtain ⟨-, s2, -⟩ := dfu_serial_select_obj_frame cfg w 1 { offset := 0, crc := 0, max_size := 0 }
    by_cases hs : (dfu_serial_select_obj cfg w 1 { offset := 0, crc := 0, max_size := 0 }).1 ≠ 0
    · rw [if_pos hs] at h
      simp only [Option.some.injEq, Prod.mk.injEq] at h
      obtain ⟨-, rfl⟩ := h
      exact ⟨[], by simp [s2], by simp [checks_ok]⟩
    rw [if_neg hs] at h
    split at h
    · simp at h
    rename_i rec hrec
    obtain ⟨new1, n1, n2⟩ := recover_ip_checks cfg _ buf N _ rec.2.1 rec.1 rec.2.2 hcont hN hrec
    rw [s2] at n1
    by_cases hr : rec.1 ≠ 0
    · rw [if_pos hr] at h
      simp only [Option.some.injEq, Prod.mk.injEq] at h
      obtain ⟨-, rfl⟩ := h
      exact ⟨new1, n1, n2⟩
    rw [if_neg hr] at h
    by_cases hdone : rec.2.1.offset = N
    · rw [if_pos hdone] at h
      simp only [Option.some.injEq, Prod.mk.injEq] at h
      obtain ⟨-, rfl⟩ := h
      exact ⟨new1, n1, n2⟩
    rw [if_neg hdone] at h
    by_cases hbig : N > (dfu_serial_select_obj cfg w 1 { offset := 0, crc := 0, max_size := 0 }).2.1.max_size
    · rw [if_pos hbig] at h
      simp only [Option.some.injEq, Prod.mk.injEq] at h
      obtain ⟨-, rfl⟩ := h
      exact ⟨new1, n1, n2⟩
    rw [if_neg hbig] at h
    obtain ⟨-, c2, -⟩ := dfu_serial_create_obj_frame cfg rec.2.2 1 N
    by_cases hc : (dfu_serial_create_obj cfg rec.2.2 1 N).1 ≠ 0
    · rw [if_pos hc] at h
      simp only [Option.some.injEq] at h
      rw [h] at c2
      simp only at c2
      exact ⟨new1, by rw [c2, n1], n2⟩
    rw [if_neg hc] at h
    split at h
    · simp at h
    rename_i s hs'
    have hgood : cfg.crc32_compute (buf.take N) (some 0)
        = cfg.crc32_compute (buf.take (0 + N)) none := by
      rw [hzero, Nat.zero_add]
    obtain ⟨⟨new2, m1, m2⟩, -⟩ := stream_data_crc_checks cfg _ buf _ _ 0 _ s.1 s.2.1 s.2.2
      hgood (by omega) hs'
    have hall : checks_ok cfg buf (new1 ++ new2) := by
      intro oc hoc
      rcases List.mem_append.mp hoc with h' | h'
      · exact n2 oc h'
      · exact m2 oc h'
    by_cases hs1 : s.1 ≠ 0
    · rw [if_pos hs1] at h
      simp only [Option.some.injEq, Prod.mk.injEq] at h
      obtain ⟨-, rfl⟩ := h
      exact ⟨new1 ++ new2, by rw [m1, c2, n1, List.append_assoc], hall⟩
    rw [if_neg hs1] at h
    obtain ⟨-, e2, -⟩ := dfu_serial_execute_obj_frame cfg s.2.2
    simp only [Option.some.injEq] at h
    rw [h] at e2
    simp only at e2
    exact ⟨new1 ++ new2, by rw [e2, m1, c2, n1, List.append_assoc], hall⟩

set_option maxRecDepth 1000000 in
theorem crc_checkpoints_witness :
    ((dfu_serial_send_firmware nrf stale_world (some fw10) 10).map
        (fun r => (r.1, r.2.checks))
        = some (0, [(8, crc32_ieee (fw10.take 8) none), (10, crc32_ieee fw10 none)])
      ∧ ∃ new, ((dfu_serial_send_firmware nrf stale_world (some fw10) 10).getD
          (1, stale_world)).2.checks = stale_world.checks ++ new ∧ checks_ok nrf fw10 new)
    ∧ ((dfu_serial_send_init_packet nrf init_world (some fw10) 10).map
        (fun r => (r.1, r.2.checks)) = some (0, [(10, crc32_ieee fw10 none)])
      ∧ ∃ new, ((dfu_serial_send_init_packet nrf init_world (some fw10) 10).getD
          (1, init_world)).2.checks = init_world.checks ++ new ∧ checks_ok nrf fw10 new) :=
  ⟨⟨by decide,
    (crc_checkpoints nrf stale_world fw10 10 (fun a b => crc32_ieee_continue a b)
      crc32_ieee_zero (by decide)).1 0
      ((dfu_serial_send_firmware nrf stale_world (some fw10) 10).getD (1, stale_world)).2
      (by decide) (by decide)⟩,
   ⟨by decide,
    (crc_checkpoints nrf init_world fw10 10 (fun a b => crc32_ieee_continue a b)
      crc32_ieee_zero (by decide)).2 0
      ((dfu_serial_send_init_packet nrf init_world (some fw10) 10).getD (1, init_world)).2
      (by decide)⟩⟩

/-! ### Result codes -/

theorem uart_drv_send_01 (w : World) (d : List Nat) (n : Nat) (h : driver_01 w) :
    ((uart_drv_send w d n).1 = 0 ∨ (uart_drv_send w d n).1 = 1)
    ∧ driver_01 (uart_drv_send w d n).2 := by
  unfold uart_drv_send
  split
  · rename_i h0
    exact ⟨Or.inl rfl, by simpa [driver_01, h0] using h.2⟩
  · rename_i r rest h0
    obtain ⟨h1, h2⟩ := h
    rw [h0] at h1
    exact ⟨h1 r (List.mem_cons_self _ _),
      fun x hx => h1 x (List.mem_cons_of_mem _ hx), h2⟩

theorem dfu_serial_send_01 (cfg : Platform) (w : World) (d : List Nat) (n : Nat)
    (h : driver_01 w) :
    ((dfu_serial_send cfg w d n).1 = 0 ∨ (dfu_serial_send cfg w d n).1 = 1)
    ∧ driver_01 (dfu_serial_send cfg w d n).2 := by
  unfold dfu_serial_send uart_slip_send
  split_ifs
  · exact ⟨Or.inr rfl, h⟩
  · exact uart_drv_send_01 _ _ _ h

theorem uart_slip_receive_loop_01 (cfg : Platform) :
    ∀ (reads : List (Int × List Nat)) (buff : List Nat) (slip_len : Nat) (pData : List Nat)
      (pSize : Nat),
      (∀ r ∈ reads, r.1 = 0 ∨ r.1 = 1) →
      ((uart_slip_receive_loop cfg reads buff slip_len pData pSize).1 = 0
        ∨ (uart_slip_receive_loop cfg reads buff slip_len pData pSize).1 = 1)
      ∧ (∀ r ∈ (uart_slip_receive_loop cfg reads buff slip_len pData pSize).2.2.2,
          r.1 = 0 ∨ r.1 = 1) := by
  intro reads
  induction reads with
  | nil =>
    intro buff slip_len pData pSize h
    unfold uart_slip_receive_loop
    simp only
    split_ifs <;> simp
  | cons r rest ih =>
    intro buff slip_len pData pSize h
    have hr := h r (List.mem_cons_self _ _)
    have hrest : ∀ x ∈ rest, x.1 = 0 ∨ x.1 = 1 := fun x hx => h x (List.mem_cons_of_mem _ hx)
    unfold uart_slip_receive_loop
    simp only
    split_ifs with h1 h2 h3 h4
    · exact ⟨Or.inr rfl, h⟩
    · exact ⟨hr, hrest⟩
    · exact ⟨Or.inr rfl, hrest⟩
    · exact ⟨Or.inl rfl, hrest⟩
    · exact ih _ _ _ _ hrest

theorem dfu_serial_get_rsp_01 (cfg : Platform) (w : World) (oper c0 : Nat) (h : driver_01 w) :
    ((dfu_serial_get_rsp cfg w oper c0).1 = 0 ∨ (dfu_serial_get_rsp cfg w oper c0).1 = 1)
    ∧ driver_01 (dfu_serial_get_rsp cfg w oper c0).2.2 := by
  obtain ⟨l1, l2⟩ := uart_slip_receive_loop_01 cfg w.recv_results [] 0 w.receive_data c0 h.2
  unfold dfu_serial_get_rsp uart_slip_receive
  simp only
  split_ifs with h1 h2 h3
  · exact ⟨Or.inr rfl, h.1, l2⟩
  · exact ⟨Or.inl h1, h.1, l2⟩
  · exact ⟨Or.inr rfl, h.1, l2⟩
  · exact ⟨l1, h.1, l2⟩

theorem dfu_serial_get_crc_01 (cfg : Platform) (w : World) (r0 : nrf_dfu_response_crc_t)
    (h : driver_01 w) :
    (dfu_serial_get_crc cfg w r0).1 = 0 ∨ (dfu_serial_get_crc cfg w r0).1 = 1 := by
  obtain ⟨s1, s2⟩ := dfu_serial_send_01 cfg w [NRF_DFU_OP_CRC_GET] 1 h
  obtain ⟨g1, -⟩ := dfu_serial_get_rsp_01 cfg _ NRF_DFU_OP_CRC_GET 0 s2
  unfold dfu_serial_get_crc
  simp only
  split_ifs with h1 h2 h3
  · exact Or.inl h2
  · exact Or.inr rfl
  · exact g1
  · exact s1

theorem stream_loop_01 (cfg : Platform) (p : List Nat) (n stp_max : Nat) :
    ∀ (fuel : Nat) (w : World) (pos : Nat) (err e : Int) (w1 : World),
      driver_01 w → (err = 0 ∨ err = 1) →
      dfu_serial_stream_data_loop cfg fuel w p n stp_max pos err = some (e, w1) →
      (e = 0 ∨ e = 1) ∧ driver_01 w1 := by
  intro fuel
  induction fuel with
  | zero =>
    intro w pos err e w1 hw herr h
    unfold dfu_serial_stream_data_loop at h
    split_ifs at h with hc
    simp only [Option.some.injEq, Prod.mk.injEq] at h
    obtain ⟨rfl, rfl⟩ := h
    exact ⟨herr, hw⟩
  | succ fuel ih =>
    intro w pos err e w1 hw herr h
    unfold dfu_serial_stream_data_loop at h
    split_ifs at h with hc
    · simp only at h
      obtain ⟨s1, s2⟩ := dfu_serial_send_01 cfg w
        ([NRF_DFU_OP_OBJECT_WRITE] ++ (p.drop pos).take (min (n - pos) stp_max))
        (min (n - pos) stp_max + 1) hw
      exact ih _ _ _ _ _ s2 s1 h
    · simp only [Option.some.injEq, Prod.mk.injEq] at h
      obtain ⟨rfl, rfl⟩ := h
      exact ⟨herr, hw⟩

theorem dfu_serial_stream_data_01 (cfg : Platform) (w : World) (p : List Nat) (n : Nat)
    (e : Int) (w1 : World) (hw : driver_01 w)
    (h : dfu_serial_stream_data cfg w p n = some (e, w1)) :
    (e = 0 ∨ e = 1) ∧ driver_01 w1 := by
  unfold dfu_serial_stream_data at h
  refine stream_loop_01 cfg p n _ _ _ _ _ _ _ hw ?_ h
  split_ifs <;> simp

theorem crc_check_codes (rsp : nrf_dfu_response_crc_t) (pos n crc : Nat) :
    (crc_check rsp pos n crc = 0 ↔ (rsp.offset = (pos + n) % U32 ∧ rsp.crc = crc))
    ∧ (crc_check rsp pos n crc = 0 ∨ crc_check rsp pos n crc = 2) := by
  unfold crc_check
  simp only
  split_ifs <;> simp_all
/-! ### The length of a received frame -/

theorem decode_slip_loop_length :
    ∀ (src dst : List Nat) (n : Nat) (esc : Bool), dst.length = n →
      (decode_slip_loop src dst n esc).2.1.length = (decode_slip_loop src dst n esc).2.2 := by
  intro src
  induction src with
  | nil => intro dst n esc h; simpa [decode_slip_loop] using h
  | cons b rest ih =>
    intro dst n esc h
    unfold decode_slip_loop
    split_ifs <;> first
      | exact h
      | (apply ih; simp [h])

theorem uart_slip_receive_loop_length (cfg : Platform) :
    ∀ (reads : List (Int × List Nat)) (buff : List Nat) (slip_len : Nat) (pData : List Nat)
      (pSize : Nat),
      (uart_slip_receive_loop cfg reads buff slip_len pData pSize).1 = 0 →
      (uart_slip_receive_loop cfg reads buff slip_len pData pSize).2.1.length
        = (uart_slip_receive_loop cfg reads buff slip_len pData pSize).2.2.1 := by
  intro reads
  induction reads with
  | nil =>
    intro buff slip_len pData pSize h
    unfold uart_slip_receive_loop at h
    simp only at h
    split_ifs at h <;> simp at h
  | cons r rest ih =>
    intro buff slip_len pData pSize
    unfold uart_slip_receive_loop
    simp only
    split_ifs with h1 h2 h3 h4
    · intro h; simp at h
    · intro h; exact absurd h h2
    · intro h; simp at h
    · intro _
      exact decode_slip_loop_length _ [] 0 false rfl
    · exact ih _ _ _ _

theorem dfu_serial_get_rsp_length (cfg : Platform) (w : World) (oper c0 : Nat)
    (h : (dfu_serial_get_rsp cfg w oper c0).1 = 0) :
    (dfu_serial_get_rsp cfg w oper c0).2.2.receive_data.length
      = (dfu_serial_get_rsp cfg w oper c0).2.1 := by
  have hl := uart_slip_receive_loop_length cfg w.recv_results [] 0 w.receive_data c0
  unfold dfu_serial_get_rsp uart_slip_receive at h ⊢
  simp only at h ⊢
  split_ifs at h ⊢ with h1 h2 h3
  · simp at h
  · exact hl h1
  · simp at h
  · exact absurd h h1

theorem dfu_serial_get_crc_ok (cfg : Platform) (w : World) (r0 : nrf_dfu_response_crc_t)
    (h : (dfu_serial_get_crc cfg w r0).1 = 0) :
    (dfu_serial_get_crc cfg w r0).2.2.receive_data.length = 11
    ∧ (dfu_serial_get_crc cfg w r0).2.1.offset
        = get_uint32_le ((dfu_serial_get_crc cfg w r0).2.2.receive_data.drop 3)
    ∧ (dfu_serial_get_crc cfg w r0).2.1.crc
        = get_uint32_le ((dfu_serial_get_crc cfg w r0).2.2.receive_data.drop 7) := by
  have hl := dfu_serial_get_rsp_length cfg (dfu_serial_send cfg w [NRF_DFU_OP_CRC_GET] 1).2
    NRF_DFU_OP_CRC_GET 0
  unfold dfu_serial_get_crc at h ⊢
  simp only at h ⊢
  split_ifs at h ⊢ with h1 h2 h3
  · exact ⟨by rw [hl h2, h3], rfl, rfl⟩
  · simp at h
  · exact absurd h h2
  · exact absurd h h1

/-- C10: the result of `dfu_serial_stream_data_crc(data, len, pos, crc)`. When
the writes succeed (`dfu_serial_stream_data` returns 0) and the `CrcGet`
exchange succeeds (`dfu_serial_get_crc` returns 0), the received frame has 11
bytes and the result is 0 exactly when the little-endian word at bytes 3..6
equals `pos + len` (32-bit) and the word at bytes 7..10 equals the CRC continued
from `crc` over `data[0..len)`; otherwise the result is 2. If the serial driver
returns only 0 and 1, a result of 2 arises in no other way: the writes and the
exchange succeeded and one of the two words differs. -/
theorem stream_data_crc_result (cfg : Platform) (w : World) (p_data : List Nat)
    (data_size pos crc : Nat) (e : Int) (c : Nat) (w1 : World)
    (h : dfu_serial_stream_data_crc cfg w p_data data_size pos crc = some (e, c, w1)) :
    (∀ ws : World, dfu_serial_stream_data cfg w p_data data_size = some (0, ws) →
      (dfu_serial_get_crc cfg ws { offset := 0, crc := 0 }).1 = 0 →
      (dfu_serial_get_crc cfg ws { offset := 0, crc := 0 }).2.2.receive_data.length = 11
      ∧ (e = 0 ↔
          (get_uint32_le
              ((dfu_serial_get_crc cfg ws { offset := 0, crc := 0 }).2.2.receive_data.drop 3)
            = (pos + data_size) % U32
          ∧ get_uint32_le
              ((dfu_serial_get_crc cfg ws { offset := 0, crc := 0 }).2.2.receive_data.drop 7)
            = cfg.crc32_compute (p_data.take data_size) (some crc)))
      ∧ (e ≠ 0 → e = 2))
    ∧ (driver_01 w → e = 2 →
        ∃ ws : World, dfu_serial_stream_data cfg w p_data data_size = some (0, ws)
          ∧ (dfu_serial_get_crc cfg ws { offset := 0, crc := 0 }).1 = 0
          ∧ ¬ (get_uint32_le
                ((dfu_serial_get_crc cfg ws { offset := 0, crc := 0 }).2.2.receive_data.drop 3)
              = (pos + data_size) % U32
            ∧ get_uint32_le
                ((dfu_serial_get_crc cfg ws { offset := 0, crc := 0 }).2.2.receive_data.drop 7)
              = cfg.crc32_compute (p_data.take data_size) (some crc)))
    ∧ (pos + data_size < U32 → (pos + data_size) % U32 = pos + data_size) := by
  refine ⟨?_, ?_, fun hr => Nat.mod_eq_of_lt hr⟩
  · intro ws hs hg
    obtain ⟨g1, g2, g3⟩ := dfu_serial_get_crc_ok cfg ws { offset := 0, crc := 0 } hg
    unfold dfu_serial_stream_data_crc at h
    rw [hs] at h
    simp only [if_true] at h
    rw [if_pos hg] at h
    simp only [Option.some.injEq, Prod.mk.injEq] at h
    obtain ⟨he, -, -⟩ := h
    obtain ⟨k1, k2⟩ := crc_check_codes (dfu_serial_get_crc cfg ws { offset := 0, crc := 0 }).2.1
      pos data_size (cfg.crc32_compute (p_data.take data_size) (some crc))
    rw [he, g2, g3] at k1
    rw [he] at k2
    exact ⟨g1, k1, fun hne => k2.resolve_left hne⟩
  · intro hw he
    subst he
    unfold dfu_serial_stream_data_crc at h
    split at h
    · simp at h
    rename_i s hs
    obtain ⟨s1, s2⟩ := dfu_serial_stream_data_01 cfg w p_data data_size s.1 s.2 hw hs
    by_cases hs0 : s.1 = 0
    swap
    · rw [if_neg hs0] at h
      simp only [Option.some.injEq, Prod.mk.injEq] at h
      rcases s1 with s1 | s1
      · exact absurd s1 hs0
      · rw [s1] at h
        exact absurd h.1 (by decide)
    rw [if_pos hs0] at h
    simp only at h
    have g01 := dfu_serial_get_crc_01 cfg s.2 { offset := 0, crc := 0 } s2
    by_cases hg : (dfu_serial_get_crc cfg s.2 { offset := 0, crc := 0 }).1 = 0
    swap
    · rw [if_neg hg] at h
      simp only [Option.some.injEq, Prod.mk.injEq] at h
      rcases g01 with g01 | g01
      · exact absurd g01 hg
      · rw [g01] at h
        exact absurd h.1 (by decide)
    rw [if_pos hg] at h
    simp only [Option.some.injEq, Prod.mk.injEq] at h
    obtain ⟨he, -, -⟩ := h
    obtain ⟨-, g2, g3⟩ := dfu_serial_get_crc_ok cfg s.2 { offset := 0, crc := 0 } hg
    obtain ⟨k1, -⟩ := crc_check_codes (dfu_serial_get_crc cfg s.2 { offset := 0, crc := 0 }).2.1
      pos data_size (cfg.crc32_compute (p_data.take data_size) (some crc))
    rw [he, g2, g3] at k1
    refine ⟨s.2, ?_, hg, fun hm => ?_⟩
    · rw [hs, ← hs0]
    · have := k1.mpr hm
      exact absurd this (by decide)

set_option maxRecDepth 1000000 in
theorem stream_data_crc_result_witness :
    (dfu_serial_stream_data_crc nrf resume_world (fw10.drop 5) 3 5
        (crc32_ieee (fw10.take 5) none)).map (fun r => (r.1, r.2.1))
      = some (0, crc32_ieee (fw10.take 8) none)
    ∧ (dfu_serial_get_crc nrf
        ((dfu_serial_stream_data nrf resume_world (fw10.drop 5) 3).getD (1, resume_world)).2
        { offset := 0, crc := 0 }).2.2.receive_data.length = 11
    ∧ (dfu_serial_stream_data_crc nrf reject_world (fw10.drop 5) 3 5
        (crc32_ieee (fw10.take 5) none)).map (fun r => r.1) = some 2
    ∧ driver_01 reject_world :=
  ⟨by decide,
   ((stream_data_crc_result nrf resume_world (fw10.drop 5) 3 5 (crc32_ieee (fw10.take 5) none)
      0 (crc32_ieee (fw10.take 8) none)
      ((dfu_serial_stream_data_crc nrf resume_world (fw10.drop 5) 3 5
          (crc32_ieee (fw10.take 5) none)).getD (1, 0, resume_world)).2.2
      (by decide)).1
      ((dfu_serial_stream_data nrf resume_world (fw10.drop 5) 3).getD (1, resume_world)).2
      (by decide) (by decide)).1,
   by decide,
   ⟨by decide, by decide⟩⟩

/-! ### A cached MTU below 5 -/

/-- C12: with a cached `mtu` below 5, `dfu_serial_stream_data` returns 1 and
leaves the state untouched (no `ObjectWrite` is handed to the transport), and
`dfu_serial_stream_data_crc` returns 1 with the state and the CRC untouched (no
`CrcGet`), for every data slice and in particular every non-empty one. -/
theorem stream_data_mtu_too_small (cfg : Platform) (w : World) (p_data : List Nat)
    (data_size pos crc : Nat) (hmtu : w.mtu < 5) :
    dfu_serial_stream_data cfg w p_data data_size = some (1, w)
    ∧ dfu_serial_stream_data_crc cfg w p_data data_size pos crc = some (1, crc, w) := by
  have h1 : dfu_serial_stream_data cfg w p_data data_size = some (1, w) := by
    unfold dfu_serial_stream_data
    have hn : ¬ w.mtu ≥ 5 := by omega
    simp only [hn, if_false]
    have herr : (if (if data_size = 0 then (1 : Int) else 0) = 0 then (1 : Int)
        else if data_size = 0 then 1 else 0) = 1 := by
      split_ifs <;> simp_all
    rw [herr]
    unfold dfu_serial_stream_data_loop
    simp
  refine ⟨h1, ?_⟩
  unfold dfu_serial_stream_data_crc
  rw [h1]
  simp

theorem stream_data_mtu_too_small_witness :
    (start_world 4 []).mtu < 5
    ∧ dfu_serial_stream_data nrf (start_world 4 []) fw10 10 = some (1, start_world 4 [])
    ∧ dfu_serial_stream_data_crc nrf (start_world 4 []) fw10 10 0 0
        = some (1, 0, start_world 4 []) :=
  ⟨by decide,
   (stream_data_mtu_too_small nrf (start_world 4 []) fw10 10 0 0 (by decide)).1,
   (stream_data_mtu_too_small nrf (start_world 4 []) fw10 10 0 0 (by decide)).2⟩

/-! ### Recovery of an init packet -/

/-- C13: for an init packet of `N > 0` bytes, `dfu_serial_try_to_recover_ip`
returns 0 with recovered offset 0 and leaves the state untouched (no request is
sent) when the reported offset is 0, when it exceeds `N`, and when it lies in
`(0, N]` but the reported CRC differs from `crc32(buf[0..offset))`. -/
theorem recover_ip_nothing_to_resume (cfg : Platform) (w : World) (p_data : List Nat)
    (data_size : Nat) (sel : nrf_dfu_response_select_t) (hN : 0 < data_size)
    (hcase : sel.offset = 0 ∨ data_size < sel.offset
      ∨ (0 < sel.offset ∧ sel.offset ≤ data_size
          ∧ cfg.crc32_compute (p_data.take sel.offset) none ≠ sel.crc)) :
    dfu_serial_try_to_recover_ip cfg w p_data data_size sel
      = some (0, { sel with offset := 0 }, w) := by
  have hpos : (if sel.offset > 0 ∧ sel.offset ≤ data_size then
        (if sel.crc ≠ (if sel.offset > 0 ∧ sel.offset ≤ data_size then
            cfg.crc32_compute (p_data.take sel.offset) none else 0) then 0 else sel.offset)
      else 0) = 0 := by
    rcases hcase with h | h | ⟨h1, h2, h3⟩
    · rw [if_neg (by omega)]
    · rw [if_neg (by omega)]
    · have hc : sel.offset > 0 ∧ sel.offset ≤ data_size := ⟨h1, h2⟩
      simp only [hc, and_self, if_true]
      rw [if_pos (Ne.symm h3)]
  unfold dfu_serial_try_to_recover_ip
  simp only
  rw [hpos]
  rw [if_neg (by omega), if_neg (by omega)]

theorem recover_ip_nothing_to_resume_witness :
    (dfu_serial_try_to_recover_ip nrf init_world fw10 10 { offset := 0, crc := 0, max_size := 16 }
        = some (0, { offset := 0, crc := 0, max_size := 16 }, init_world))
    ∧ (dfu_serial_try_to_recover_ip nrf init_world fw10 10 { offset := 11, crc := 7, max_size := 16 }
        = some (0, { offset := 0, crc := 7, max_size := 16 }, init_world))
    ∧ (crc32_ieee (fw10.take 5) none ≠ 7
      ∧ dfu_serial_try_to_recover_ip nrf init_world fw10 10 { offset := 5, crc := 7, max_size := 16 }
        = some (0, { offset := 0, crc := 7, max_size := 16 }, init_world)) :=
  ⟨recover_ip_nothing_to_resume nrf init_world fw10 10 { offset := 0, crc := 0, max_size := 16 }
      (by decide) (Or.inl rfl),
   recover_ip_nothing_to_resume nrf init_world fw10 10 { offset := 11, crc := 7, max_size := 16 }
      (by decide) (Or.inr (Or.inl (by decide))),
   by decide,
   recover_ip_nothing_to_resume nrf init_world fw10 10 { offset := 5, crc := 7, max_size := 16 }
      (by decide) (Or.inr (Or.inr ⟨by decide, by decide, by decide⟩))⟩

/-! ### Response validation -/

theorem getD_drop_add (l : List Nat) (k i : Nat) : (l.drop k).getD i 0 = l.getD (k + i) 0 := by
  simp [List.getD_eq_getElem?_getD, List.getElem?_drop]

theorem get_uint32_le_drop (l : List Nat) (k : Nat) : get_uint32_le (l.drop k) = le32_at l k := by
  unfold get_uint32_le le32_at
  simp only [getD_drop_add, Nat.shiftLeft_eq, Nat.add_zero]
  congr 1
  omega

theorem get_uint16_le_drop (l : List Nat) (k : Nat) : get_uint16_le (l.drop k) = le16_at l k := by
  unfold get_uint16_le le16_at
  simp only [getD_drop_add, Nat.shiftLeft_eq, Nat.add_zero]
  congr 1
  omega

theorem uart_slip_receive_length (cfg : Platform) (w : World) (c0 : Nat)
    (h : (uart_slip_receive cfg w c0).1 = 0) :
    (uart_slip_receive cfg w c0).2.1 = (uart_slip_receive cfg w c0).2.2.receive_data.length := by
  have hl := uart_slip_receive_loop_length cfg w.recv_results [] 0 w.receive_data c0
  unfold uart_slip_receive at h ⊢
  simp only at h ⊢
  exact (hl h).symm

theorem get_rsp_spec (cfg : Platform) (w : World) (oper c0 : Nat)
    (hrecv : (uart_slip_receive cfg w c0).1 = 0) :
    ((dfu_serial_get_rsp cfg w oper c0).1 = 0
      ↔ valid_header oper (uart_slip_receive cfg w c0).2.2.receive_data)
    ∧ ((dfu_serial_get_rsp cfg w oper c0).1 = 0 ∨ (dfu_serial_get_rsp cfg w oper c0).1 = 1)
    ∧ (dfu_serial_get_rsp cfg w oper c0).2.1
        = (uart_slip_receive cfg w c0).2.2.receive_data.length
    ∧ (dfu_serial_get_rsp cfg w oper c0).2.2 = (uart_slip_receive cfg w c0).2.2 := by
  have hlen := uart_slip_receive_length cfg w c0 hrecv
  unfold dfu_serial_get_rsp valid_header
  simp only [hrecv, if_true, NRF_DFU_OP_RESPONSE, NRF_DFU_RES_CODE_SUCCESS]
  rw [← hlen]
  split_ifs with h1 h2
  · refine ⟨⟨fun h => by simp at h, fun h => absurd h.2.2.2 h2⟩, Or.inr rfl, rfl, rfl⟩
  · refine ⟨⟨fun _ => ⟨h1.1, h1.2.1, h1.2.2, not_not.mp h2⟩, fun _ => rfl⟩, Or.inl rfl, rfl, rfl⟩
  · refine ⟨⟨fun h => by simp at h, fun h => absurd ⟨h.1, h.2.1, h.2.2.1⟩ h1⟩,
      Or.inr rfl, rfl, rfl⟩

/-- C18: when `uart_slip_receive` has delivered a frame, `dfu_serial_get_rsp(oper)`
returns 0 if and only if the frame has at least 3 bytes, byte 0 is 0x60, byte 1
is the requested opcode and byte 2 is 0x01; for every other frame (shorter,
wrong prefix, wrong opcode, another result code) it returns 1. The reported
count is the length of the frame. -/
theorem get_rsp_validation (cfg : Platform) (w : World) (oper c0 : Nat)
    (hrecv : (uart_slip_receive cfg w c0).1 = 0) :
    ((dfu_serial_get_rsp cfg w oper c0).1 = 0
      ↔ (3 ≤ (uart_slip_receive cfg w c0).2.2.receive_data.length
          ∧ (uart_slip_receive cfg w c0).2.2.receive_data.getD 0 0 = 96
          ∧ (uart_slip_receive cfg w c0).2.2.receive_data.getD 1 0 = oper
          ∧ (uart_slip_receive cfg w c0).2.2.receive_data.getD 2 0 = 1))
    ∧ (¬ valid_header oper (uart_slip_receive cfg w c0).2.2.receive_data →
        (dfu_serial_get_rsp cfg w oper c0).1 = 1)
    ∧ (dfu_serial_get_rsp cfg w oper c0).2.1
        = (uart_slip_receive cfg w c0).2.2.receive_data.length := by
  obtain ⟨h1, h2, h3, -⟩ := get_rsp_spec cfg w oper c0 hrecv
  refine ⟨h1, fun hv => ?_, h3⟩
  rcases h2 with h2 | h2
  · exact absurd (h1.mp h2) hv
  · exact h2

set_option maxRecDepth 1000000 in
theorem get_rsp_validation_witness :
    (uart_slip_receive nrf (start_world 64 [reply [96, 4, 1]]) 0).1 = 0
    ∧ (uart_slip_receive nrf (start_world 64 [reply [96, 4, 1]]) 0).2.2.receive_data = [96, 4, 1]
    ∧ ((dfu_serial_get_rsp nrf (start_world 64 [reply [96, 4, 1]]) 4 0).1 = 0
      ↔ (3 ≤ [96, 4, 1].length ∧ [96, 4, 1].getD 0 0 = 96 ∧ [96, 4, 1].getD 1 0 = 4
          ∧ [96, 4, 1].getD 2 0 = 1))
    ∧ (dfu_serial_get_rsp nrf (start_world 64 [reply [96, 4, 1]]) 6 0).1 = 1
    ∧ (dfu_serial_get_rsp nrf (start_world 64 [reply [96, 4, 8]]) 4 0).1 = 1
    ∧ (dfu_serial_get_rsp nrf (start_world 64 [reply [96, 4]]) 4 0).1 = 1 :=
  ⟨by decide, by decide,
   (get_rsp_validation nrf (start_world 64 [reply [96, 4, 1]]) 4 0 (by decide)).1,
   (get_rsp_validation nrf (start_world 64 [reply [96, 4, 1]]) 6 0 (by decide)).2.1
     (fun h => absurd h.2.2.1 (by decide)),
   (get_rsp_validation nrf (start_world 64 [reply [96, 4, 8]]) 4 0 (by decide)).2.1
     (fun h => absurd h.2.2.2 (by decide)),
   (get_rsp_validation nrf (start_world 64 [reply [96, 4]]) 4 0 (by decide)).2.1
     (fun h => absurd h.1 (by decide))⟩

theorem exchange_result (cfg : Platform) (w : World) (d : List Nat) (n oper : Nat)
    (hrecv : (uart_slip_receive cfg (dfu_serial_send cfg w d n).2 0).1 = 0) :
    ((dfu_serial_get_rsp cfg (dfu_serial_send cfg w d n).2 oper 0).1 = 0
      ↔ valid_header oper
          (uart_slip_receive cfg (dfu_serial_send cfg w d n).2 0).2.2.receive_data)
    ∧ (dfu_serial_get_rsp cfg (dfu_serial_send cfg w d n).2 oper 0).2.1
        = (uart_slip_receive cfg (dfu_serial_send cfg w d n).2 0).2.2.receive_data.length
    ∧ (dfu_serial_get_rsp cfg (dfu_serial_send cfg w d n).2 oper 0).2.2.receive_data
        = (uart_slip_receive cfg (dfu_serial_send cfg w d n).2 0).2.2.receive_data := by
  obtain ⟨h1, -, h3, h4⟩ := get_rsp_spec cfg (dfu_serial_send cfg w d n).2 oper 0 hrecv
  exact ⟨h1, h3, by rw [h4]⟩

set_option maxRecDepth 1000000 in
/-- C19, as stated, fails: `dfu_serial_set_prn`, `dfu_serial_create_obj` and
`dfu_serial_execute_obj` return 0 for response frames of 4 and 5 bytes that
carry the header 0x60, opcode, 0x01. -/
theorem payloadless_response_longer_accepted :
    ((dfu_serial_set_prn nrf (start_world 64 [reply [96, 2, 1, 0]]) 0).1 = 0
      ∧ (dfu_serial_set_prn nrf (start_world 64 [reply [96, 2, 1, 0]]) 0).2.receive_data
          = [96, 2, 1, 0])
    ∧ ((dfu_serial_create_obj nrf (start_world 64 [reply [96, 1, 1, 0, 0]]) 1 10).1 = 0
      ∧ (dfu_serial_create_obj nrf (start_world 64 [reply [96, 1, 1, 0, 0]]) 1 10).2.receive_data
          = [96, 1, 1, 0, 0])
    ∧ ((dfu_serial_execute_obj nrf (start_world 64 [reply [96, 4, 1, 7]])).1 = 0
      ∧ (dfu_serial_execute_obj nrf (start_world 64 [reply [96, 4, 1, 7]])).2.receive_data
          = [96, 4, 1, 7]) := by
  decide

/-- C19, amended: for the opcodes whose response carries no payload, the length
of the response is checked only from below. When the request was sent and a
frame was received, `dfu_serial_set_prn`, `dfu_serial_create_obj` and
`dfu_serial_execute_obj` return 0 if and only if the frame has at least 3 bytes
and the header 0x60, opcode, 0x01; bytes after the header are ignored. -/
theorem payloadless_response_accepted (cfg : Platform) (w : World) :
    (∀ prn : Nat,
      (dfu_serial_send cfg w ([2] ++ put_uint16_le prn) 3).1 = 0 →
      (uart_slip_receive cfg (dfu_serial_send cfg w ([2] ++ put_uint16_le prn) 3).2 0).1 = 0 →
      ((dfu_serial_set_prn cfg w prn).1 = 0
        ↔ valid_header 2 (uart_slip_receive cfg
            (dfu_serial_send cfg w ([2] ++ put_uint16_le prn) 3).2 0).2.2.receive_data))
    ∧ (∀ obj_type obj_size : Nat,
      (dfu_serial_send cfg w ([1, obj_type] ++ put_uint32_le obj_size) 6).1 = 0 →
      (uart_slip_receive cfg
        (dfu_serial_send cfg w ([1, obj_type] ++ put_uint32_le obj_size) 6).2 0).1 = 0 →
      ((dfu_serial_create_obj cfg w obj_type obj_size).1 = 0
        ↔ valid_header 1 (uart_slip_receive cfg
            (dfu_serial_send cfg w ([1, obj_type] ++ put_uint32_le obj_size) 6).2
            0).2.2.receive_data))
    ∧ ((dfu_serial_send cfg w [4] 1).1 = 0 →
      (uart_slip_receive cfg (dfu_serial_send cfg w [4] 1).2 0).1 = 0 →
      ((dfu_serial_execute_obj cfg w).1 = 0
        ↔ valid_header 4
            (uart_slip_receive cfg (dfu_serial_send cfg w [4] 1).2 0).2.2.receive_data)) := by
  refine ⟨fun prn hs hr => ?_, fun t n hs hr => ?_, fun hs hr => ?_⟩
  · have h := (exchange_result cfg w _ _ 2 hr).1
    unfold dfu_serial_set_prn
    simp only [NRF_DFU_OP_RECEIPT_NOTIF_SET]
    rw [if_pos hs]
    exact h
  · have h := (exchange_result cfg w _ _ 1 hr).1
    unfold dfu_serial_create_obj
    simp only [NRF_DFU_OP_OBJECT_CREATE]
    rw [if_pos hs]
    exact h
  · have h := (exchange_result cfg w _ _ 4 hr).1
    unfold dfu_serial_execute_obj
    simp only [NRF_DFU_OP_OBJECT_EXECUTE]
    rw [if_pos hs]
    exact h

set_option maxRecDepth 1000000 in
theorem payloadless_response_accepted_witness :
    ((dfu_serial_set_prn nrf (start_world 64 [reply [96, 2, 1, 0]]) 0).1 = 0
      ↔ valid_header 2 [96, 2, 1, 0])
    ∧ ((dfu_serial_create_obj nrf (start_world 64 [reply [96, 1, 1]]) 1 10).1 = 0
      ↔ valid_header 1 [96, 1, 1])
    ∧ ((dfu_serial_execute_obj nrf (start_world 64 [reply [96, 4, 8, 7]])).1 = 0
      ↔ valid_header 4 [96, 4, 8, 7])
    ∧ valid_header 2 [96, 2, 1, 0] ∧ ¬ valid_header 4 [96, 4, 8, 7] :=
  ⟨(payloadless_response_accepted nrf (start_world 64 [reply [96, 2, 1, 0]])).1 0
      (by decide) (by decide),
   (payloadless_response_accepted nrf (start_world 64 [reply [96, 1, 1]])).2.1 1 10
      (by decide) (by decide),
   (payloadless_response_accepted nrf (start_world 64 [reply [96, 4, 8, 7]])).2.2
      (by decide) (by decide),
   ⟨by decide, by decide, by decide, by decide⟩,
   fun h => absurd h.2.2.2 (by decide)⟩
/-- C20: responses with a valid header (the request was sent, a frame was
received, and it carries 0x60, the opcode and 0x01). `dfu_serial_select_obj`
returns 0 exactly when the frame has 15 bytes, and then reports `max_size`,
`offset` and `crc` as the little-endian 32-bit values at byte offsets 3, 7 and
11. `dfu_serial_get_mtu` returns 0 exactly when the frame has 5 bytes, and then
reports the little-endian 16-bit value at offset 3. `dfu_serial_ping(id)`
returns 0 exactly when the frame has 4 bytes and byte 3 equals `id`. -/
theorem response_payloads (cfg : Platform) (w : World) :
    (∀ (obj_type : Nat) (r0 : nrf_dfu_response_select_t),
      (dfu_serial_send cfg w [6, obj_type] 2).1 = 0 →
      (uart_slip_receive cfg (dfu_serial_send cfg w [6, obj_type] 2).2 0).1 = 0 →
      valid_header 6
        (uart_slip_receive cfg (dfu_serial_send cfg w [6, obj_type] 2).2 0).2.2.receive_data →
      ((dfu_serial_select_obj cfg w obj_type r0).1 = 0
        ↔ (uart_slip_receive cfg
            (dfu_serial_send cfg w [6, obj_type] 2).2 0).2.2.receive_data.length = 15)
      ∧ ((dfu_serial_select_obj cfg w obj_type r0).1 = 0 →
          (dfu_serial_select_obj cfg w obj_type r0).2.1
            = { max_size := le32_at (uart_slip_receive cfg
                  (dfu_serial_send cfg w [6, obj_type] 2).2 0).2.2.receive_data 3,
                offset := le32_at (uart_slip_receive cfg
                  (dfu_serial_send cfg w [6, obj_type] 2).2 0).2.2.receive_data 7,
                crc := le32_at (uart_slip_receive cfg
                  (dfu_serial_send cfg w [6, obj_type] 2).2 0).2.2.receive_data 11 }))
    ∧ (∀ m0 : Nat,
      (dfu_serial_send cfg w [7] 1).1 = 0 →
      (uart_slip_receive cfg (dfu_serial_send cfg w [7] 1).2 0).1 = 0 →
      valid_header 7
        (uart_slip_receive cfg (dfu_serial_send cfg w [7] 1).2 0).2.2.receive_data →
      ((dfu_serial_get_mtu cfg w m0).1 = 0
        ↔ (uart_slip_receive cfg
            (dfu_serial_send cfg w [7] 1).2 0).2.2.receive_data.length = 5)
      ∧ ((dfu_serial_get_mtu cfg w m0).1 = 0 →
          (dfu_serial_get_mtu cfg w m0).2.1
            = le16_at (uart_slip_receive cfg
                (dfu_serial_send cfg w [7] 1).2 0).2.2.receive_data 3))
    ∧ (∀ id : Nat,
      (dfu_serial_send cfg w [9, id] 2).1 = 0 →
      (uart_slip_receive cfg (dfu_serial_send cfg w [9, id] 2).2 0).1 = 0 →
      valid_header 9
        (uart_slip_receive cfg (dfu_serial_send cfg w [9, id] 2).2 0).2.2.receive_data →
      ((dfu_serial_ping cfg w id).1 = 0
        ↔ ((uart_slip_receive cfg
              (dfu_serial_send cfg w [9, id] 2).2 0).2.2.receive_data.length = 4
            ∧ (uart_slip_receive cfg
              (dfu_serial_send cfg w [9, id] 2).2 0).2.2.receive_data.getD 3 0 = id))) := by
  refine ⟨fun t r0 hs hr hv => ?_, fun m0 hs hr hv => ?_, fun id hs hr hv => ?_⟩
  · obtain ⟨h1, h2, h3⟩ := exchange_result cfg w [6, t] 2 6 hr
    have hg := h1.mpr hv
    unfold dfu_serial_select_obj
    simp only [NRF_DFU_OP_OBJECT_SELECT]
    rw [if_pos hs, if_pos hg, h2, h3]
    split_ifs with h15
    · simp only [get_uint32_le_drop]
      exact ⟨⟨fun _ => h15, fun _ => hg⟩, fun _ => trivial⟩
    · exact ⟨⟨fun h => by simp at h, fun h => absurd h h15⟩, fun h => by simp at h⟩
  · obtain ⟨h1, h2, h3⟩ := exchange_result cfg w [7] 1 7 hr
    have hg := h1.mpr hv
    unfold dfu_serial_get_mtu
    simp only [NRF_DFU_OP_MTU_GET]
    rw [if_pos hs, if_pos hg, h2, h3]
    split_ifs with h5
    · simp only [get_uint16_le_drop]
      exact ⟨⟨fun _ => h5, fun _ => hg⟩, fun _ => trivial⟩
    · exact ⟨⟨fun h => by simp at h, fun h => absurd h h5⟩, fun h => by simp at h⟩
  · obtain ⟨h1, h2, h3⟩ := exchange_result cfg w [9, id] 2 9 hr
    have hg := h1.mpr hv
    unfold dfu_serial_ping
    simp only [NRF_DFU_OP_PING]
    rw [if_pos hs, if_pos hg, h2, h3]
    split_ifs with h4
    · constructor
      · intro h; simp at h
      · intro h
        rcases h4 with h4 | h4
        · exact absurd h.1 h4
        · exact absurd h.2 h4
    · have h4' := not_or.mp h4
      exact ⟨fun _ => ⟨not_not.mp h4'.1, not_not.mp h4'.2⟩, fun _ => hg⟩

set_option maxRecDepth 1000000 in
theorem response_payloads_witness :
    ((dfu_serial_select_obj nrf (start_world 64 [select_reply 4096 5000 305419896]) 2
          { offset := 0, crc := 0, max_size := 0 }).1 = 0
        ↔ ([96, 6, 1] ++ put_uint32_le 4096 ++ put_uint32_le 5000
            ++ put_uint32_le 305419896).length = 15)
    ∧ (dfu_serial_select_obj nrf (start_world 64 [select_reply 4096 5000 305419896]) 2
          { offset := 0, crc := 0, max_size := 0 }).2.1
        = { max_size := 4096, offset := 5000, crc := 305419896 }
    ∧ (dfu_serial_get_mtu nrf (start_world 64 [reply [96, 7, 1, 131, 0]]) 0).2.1 = 131
    ∧ ((dfu_serial_ping nrf (start_world 64 [reply [96, 9, 1, 55]]) 55).1 = 0
        ↔ ([96, 9, 1, 55].length = 4 ∧ [96, 9, 1, 55].getD 3 0 = 55))
    ∧ (dfu_serial_ping nrf (start_world 64 [reply [96, 9, 1, 55]]) 56).1 = 1 :=
  ⟨((response_payloads nrf (start_world 64 [select_reply 4096 5000 305419896])).1 2
        { offset := 0, crc := 0, max_size := 0 } (by decide) (by decide)
        ⟨by decide, by decide, by decide, by decide⟩).1,
   by decide,
   ((response_payloads nrf (start_world 64 [reply [96, 7, 1, 131, 0]])).2.1 0
        (by decide) (by decide) ⟨by decide, by decide, by decide, by decide⟩).2 (by decide),
   (response_payloads nrf (start_world 64 [reply [96, 9, 1, 55]])).2.2 55
        (by decide) (by decide) ⟨by decide, by decide, by decide, by decide⟩,
   by decide⟩

/-! ### The size of a write frame -/

theorem encode_slip_length (d : List Nat) (n : Nat) :
    (encode_slip d n).1.length ≤ 2 * (d.take n).length + 1
    ∧ (encode_slip d n).2 ≤ (encode_slip d n).1.length := by
  have h1 := encode_slip_loop_bytes (d.take n) [] 0
  have h2 := encode_slip_loop_size (d.take n) [] 0
  have h3 := slip_stuffed_length_le (d.take n)
  unfold encode_slip
  simp only [h1, List.nil_append, List.length_append, List.length_singleton]
  constructor
  · omega
  · simp only [Nat.zero_add, U32] at h2
    simp only [U32]
    omega

theorem dfu_serial_send_wire (cfg : Platform) (w : World) (d : List Nat) (n : Nat) :
    (dfu_serial_send cfg w d n).2.wire = w.wire
    ∨ (dfu_serial_send cfg w d n).2.wire
        = w.wire ++ [(encode_slip d n).1.take (encode_slip d n).2] := by
  unfold dfu_serial_send uart_slip_send
  split_ifs
  · exact Or.inl rfl
  · right
    unfold uart_drv_send
    split <;> rfl

theorem stream_loop_wire (cfg : Platform) (p : List Nat) (n stp_max bound : Nat)
    (hb : 2 * (stp_max + 1) + 1 ≤ bound) :
    ∀ (fuel : Nat) (w : World) (pos : Nat) (err e : Int) (w1 : World),
      dfu_serial_stream_data_loop cfg fuel w p n stp_max pos err = some (e, w1) →
      ∃ frames : List (List Nat), w1.wire = w.wire ++ frames ∧ ∀ f ∈ frames, f.length ≤ bound := by
  intro fuel
  induction fuel with
  | zero =>
    intro w pos err e w1 h
    unfold dfu_serial_stream_data_loop at h
    split_ifs at h with hc
    simp only [Option.some.injEq, Prod.mk.injEq] at h
    obtain ⟨-, rfl⟩ := h
    exact ⟨[], by simp, by simp⟩
  | succ fuel ih =>
    intro w pos err e w1 h
    unfold dfu_serial_stream_data_loop at h
    split_ifs at h with hc
    · simp only at h
      obtain ⟨frames, f1, f2⟩ := ih _ _ _ _ _ h
      have hlen : ((encode_slip ([NRF_DFU_OP_OBJECT_WRITE] ++ (p.drop pos).take (min (n - pos) stp_max))
            (min (n - pos) stp_max + 1)).1.take
          (encode_slip ([NRF_DFU_OP_OBJECT_WRITE] ++ (p.drop pos).take (min (n - pos) stp_max))
            (min (n - pos) stp_max + 1)).2).length ≤ bound := by
        have h1 := (encode_slip_length
          ([NRF_DFU_OP_OBJECT_WRITE] ++ (p.drop pos).take (min (n - pos) stp_max))
          (min (n - pos) stp_max + 1)).1
        have h2 : (List.take (min (n - pos) stp_max + 1)
            ([NRF_DFU_OP_OBJECT_WRITE] ++ (p.drop pos).take (min (n - pos) stp_max))).length
            ≤ stp_max + 1 := by
          rw [List.length_take]
          have := Nat.min_le_right (n - pos) stp_max
          omega
        rw [List.length_take]
        omega
      rcases dfu_serial_send_wire cfg w
          ([NRF_DFU_OP_OBJECT_WRITE] ++ (p.drop pos).take (min (n - pos) stp_max))
          (min (n - pos) stp_max + 1) with hw | hw
      · exact ⟨frames, by rw [f1, hw], f2⟩
      · refine ⟨_ :: frames, by rw [f1, hw, List.append_assoc, List.singleton_append], ?_⟩
        intro f hf
        rcases List.mem_cons.mp hf with rfl | hf
        · exact hlen
        · exact f2 f hf
    · simp only [Option.some.injEq, Prod.mk.injEq] at h
      obtain ⟨-, rfl⟩ := h
      exact ⟨[], by simp, by simp⟩

/-- C11: with a cached `mtu ≥ 5`, the SLIP frame of an `ObjectWrite` message
`[0x08] ++ chunk` with `len(chunk) ≤ (mtu - 1) / 2 - 1` has at most `mtu` bytes,
terminator included, and so does its reported size. Every frame that
`dfu_serial_stream_data` hands to the serial driver is such a frame: each has at
most `mtu` bytes. -/
theorem write_frame_fits_mtu (mtu : Nat) (hmtu : 5 ≤ mtu) :
    (∀ chunk : List Nat, chunk.length ≤ (mtu - 1) / 2 - 1 →
      (encode_slip ([8] ++ chunk) (chunk.length + 1)).1.length ≤ mtu
      ∧ (encode_slip ([8] ++ chunk) (chunk.length + 1)).2 ≤ mtu)
    ∧ (∀ (cfg : Platform) (w : World) (p_data : List Nat) (data_size : Nat) (e : Int)
        (w1 : World),
      w.mtu = mtu →
      dfu_serial_stream_data cfg w p_data data_size = some (e, w1) →
      ∃ frames : List (List Nat),
        w1.wire = w.wire ++ frames ∧ ∀ f ∈ frames, f.length ≤ mtu) := by
  constructor
  · intro chunk hc
    obtain ⟨h1, h2⟩ := encode_slip_length ([8] ++ chunk) (chunk.length + 1)
    have h3 : (List.take (chunk.length + 1) ([8] ++ chunk)).length = chunk.length + 1 := by
      simp
    rw [h3] at h1
    constructor <;> omega
  · intro cfg w p n e w1 hw h
    unfold dfu_serial_stream_data at h
    refine stream_loop_wire cfg p n _ mtu ?_ _ _ _ _ _ _ h
    rw [hw]
    omega

set_option maxRecDepth 1000000 in
theorem write_frame_fits_mtu_witness :
    (encode_slip ([8] ++ [192, 219]) 3).1 = [8, 219, 220, 219, 221, 192]
    ∧ (encode_slip ([8] ++ [192, 219]) 3).1.length ≤ 7
    ∧ ∃ frames : List (List Nat),
        ((dfu_serial_stream_data nrf (start_world 7 []) [192, 219, 192, 1, 2] 5).getD
          (1, start_world 7 [])).2.wire = (start_world 7 []).wire ++ frames
        ∧ ∀ f ∈ frames, f.length ≤ 7 :=
  ⟨by decide,
   ((write_frame_fits_mtu 7 (by decide)).1 [192, 219] (by decide)).1,
   (write_frame_fits_mtu 7 (by decide)).2 nrf (start_world 7 []) [192, 219, 192, 1, 2] 5 0
     ((dfu_serial_stream_data nrf (start_world 7 []) [192, 219, 192, 1, 2] 5).getD
        (1, start_world 7 [])).2
     rfl (by decide)⟩

/-! ### Resuming an init packet -/

theorem recover_ip_complete (cfg : Platform) (w : World) (p : List Nat) (N : Nat)
    (sel : nrf_dfu_response_select_t) (hN : 0 < N) (hoff : sel.offset = N)
    (hcrc : cfg.crc32_compute (p.take N) none = sel.crc) :
    dfu_serial_try_to_recover_ip cfg w p N sel
      = some ((dfu_serial_execute_obj cfg w).1, { sel with offset := N },
          (dfu_serial_execute_obj cfg w).2) := by
  unfold dfu_serial_try_to_recover_ip
  have hc : sel.offset > 0 ∧ sel.offset ≤ N := by omega
  simp only [hc, and_self, if_true]
  rw [hoff, hcrc]
  simp

theorem recover_ip_resume (cfg : Platform) (w : World) (p : List Nat) (N : Nat)
    (sel : nrf_dfu_response_select_t) (h0 : 0 < sel.offset) (hlt : sel.offset < N)
    (hN : N < U32) (hcrc : cfg.crc32_compute (p.take sel.offset) none = sel.crc)
    (e : Int) (c : Nat) (w1 : World)
    (hstream : dfu_serial_stream_data_crc cfg w (p.drop sel.offset) (N - sel.offset) sel.offset
        (cfg.crc32_compute (p.take sel.offset) none) = some (e, c, w1)) :
    dfu_serial_try_to_recover_ip cfg w p N sel
      = (if e = 0 then
          some ((dfu_serial_execute_obj cfg w1).1, { sel with offset := N },
            (dfu_serial_execute_obj cfg w1).2)
        else if e = 2 then some (0, { sel with offset := 0 }, w1)
        else some (e, sel, w1)) := by
  unfold dfu_serial_try_to_recover_ip
  have hc : sel.offset > 0 ∧ sel.offset ≤ N := by omega
  have hc2 : sel.offset > 0 ∧ sel.offset < N := ⟨h0, hlt⟩
  have hmod : (sel.offset + (N - sel.offset)) % U32 = N := by
    rw [Nat.mod_eq_of_lt (by omega)]
    omega
  have hN0 : ¬ (0 = N) := by omega
  have hne : ¬ (sel.crc ≠ cfg.crc32_compute (List.take sel.offset p) none) := by simp [hcrc]
  simp only [hc, and_self, if_true, hne, if_false, hc2, hstream, hmod, hN0]

theorem recover_ip_idle (cfg : Platform) (w : World) (p : List Nat) (N : Nat)
    (sel : nrf_dfu_response_select_t) (hN : 0 < N)
    (hcase : sel.offset = 0 ∨ N < sel.offset
      ∨ (0 < sel.offset ∧ sel.offset ≤ N
          ∧ cfg.crc32_compute (p.take sel.offset) none ≠ sel.crc)) :
    dfu_serial_try_to_recover_ip cfg w p N sel = some (0, { sel with offset := 0 }, w) := by
  have hpos : (if sel.offset > 0 ∧ sel.offset ≤ N then
        (if sel.crc ≠ (if sel.offset > 0 ∧ sel.offset ≤ N then
            cfg.crc32_compute (p.take sel.offset) none else 0) then 0 else sel.offset)
      else 0) = 0 := by
    rcases hcase with h | h | ⟨h1, h2, h3⟩
    · rw [if_neg (by omega)]
    · rw [if_neg (by omega)]
    · have hc : sel.offset > 0 ∧ sel.offset ≤ N := ⟨h1, h2⟩
      simp only [hc, and_self, if_true]
      rw [if_pos (Ne.symm h3)]
  unfold dfu_serial_try_to_recover_ip
  simp only
  rw [hpos]
  rw [if_neg (by omega), if_neg (by omega)]

/-- What `dfu_serial_try_to_recover_ip` adds to the trace: writes, at most one
`CrcGet` and at most one `ObjectExecute`; when it returns 0 with a recovered
offset other than `N` it has sent no `ObjectExecute`. -/
theorem recover_ip_requests (cfg : Platform) (w : World) (p : List Nat) (N : Nat)
    (sel rec : nrf_dfu_response_select_t) (e : Int) (w1 : World) (hN : 0 < N)
    (h : dfu_serial_try_to_recover_ip cfg w p N sel = some (e, rec, w1)) :
    ∃ added : List (List Nat),
      requests w1.log = requests w.log ++ added
      ∧ (∀ m ∈ added, m.head? = some 8 ∨ m = [3] ∨ m = [4])
      ∧ (e = 0 → rec.offset ≠ N → ∀ m ∈ added, m.head? = some 8 ∨ m = [3]) := by
  by_cases hidle : sel.offset = 0 ∨ N < sel.offset
      ∨ (0 < sel.offset ∧ sel.offset ≤ N
          ∧ cfg.crc32_compute (p.take sel.offset) none ≠ sel.crc)
  · rw [recover_ip_idle cfg w p N sel hN hidle] at h
    simp only [Option.some.injEq, Prod.mk.injEq] at h
    obtain ⟨-, -, rfl⟩ := h
    exact ⟨[], by simp, by simp, by simp⟩
  have h0 : 0 < sel.offset := by
    by_contra hc
    exact hidle (Or.inl (by omega))
  have hle : sel.offset ≤ N := by
    by_contra hc
    exact hidle (Or.inr (Or.inl (by omega)))
  have hcrc : cfg.crc32_compute (p.take sel.offset) none = sel.crc := by
    by_contra hc
    exact hidle (Or.inr (Or.inr ⟨h0, hle, hc⟩))
  obtain ⟨e4, -, -⟩ := dfu_serial_execute_obj_frame cfg w
  by_cases heq : sel.offset = N
  · rw [recover_ip_complete cfg w p N sel hN heq (by rw [← heq]; exact hcrc)] at h
    simp only [Option.some.injEq, Prod.mk.injEq] at h
    obtain ⟨-, hrec, rfl⟩ := h
    refine ⟨[[4]], e4, by simp, fun _ hne => ?_⟩
    rw [← hrec] at hne
    exact absurd rfl hne
  have hlt : sel.offset < N := by omega
  unfold dfu_serial_try_to_recover_ip at h
  have hc : sel.offset > 0 ∧ sel.offset ≤ N := ⟨h0, hle⟩
  have hc2 : sel.offset > 0 ∧ sel.offset < N := ⟨h0, hlt⟩
  have hne : ¬ (sel.crc ≠ cfg.crc32_compute (List.take sel.offset p) none) := by simp [hcrc]
  have hN0 : ¬ (0 = N) := by omega
  simp only [hc, and_self, if_true, hne, if_false, hc2, hN0] at h
  split at h
  · simp at h
  rename_i s hs
  obtain ⟨writes, k1, -, k3⟩ := stream_data_crc_cases cfg w _ _ _ _ s.1 s.2.1 s.2.2 hs
  have hstream : ∃ added : List (List Nat), requests s.2.2.log = requests w.log ++ added
      ∧ ∀ m ∈ added, m.head? = some 8 ∨ m = [3] := by
    rcases k3 with ⟨-, -, k4, -⟩ | ⟨-, -, k4, -⟩
    · exact ⟨writes, k4, fun m hm => Or.inl (k1 m hm)⟩
    · refine ⟨writes ++ [[3]], by rw [k4, List.append_assoc], fun m hm => ?_⟩
      rcases List.mem_append.mp hm with hm | hm
      · exact Or.inl (k1 m hm)
      · exact Or.inr (List.mem_singleton.mp hm)
  obtain ⟨added, a1, a2⟩ := hstream
  have a3 : ∀ m ∈ added, m.head? = some 8 ∨ m = [3] ∨ m = [4] := fun m hm =>
    (a2 m hm).elim Or.inl (fun h3 => Or.inr (Or.inl h3))
  obtain ⟨e3, -, -⟩ := dfu_serial_execute_obj_frame cfg s.2.2
  have hexec : ∀ m ∈ added ++ [[4]], m.head? = some 8 ∨ m = [3] ∨ m = [4] := by
    intro m hm
    rcases List.mem_append.mp hm with hm | hm
    · exact a3 m hm
    · exact Or.inr (Or.inr (List.mem_singleton.mp hm))
  split_ifs at h with h1 h2 h3
  · simp only [Option.some.injEq, Prod.mk.injEq] at h
    obtain ⟨-, hrec, rfl⟩ := h
    refine ⟨added ++ [[4]], by rw [e3, a1, List.append_assoc], hexec, fun _ hne => ?_⟩
    rw [← hrec] at hne
    exact absurd h2 hne
  · simp only [Option.some.injEq, Prod.mk.injEq] at h
    obtain ⟨-, -, rfl⟩ := h
    exact ⟨added, a1, a3, fun _ _ => a2⟩
  · simp only [Option.some.injEq, Prod.mk.injEq] at h
    obtain ⟨-, -, rfl⟩ := h
    exact ⟨added, a1, a3, fun _ _ => a2⟩
  · simp only [Option.some.injEq, Prod.mk.injEq] at h
    obtain ⟨-, -, rfl⟩ := h
    exact ⟨added, a1, a3, fun _ _ => a2⟩

/-- C15: an init packet of `N > 0` bytes for which `ObjectSelect(0x01)` reports
`offset = N` and `crc = crc32(buf)`. `dfu_serial_send_init_packet` returns the
result of one `ObjectExecute` exchange made right after the select, whatever the
reported `max_size`: the requests of the run are `ObjectSelect(0x01)` and
`ObjectExecute` and nothing else, and the result is 0 when the execute exchange
succeeds. -/
theorem init_packet_already_complete (cfg : Platform) (w ws : World) (p_data : List Nat)
    (data_size : Nat) (sel : nrf_dfu_response_select_t) (hN : 0 < data_size)
    (hsel : dfu_serial_select_obj cfg w 1 { offset := 0, crc := 0, max_size := 0 }
      = (0, sel, ws))
    (hoff : sel.offset = data_size)
    (hcrc : cfg.crc32_compute (p_data.take data_size) none = sel.crc) :
    dfu_serial_send_init_packet cfg w (some p_data) data_size
      = some (dfu_serial_execute_obj cfg ws)
    ∧ requests (dfu_serial_execute_obj cfg ws).2.log = requests w.log ++ [[6, 1], [4]]
    ∧ ((dfu_serial_execute_obj cfg ws).1 = 0 →
        dfu_serial_send_init_packet cfg w (some p_data) data_size
          = some (0, (dfu_serial_execute_obj cfg ws).2)) := by
  have hrun : dfu_serial_send_init_packet cfg w (some p_data) data_size
      = some (dfu_serial_execute_obj cfg ws) := by
    unfold dfu_serial_send_init_packet
    simp only
    rw [if_neg (by omega), hsel]
    simp only [ne_eq, not_true_eq_false, if_false]
    rw [recover_ip_complete cfg ws p_data data_size sel hN hoff hcrc]
    simp only
    split_ifs <;> rfl
  refine ⟨hrun, ?_, fun he => ?_⟩
  · have hs := (dfu_serial_select_obj_frame cfg w 1 { offset := 0, crc := 0, max_size := 0 }).1
    rw [hsel] at hs
    simp only at hs
    rw [(dfu_serial_execute_obj_frame cfg ws).1, hs]
    simp
  · rw [hrun, ← he]

set_option maxRecDepth 1000000 in
theorem init_packet_already_complete_witness :
    (dfu_serial_send_init_packet nrf init_done_world (some fw10) 10).map
        (fun r => (r.1, requests r.2.log)) = some (0, [[6, 1], [4]]) :=
  (congrArg (Option.map fun r => (r.1, requests r.2.log))
    (init_packet_already_complete nrf init_done_world
      (dfu_serial_select_obj nrf init_done_world 1 { offset := 0, crc := 0, max_size := 0 }).2.2
      fw10 10 { offset := 10, crc := crc32_ieee fw10 none, max_size := 4 }
      (by decide) (by decide) rfl (by decide)).1).trans (by decide)

set_option maxRecDepth 1000000 in
/-- C14, as stated, fails in its last part: `fw10` (10 bytes) is sent as an init
packet to a device that reports `max_size = 8`, `offset = 5` and the matching
CRC. The host streams `buf[5..10)`, the `CrcGet` response reports offset 7, the
recovery returns 0 with recovered offset 0, and `dfu_serial_send_init_packet`
then returns 1 without any `ObjectCreate`, because 10 exceeds `max_size`. -/
theorem init_restart_blocked_by_size :
    (dfu_serial_try_to_recover_ip nrf
        (dfu_serial_select_obj nrf init_small_world 1
          { offset := 0, crc := 0, max_size := 0 }).2.2
        fw10 10 (init_partial_state 8)).map (fun r => (r.1, r.2.1.offset)) = some (0, 0)
    ∧ (dfu_serial_send_init_packet nrf init_small_world (some fw10) 10).map
        (fun r => (r.1, requests r.2.log))
        = some (1, [[6, 1], [8, 6, 7, 8, 9, 10], [3]]) := by
  decide

/-- C14, amended: a reported state with `0 < offset < N` and the matching CRC.
`dfu_serial_try_to_recover_ip` calls `dfu_serial_stream_data_crc` on
`buf[offset..N)` at position `offset` with the CRC `crc32(buf[0..offset))`; when
that call reaches the comparison it has sent writes whose payloads concatenate
to exactly that slice and one `CrcGet`, with expected offset `N` and the CRC
continued from `crc32(buf[0..offset))`. If the call returns 0, one
`ObjectExecute` follows and the recovered offset is `N`. If it returns 2, the
recovery returns 0 with recovered offset 0 and no `ObjectExecute`; after that
`dfu_serial_send_init_packet` starts over with `ObjectCreate(0x01, N)` and
streams `buf[0..N)` from position 0 with CRC 0, provided `N ≤ max_size`; when
`N > max_size` it returns 1 instead and sends nothing more. -/
theorem init_resume_outcomes (cfg : Platform) (w : World) (p_data : List Nat)
    (data_size : Nat) (sel : nrf_dfu_response_select_t)
    (h0 : 0 < sel.offset) (hlt : sel.offset < data_size) (hN : data_size < U32)
    (hcrc : cfg.crc32_compute (p_data.take sel.offset) none = sel.crc)
    (e : Int) (c : Nat) (w1 : World)
    (hstream : dfu_serial_stream_data_crc cfg w (p_data.drop sel.offset)
        (data_size - sel.offset) sel.offset
        (cfg.crc32_compute (p_data.take sel.offset) none) = some (e, c, w1)) :
    (w1.checks ≠ w.checks →
      ∃ writes : List (List Nat),
        requests w1.log = requests w.log ++ writes ++ [[3]]
        ∧ (∀ m ∈ writes, m.head? = some 8)
        ∧ (writes.map (List.drop 1)).flatten
            = (p_data.drop sel.offset).take (data_size - sel.offset)
        ∧ w1.checks = w.checks ++
            [(data_size,
              cfg.crc32_compute ((p_data.drop sel.offset).take (data_size - sel.offset))
                (some (cfg.crc32_compute (p_data.take sel.offset) none)))])
    ∧ (e = 0 →
        w1.checks ≠ w.checks
        ∧ dfu_serial_try_to_recover_ip cfg w p_data data_size sel
          = some ((dfu_serial_execute_obj cfg w1).1, { sel with offset := data_size },
              (dfu_serial_execute_obj cfg w1).2)
        ∧ requests (dfu_serial_execute_obj cfg w1).2.log = requests w1.log ++ [[4]])
    ∧ (e = 2 →
        dfu_serial_try_to_recover_ip cfg w p_data data_size sel
          = some (0, { sel with offset := 0 }, w1)
        ∧ ∀ w0 : World,
            dfu_serial_select_obj cfg w0 1 { offset := 0, crc := 0, max_size := 0 }
              = (0, sel, w) →
            (data_size ≤ sel.max_size →
              dfu_serial_send_init_packet cfg w0 (some p_data) data_size
                = (if (dfu_serial_create_obj cfg w1 1 data_size).1 ≠ 0 then
                    some (dfu_serial_create_obj cfg w1 1 data_size)
                  else
                    match dfu_serial_stream_data_crc cfg
                        (dfu_serial_create_obj cfg w1 1 data_size).2 p_data data_size 0 0 with
                    | none => none
                    | some s =>
                      if s.1 ≠ 0 then some (s.1, s.2.2)
                      else some (dfu_serial_execute_obj cfg s.2.2))
              ∧ requests (dfu_serial_create_obj cfg w1 1 data_size).2.log
                  = requests w1.log ++ [[1, 1] ++ put_uint32_le data_size])
            ∧ (sel.max_size < data_size →
              dfu_serial_send_init_packet cfg w0 (some p_data) data_size = some (1, w1))) := by
  have hrec := recover_ip_resume cfg w p_data data_size sel h0 hlt hN hcrc e c w1 hstream
  have hmod : (sel.offset + (data_size - sel.offset)) % U32 = data_size := by
    rw [Nat.mod_eq_of_lt (by omega)]
    omega
  obtain ⟨writes, hw1, -, hw3⟩ := stream_data_crc_cases cfg w _ _ _ _ e c w1 hstream
  refine ⟨?_, ?_, ?_⟩
  · intro hne
    rcases hw3 with ⟨-, -, -, h4⟩ | ⟨h4, h5, h6, h7⟩
    · exact absurd h4 hne
    · rcases h7 with ⟨-, h8⟩ | h8
      · exact absurd h8 hne
      · exact ⟨writes, h6, hw1, h4, by rw [h8, h5, hmod]⟩
  · intro he
    subst he
    obtain ⟨ws, -, -, -, -, -, hck⟩ := stream_data_crc_ok cfg w _ _ _ _ c w1 hstream
    refine ⟨?_, ?_, (dfu_serial_execute_obj_frame cfg w1).1⟩
    · rw [hck]; simp
    · rw [hrec]; simp
  · intro he
    subst he
    have hrec2 : dfu_serial_try_to_recover_ip cfg w p_data data_size sel
        = some (0, { sel with offset := 0 }, w1) := by
      rw [hrec]; simp
    refine ⟨hrec2, fun w0 hsel => ⟨fun hfit => ⟨?_, ?_⟩, fun hbig => ?_⟩⟩
    · unfold dfu_serial_send_init_packet
      simp only
      rw [if_neg (by omega), hsel]
      simp only [ne_eq, not_true_eq_false, if_false]
      rw [hrec2]
      simp only [ne_eq, not_true_eq_false, if_false]
      rw [if_neg (by omega), if_neg (by omega)]
    · exact (dfu_serial_create_obj_frame cfg w1 1 data_size).1
    · unfold dfu_serial_send_init_packet
      simp only
      rw [if_neg (by omega), hsel]
      simp only [ne_eq, not_true_eq_false, if_false]
      rw [hrec2]
      simp only [ne_eq, not_true_eq_false, if_false]
      rw [if_neg (by omega), if_pos (by omega)]

set_option maxRecDepth 1000000 in
theorem init_resume_outcomes_witness :
    (crc32_ieee (fw10.take 5) none = (init_partial_state 16).crc)
    ∧ (dfu_serial_try_to_recover_ip nrf init_resume_world fw10 10 (init_partial_state 16)).map
        (fun r => (r.1, r.2.1.offset, requests r.2.2.log, r.2.2.checks))
        = some (0, 10, [[8, 6, 7, 8, 9, 10], [3], [4]], [(10, crc32_ieee fw10 none)])
    ∧ (dfu_serial_send_init_packet nrf init_restart_world (some fw10) 10).map
        (fun r => (r.1, requests r.2.log, r.2.checks))
        = some (0, [[6, 1], [8, 6, 7, 8, 9, 10], [3], [1, 1, 10, 0, 0, 0],
                    [8, 1, 2, 3, 4, 5, 6, 7, 8, 9, 10], [3], [4]],
                   [(10, crc32_ieee fw10 none), (10, crc32_ieee fw10 none)]) :=
  ⟨by decide,
   (congrArg (Option.map fun r => (r.1, r.2.1.offset, requests r.2.2.log, r.2.2.checks))
      ((init_resume_outcomes nrf init_resume_world fw10 10 (init_partial_state 16)
          (by decide) (by decide) (by decide) (by decide)
          0 (crc32_ieee fw10 none)
          ((dfu_serial_stream_data_crc nrf init_resume_world (fw10.drop 5) 5 5
              (crc32_ieee (fw10.take 5) none)).getD (1, 0, init_resume_world)).2.2
          (by decide)).2.1 rfl).2.1).trans (by decide),
   (congrArg (Option.map fun r => (r.1, requests r.2.log, r.2.checks))
      ((((init_resume_outcomes nrf
          (dfu_serial_select_obj nrf init_restart_world 1
            { offset := 0, crc := 0, max_size := 0 }).2.2
          fw10 10 (init_partial_state 16)
          (by decide) (by decide) (by decide) (by decide)
          2 (crc32_ieee fw10 none)
          ((dfu_serial_stream_data_crc nrf
              (dfu_serial_select_obj nrf init_restart_world 1
                { offset := 0, crc := 0, max_size := 0 }).2.2
              (fw10.drop 5) 5 5
              (crc32_ieee (fw10.take 5) none)).getD (1, 0, init_restart_world)).2.2
          (by decide)).2.2 rfl).2 init_restart_world (by decide)).1 (by decide)).1).trans
      (by decide)⟩

set_option maxRecDepth 1000000 in
/-- C17, as stated, fails: `fw10` (10 bytes) is sent as an init packet to a
device that reports `max_size = 4`, `offset = 3` and the matching CRC, and that
answers the completion with a wrong CRC. The recovered offset is 0, not 10, and
10 exceeds `max_size`; `dfu_serial_send_init_packet` returns 1, but the run has
issued an `ObjectWrite` and a `CrcGet`, sent by the recovery before the size is
checked. -/
theorem init_too_large_after_resume :
    (dfu_serial_try_to_recover_ip nrf
        (dfu_serial_select_obj nrf init_tiny_world 1
          { offset := 0, crc := 0, max_size := 0 }).2.2
        fw10 10 { offset := 3, crc := crc32_ieee (fw10.take 3) none, max_size := 4 }).map
      (fun r => (r.1, r.2.1.offset)) = some (0, 0)
    ∧ (dfu_serial_send_init_packet nrf init_tiny_world (some fw10) 10).map
        (fun r => (r.1, requests r.2.log))
        = some (1, [[6, 1], [8, 4, 5, 6, 7, 8, 9, 10], [3]]) := by
  decide

/-- C17, amended: if the recovery returned 0 with a recovered offset other than
`N` and `N` exceeds the `max_size` reported by `ObjectSelect(0x01)`,
`dfu_serial_send_init_packet` returns 1 and sends nothing after the recovery.
The run contains no `ObjectCreate` and no `ObjectExecute`; the only
`ObjectWrite` and `CrcGet` requests are those the recovery sent while resuming,
and there are none when the recovery had nothing to resume (reported offset 0,
beyond `N`, or with a CRC that does not match). -/
theorem init_too_large (cfg : Platform) (w ws w1 : World) (p_data : List Nat)
    (data_size : Nat) (sel rec : nrf_dfu_response_select_t) (hN : 0 < data_size)
    (hsel : dfu_serial_select_obj cfg w 1 { offset := 0, crc := 0, max_size := 0 }
      = (0, sel, ws))
    (hrec : dfu_serial_try_to_recover_ip cfg ws p_data data_size sel = some (0, rec, w1))
    (hne : rec.offset ≠ data_size) (hbig : sel.max_size < data_size) :
    dfu_serial_send_init_packet cfg w (some p_data) data_size = some (1, w1)
    ∧ (∃ added : List (List Nat),
        requests w1.log = requests w.log ++ [[6, 1]] ++ added
        ∧ ∀ m ∈ added, m.head? = some 8 ∨ m = [3])
    ∧ ((sel.offset = 0 ∨ data_size < sel.offset
        ∨ (0 < sel.offset ∧ sel.offset ≤ data_size
            ∧ cfg.crc32_compute (p_data.take sel.offset) none ≠ sel.crc)) →
        requests w1.log = requests w.log ++ [[6, 1]]) := by
  have hs := (dfu_serial_select_obj_frame cfg w 1 { offset := 0, crc := 0, max_size := 0 }).1
  rw [hsel] at hs
  simp only at hs
  refine ⟨?_, ?_, ?_⟩
  · unfold dfu_serial_send_init_packet
    simp only
    rw [if_neg (by omega), hsel]
    simp only [ne_eq, not_true_eq_false, if_false]
    rw [hrec]
    simp only [ne_eq, not_true_eq_false, if_false]
    rw [if_neg hne, if_pos (by omega)]
  · obtain ⟨added, a1, -, a3⟩ := recover_ip_requests cfg ws p_data data_size sel rec 0 w1 hN hrec
    exact ⟨added, by rw [a1, hs], a3 rfl hne⟩
  · intro hidle
    rw [recover_ip_idle cfg ws p_data data_size sel hN hidle] at hrec
    simp only [Option.some.injEq, Prod.mk.injEq, true_and] at hrec
    rw [← hrec.2, hs]

set_option maxRecDepth 1000000 in
theorem init_too_large_witness :
    (dfu_serial_send_init_packet nrf (start_world 64 [select_reply 4 0 0]) (some fw10) 10).map
        (fun r => (r.1, requests r.2.log)) = some (1, [[6, 1]])
    ∧ (dfu_serial_send_init_packet nrf init_tiny_world (some fw10) 10).map Prod.fst = some 1 :=
  ⟨(congrArg (Option.map fun r => (r.1, requests r.2.log))
      (init_too_large nrf (start_world 64 [select_reply 4 0 0])
        (dfu_serial_select_obj nrf (start_world 64 [select_reply 4 0 0]) 1
          { offset := 0, crc := 0, max_size := 0 }).2.2
        (dfu_serial_select_obj nrf (start_world 64 [select_reply 4 0 0]) 1
          { offset := 0, crc := 0, max_size := 0 }).2.2
        fw10 10 { offset := 0, crc := 0, max_size := 4 } { offset := 0, crc := 0, max_size := 4 }
        (by decide) (by decide) (by decide) (by decide) (by decide)).1).trans (by decide),
   congrArg (Option.map Prod.fst)
      (init_too_large nrf init_tiny_world
        (dfu_serial_select_obj nrf init_tiny_world 1
          { offset := 0, crc := 0, max_size := 0 }).2.2
        ((dfu_serial_send_init_packet nrf init_tiny_world (some fw10) 10).getD
          (0, init_tiny_world)).2
        fw10 10 { offset := 3, crc := crc32_ieee (fw10.take 3) none, max_size := 4 }
        { offset := 0, crc := crc32_ieee (fw10.take 3) none, max_size := 4 }
        (by decide) (by decide) (by decide) (by decide) (by decide)).1⟩

/-! ### A transport that accepts every write -/

theorem dfu_serial_send_accepts (cfg : Platform) (w : World) (d : List Nat) (n : Nat)
    (hs : ∀ r ∈ w.send_results, r = 0) :
    (∀ r ∈ (dfu_serial_send cfg w d n).2.send_results, r = 0)
    ∧ (n ≤ cfg.UART_SLIP_SIZE_MAX → (dfu_serial_send cfg w d n).1 = 0) := by
  unfold dfu_serial_send uart_slip_send
  split_ifs with hbig
  · exact ⟨hs, fun h => absurd hbig (by omega)⟩
  · unfold uart_drv_send
    simp only
    split
    · rename_i h0
      exact ⟨by simp [h0], fun _ => rfl⟩
    · rename_i r rest h0
      rw [h0] at hs
      exact ⟨fun x hx => hs x (List.mem_cons_of_mem _ hx),
        fun _ => hs r (List.mem_cons_self _ _)⟩

theorem dfu_serial_get_rsp_sends (cfg : Platform) (w : World) (oper c0 : Nat) :
    (dfu_serial_get_rsp cfg w oper c0).2.2.send_results = w.send_results := by
  unfold dfu_serial_get_rsp uart_slip_receive
  simp only
  split_ifs <;> rfl

theorem exchange_accepts (cfg : Platform) (w : World) (d : List Nat) (n oper c0 : Nat)
    (hs : ∀ r ∈ w.send_results, r = 0) :
    ∀ r ∈ (dfu_serial_get_rsp cfg (dfu_serial_send cfg w d n).2 oper c0).2.2.send_results,
      r = 0 := by
  rw [dfu_serial_get_rsp_sends]
  exact (dfu_serial_send_accepts cfg w d n hs).1

theorem dfu_serial_select_obj_accepts (cfg : Platform) (w : World) (t : Nat)
    (r0 : nrf_dfu_response_select_t) (hs : ∀ r ∈ w.send_results, r = 0) :
    ∀ r ∈ (dfu_serial_select_obj cfg w t r0).2.2.send_results, r = 0 := by
  unfold dfu_serial_select_obj
  simp only
  split_ifs
  · exact exchange_accepts cfg w _ _ _ _ hs
  · exact exchange_accepts cfg w _ _ _ _ hs
  · exact exchange_accepts cfg w _ _ _ _ hs
  · exact (dfu_serial_send_accepts cfg w _ _ hs).1

theorem dfu_serial_create_obj_accepts (cfg : Platform) (w : World) (t n : Nat)
    (hs : ∀ r ∈ w.send_results, r = 0) :
    ∀ r ∈ (dfu_serial_create_obj cfg w t n).2.send_results, r = 0 := by
  unfold dfu_serial_create_obj
  simp only
  split_ifs
  · exact exchange_accepts cfg w _ _ _ _ hs
  · exact (dfu_serial_send_accepts cfg w _ _ hs).1

/-- When the driver accepts every write and every write message fits the
transport, the write loop sends all its messages and returns 0 within its
budget. -/
theorem stream_loop_succeeds (cfg : Platform) (p : List Nat) (n stp_max : Nat)
    (h1 : 1 ≤ stp_max) (hfit : min n stp_max + 1 ≤ cfg.UART_SLIP_SIZE_MAX) :
    ∀ (fuel : Nat) (w : World) (pos : Nat),
      n - pos ≤ fuel → (∀ r ∈ w.send_results, r = 0) →
      ∃ w1 : World, dfu_serial_stream_data_loop cfg fuel w p n stp_max pos 0 = some (0, w1) := by
  intro fuel
  induction fuel with
  | zero =>
    intro w pos hf _
    unfold dfu_serial_stream_data_loop
    rw [if_neg (by omega)]
    exact ⟨w, rfl⟩
  | succ fuel ih =>
    intro w pos hf hs
    unfold dfu_serial_stream_data_loop
    by_cases hc : pos < n
    · rw [if_pos ⟨rfl, hc⟩]
      simp only
      have hstp : min (n - pos) stp_max + 1 ≤ cfg.UART_SLIP_SIZE_MAX := by
        have : min (n - pos) stp_max ≤ min n stp_max := by
          simp only [Nat.min_def]
          split_ifs <;> omega
        omega
      obtain ⟨s1, s2⟩ := dfu_serial_send_accepts cfg w
        ([NRF_DFU_OP_OBJECT_WRITE] ++ (p.drop pos).take (min (n - pos) stp_max))
        (min (n - pos) stp_max + 1) hs
      rw [s2 hstp]
      have hpos : 1 ≤ min (n - pos) stp_max := by
        simp only [Nat.min_def]
        split_ifs <;> omega
      exact ih _ _ (by omega) s1
    · rw [if_neg (fun h => hc h.2)]
      exact ⟨w, rfl⟩

theorem stream_data_succeeds (cfg : Platform) (w : World) (p : List Nat) (n : Nat)
    (hn : 0 < n) (hmtu : 5 ≤ w.mtu)
    (hfit : min n ((w.mtu - 1) / 2 - 1) + 1 ≤ cfg.UART_SLIP_SIZE_MAX)
    (hs : ∀ r ∈ w.send_results, r = 0) :
    ∃ w1 : World, dfu_serial_stream_data cfg w p n = some (0, w1) := by
  unfold dfu_serial_stream_data
  have h1 : (if n = 0 then (1 : Int) else 0) = 0 := by rw [if_neg (by omega)]
  simp only [h1, if_true, ge_iff_le, hmtu]
  exact stream_loop_succeeds cfg p n _ (by omega) hfit n w 0 (by omega) hs

/-! ### A clean init packet transfer -/

set_option maxRecDepth 1000000 in
/-- C16, as stated, fails: with `UART_SLIP_SIZE_MAX = 128` and a cached MTU of
300, an init packet of 130 bytes is cut into writes of up to 148 bytes; the
first `ObjectWrite` message has 131 bytes and `uart_slip_send` refuses it. The
device reports `offset = 0`, `max_size = 512` and would answer every request
with success, yet `dfu_serial_send_init_packet` returns 1 after
`ObjectSelect` and `ObjectCreate`; only those two frames reach the driver. -/
theorem init_packet_write_refused :
    (5 ≤ wide_world.mtu ∧ nrf.UART_SLIP_SIZE_MAX = 128)
    ∧ (dfu_serial_send_init_packet nrf wide_world (some packet130) 130).map
        (fun r => (r.1, (requests r.2.log).map List.length, r.2.wire.length))
        = some (1, [2, 6, 131], 2) := by
  decide

/-- C16, amended: an init packet of `N > 0` bytes with a cached `mtu ≥ 5`, where
every write message fits the transport (`min(N, (mtu - 1) / 2 - 1) + 1 ≤
UART_SLIP_SIZE_MAX`) and the driver accepts every write. If `ObjectSelect(0x01)`
reports `offset = 0` and `max_size ≥ N`, the `ObjectCreate` exchange succeeds,
the `CrcGet` exchange succeeds with the response `(N, crc32(buf))` and the
`ObjectExecute` exchange succeeds, then `dfu_serial_send_init_packet` returns 0
and its requests are, in this order, `ObjectSelect(0x01)`, `ObjectCreate(0x01,
N)`, one or more `ObjectWrite` messages whose payloads concatenate to `buf`,
`CrcGet` and `ObjectExecute`. -/
theorem init_packet_clean_transfer (cfg : Platform) (w ws : World) (p_data : List Nat)
    (data_size : Nat) (sel : nrf_dfu_response_select_t)
    (hN : 0 < data_size) (hN32 : data_size < U32) (hmem : data_size ≤ p_data.length)
    (hmtu : 5 ≤ w.mtu)
    (hfit : min data_size ((w.mtu - 1) / 2 - 1) + 1 ≤ cfg.UART_SLIP_SIZE_MAX)
    (hsend : ∀ r ∈ w.send_results, r = 0)
    (hzero : ∀ d, cfg.crc32_compute d (some 0) = cfg.crc32_compute d none)
    (hsel : dfu_serial_select_obj cfg w 1 { offset := 0, crc := 0, max_size := 0 }
      = (0, sel, ws))
    (hoff : sel.offset = 0) (hmax : data_size ≤ sel.max_size)
    (hcreate : (dfu_serial_create_obj cfg ws 1 data_size).1 = 0)
    (hcrc : ∀ wst : World,
      dfu_serial_stream_data cfg (dfu_serial_create_obj cfg ws 1 data_size).2 p_data data_size
        = some (0, wst) →
      (dfu_serial_get_crc cfg wst { offset := 0, crc := 0 }).1 = 0
      ∧ (dfu_serial_get_crc cfg wst { offset := 0, crc := 0 }).2.1
          = { offset := data_size, crc := cfg.crc32_compute (p_data.take data_size) none })
    (hexec : ∀ (c : Nat) (wd : World),
      dfu_serial_stream_data_crc cfg (dfu_serial_create_obj cfg ws 1 data_size).2 p_data
        data_size 0 0 = some (0, c, wd) →
      (dfu_serial_execute_obj cfg wd).1 = 0) :
    ∃ (wf : World) (writes : List (List Nat)),
      dfu_serial_send_init_packet cfg w (some p_data) data_size = some (0, wf)
      ∧ requests wf.log
          = requests w.log ++ [[6, 1], [1, 1] ++ put_uint32_le data_size] ++ writes
              ++ [[3], [4]]
      ∧ writes ≠ []
      ∧ (∀ m ∈ writes, m.head? = some 8)
      ∧ (writes.map (List.drop 1)).flatten = p_data.take data_size := by
  obtain ⟨s1, -, s3⟩ := dfu_serial_select_obj_frame cfg w 1 { offset := 0, crc := 0, max_size := 0 }
  have s4 := dfu_serial_select_obj_accepts cfg w 1 { offset := 0, crc := 0, max_size := 0 } hsend
  rw [hsel] at s1 s3 s4
  simp only at s1 s3 s4
  obtain ⟨c1, -, c3⟩ := dfu_serial_create_obj_frame cfg ws 1 data_size
  have c4 := dfu_serial_create_obj_accepts cfg ws 1 data_size s4
  obtain ⟨wst, hst⟩ := stream_data_succeeds cfg (dfu_serial_create_obj cfg ws 1 data_size).2
    p_data data_size hN (by rw [c3, s3]; exact hmtu) (by rw [c3, s3]; exact hfit) c4
  obtain ⟨g1, g2⟩ := hcrc wst hst
  have hcheck : crc_check (dfu_serial_get_crc cfg wst { offset := 0, crc := 0 }).2.1 0 data_size
      (cfg.crc32_compute (p_data.take data_size) (some 0)) = 0 := by
    rw [(crc_check_codes _ 0 data_size _).1, g2, hzero]
    simp only [Nat.zero_add]
    exact ⟨(Nat.mod_eq_of_lt hN32).symm, trivial⟩
  obtain ⟨c, wd, hsd⟩ : ∃ (c : Nat) (wd : World),
      dfu_serial_stream_data_crc cfg (dfu_serial_create_obj cfg ws 1 data_size).2 p_data
        data_size 0 0 = some (0, c, wd) := by
    unfold dfu_serial_stream_data_crc
    rw [hst]
    simp only [if_true]
    rw [if_pos g1, hcheck]
    exact ⟨_, _, rfl⟩
  have hex := hexec c wd hsd
  obtain ⟨writes, k1, -, k3, -, k5, -⟩ := stream_data_crc_ok cfg _ _ _ _ _ _ _ hsd
  obtain ⟨e1, -, -⟩ := dfu_serial_execute_obj_frame cfg wd
  refine ⟨(dfu_serial_execute_obj cfg wd).2, writes, ?_, ?_, ?_, k1, k3⟩
  · unfold dfu_serial_send_init_packet
    simp only
    rw [if_neg (by omega), hsel]
    simp only [ne_eq, not_true_eq_false, if_false]
    rw [recover_ip_idle cfg ws p_data data_size sel hN (Or.inl hoff)]
    simp only [ne_eq, not_true_eq_false, if_false]
    rw [if_neg (by omega), if_neg (by omega), if_neg (by simp [hcreate]), hsd]
    simp only [ne_eq, not_true_eq_false, if_false]
    rw [← hex]
  · rw [e1, k5, c1, s1]
    simp
  · intro hw
    rw [hw] at k3
    simp only [List.map_nil, List.flatten_nil] at k3
    have hl := congrArg List.length k3
    rw [List.length_take] at hl
    simp only [List.length_nil] at hl
    omega

set_option maxRecDepth 1000000 in
theorem init_packet_clean_transfer_witness :
    (5 ≤ init_world.mtu ∧ min 10 ((init_world.mtu - 1) / 2 - 1) + 1 ≤ nrf.UART_SLIP_SIZE_MAX)
    ∧ (dfu_serial_send_init_packet nrf init_world (some fw10) 10).map
        (fun r => (r.1, requests r.2.log))
        = some (0, [[6, 1], [1, 1, 10, 0, 0, 0], [8, 1, 2, 3, 4, 5, 6, 7, 8, 9, 10], [3], [4]])
    ∧ ∃ (wf : World) (writes : List (List Nat)),
      dfu_serial_send_init_packet nrf init_world (some fw10) 10 = some (0, wf)
      ∧ requests wf.log
          = requests init_world.log ++ [[6, 1], [1, 1] ++ put_uint32_le 10] ++ writes
              ++ [[3], [4]]
      ∧ writes ≠ []
      ∧ (∀ m ∈ writes, m.head? = some 8)
      ∧ (writes.map (List.drop 1)).flatten = fw10.take 10 :=
  ⟨⟨by decide, by decide⟩, by decide,
   init_packet_clean_transfer nrf init_world
    (dfu_serial_select_obj nrf init_world 1 { offset := 0, crc := 0, max_size := 0 }).2.2
    fw10 10 { offset := 0, crc := 0, max_size := 16 }
    (by decide) (by decide) (by decide) (by decide) (by decide) (by decide)
    crc32_ieee_zero (by decide) rfl (by decide) (by decide)
    (fun wst hst => by
      have hw : wst = ((dfu_serial_stream_data nrf
          (dfu_serial_create_obj nrf
            (dfu_serial_select_obj nrf init_world 1
              { offset := 0, crc := 0, max_size := 0 }).2.2 1 10).2 fw10 10).getD
          (1, init_world)).2 := by
        have h2 : dfu_serial_stream_data nrf
            (dfu_serial_create_obj nrf
              (dfu_serial_select_obj nrf init_world 1
                { offset := 0, crc := 0, max_size := 0 }).2.2 1 10).2 fw10 10
            = some (0, ((dfu_serial_stream_data nrf
                (dfu_serial_create_obj nrf
                  (dfu_serial_select_obj nrf init_world 1
                    { offset := 0, crc := 0, max_size := 0 }).2.2 1 10).2 fw10 10).getD
                (1, init_world)).2) := by decide
        rw [h2] at hst
        simp only [Option.some.injEq, Prod.mk.injEq, true_and] at hst
        exact hst.symm
      subst hw
      exact ⟨by decide, by decide⟩)
    (fun c wd hsd => by
      have h2 : dfu_serial_stream_data_crc nrf
          (dfu_serial_create_obj nrf
            (dfu_serial_select_obj nrf init_world 1
              { offset := 0, crc := 0, max_size := 0 }).2.2 1 10).2 fw10 10 0 0
          = some (0, crc32_ieee fw10 none, ((dfu_serial_stream_data_crc nrf
              (dfu_serial_create_obj nrf
                (dfu_serial_select_obj nrf init_world 1
                  { offset := 0, crc := 0, max_size := 0 }).2.2 1 10).2 fw10 10 0 0).getD
              (1, 0, init_world)).2.2) := by decide
      rw [h2] at hsd
      simp only [Option.some.injEq, Prod.mk.injEq, true_and] at hsd
      obtain ⟨-, rfl⟩ := hsd
      decide)⟩

/-! ### The wire codec -/

/-- C23: for every 16-bit value `get_uint16_le (put_uint16_le u) = u`, for every
32-bit value `get_uint32_le (put_uint32_le u) = u`, and `put` writes the bytes
least significant first: byte `i` is `(u >> 8 * i) mod 256`. -/
theorem wire_codec_round_trip (u16 u32 : Nat) (h16 : u16 < 65536) (h32 : u32 < U32) :
    get_uint16_le (put_uint16_le u16) = u16
    ∧ get_uint32_le (put_uint32_le u32) = u32
    ∧ (∀ i, i < 2 → (put_uint16_le u16).getD i 0 = (u16 >>> (8 * i)) % 256)
    ∧ (∀ i, i < 4 → (put_uint32_le u32).getD i 0 = (u32 >>> (8 * i)) % 256) := by
  refine ⟨?_, ?_, ?_, ?_⟩
  · simp only [get_uint16_le, put_uint16_le, List.getD_cons_zero, List.getD_cons_succ,
      Nat.shiftLeft_eq, Nat.shiftRight_eq_div_pow]
    omega
  · simp only [get_uint32_le, put_uint32_le, List.getD_cons_zero, List.getD_cons_succ,
      Nat.shiftLeft_eq, Nat.shiftRight_eq_div_pow, U32] at *
    omega
  · intro i hi
    interval_cases i <;> rfl
  · intro i hi
    interval_cases i <;> rfl

theorem wire_codec_round_trip_witness :
    4660 < 65536 ∧ 305419896 < U32
    ∧ get_uint16_le (put_uint16_le 4660) = 4660
    ∧ get_uint32_le (put_uint32_le 305419896) = 305419896
    ∧ put_uint16_le 4660 = [52, 18]
    ∧ put_uint32_le 305419896 = [120, 86, 52, 18] :=
  ⟨by decide, by decide, (wire_codec_round_trip 4660 305419896 (by decide) (by decide)).1,
    (wire_codec_round_trip 4660 305419896 (by decide) (by decide)).2.1, by decide, by decide⟩

/-! ### The output of the SLIP encoder -/

theorem slip_stuffed_flatMap (src : List Nat) :
    slip_stuffed src = src.flatMap (fun b =>
      if b = 192 then [219, 220] else if b = 219 then [219, 221] else [b]) := by
  induction src with
  | nil => rfl
  | cons b rest ih =>
    unfold slip_stuffed
    rw [ih]
    simp [SLIP_END, SLIP_ESC, SLIP_ESC_END, SLIP_ESC_ESC]

theorem slip_stuffed_length (src : List Nat) :
    (slip_stuffed src).length = src.length + src.countP (fun b => b = 192 ∨ b = 219) := by
  induction src with
  | nil => rfl
  | cons b rest ih =>
    unfold slip_stuffed
    rw [List.length_append, ih, List.countP_cons]
    by_cases h1 : b = 192
    · simp [h1, SLIP_END]; omega
    · by_cases h2 : b = 219
      · simp [h2, SLIP_END, SLIP_ESC]; omega
      · simp [h1, h2, SLIP_END, SLIP_ESC]; omega

theorem slip_stuffed_count_end (src : List Nat) : (slip_stuffed src).count 192 = 0 := by
  induction src with
  | nil => rfl
  | cons b rest ih =>
    unfold slip_stuffed
    rw [List.count_append, ih]
    by_cases h1 : b = 192
    · simp [h1, SLIP_END, SLIP_ESC, SLIP_ESC_END]
    · by_cases h2 : b = 219
      · simp [h2, SLIP_END, SLIP_ESC, SLIP_ESC_ESC]
      · simp only [h1, h2, SLIP_END, SLIP_ESC, if_false]
        rw [List.count_singleton]
        simp [h1]

/-- C24: for every byte sequence `src` (whose encoded size fits the `uint32_t`
counter), the bytes written by `encode_slip` are the concatenation over the
bytes of `src` of `0xDB 0xDC` for `0xC0`, `0xDB 0xDD` for `0xDB` and the byte
itself otherwise, followed by a single `0xC0`; the reported size is
`len src + (number of 0xC0 and 0xDB bytes in src) + 1`, the number of bytes
written, and at most `2 * len src + 1`. -/
theorem encode_slip_layout (src : List Nat) (hsize : 2 * src.length + 1 < U32) :
    (encode_slip src src.length).1
      = src.flatMap (fun b => if b = 192 then [219, 220] else if b = 219 then [219, 221] else [b])
        ++ [192]
    ∧ (encode_slip src src.length).2
      = src.length + src.countP (fun b => b = 192 ∨ b = 219) + 1
    ∧ (encode_slip src src.length).2 = (encode_slip src src.length).1.length
    ∧ (encode_slip src src.length).2 ≤ 2 * src.length + 1 := by
  rw [encode_slip_eq]
  have hle := slip_stuffed_length_le src
  have hmod : ((slip_stuffed src).length + 1) % U32 = (slip_stuffed src).length + 1 :=
    Nat.mod_eq_of_lt (by omega)
  simp only [hmod]
  refine ⟨?_, ?_, ?_, ?_⟩
  · rw [slip_stuffed_flatMap]; rfl
  · rw [slip_stuffed_length]
  · simp
  · omega

theorem encode_slip_layout_witness :
    2 * [192, 1, 219, 2].length + 1 < U32
    ∧ (encode_slip [192, 1, 219, 2] 4).1 = [219, 220, 1, 219, 221, 2, 192]
    ∧ (encode_slip [192, 1, 219, 2] 4).2 = 4 + 2 + 1 :=
  ⟨by decide, (encode_slip_layout [192, 1, 219, 2] (by decide)).1.trans (by decide),
    (encode_slip_layout [192, 1, 219, 2] (by decide)).2.1.trans (by decide)⟩

/-- C25: for every byte sequence `b`, the byte `0xC0` occurs exactly once in the
output of `encode_slip`, and that occurrence is its last byte. -/
theorem encode_slip_single_end (b : List Nat) :
    (encode_slip b b.length).1.count 192 = 1
    ∧ (encode_slip b b.length).1.getLast? = some 192 := by
  rw [encode_slip_eq]
  constructor
  · simp only [List.count_append, slip_stuffed_count_end]
    rfl
  · simp [SLIP_END]

/-! ### Escape sequences in the SLIP decoder -/

/-- C26: a run of `decode_slip` that returns success although an escape byte is
followed by an ordinary byte. On `0xDB 0x01 0xDC 0xC0` the byte `0x01` is copied
with the escape still pending, the following `0xDC` is then taken as an escaped
terminator, and the frame is reported complete with the bytes `0x01 0xC0`. An
escape byte followed by a second escape byte, or by the terminator, is reported
as an error. -/
theorem decode_slip_accepts_bad_escape :
    decode_slip [219, 1, 220, 192] 4 = (0, [1, 192], 2)
    ∧ (decode_slip [219, 219, 220, 192] 4).1 = 1
    ∧ (decode_slip [219, 192] 2).1 = 1 := by
  decide

/-! ### Sending a frame -/

theorem encode_slip_take (d : List Nat) (n : Nat) :
    encode_slip (d.take n) (d.take n).length = encode_slip d n := by
  unfold encode_slip
  rw [List.take_length]

theorem encode_slip_size_eq (d : List Nat) (n : Nat) (h : 2 * (d.take n).length + 1 < U32) :
    (encode_slip d n).2 = (encode_slip d n).1.length := by
  rw [← encode_slip_take, encode_slip_eq]
  have hle := slip_stuffed_length_le (d.take n)
  simp only [List.length_append, List.length_singleton]
  exact Nat.mod_eq_of_lt (by omega)

/-- C27: `uart_slip_send(data, n)` (with a buffer size `2 * UART_SLIP_SIZE_MAX + 1`
that fits the `uint32_t` size). If `n > UART_SLIP_SIZE_MAX` it returns non-zero
and leaves the driver untouched. Otherwise it is exactly one call of
`uart_drv_send` with the bytes `encode_slip(data[0..n))` and their number: that
frame is appended to what the driver has written, its length is at most
`2 * UART_SLIP_SIZE_MAX + 1`, and the result is the result of the driver. -/
theorem uart_slip_send_contract (cfg : Platform) (w : World) (data : List Nat) (n : Nat)
    (hbuf : UART_SLIP_BUFF_SIZE cfg < U32) :
    (n > cfg.UART_SLIP_SIZE_MAX →
      (uart_slip_send cfg w data n).1 ≠ 0 ∧ (uart_slip_send cfg w data n).2 = w)
    ∧ (n ≤ cfg.UART_SLIP_SIZE_MAX →
      uart_slip_send cfg w data n
        = uart_drv_send w (encode_slip (data.take n) (data.take n).length).1
            (encode_slip (data.take n) (data.take n).length).1.length
      ∧ (uart_slip_send cfg w data n).2.wire
        = w.wire ++ [(encode_slip (data.take n) (data.take n).length).1]
      ∧ (encode_slip (data.take n) (data.take n).length).1.length
        ≤ 2 * cfg.UART_SLIP_SIZE_MAX + 1
      ∧ (uart_slip_send cfg w data n).1 = w.send_results.headD 0
      ∧ (uart_slip_send cfg w data n).2.send_results = w.send_results.tail) := by
  unfold UART_SLIP_BUFF_SIZE at hbuf
  constructor
  · intro hn
    unfold uart_slip_send
    rw [if_pos hn]
    exact ⟨by simp, rfl⟩
  · intro hn
    have htl : (data.take n).length ≤ n := by simp
    have hsz : 2 * (data.take n).length + 1 < U32 := by omega
    have h3 := encode_slip_size_eq data n hsz
    have h4 := (encode_slip_length data n).1
    rw [encode_slip_take]
    have hsend : uart_slip_send cfg w data n
        = uart_drv_send w (encode_slip data n).1 (encode_slip data n).1.length := by
      unfold uart_slip_send
      rw [if_neg (by omega)]
      simp only [h3]
    refine ⟨hsend, ?_, by omega, ?_, ?_⟩
    · rw [hsend]; unfold uart_drv_send; split <;> simp
    · rw [hsend]; unfold uart_drv_send; split <;> simp_all
    · rw [hsend]; unfold uart_drv_send; split <;> simp_all

theorem uart_slip_send_contract_witness :
    UART_SLIP_BUFF_SIZE nrf < U32
    ∧ ((uart_slip_send nrf (start_world 64 []) packet130 130).1 ≠ 0
      ∧ (uart_slip_send nrf (start_world 64 []) packet130 130).2 = start_world 64 [])
    ∧ (uart_slip_send nrf (start_world 64 []) [192, 1, 219, 2] 4).2.wire
        = [[219, 220, 1, 219, 221, 2, 192]] :=
  ⟨by decide,
    (uart_slip_send_contract nrf (start_world 64 []) packet130 130 (by decide)).1 (by decide),
    (((uart_slip_send_contract nrf (start_world 64 []) [192, 1, 219, 2] 4 (by decide)).2
      (by decide)).2.1).trans (by decide)⟩

/-! ### The layout of the requests -/

theorem exchange_log (cfg : Platform) (w : World) (d : List Nat) (n oper c0 : Nat) :
    (dfu_serial_get_rsp cfg (dfu_serial_send cfg w d n).2 oper c0).2.2.log
      = w.log ++ [Event.send (d.take n), Event.receive] := by
  rw [(dfu_serial_get_rsp_frame cfg _ oper c0).1, (dfu_serial_send_frame cfg w d n).1]
  simp

theorem dfu_serial_ping_log (cfg : Platform) (w : World) (id : Nat) :
    (dfu_serial_ping cfg w id).2.log = w.log ++ exchange_events cfg w [9, id] := by
  unfold dfu_serial_ping exchange_events
  simp only [NRF_DFU_OP_PING, List.length_cons, List.length_nil]
  by_cases hs : (dfu_serial_send cfg w [9, id] 2).1 = 0
  · simp only [hs, if_true]
    split_ifs <;> simp only [] <;> exact exchange_log cfg w _ _ _ _
  · simp only [hs, if_false]
    exact (dfu_serial_send_frame cfg w _ _).1

theorem put_uint16_le_bytes (u : Nat) : put_uint16_le u = [u % 256, u / 256 % 256] := by
  simp [put_uint16_le, Nat.shiftRight_eq_div_pow]

theorem put_uint32_le_bytes (u : Nat) :
    put_uint32_le u = [u % 256, u / 256 % 256, u / 65536 % 256, u / 16777216 % 256] := by
  simp [put_uint32_le, Nat.shiftRight_eq_div_pow]

theorem dfu_serial_set_prn_log (cfg : Platform) (w : World) (prn : Nat) :
    (dfu_serial_set_prn cfg w prn).2.log
      = w.log ++ exchange_events cfg w [2, prn % 256, prn / 256 % 256] := by
  unfold dfu_serial_set_prn exchange_events
  rw [put_uint16_le_bytes]
  simp only [NRF_DFU_OP_RECEIPT_NOTIF_SET, List.length_cons, List.length_nil,
    List.singleton_append, Nat.zero_add, Nat.reduceAdd]
  by_cases hs : (dfu_serial_send cfg w [2, prn % 256, prn / 256 % 256] 3).1 = 0
  · simp only [hs, if_true]
    exact exchange_log cfg w _ _ _ _
  · simp only [hs, if_false]
    exact (dfu_serial_send_frame cfg w _ _).1

theorem dfu_serial_get_mtu_log (cfg : Platform) (w : World) (p_mtu : Nat) :
    (dfu_serial_get_mtu cfg w p_mtu).2.2.log = w.log ++ exchange_events cfg w [7] := by
  unfold dfu_serial_get_mtu exchange_events
  simp only [NRF_DFU_OP_MTU_GET, List.length_cons, List.length_nil]
  by_cases hs : (dfu_serial_send cfg w [7] 1).1 = 0
  · simp only [hs, if_true]
    split_ifs <;> simp only [] <;> exact exchange_log cfg w [7] 1 7 0
  · simp only [hs, if_false]
    exact (dfu_serial_send_frame cfg w _ _).1

theorem dfu_serial_select_obj_log (cfg : Platform) (w : World) (t : Nat)
    (r0 : nrf_dfu_response_select_t) :
    (dfu_serial_select_obj cfg w t r0).2.2.log = w.log ++ exchange_events cfg w [6, t] := by
  unfold dfu_serial_select_obj exchange_events
  simp only [NRF_DFU_OP_OBJECT_SELECT, List.length_cons, List.length_nil]
  by_cases hs : (dfu_serial_send cfg w [6, t] 2).1 = 0
  · simp only [hs, if_true]
    split_ifs <;> simp only [] <;> exact exchange_log cfg w _ _ _ _
  · simp only [hs, if_false]
    exact (dfu_serial_send_frame cfg w _ _).1

theorem dfu_serial_create_obj_log (cfg : Platform) (w : World) (t n : Nat) :
    (dfu_serial_create_obj cfg w t n).2.log
      = w.log ++ exchange_events cfg w
          [1, t, n % 256, n / 256 % 256, n / 65536 % 256, n / 16777216 % 256] := by
  unfold dfu_serial_create_obj exchange_events
  rw [put_uint32_le_bytes]
  simp only [NRF_DFU_OP_OBJECT_CREATE, List.length_cons, List.length_nil,
    List.cons_append, List.nil_append, Nat.zero_add, Nat.reduceAdd]
  by_cases hs : (dfu_serial_send cfg w
      [1, t, n % 256, n / 256 % 256, n / 65536 % 256, n / 16777216 % 256] 6).1 = 0
  · simp only [hs, if_true]
    exact exchange_log cfg w _ _ _ _
  · simp only [hs, if_false]
    exact (dfu_serial_send_frame cfg w _ _).1

theorem dfu_serial_get_crc_log (cfg : Platform) (w : World) (r0 : nrf_dfu_response_crc_t) :
    (dfu_serial_get_crc cfg w r0).2.2.log = w.log ++ exchange_events cfg w [3] := by
  unfold dfu_serial_get_crc exchange_events
  simp only [NRF_DFU_OP_CRC_GET, List.length_cons, List.length_nil]
  by_cases hs : (dfu_serial_send cfg w [3] 1).1 = 0
  · simp only [hs, if_true]
    split_ifs <;> simp only [] <;> exact exchange_log cfg w _ _ _ _
  · simp only [hs, if_false]
    exact (dfu_serial_send_frame cfg w _ _).1

theorem dfu_serial_execute_obj_log (cfg : Platform) (w : World) :
    (dfu_serial_execute_obj cfg w).2.log = w.log ++ exchange_events cfg w [4] := by
  unfold dfu_serial_execute_obj exchange_events
  simp only [NRF_DFU_OP_OBJECT_EXECUTE, List.length_cons, List.length_nil]
  by_cases hs : (dfu_serial_send cfg w [4] 1).1 = 0
  · simp only [hs, if_true]
    exact exchange_log cfg w _ _ _ _
  · simp only [hs, if_false]
    exact (dfu_serial_send_frame cfg w _ _).1

theorem stream_loop_total (cfg : Platform) (p : List Nat) (n stp_max : Nat) :
    ∀ (fuel : Nat) (w : World) (pos : Nat) (err : Int),
      (err ≠ 0 ∨ 1 ≤ stp_max) → n - pos ≤ fuel →
      ∃ r, dfu_serial_stream_data_loop cfg fuel w p n stp_max pos err = some r := by
  intro fuel
  induction fuel with
  | zero =>
    intro w pos err _ hf
    unfold dfu_serial_stream_data_loop
    rw [if_neg (by omega)]
    exact ⟨_, rfl⟩
  | succ fuel ih =>
    intro w pos err hstp hf
    unfold dfu_serial_stream_data_loop
    split_ifs with hc
    · simp only
      have h1 : 1 ≤ stp_max := by
        rcases hstp with h | h
        · exact absurd hc.1 h
        · exact h
      exact ih _ _ _ (Or.inr h1) (by omega)
    · exact ⟨_, rfl⟩

theorem stream_data_total (cfg : Platform) (w : World) (p : List Nat) (n : Nat) :
    ∃ r, dfu_serial_stream_data cfg w p n = some r := by
  unfold dfu_serial_stream_data
  apply stream_loop_total
  · by_cases h0 : n = 0
    · left; simp [h0]
    · by_cases h5 : w.mtu ≥ 5
      · right; omega
      · left; simp [h0, h5]
  · omega

theorem stream_loop_log (cfg : Platform) (p : List Nat) (n stp_max : Nat) :
    ∀ (fuel : Nat) (w : World) (pos : Nat) (err e : Int) (w1 : World),
      dfu_serial_stream_data_loop cfg fuel w p n stp_max pos err = some (e, w1) →
      ∃ writes : List (List Nat),
        w1.log = w.log ++ writes.map Event.send
        ∧ ∀ m ∈ writes, ∃ at_pos stp, m = 8 :: (p.drop at_pos).take stp := by
  intro fuel
  induction fuel with
  | zero =>
    intro w pos err e w1 h
    unfold dfu_serial_stream_data_loop at h
    split_ifs at h with hc
    simp only [Option.some.injEq, Prod.mk.injEq] at h
    obtain ⟨rfl, rfl⟩ := h
    exact ⟨[], by simp, by simp⟩
  | succ fuel ih =>
    intro w pos err e w1 h
    unfold dfu_serial_stream_data_loop at h
    split_ifs at h with hc
    · simp only at h
      obtain ⟨writes, h1, h2⟩ := ih _ _ _ _ _ h
      have s1 := (dfu_serial_send_frame cfg w
        ([NRF_DFU_OP_OBJECT_WRITE] ++ (p.drop pos).take (min (n - pos) stp_max))
        (min (n - pos) stp_max + 1)).1
      have htake : List.take (min (n - pos) stp_max + 1)
          ([NRF_DFU_OP_OBJECT_WRITE] ++ (p.drop pos).take (min (n - pos) stp_max))
          = 8 :: (p.drop pos).take (min (n - pos) stp_max) := by
        apply List.take_of_length_le
        simp
      rw [htake] at s1
      refine ⟨(8 :: (p.drop pos).take (min (n - pos) stp_max)) :: writes, ?_, ?_⟩
      · rw [h1, s1]; simp
      · intro m hm
        rcases List.mem_cons.mp hm with rfl | hm
        · exact ⟨pos, _, rfl⟩
        · exact h2 m hm
    · simp only [Option.some.injEq, Prod.mk.injEq] at h
      obtain ⟨rfl, rfl⟩ := h
      exact ⟨[], by simp, by simp⟩

set_option maxRecDepth 1000000 in
/-- C21, as stated, fails: when the driver fails the write of the ping message,
`dfu_serial_ping` hands `[0x09, 5]` to the transport and returns 1 without
reading a response frame, although the response is ready to be read. -/
theorem request_not_followed_by_read :
    dfu_serial_ping nrf deaf_world 5
      = (1, { deaf_world with log := [Event.send [9, 5]], wire := [[9, 5, 192]],
                              send_results := [] }) := by
  decide

/-- C21, amended: each request function hands exactly one message to
`dfu_serial_send`, with the layout of the opcode table, and calls
`uart_slip_receive` exactly once after it when the send returned 0 and not at
all when the send failed: Ping = `[0x09, id]`; ReceiptNotifSet = `[0x02, prn low
byte, prn high byte]`; MtuGet = `[0x07]`; ObjectSelect = `[0x06, type]`;
ObjectCreate = `[0x01, type, size as 4 little-endian bytes]`; CrcGet = `[0x03]`;
ObjectExecute = `[0x04]`. `dfu_serial_stream_data` returns, and what it adds to
the log are only messages `[0x08]` followed by a slice of the data, with no
read of a response. -/
theorem request_layouts (cfg : Platform) (w : World) :
    (∀ id, (dfu_serial_ping cfg w id).2.log = w.log ++ exchange_events cfg w [9, id])
    ∧ (∀ prn, (dfu_serial_set_prn cfg w prn).2.log
        = w.log ++ exchange_events cfg w [2, prn % 256, prn / 256 % 256])
    ∧ (∀ p_mtu, (dfu_serial_get_mtu cfg w p_mtu).2.2.log = w.log ++ exchange_events cfg w [7])
    ∧ (∀ t r0, (dfu_serial_select_obj cfg w t r0).2.2.log
        = w.log ++ exchange_events cfg w [6, t])
    ∧ (∀ t n, (dfu_serial_create_obj cfg w t n).2.log
        = w.log ++ exchange_events cfg w
            [1, t, n % 256, n / 256 % 256, n / 65536 % 256, n / 16777216 % 256])
    ∧ (∀ r0, (dfu_serial_get_crc cfg w r0).2.2.log = w.log ++ exchange_events cfg w [3])
    ∧ (dfu_serial_execute_obj cfg w).2.log = w.log ++ exchange_events cfg w [4]
    ∧ (∀ p_data data_size, ∃ (e : Int) (w1 : World) (writes : List (List Nat)),
        dfu_serial_stream_data cfg w p_data data_size = some (e, w1)
        ∧ w1.log = w.log ++ writes.map Event.send
        ∧ ∀ m ∈ writes, ∃ at_pos stp, m = 8 :: (p_data.drop at_pos).take stp) := by
  refine ⟨dfu_serial_ping_log cfg w, dfu_serial_set_prn_log cfg w, dfu_serial_get_mtu_log cfg w,
    dfu_serial_select_obj_log cfg w, dfu_serial_create_obj_log cfg w,
    dfu_serial_get_crc_log cfg w, dfu_serial_execute_obj_log cfg w, ?_⟩
  intro p_data data_size
  obtain ⟨r, hr⟩ := stream_data_total cfg w p_data data_size
  have hr2 := hr
  unfold dfu_serial_stream_data at hr2
  obtain ⟨writes, h1, h2⟩ := stream_loop_log cfg p_data data_size _ _ _ _ _ r.1 r.2 hr2
  exact ⟨r.1, r.2, writes, hr, h1, h2⟩

/-! ### The statics of the protocol engine -/

theorem uart_drv_send_statics (w : World) (d : List Nat) (n : Nat) :
    statics (uart_drv_send w d n).2 = statics w := by
  unfold uart_drv_send
  split <;> rfl

theorem dfu_serial_send_statics (cfg : Platform) (w : World) (d : List Nat) (n : Nat) :
    statics (dfu_serial_send cfg w d n).2 = statics w := by
  unfold dfu_serial_send uart_slip_send
  split_ifs
  · rfl
  · exact uart_drv_send_statics _ _ _

theorem dfu_serial_get_rsp_statics (cfg : Platform) (w : World) (oper c0 : Nat) :
    statics (dfu_serial_get_rsp cfg w oper c0).2.2 = statics w := by
  unfold dfu_serial_get_rsp uart_slip_receive
  simp only
  split_ifs <;> rfl

theorem exchange_statics (cfg : Platform) (w : World) (d : List Nat) (n oper c0 : Nat) :
    statics (dfu_serial_get_rsp cfg (dfu_serial_send cfg w d n).2 oper c0).2.2 = statics w :=
  (dfu_serial_get_rsp_statics cfg _ oper c0).trans (dfu_serial_send_statics cfg w d n)

theorem dfu_serial_ping_statics (cfg : Platform) (w : World) (id : Nat) :
    statics (dfu_serial_ping cfg w id).2 = statics w := by
  unfold dfu_serial_ping
  simp only
  split_ifs <;> (try simp only []) <;>
    first | exact exchange_statics cfg w _ _ _ _ | exact dfu_serial_send_statics cfg w _ _

theorem dfu_serial_set_prn_statics (cfg : Platform) (w : World) (prn : Nat) :
    statics (dfu_serial_set_prn cfg w prn).2 = statics w := by
  unfold dfu_serial_set_prn
  simp only
  split_ifs <;> (try simp only []) <;>
    first | exact exchange_statics cfg w _ _ _ _ | exact dfu_serial_send_statics cfg w _ _

theorem dfu_serial_get_mtu_statics (cfg : Platform) (w : World) (p_mtu : Nat) :
    statics (dfu_serial_get_mtu cfg w p_mtu).2.2 = statics w := by
  unfold dfu_serial_get_mtu
  simp only
  split_ifs <;> (try simp only []) <;>
    first | exact exchange_statics cfg w _ _ _ _ | exact dfu_serial_send_statics cfg w _ _

theorem dfu_serial_select_obj_statics (cfg : Platform) (w : World) (t : Nat)
    (r0 : nrf_dfu_response_select_t) :
    statics (dfu_serial_select_obj cfg w t r0).2.2 = statics w := by
  unfold dfu_serial_select_obj
  simp only
  split_ifs <;> (try simp only []) <;>
    first | exact exchange_statics cfg w _ _ _ _ | exact dfu_serial_send_statics cfg w _ _

theorem dfu_serial_create_obj_statics (cfg : Platform) (w : World) (t n : Nat) :
    statics (dfu_serial_create_obj cfg w t n).2 = statics w := by
  unfold dfu_serial_create_obj
  simp only
  split_ifs <;> (try simp only []) <;>
    first | exact exchange_statics cfg w _ _ _ _ | exact dfu_serial_send_statics cfg w _ _

theorem dfu_serial_get_crc_statics (cfg : Platform) (w : World) (r0 : nrf_dfu_response_crc_t) :
    statics (dfu_serial_get_crc cfg w r0).2.2 = statics w := by
  unfold dfu_serial_get_crc
  simp only
  split_ifs <;> (try simp only []) <;>
    first | exact exchange_statics cfg w _ _ _ _ | exact dfu_serial_send_statics cfg w _ _

theorem dfu_serial_execute_obj_statics (cfg : Platform) (w : World) :
    statics (dfu_serial_execute_obj cfg w).2 = statics w := by
  unfold dfu_serial_execute_obj
  simp only
  split_ifs <;> (try simp only []) <;>
    first | exact exchange_statics cfg w _ _ _ _ | exact dfu_serial_send_statics cfg w _ _

theorem stream_loop_statics (cfg : Platform) (p : List Nat) (n stp_max : Nat) :
    ∀ (fuel : Nat) (w : World) (pos : Nat) (err : Int) (r : Int × World),
      dfu_serial_stream_data_loop cfg fuel w p n stp_max pos err = some r →
      statics r.2 = statics w := by
  intro fuel
  induction fuel with
  | zero =>
    intro w pos err r h
    unfold dfu_serial_stream_data_loop at h
    split_ifs at h with hc
    simp only [Option.some.injEq] at h
    subst h
    rfl
  | succ fuel ih =>
    intro w pos err r h
    unfold dfu_serial_stream_data_loop at h
    split_ifs at h with hc
    · simp only at h
      exact (ih _ _ _ _ h).trans (dfu_serial_send_statics cfg w _ _)
    · simp only [Option.some.injEq] at h
      subst h
      rfl

theorem stream_data_crc_statics (cfg : Platform) (w : World) (p : List Nat) (n pos crc : Nat)
    (r : Int × Nat × World) (h : dfu_serial_stream_data_crc cfg w p n pos crc = some r) :
    statics r.2.2 = statics w := by
  unfold dfu_serial_stream_data_crc at h
  split at h
  · simp at h
  · rename_i s hs
    unfold dfu_serial_stream_data at hs
    have k := stream_loop_statics cfg p n _ _ _ _ _ s hs
    have g := dfu_serial_get_crc_statics cfg s.2 { offset := 0, crc := 0 }
    by_cases hs0 : s.1 = 0
    · by_cases hg0 : (dfu_serial_get_crc cfg s.2 { offset := 0, crc := 0 }).1 = 0
      · simp only [hs0, hg0, if_true, Option.some.injEq] at h
        subst h
        exact g.trans k
      · simp only [hs0, hg0, if_true, if_false, Option.some.injEq] at h
        subst h
        exact g.trans k
    · simp only [hs0, if_false, Option.some.injEq] at h
      subst h
      exact k

theorem recover_ip_statics (cfg : Platform) (w : World) (p : List Nat) (N : Nat)
    (sel : nrf_dfu_response_select_t) (r : Int × nrf_dfu_response_select_t × World)
    (h : dfu_serial_try_to_recover_ip cfg w p N sel = some r) :
    statics r.2.2 = statics w := by
  unfold dfu_serial_try_to_recover_ip at h
  simp only at h
  split_ifs at h
  all_goals first
    | (simp only [Option.some.injEq] at h
       subst h
       first | rfl | exact dfu_serial_execute_obj_statics cfg w)
    | (split at h
       · simp at h
       · rename_i s hs
         have k := stream_data_crc_statics cfg w _ _ _ _ s hs
         split_ifs at h <;> simp only [Option.some.injEq] at h <;> subst h <;>
           first | exact k | exact (dfu_serial_execute_obj_statics cfg _).trans k)

theorem recover_fw_statics (cfg : Platform) (w : World) (p : List Nat) (N : Nat)
    (sel : nrf_dfu_response_select_t) (r : Int × nrf_dfu_response_select_t × World)
    (h : dfu_serial_try_to_recover_fw cfg w p N sel = some r) :
    statics r.2.2 = statics w := by
  unfold dfu_serial_try_to_recover_fw at h
  simp only at h
  split_ifs at h
  all_goals first
    | (simp only [Option.some.injEq] at h
       subst h
       first | rfl | exact dfu_serial_execute_obj_statics cfg w)
    | (split at h
       · simp at h
       · rename_i s hs
         have k := stream_data_crc_statics cfg w _ _ _ _ s hs
         split_ifs at h <;> simp only [Option.some.injEq] at h <;> subst h <;>
           first | exact k | exact (dfu_serial_execute_obj_statics cfg _).trans k)

theorem send_init_packet_statics (cfg : Platform) (w : World) (p_data : Option (List Nat))
    (data_size : Nat) (r : Int × World)
    (h : dfu_serial_send_init_packet cfg w p_data data_size = some r) :
    statics r.2 = statics w := by
  unfold dfu_serial_send_init_packet at h
  split at h
  · simp only [Option.some.injEq] at h
    subst h
    rfl
  rename_i mem
  by_cases h0 : data_size = 0
  · rw [if_pos h0] at h
    simp only [Option.some.injEq] at h
    subst h
    rfl
  rw [if_neg h0] at h
  simp only at h
  have ksel := dfu_serial_select_obj_statics cfg w 1 { offset := 0, crc := 0, max_size := 0 }
  by_cases h1 : (dfu_serial_select_obj cfg w 1 { offset := 0, crc := 0, max_size := 0 }).1 ≠ 0
  · rw [if_pos h1] at h
    simp only [Option.some.injEq] at h
    subst h
    exact ksel
  rw [if_neg h1] at h
  split at h
  · simp at h
  rename_i rec hrec
  have krec := (recover_ip_statics cfg _ _ _ _ rec hrec).trans ksel
  by_cases h2 : rec.1 ≠ 0
  · rw [if_pos h2] at h
    simp only [Option.some.injEq] at h
    subst h
    exact krec
  rw [if_neg h2] at h
  by_cases h3 : rec.2.1.offset = data_size
  · rw [if_pos h3] at h
    simp only [Option.some.injEq] at h
    subst h
    exact krec
  rw [if_neg h3] at h
  by_cases h4 : data_size
      > (dfu_serial_select_obj cfg w 1 { offset := 0, crc := 0, max_size := 0 }).2.1.max_size
  · rw [if_pos h4] at h
    simp only [Option.some.injEq] at h
    subst h
    exact krec
  rw [if_neg h4] at h
  have kc := (dfu_serial_create_obj_statics cfg rec.2.2 1 data_size).trans krec
  by_cases h5 : (dfu_serial_create_obj cfg rec.2.2 1 data_size).1 ≠ 0
  · rw [if_pos h5] at h
    simp only [Option.some.injEq] at h
    subst h
    exact kc
  rw [if_neg h5] at h
  split at h
  · simp at h
  rename_i s hs
  have ks := (stream_data_crc_statics cfg _ _ _ _ _ s hs).trans kc
  by_cases h6 : s.1 ≠ 0
  · rw [if_pos h6] at h
    simp only [Option.some.injEq] at h
    subst h
    exact ks
  rw [if_neg h6] at h
  simp only [Option.some.injEq] at h
  subst h
  exact (dfu_serial_execute_obj_statics cfg _).trans ks

theorem send_firmware_loop_statics (cfg : Platform) (p : List Nat) (N max : Nat) :
    ∀ (fuel : Nat) (w : World) (pos crc : Nat) (r : Int × World),
      dfu_serial_send_firmware_loop cfg fuel w p N max pos crc = some r →
      statics r.2 = statics w := by
  intro fuel
  induction fuel with
  | zero =>
    intro w pos crc r h
    unfold dfu_serial_send_firmware_loop at h
    split_ifs at h
    simp only [Option.some.injEq] at h
    subst h
    rfl
  | succ fuel ih =>
    intro w pos crc r h
    unfold dfu_serial_send_firmware_loop at h
    by_cases hc : pos < N
    swap
    · rw [if_neg hc] at h
      simp only [Option.some.injEq] at h
      subst h
      rfl
    rw [if_pos hc] at h
    simp only at h
    have kc := dfu_serial_create_obj_statics cfg w 2 (min (N - pos) max)
    by_cases h1 : (dfu_serial_create_obj cfg w 2 (min (N - pos) max)).1 ≠ 0
    · rw [if_pos h1] at h
      simp only [Option.some.injEq] at h
      subst h
      exact kc
    rw [if_neg h1] at h
    split at h
    · simp at h
    rename_i s hs
    have ks := (stream_data_crc_statics cfg _ _ _ _ _ s hs).trans kc
    by_cases h2 : s.1 ≠ 0
    · rw [if_pos h2] at h
      simp only [Option.some.injEq] at h
      subst h
      exact ks
    rw [if_neg h2] at h
    have ke := (dfu_serial_execute_obj_statics cfg s.2.2).trans ks
    by_cases h3 : (dfu_serial_execute_obj cfg s.2.2).1 ≠ 0
    · rw [if_pos h3] at h
      simp only [Option.some.injEq] at h
      subst h
      exact ke
    rw [if_neg h3] at h
    exact (ih _ _ _ _ h).trans ke

theorem send_firmware_statics (cfg : Platform) (w : World) (p_data : Option (List Nat))
    (data_size : Nat) (r : Int × World)
    (h : dfu_serial_send_firmware cfg w p_data data_size = some r) :
    statics r.2 = statics w := by
  unfold dfu_serial_send_firmware at h
  split at h
  · simp only [Option.some.injEq] at h
    subst h
    rfl
  rename_i mem
  by_cases h0 : data_size = 0
  · rw [if_pos h0] at h
    simp only [Option.some.injEq] at h
    subst h
    rfl
  rw [if_neg h0] at h
  simp only at h
  have ksel := dfu_serial_select_obj_statics cfg w 2 { offset := 0, crc := 0, max_size := 0 }
  by_cases h1 : (dfu_serial_select_obj cfg w 2 { offset := 0, crc := 0, max_size := 0 }).1 ≠ 0
  · rw [if_pos h1] at h
    simp only [Option.some.injEq] at h
    subst h
    exact ksel
  rw [if_neg h1] at h
  split at h
  · simp at h
  rename_i rec hrec
  have krec := (recover_fw_statics cfg _ _ _ _ rec hrec).trans ksel
  by_cases h2 : rec.1 ≠ 0
  · rw [if_pos h2] at h
    simp only [Option.some.injEq] at h
    subst h
    exact krec
  rw [if_neg h2] at h
  exact (send_firmware_loop_statics cfg _ _ _ _ _ _ _ r h).trans krec

theorem dfu_serial_open_statics (cfg : Platform) (w : World) :
    statics (dfu_serial_open cfg w).2 = ((w.ping_id + 1) % 256, w.prn) := by
  unfold dfu_serial_open
  simp only
  have kp := dfu_serial_ping_statics cfg { w with ping_id := (w.ping_id + 1) % 256 }
    ((w.ping_id + 1) % 256)
  split_ifs
  · exact ((dfu_serial_get_mtu_statics cfg _ _).trans
      (dfu_serial_set_prn_statics cfg _ _)).trans kp
  · exact (dfu_serial_set_prn_statics cfg _ _).trans kp
  · exact kp

/-! ### Opening a session -/

theorem process_statics (cfg : Platform) (k : Nat) (w : World) (h : Process cfg k w) :
    statics w = (k % 256, 0) := by
  induction h with
  | start w hid hprn _ => simp [statics, hid, hprn]
  | opened k w _ ih =>
    rw [dfu_serial_open_statics]
    simp only [statics, Prod.mk.injEq] at ih
    rw [ih.1, ih.2]
    simp
  | init_sent k w p n r _ hr ih => exact (send_init_packet_statics cfg w p n r hr).trans ih
  | firmware_sent k w p n r _ hr ih => exact (send_firmware_statics cfg w p n r hr).trans ih
  | closed k w _ ih => exact ih

theorem requests_exchange_events (cfg : Platform) (w : World) (msg : List Nat) :
    requests (exchange_events cfg w msg) = [msg] := by
  unfold exchange_events
  split_ifs <;> rfl

theorem get_rsp_ok (cfg : Platform) (w : World) (oper c0 : Nat)
    (h : (dfu_serial_get_rsp cfg w oper c0).1 = 0) :
    valid_header oper (dfu_serial_get_rsp cfg w oper c0).2.2.receive_data
    ∧ (dfu_serial_get_rsp cfg w oper c0).2.2.receive_data.length
        = (dfu_serial_get_rsp cfg w oper c0).2.1 := by
  have hrecv : (uart_slip_receive cfg w c0).1 = 0 := by
    unfold dfu_serial_get_rsp at h
    simp only at h
    by_contra hne
    rw [if_neg hne] at h
    exact hne h
  obtain ⟨h1, -, -, h4⟩ := get_rsp_spec cfg w oper c0 hrecv
  exact ⟨by rw [h4]; exact h1.mp h, dfu_serial_get_rsp_length cfg w oper c0 h⟩

theorem dfu_serial_ping_ok (cfg : Platform) (w : World) (id : Nat)
    (h : (dfu_serial_ping cfg w id).1 = 0) :
    (dfu_serial_ping cfg w id).2.receive_data.length = 4
    ∧ valid_header 9 (dfu_serial_ping cfg w id).2.receive_data
    ∧ (dfu_serial_ping cfg w id).2.receive_data.getD 3 0 = id := by
  have hg := get_rsp_ok cfg (dfu_serial_send cfg w [NRF_DFU_OP_PING, id] 2).2 NRF_DFU_OP_PING 0
  unfold dfu_serial_ping at h ⊢
  simp only at h ⊢
  split_ifs at h ⊢ with h1 h2 h3
  · simp at h
  · simp only [not_or, not_not] at h3
    obtain ⟨g1, g2⟩ := hg h2
    exact ⟨by rw [g2]; exact h3.1, g1, h3.2⟩
  · exact absurd h h2
  · exact absurd h h1

theorem dfu_serial_get_mtu_ok (cfg : Platform) (w : World) (p_mtu : Nat)
    (h : (dfu_serial_get_mtu cfg w p_mtu).1 = 0) :
    (dfu_serial_get_mtu cfg w p_mtu).2.2.receive_data.length = 5
    ∧ valid_header 7 (dfu_serial_get_mtu cfg w p_mtu).2.2.receive_data
    ∧ (dfu_serial_get_mtu cfg w p_mtu).2.1
        = le16_at (dfu_serial_get_mtu cfg w p_mtu).2.2.receive_data 3 := by
  have hg := get_rsp_ok cfg (dfu_serial_send cfg w [NRF_DFU_OP_MTU_GET] 1).2 NRF_DFU_OP_MTU_GET 0
  unfold dfu_serial_get_mtu at h ⊢
  simp only at h ⊢
  split_ifs at h ⊢ with h1 h2 h3
  · obtain ⟨g1, g2⟩ := hg h2
    exact ⟨by rw [g2]; exact h3, g1, get_uint16_le_drop _ _⟩
  · simp at h
  · exact absurd h h2
  · exact absurd h h1

theorem receive_loop_frame (cfg : Platform) (bytes : List Nat) (rest : List (Int × List Nat))
    (pData : List Nat) (pSize : Nat) (hbuf : UART_SLIP_BUFF_SIZE cfg < U32)
    (hlen : bytes.length < U32) (hpos : bytes.length ≠ 0)
    (hdec : (decode_slip bytes bytes.length).1 = 0) :
    uart_slip_receive_loop cfg ((0, bytes) :: rest) [] 0 pData pSize
      = (0, (decode_slip bytes bytes.length).2.1, (decode_slip bytes bytes.length).2.2,
          rest) := by
  have hb : (UART_SLIP_BUFF_SIZE cfg + U32 - 0 % U32) % U32 ≠ 0 := by
    unfold UART_SLIP_BUFF_SIZE at hbuf ⊢
    simp only [U32] at hbuf ⊢
    omega
  have hm : (0 + bytes.length) % U32 = bytes.length := by
    rw [Nat.zero_add]; exact Nat.mod_eq_of_lt hlen
  unfold uart_slip_receive_loop
  simp only
  rw [if_neg hb, if_neg (by simp), if_neg hpos, hm, List.nil_append, if_pos hdec]
theorem decode_encode_slip (b : List Nat) :
    decode_slip (encode_slip b b.length).1 (encode_slip b b.length).1.length
      = (0, b, b.length) := by
  rw [encode_slip_eq]
  unfold decode_slip
  simp only [List.take_length]
  rw [decode_slip_loop_stuffed]
  simp

theorem uart_slip_receive_reply (cfg : Platform) (w : World) (c0 : Nat) (msg : List Nat)
    (rest : List (Int × List Nat)) (hbuf : UART_SLIP_BUFF_SIZE cfg < U32)
    (hmsg : 2 * msg.length + 1 < U32) (hr : w.recv_results = reply msg :: rest) :
    uart_slip_receive cfg w c0
      = (0, msg.length,
          { w with receive_data := msg, recv_results := rest,
                   log := w.log ++ [Event.receive] }) := by
  have hlen : (encode_slip msg msg.length).1.length < U32 := by
    have := (encode_slip_length msg msg.length).1
    simp only [List.take_length] at this
    omega
  have hpos : (encode_slip msg msg.length).1.length ≠ 0 := by
    rw [encode_slip_eq]; simp
  have hd := decode_encode_slip msg
  have hl := receive_loop_frame cfg (encode_slip msg msg.length).1 rest w.receive_data c0 hbuf
    hlen hpos (by rw [hd])
  rw [hd] at hl
  unfold uart_slip_receive
  rw [hr]
  unfold reply
  rw [hl]

theorem dfu_serial_send_reads (cfg : Platform) (w : World) (d : List Nat) (n : Nat) :
    (dfu_serial_send cfg w d n).2.recv_results = w.recv_results := by
  unfold dfu_serial_send uart_slip_send
  split_ifs
  · rfl
  · unfold uart_drv_send
    split <;> rfl

theorem dfu_serial_send_head (cfg : Platform) (w : World) (d : List Nat) (n : Nat)
    (hn : n ≤ cfg.UART_SLIP_SIZE_MAX) (hs : w.send_results.headD 0 = 0) :
    (dfu_serial_send cfg w d n).1 = 0 := by
  unfold dfu_serial_send uart_slip_send
  rw [if_neg (by omega)]
  unfold uart_drv_send
  simp only
  split
  · rfl
  · rename_i r rest h0
    rw [h0] at hs
    exact hs

theorem dfu_serial_ping_reply (cfg : Platform) (w : World) (id : Nat)
    (rest : List (Int × List Nat)) (hmax : 2 ≤ cfg.UART_SLIP_SIZE_MAX)
    (hbuf : UART_SLIP_BUFF_SIZE cfg < U32) (hs : w.send_results.headD 0 = 0)
    (hr : w.recv_results = reply [96, 9, 1, id] :: rest) :
    (dfu_serial_ping cfg w id).1 = 0 := by
  have h1 := dfu_serial_send_head cfg w [NRF_DFU_OP_PING, id] 2 hmax hs
  have h2 := uart_slip_receive_reply cfg (dfu_serial_send cfg w [NRF_DFU_OP_PING, id] 2).2 0
    [96, 9, 1, id] rest hbuf (by simp only [List.length_cons, List.length_nil, U32]; omega)
    (by rw [dfu_serial_send_reads]; exact hr)
  have h3 : (dfu_serial_get_rsp cfg (dfu_serial_send cfg w [NRF_DFU_OP_PING, id] 2).2
      NRF_DFU_OP_PING 0).1 = 0 := by
    unfold dfu_serial_get_rsp
    simp only [h2]
    simp [NRF_DFU_OP_RESPONSE, NRF_DFU_OP_PING, NRF_DFU_RES_CODE_SUCCESS]
  have h4 : (dfu_serial_get_rsp cfg (dfu_serial_send cfg w [NRF_DFU_OP_PING, id] 2).2
      NRF_DFU_OP_PING 0).2 = (4, (uart_slip_receive cfg
        (dfu_serial_send cfg w [NRF_DFU_OP_PING, id] 2).2 0).2.2) := by
    unfold dfu_serial_get_rsp
    simp only [h2]
    simp [NRF_DFU_OP_RESPONSE, NRF_DFU_OP_PING, NRF_DFU_RES_CODE_SUCCESS]
  unfold dfu_serial_ping
  simp only [h1, h3, h4, if_true]
  rw [h2]
  simp

/-- C22: the call of `dfu_serial_open` that a process makes after `k` earlier
calls (the `k + 1`-th call, whatever the earlier calls returned) pings with id
`(k + 1) mod 256` and leaves the counter at that value. It issues, in this order
and stopping at the first failure, Ping(id), ReceiptNotifSet(0) and MtuGet, and
returns the result of the last step made. The ping step succeeds only on a
response of 4 bytes with a valid header that echoes the id; on success of the
whole call the last frame received is a valid MtuGet response of 5 bytes and the
cached `mtu` is the 16-bit value it carries. When the driver accepts the write
and delivers the frame `[0x60, 0x09, 0x01, id]`, the ping step succeeds. -/
theorem open_sequence (cfg : Platform) (k : Nat) (w : World) (hproc : Process cfg k w) :
    let id := (k + 1) % 256
    let ping := dfu_serial_ping cfg { w with ping_id := id } id
    let prn_set := dfu_serial_set_prn cfg ping.2 0
    let mtu_get := dfu_serial_get_mtu cfg prn_set.2 prn_set.2.mtu
    let r := dfu_serial_open cfg w
    r.2.ping_id = id
    ∧ requests r.2.log = requests w.log ++ [[9, id]]
        ++ (if ping.1 = 0 then [[2, 0, 0]] ++ (if prn_set.1 = 0 then [[7]] else []) else [])
    ∧ r.1 = (if ping.1 ≠ 0 then ping.1 else if prn_set.1 ≠ 0 then prn_set.1 else mtu_get.1)
    ∧ (ping.1 = 0 → ping.2.receive_data.length = 4 ∧ valid_header 9 ping.2.receive_data
        ∧ ping.2.receive_data.getD 3 0 = id)
    ∧ (r.1 = 0 → r.2.receive_data.length = 5 ∧ valid_header 7 r.2.receive_data
        ∧ r.2.mtu = le16_at r.2.receive_data 3)
    ∧ (∀ rest, 2 ≤ cfg.UART_SLIP_SIZE_MAX → UART_SLIP_BUFF_SIZE cfg < U32 →
        w.send_results.headD 0 = 0 → w.recv_results = reply [96, 9, 1, id] :: rest →
        ping.1 = 0) := by
  intro id ping prn_set mtu_get r
  have hst := process_statics cfg k w hproc
  simp only [statics, Prod.mk.injEq] at hst
  obtain ⟨hid, hprn⟩ := hst
  have hid1 : (w.ping_id + 1) % 256 = id := by
    show (w.ping_id + 1) % 256 = (k + 1) % 256
    omega
  have hpst := dfu_serial_ping_statics cfg { w with ping_id := id } id
  simp only [statics, Prod.mk.injEq] at hpst
  have hpprn : ping.2.prn = 0 := hpst.2.trans hprn
  have hr : r = (if ping.1 = 0 then
      (if prn_set.1 = 0 then (mtu_get.1, { mtu_get.2.2 with mtu := mtu_get.2.1 }) else prn_set)
      else ping) := by
    show dfu_serial_open cfg w = _
    unfold dfu_serial_open
    simp only [hid1]
    have : (dfu_serial_ping cfg { w with ping_id := id } id).2.prn = 0 := hpprn
    rw [this]
  have hplog : requests ping.2.log = requests w.log ++ [[9, id]] := by
    show requests (dfu_serial_ping cfg { w with ping_id := id } id).2.log = _
    rw [dfu_serial_ping_log, requests_append, requests_exchange_events]
  have hslog : requests prn_set.2.log = requests w.log ++ [[9, id]] ++ [[2, 0, 0]] := by
    show requests (dfu_serial_set_prn cfg ping.2 0).2.log = _
    rw [dfu_serial_set_prn_log, requests_append, requests_exchange_events, hplog]
  have hmlog : requests mtu_get.2.2.log = requests w.log ++ [[9, id]] ++ [[2, 0, 0]] ++ [[7]] := by
    show requests (dfu_serial_get_mtu cfg prn_set.2 prn_set.2.mtu).2.2.log = _
    rw [dfu_serial_get_mtu_log, requests_append, requests_exchange_events, hslog]
  have hsst := dfu_serial_set_prn_statics cfg ping.2 0
  have hmst := dfu_serial_get_mtu_statics cfg prn_set.2 prn_set.2.mtu
  simp only [statics, Prod.mk.injEq] at hsst hmst
  have hpid : ping.2.ping_id = id := hpst.1
  refine ⟨?_, ?_, ?_, ?_, ?_, ?_⟩
  · rw [hr]
    split_ifs
    · exact (hmst.1.trans hsst.1).trans hpid
    · exact hsst.1.trans hpid
    · exact hpid
  · rw [hr]
    split_ifs
    · simpa using hmlog
    · simpa using hslog
    · simpa using hplog
  · rw [hr]
    by_cases hp : ping.1 = 0
    · by_cases hs : prn_set.1 = 0
      · simp only [hp, hs, if_true, ne_eq, not_true_eq_false, if_false]
      · simp only [hp, hs, if_true, ne_eq, not_true_eq_false, if_false, not_false_eq_true]
    · simp only [hp, if_false, ne_eq, not_false_eq_true, if_true]
  · exact dfu_serial_ping_ok cfg _ id
  · intro h0
    rw [hr] at h0 ⊢
    by_cases hp : ping.1 = 0
    · by_cases hs : prn_set.1 = 0
      · simp only [hp, hs, if_true] at h0 ⊢
        obtain ⟨g1, g2, g3⟩ := dfu_serial_get_mtu_ok cfg prn_set.2 prn_set.2.mtu h0
        exact ⟨g1, g2, g3⟩
      · simp only [hp, hs, if_true, if_false] at h0
    · simp only [hp, if_false] at h0
  · intro rest hmax hbuf hs hrd
    exact dfu_serial_ping_reply cfg _ id rest hmax hbuf hs hrd

set_option maxRecDepth 1000000 in
theorem open_sequence_witness :
    Process nrf 0 (boot_world [reply [96, 9, 1, 1], reply [96, 2, 1], reply [96, 7, 1, 64, 0]])
    ∧ (dfu_serial_open nrf
        (boot_world [reply [96, 9, 1, 1], reply [96, 2, 1], reply [96, 7, 1, 64, 0]])).2.ping_id
        = 1
    ∧ requests (dfu_serial_open nrf
        (boot_world [reply [96, 9, 1, 1], reply [96, 2, 1], reply [96, 7, 1, 64, 0]])).2.log
        = [[9, 1], [2, 0, 0], [7]]
    ∧ (dfu_serial_open nrf
        (boot_world [reply [96, 9, 1, 1], reply [96, 2, 1], reply [96, 7, 1, 64, 0]])).2.mtu
        = 64 :=
  ⟨Process.start _ rfl rfl rfl,
    (open_sequence nrf 0 _ (Process.start _ rfl rfl rfl)).1,
    (open_sequence nrf 0 _ (Process.start _ rfl rfl rfl)).2.1.trans (by decide),
    ((open_sequence nrf 0 _ (Process.start _ rfl rfl rfl)).2.2.2.2.1 (by decide)).2.2.trans
      (by decide)⟩

/-! ### Receiving a frame -/

theorem size_buffer_eq (cfg : Platform) (n : Nat) (hbuf : UART_SLIP_BUFF_SIZE cfg < U32)
    (hn : n ≤ UART_SLIP_BUFF_SIZE cfg) :
    (UART_SLIP_BUFF_SIZE cfg + U32 - n % U32) % U32 = UART_SLIP_BUFF_SIZE cfg - n := by
  generalize UART_SLIP_BUFF_SIZE cfg = b at *
  simp only [U32] at *
  omega

theorem stored_zero (reads : List (Int × List Nat)) : stored reads 0 = [] := rfl

theorem stored_cons (r : Int × List Nat) (rest : List (Int × List Nat)) (k : Nat) :
    stored (r :: rest) (k + 1) = r.2 ++ stored rest k := by
  simp [stored]

theorem receive_loop_step (cfg : Platform) (bytes : List Nat) (rest : List (Int × List Nat))
    (buff pData : List Nat) (pSize : Nat) (hbuf : UART_SLIP_BUFF_SIZE cfg < U32)
    (hroom : buff.length < UART_SLIP_BUFF_SIZE cfg) (hpos : bytes ≠ [])
    (hfit : bytes.length ≤ UART_SLIP_BUFF_SIZE cfg - buff.length) :
    uart_slip_receive_loop cfg ((0, bytes) :: rest) buff buff.length pData pSize
      = if (decode_slip (buff ++ bytes) (buff ++ bytes).length).1 = 0 then
          (0, (decode_slip (buff ++ bytes) (buff ++ bytes).length).2.1,
            (decode_slip (buff ++ bytes) (buff ++ bytes).length).2.2, rest)
        else uart_slip_receive_loop cfg rest (buff ++ bytes) (buff ++ bytes).length
          (decode_slip (buff ++ bytes) (buff ++ bytes).length).2.1
          (decode_slip (buff ++ bytes) (buff ++ bytes).length).2.2 := by
  have hb : (UART_SLIP_BUFF_SIZE cfg + U32 - buff.length % U32) % U32 ≠ 0 := by
    rw [size_buffer_eq cfg _ hbuf (by omega)]; omega
  have hm : (buff.length + bytes.length) % U32 = (buff ++ bytes).length := by
    rw [List.length_append]; exact Nat.mod_eq_of_lt (by omega)
  have hl : bytes.length ≠ 0 := fun h => hpos (List.length_eq_zero.mp h)
  conv_lhs => unfold uart_slip_receive_loop
  simp only
  rw [if_neg hb, if_neg (by simp), if_neg hl, hm]

theorem receive_iterations_step (cfg : Platform) (bytes : List Nat)
    (rest : List (Int × List Nat)) (buff : List Nat)
    (hbuf : UART_SLIP_BUFF_SIZE cfg < U32)
    (hroom : buff.length < UART_SLIP_BUFF_SIZE cfg) (hpos : bytes ≠ [])
    (hfit : bytes.length ≤ UART_SLIP_BUFF_SIZE cfg - buff.length) :
    uart_slip_receive_iterations cfg ((0, bytes) :: rest) buff buff.length
      = if (decode_slip (buff ++ bytes) (buff ++ bytes).length).1 = 0 then 1
        else 1 + uart_slip_receive_iterations cfg rest (buff ++ bytes) (buff ++ bytes).length := by
  have hb : (UART_SLIP_BUFF_SIZE cfg + U32 - buff.length % U32) % U32 ≠ 0 := by
    rw [size_buffer_eq cfg _ hbuf (by omega)]; omega
  have hm : (buff.length + bytes.length) % U32 = (buff ++ bytes).length := by
    rw [List.length_append]; exact Nat.mod_eq_of_lt (by omega)
  have hl : bytes.length ≠ 0 := fun h => hpos (List.length_eq_zero.mp h)
  conv_lhs => unfold uart_slip_receive_iterations
  simp only
  rw [if_neg hb, if_neg (by simp), if_neg hl, hm]

theorem reads_fit_step (cfg : Platform) (bytes : List Nat)
    (rest : List (Int × List Nat)) (buff : List Nat)
    (hbuf : UART_SLIP_BUFF_SIZE cfg < U32)
    (hroom : buff.length < UART_SLIP_BUFF_SIZE cfg) (hpos : bytes ≠ [])
    (h : reads_fit cfg ((0, bytes) :: rest) buff buff.length = true) :
    bytes.length ≤ UART_SLIP_BUFF_SIZE cfg - buff.length
    ∧ ((decode_slip (buff ++ bytes) (buff ++ bytes).length).1 ≠ 0 →
        reads_fit cfg rest (buff ++ bytes) (buff ++ bytes).length = true) := by
  have hs := size_buffer_eq cfg buff.length hbuf (by omega)
  have hb : (UART_SLIP_BUFF_SIZE cfg + U32 - buff.length % U32) % U32 ≠ 0 := by
    rw [hs]; omega
  have hl : bytes.length ≠ 0 := fun h => hpos (List.length_eq_zero.mp h)
  unfold reads_fit at h
  simp only at h
  rw [if_neg hb, if_neg (by simp), if_neg hl, hs, Bool.and_eq_true, decide_eq_true_eq] at h
  obtain ⟨h1, h2⟩ := h
  have hm : (buff.length + bytes.length) % U32 = (buff ++ bytes).length := by
    rw [List.length_append]; exact Nat.mod_eq_of_lt (by omega)
  rw [hm] at h2
  refine ⟨h1, fun hd => ?_⟩
  rw [if_neg hd] at h2
  exact h2

/-- The bound on the iterations of the receive loop: every continuing
iteration stores at least one byte. -/
theorem receive_iterations_bound (cfg : Platform) (hbuf : UART_SLIP_BUFF_SIZE cfg < U32) :
    ∀ (reads : List (Int × List Nat)) (buff : List Nat),
      buff.length ≤ UART_SLIP_BUFF_SIZE cfg →
      reads_fit cfg reads buff buff.length = true →
      uart_slip_receive_iterations cfg reads buff buff.length + buff.length
        ≤ UART_SLIP_BUFF_SIZE cfg + 1 := by
  intro reads
  induction reads with
  | nil =>
    intro buff hle _
    unfold uart_slip_receive_iterations
    simp only
    split_ifs <;> omega
  | cons r rest ih =>
    intro buff hle hfit
    obtain ⟨e, bytes⟩ := r
    by_cases hroom : buff.length < UART_SLIP_BUFF_SIZE cfg
    swap
    · have hs := size_buffer_eq cfg buff.length hbuf hle
      unfold uart_slip_receive_iterations
      simp only
      rw [if_pos (by rw [hs]; omega)]
      omega
    by_cases he : e = 0
    swap
    · have hs := size_buffer_eq cfg buff.length hbuf hle
      unfold uart_slip_receive_iterations
      simp only
      rw [if_neg (by rw [hs]; omega), if_pos he]
      omega
    subst he
    by_cases hpos : bytes = []
    · have hs := size_buffer_eq cfg buff.length hbuf hle
      unfold uart_slip_receive_iterations
      simp only
      rw [if_neg (by rw [hs]; omega), if_neg (by simp), if_pos (by simp [hpos])]
      omega
    obtain ⟨f1, f2⟩ := reads_fit_step cfg bytes rest buff hbuf hroom hpos hfit
    rw [receive_iterations_step cfg bytes rest buff hbuf hroom hpos f1]
    have hl : 0 < bytes.length := List.length_pos.mpr hpos
    have hlen : (buff ++ bytes).length = buff.length + bytes.length := List.length_append _ _
    split_ifs with hd
    · omega
    · have := ih (buff ++ bytes) (by omega) (f2 hd)
      omega

theorem receive_loop_full (cfg : Platform) (reads : List (Int × List Nat)) (buff pData : List Nat)
    (pSize : Nat) (hbuf : UART_SLIP_BUFF_SIZE cfg < U32)
    (hfull : buff.length = UART_SLIP_BUFF_SIZE cfg) :
    (uart_slip_receive_loop cfg reads buff buff.length pData pSize).1 = 1 := by
  have hs := size_buffer_eq cfg buff.length hbuf (by omega)
  unfold uart_slip_receive_loop
  simp only
  rw [if_pos (by rw [hs]; omega)]

theorem receive_loop_nil (cfg : Platform) (buff pData : List Nat) (n pSize : Nat) :
    (uart_slip_receive_loop cfg [] buff n pData pSize).1 = 1 := by
  unfold uart_slip_receive_loop
  simp only
  split_ifs <;> rfl

theorem receive_loop_err (cfg : Platform) (e : Int) (bytes : List Nat)
    (rest : List (Int × List Nat)) (buff pData : List Nat) (pSize : Nat)
    (hbuf : UART_SLIP_BUFF_SIZE cfg < U32) (hroom : buff.length < UART_SLIP_BUFF_SIZE cfg)
    (he : e ≠ 0) :
    (uart_slip_receive_loop cfg ((e, bytes) :: rest) buff buff.length pData pSize).1 = e := by
  have hs := size_buffer_eq cfg buff.length hbuf (by omega)
  unfold uart_slip_receive_loop
  simp only
  rw [if_neg (by rw [hs]; omega), if_pos he]

theorem receive_loop_no_data (cfg : Platform) (rest : List (Int × List Nat))
    (buff pData : List Nat) (pSize : Nat)
    (hbuf : UART_SLIP_BUFF_SIZE cfg < U32) (hroom : buff.length < UART_SLIP_BUFF_SIZE cfg) :
    (uart_slip_receive_loop cfg ((0, []) :: rest) buff buff.length pData pSize).1 = 1 := by
  have hs := size_buffer_eq cfg buff.length hbuf (by omega)
  unfold uart_slip_receive_loop
  simp only
  rw [if_neg (by rw [hs]; omega), if_neg (by simp), if_pos (by simp)]

theorem continues_tail (cfg : Platform) (buff bytes : List Nat) (e : Int)
    (rest : List (Int × List Nat)) (k : Nat)
    (h : continues cfg buff ((e, bytes) :: rest) (k + 1)) :
    continues cfg (buff ++ bytes) rest k := by
  intro j hj
  have hj1 := h (j + 1) (by omega)
  simp only [stored_cons, List.get?_cons_succ, ← List.append_assoc] at hj1
  exact hj1

theorem continues_head (cfg : Platform) (buff : List Nat) (reads : List (Int × List Nat))
    (k : Nat) (h : continues cfg buff reads (k + 1)) :
    ∃ bytes rest, reads = (0, bytes) :: rest ∧ bytes ≠ []
      ∧ buff.length < UART_SLIP_BUFF_SIZE cfg
      ∧ (decode_slip (buff ++ bytes) (buff ++ bytes).length).1 ≠ 0 := by
  obtain ⟨h1, ⟨bytes, h2, h3⟩, h4⟩ := h 0 (by omega)
  cases reads with
  | nil => simp at h2
  | cons r rest =>
    simp only [List.get?_cons_zero, Option.some.injEq] at h2
    subst h2
    simp only [stored_zero, List.append_nil] at h1
    simp only [stored_cons, stored_zero, List.append_nil] at h4
    exact ⟨bytes, rest, rfl, h3, h1, h4⟩

/-- While the reads continue the loop, the run is the run of the loop entered
with the bytes stored so far and the remaining reads. -/
theorem receive_loop_continues (cfg : Platform) (hbuf : UART_SLIP_BUFF_SIZE cfg < U32) :
    ∀ (k : Nat) (reads : List (Int × List Nat)) (buff pData : List Nat) (pSize : Nat),
      reads_fit cfg reads buff buff.length = true → continues cfg buff reads k →
      (∃ pd ps, uart_slip_receive_loop cfg reads buff buff.length pData pSize
          = uart_slip_receive_loop cfg (reads.drop k) (buff ++ stored reads k)
              (buff ++ stored reads k).length pd ps)
      ∧ reads_fit cfg (reads.drop k) (buff ++ stored reads k) (buff ++ stored reads k).length
          = true := by
  intro k
  induction k with
  | zero =>
    intro reads buff pData pSize hfit _
    simp only [stored_zero, List.append_nil, List.drop_zero]
    exact ⟨⟨pData, pSize, rfl⟩, hfit⟩
  | succ k ih =>
    intro reads buff pData pSize hfit hc
    obtain ⟨bytes, rest, rfl, hpos, hroom, hdec⟩ := continues_head cfg buff reads k hc
    obtain ⟨f1, f2⟩ := reads_fit_step cfg bytes rest buff hbuf hroom hpos hfit
    have hstep := receive_loop_step cfg bytes rest buff pData pSize hbuf hroom hpos f1
    rw [if_neg hdec] at hstep
    obtain ⟨⟨pd, ps, h1⟩, h2⟩ := ih rest (buff ++ bytes) _ _ (f2 hdec)
      (continues_tail cfg buff bytes 0 rest k hc)
    simp only [stored_cons, List.drop_succ_cons, ← List.append_assoc]
    exact ⟨⟨pd, ps, hstep.trans h1⟩, h2⟩

theorem continues_cons (cfg : Platform) (buff bytes : List Nat)
    (rest : List (Int × List Nat)) (k : Nat)
    (hroom : buff.length < UART_SLIP_BUFF_SIZE cfg) (hpos : bytes ≠ [])
    (hdec : (decode_slip (buff ++ bytes) (buff ++ bytes).length).1 ≠ 0)
    (h : continues cfg (buff ++ bytes) rest k) :
    continues cfg buff ((0, bytes) :: rest) (k + 1) := by
  intro j hj
  cases j with
  | zero =>
    simp only [stored_zero, List.append_nil, stored_cons, List.get?_cons_zero, Nat.zero_add]
    exact ⟨hroom, ⟨bytes, rfl, hpos⟩, hdec⟩
  | succ j =>
    have hj1 := h j (by omega)
    simp only [stored_cons, List.get?_cons_succ, ← List.append_assoc]
    exact hj1

/-- A run of the loop that returns 0 stops at a read after which `decode_slip`
reports a complete frame. -/
theorem receive_loop_success (cfg : Platform) (hbuf : UART_SLIP_BUFF_SIZE cfg < U32) :
    ∀ (reads : List (Int × List Nat)) (buff pData : List Nat) (pSize : Nat),
      buff.length ≤ UART_SLIP_BUFF_SIZE cfg →
      reads_fit cfg reads buff buff.length = true →
      (uart_slip_receive_loop cfg reads buff buff.length pData pSize).1 = 0 →
      ∃ k, continues cfg buff reads k
        ∧ (buff ++ stored reads k).length < UART_SLIP_BUFF_SIZE cfg
        ∧ ∃ bytes, reads.get? k = some (0, bytes) ∧ bytes ≠ []
          ∧ (decode_slip (buff ++ stored reads (k + 1))
              (buff ++ stored reads (k + 1)).length).1 = 0 := by
  intro reads
  induction reads with
  | nil =>
    intro buff pData pSize _ _ h
    rw [receive_loop_nil] at h
    exact absurd h (by decide)
  | cons r rest ih =>
    intro buff pData pSize hle hfit h
    obtain ⟨e, bytes⟩ := r
    by_cases hroom : buff.length < UART_SLIP_BUFF_SIZE cfg
    swap
    · rw [receive_loop_full cfg _ buff pData pSize hbuf (by omega)] at h
      exact absurd h (by decide)
    by_cases he : e = 0
    swap
    · rw [receive_loop_err cfg e bytes rest buff pData pSize hbuf hroom he] at h
      exact absurd h he
    subst he
    by_cases hpos : bytes = []
    · subst hpos
      rw [receive_loop_no_data cfg rest buff pData pSize hbuf hroom] at h
      exact absurd h (by decide)
    obtain ⟨f1, f2⟩ := reads_fit_step cfg bytes rest buff hbuf hroom hpos hfit
    rw [receive_loop_step cfg bytes rest buff pData pSize hbuf hroom hpos f1] at h
    by_cases hdec : (decode_slip (buff ++ bytes) (buff ++ bytes).length).1 = 0
    · refine ⟨0, fun j hj => absurd hj (by omega), ?_, bytes, rfl, hpos, ?_⟩
      · simpa [stored_zero] using hroom
      · simpa [stored_cons, stored_zero] using hdec
    · rw [if_neg hdec] at h
      have hlen : (buff ++ bytes).length = buff.length + bytes.length := List.length_append _ _
      obtain ⟨k, c1, c2, b2, c3, c4, c5⟩ := ih (buff ++ bytes) _ _ (by omega) (f2 hdec) h
      refine ⟨k + 1, continues_cons cfg buff bytes rest k hroom hpos hdec c1, ?_, b2, ?_, c4, ?_⟩
      · simpa only [stored_cons, ← List.append_assoc] using c2
      · simpa using c3
      · simpa only [stored_cons, ← List.append_assoc] using c5

theorem drop_of_get (reads : List (Int × List Nat)) :
    ∀ (k : Nat) (x : Int × List Nat), reads.get? k = some x →
      reads.drop k = x :: reads.drop (k + 1) := by
  induction reads with
  | nil => intro k x h; simp at h
  | cons r rest ih =>
    intro k x h
    cases k with
    | zero =>
      simp only [List.get?_cons_zero, Option.some.injEq] at h
      subst h
      rfl
    | succ k =>
      simp only [List.get?_cons_succ] at h
      simpa using ih k x h

theorem drop_of_get_none (reads : List (Int × List Nat)) (k : Nat)
    (h : reads.get? k = none) : reads.drop k = [] := by
  rw [List.get?_eq_none] at h
  exact List.drop_eq_nil_of_le h

/-- C28: `uart_slip_receive` with a driver whose reads return an error, no data,
or at most the number of bytes requested (and a buffer size that fits
`uint32_t`). The loop makes at most `2 * UART_SLIP_SIZE_MAX + 2` iterations. As
long as the reads continue the loop (`continues`): if `2 * UART_SLIP_SIZE_MAX +
1` bytes have accumulated the result is non-zero; otherwise the next read is
made, and the result is non-zero if the script has no further read or the read
returns no data, it is the error of a read that fails, and if `decode_slip`
returns 0 on the bytes accumulated after the read the function returns 0 with
the decoded bytes in `pData` and their number in `*pSize`. Conversely a result
of 0 is reached only in this last way. -/
theorem uart_slip_receive_outcomes (cfg : Platform) (w : World) (pSize0 : Nat)
    (hbuf : UART_SLIP_BUFF_SIZE cfg < U32)
    (hfit : reads_fit cfg w.recv_results [] 0 = true) :
    uart_slip_receive_iterations cfg w.recv_results [] 0 ≤ 2 * cfg.UART_SLIP_SIZE_MAX + 2
    ∧ (∀ k, continues cfg [] w.recv_results k →
        ((stored w.recv_results k).length = 2 * cfg.UART_SLIP_SIZE_MAX + 1 →
          (uart_slip_receive cfg w pSize0).1 ≠ 0)
        ∧ ((stored w.recv_results k).length < 2 * cfg.UART_SLIP_SIZE_MAX + 1 →
          (w.recv_results.get? k = none → (uart_slip_receive cfg w pSize0).1 ≠ 0)
          ∧ (w.recv_results.get? k = some (0, []) → (uart_slip_receive cfg w pSize0).1 ≠ 0)
          ∧ (∀ e bytes, w.recv_results.get? k = some (e, bytes) → e ≠ 0 →
              (uart_slip_receive cfg w pSize0).1 = e)
          ∧ (∀ bytes, w.recv_results.get? k = some (0, bytes) → bytes ≠ [] →
              (decode_slip (stored w.recv_results (k + 1))
                (stored w.recv_results (k + 1)).length).1 = 0 →
              uart_slip_receive cfg w pSize0
                = (0, (decode_slip (stored w.recv_results (k + 1))
                        (stored w.recv_results (k + 1)).length).2.2,
                    { w with
                      receive_data := (decode_slip (stored w.recv_results (k + 1))
                        (stored w.recv_results (k + 1)).length).2.1,
                      recv_results := w.recv_results.drop (k + 1),
                      log := w.log ++ [Event.receive] }))))
    ∧ ((uart_slip_receive cfg w pSize0).1 = 0 →
        ∃ k, continues cfg [] w.recv_results k
          ∧ (stored w.recv_results k).length < 2 * cfg.UART_SLIP_SIZE_MAX + 1
          ∧ ∃ bytes, w.recv_results.get? k = some (0, bytes) ∧ bytes ≠ []
            ∧ (decode_slip (stored w.recv_results (k + 1))
                (stored w.recv_results (k + 1)).length).1 = 0) := by
  have hB : UART_SLIP_BUFF_SIZE cfg = 2 * cfg.UART_SLIP_SIZE_MAX + 1 := by
    unfold UART_SLIP_BUFF_SIZE; omega
  refine ⟨?_, ?_, ?_⟩
  · have := receive_iterations_bound cfg hbuf w.recv_results [] (by simp) hfit
    simp only [List.length_nil] at this
    omega
  · intro k hc
    obtain ⟨⟨pd, ps, hrun⟩, hfitk⟩ :=
      receive_loop_continues cfg hbuf k w.recv_results [] w.receive_data pSize0 hfit hc
    simp only [List.nil_append, List.length_nil] at hrun hfitk
    have hr1 : (uart_slip_receive cfg w pSize0).1
        = (uart_slip_receive_loop cfg (w.recv_results.drop k) (stored w.recv_results k)
            (stored w.recv_results k).length pd ps).1 := by
      unfold uart_slip_receive
      simp only
      rw [hrun]
    refine ⟨fun hfull => ?_, fun hroom => ⟨fun hnone => ?_, fun hzero => ?_,
      fun e bytes hget he => ?_, fun bytes hget hpos hdec => ?_⟩⟩
    · rw [hr1, receive_loop_full cfg _ _ pd ps hbuf (by omega)]
      decide
    · rw [hr1, drop_of_get_none _ k hnone, receive_loop_nil]
      decide
    · rw [hr1, drop_of_get _ k _ hzero,
        receive_loop_no_data cfg _ _ pd ps hbuf (by omega)]
      decide
    · rw [hr1, drop_of_get _ k _ hget,
        receive_loop_err cfg e bytes _ _ pd ps hbuf (by omega) he]
    · rw [drop_of_get _ k _ hget] at hrun hfitk
      obtain ⟨f1, -⟩ := reads_fit_step cfg bytes _ _ hbuf (by omega) hpos hfitk
      have hst : stored w.recv_results (k + 1) = stored w.recv_results k ++ bytes := by
        unfold stored
        rw [List.take_succ, ← List.get?_eq_getElem?, hget]
        simp
      rw [receive_loop_step cfg bytes _ _ pd ps hbuf (by omega) hpos f1, ← hst,
        if_pos hdec] at hrun
      unfold uart_slip_receive
      simp only
      rw [hrun]
  · intro h0
    have h1 : (uart_slip_receive_loop cfg w.recv_results [] ([] : List Nat).length
        w.receive_data pSize0).1 = 0 := by
      unfold uart_slip_receive at h0
      exact h0
    obtain ⟨k, c1, c2, bytes, c3, c4, c5⟩ :=
      receive_loop_success cfg hbuf w.recv_results [] w.receive_data pSize0 (by simp) hfit h1
    simp only [List.nil_append] at c2 c5
    exact ⟨k, c1, by omega, bytes, c3, c4, c5⟩

theorem uart_slip_receive_outcomes_witness :
    UART_SLIP_BUFF_SIZE nrf < U32
    ∧ reads_fit nrf split_world.recv_results [] 0 = true
    ∧ uart_slip_receive_iterations nrf split_world.recv_results [] 0
        ≤ 2 * nrf.UART_SLIP_SIZE_MAX + 2
    ∧ continues nrf [] split_world.recv_results 1
    ∧ uart_slip_receive nrf split_world 0
        = (0, 3, { split_world with receive_data := [96, 4, 1], recv_results := [],
                                    log := [Event.receive] }) :=
  ⟨by decide, by decide,
    (uart_slip_receive_outcomes nrf split_world 0 (by decide) (by decide)).1,
    fun j hj => by
      interval_cases j
      exact ⟨by decide, ⟨[96, 4], rfl, by decide⟩, by decide⟩,
    ((((uart_slip_receive_outcomes nrf split_world 0 (by decide) (by decide)).2.1 1
      (fun j hj => by
        interval_cases j
        exact ⟨by decide, ⟨[96, 4], rfl, by decide⟩, by decide⟩)).2 (by decide)).2.2.2
        [1, 192] rfl (by decide) (by decide)).trans (by decide)⟩

/-! ### The steps of a package transfer -/

theorem zip_entry_open_steps (h : Host) (name : Option (List Nat)) :
    (zip_entry_open h name).2.steps = h.steps ++ [Step.entry_open name]
    ∧ (zip_entry_open h name).2.dev = h.dev := by
  unfold zip_entry_open
  split <;> exact ⟨rfl, rfl⟩

theorem zip_entry_read_steps (h : Host) :
    (zip_entry_read h).2.2.steps = h.steps ++ [Step.entry_read]
    ∧ (zip_entry_read h).2.2.dev = h.dev := by
  unfold zip_entry_read
  split <;> exact ⟨rfl, rfl⟩

theorem dfu_send_object_read_steps (h : Host) (name : Option (List Nat)) :
    ∃ zs, (dfu_send_object_read h name).2.2.2.steps = h.steps ++ zs
      ∧ ∀ s ∈ zs, s.is_entry = true := by
  unfold dfu_send_object_read
  simp only
  by_cases h1 : (zip_entry_open h name).1 ≠ 0
  · rw [if_pos h1]
    refine ⟨[Step.entry_open name], (zip_entry_open_steps h name).1, ?_⟩
    intro s hs
    rw [List.mem_singleton.mp hs]; rfl
  · rw [if_neg h1]
    refine ⟨[Step.entry_open name, Step.entry_read, Step.entry_close], ?_, ?_⟩
    · unfold zip_entry_close
      simp only
      rw [(zip_entry_read_steps _).1, (zip_entry_open_steps h name).1]
      simp
    · intro s hs
      simp only [List.mem_cons, List.mem_singleton, List.not_mem_nil, or_false] at hs
      rcases hs with rfl | rfl | rfl <;> rfl

theorem dfu_send_image_steps (cfg : Platform) (h : Host) (p_dat p_bin : Option (List Nat))
    (n_dat n_bin : Nat) (r : Int × Host)
    (hr : dfu_send_image cfg h p_dat n_dat p_bin n_bin = some r) :
    ∃ ss, r.2.steps = h.steps ++ ss ∧ ss <+: session_steps
      ∧ (r.1 = 0 ↔ ss = session_steps) := by
  unfold dfu_send_image at hr
  simp only at hr
  by_cases h1 : (dfu_serial_open cfg h.dev).1 ≠ 0
  · rw [if_pos h1] at hr
    simp only [Option.some.injEq] at hr
    subst hr
    exact ⟨[Step.session_open], rfl, ⟨_, rfl⟩, ⟨fun h0 => absurd h0 h1, fun h0 => by
      simp [session_steps] at h0⟩⟩
  rw [if_neg h1] at hr
  split at hr
  · simp at hr
  rename_i i hi
  by_cases h2 : i.1 ≠ 0
  · rw [if_pos h2] at hr
    simp only [Option.some.injEq] at hr
    subst hr
    exact ⟨[Step.session_open, Step.init_packet], by simp, ⟨_, rfl⟩,
      ⟨fun h0 => absurd h0 h2, fun h0 => by simp [session_steps] at h0⟩⟩
  rw [if_neg h2] at hr
  split at hr
  · simp at hr
  rename_i f hf
  by_cases h3 : f.1 ≠ 0
  · rw [if_pos h3] at hr
    simp only [Option.some.injEq] at hr
    subst hr
    exact ⟨[Step.session_open, Step.init_packet, Step.firmware], by simp, ⟨_, rfl⟩,
      ⟨fun h0 => absurd h0 h3, fun h0 => by simp [session_steps] at h0⟩⟩
  rw [if_neg h3] at hr
  simp only [Option.some.injEq] at hr
  subst hr
  exact ⟨session_steps, by simp [session_steps], List.prefix_refl _,
    ⟨fun _ => rfl, fun _ => rfl⟩⟩

theorem dfu_send_object_steps (cfg : Platform) (h : Host) (obj : dfu_json_object_t)
    (r : Int × Host) (hr : dfu_send_object cfg h obj = some r) :
    ∃ zs ss, r.2.steps = h.steps ++ zs ++ ss ∧ (∀ s ∈ zs, s.is_entry = true)
      ∧ ss <+: session_steps ∧ (r.1 = 0 ↔ ss = session_steps) := by
  unfold dfu_send_object at hr
  simp only at hr
  obtain ⟨zd, hd1, hd2⟩ := dfu_send_object_read_steps h obj.file_dat
  have hne : ([] : List Step) ≠ session_steps := by simp [session_steps]
  by_cases h1 : (dfu_send_object_read h obj.file_dat).1 ≠ 0
  · rw [if_pos h1] at hr
    simp only [Option.some.injEq] at hr
    subst hr
    exact ⟨zd, [], by simpa using hd1, hd2, List.nil_prefix,
      ⟨fun h0 => absurd h0 h1, fun h0 => absurd h0 hne⟩⟩
  rw [if_neg h1] at hr
  obtain ⟨zb, hb1, hb2⟩ := dfu_send_object_read_steps
    (dfu_send_object_read h obj.file_dat).2.2.2 obj.file_bin
  have hz : ∀ s ∈ zd ++ zb, s.is_entry = true := by
    intro s hs
    rcases List.mem_append.mp hs with hs | hs
    · exact hd2 s hs
    · exact hb2 s hs
  by_cases h2 : (dfu_send_object_read (dfu_send_object_read h obj.file_dat).2.2.2
      obj.file_bin).1 ≠ 0
  · rw [if_pos h2] at hr
    simp only [Option.some.injEq] at hr
    subst hr
    refine ⟨zd ++ zb, [], ?_, hz, List.nil_prefix,
      ⟨fun h0 => absurd h0 h2, fun h0 => absurd h0 hne⟩⟩
    simp only [hb1, hd1, List.append_assoc, List.append_nil]
  rw [if_neg h2] at hr
  obtain ⟨ss, s1, s2, s3⟩ := dfu_send_image_steps cfg _ _ _ _ _ r hr
  refine ⟨zd ++ zb, ss, ?_, hz, s2, s3⟩
  rw [s1, hb1, hd1]
  simp only [List.append_assoc]

theorem find_dfu_object_some :
    ∀ (objs : List dfu_json_object_t) (n t : Nat) (obj : dfu_json_object_t),
      find_dfu_object objs n t = some obj → obj ∈ objs.take n ∧ obj.img_type = t := by
  intro objs
  induction objs with
  | nil => intro n t obj h; simp [find_dfu_object] at h
  | cons o rest ih =>
    intro n t obj h
    cases n with
    | zero => simp [find_dfu_object] at h
    | succ n =>
      unfold find_dfu_object at h
      split_ifs at h with h1
      · simp only [Option.some.injEq] at h
        subst h
        exact ⟨by simp, h1⟩
      · obtain ⟨m1, m2⟩ := ih n t obj h
        exact ⟨by simp [m1], m2⟩

theorem find_dfu_object_none :
    ∀ (objs : List dfu_json_object_t) (n t : Nat),
      find_dfu_object objs n t = none → ∀ obj ∈ objs.take n, obj.img_type ≠ t := by
  intro objs
  induction objs with
  | nil => intro n t _ obj hobj; simp at hobj
  | cons o rest ih =>
    intro n t h obj hobj
    cases n with
    | zero => simp at hobj
    | succ n =>
      unfold find_dfu_object at h
      split_ifs at h with h1
      simp only [List.take_succ_cons, List.mem_cons] at hobj
      rcases hobj with rfl | hobj
      · exact h1
      · exact ih n t h obj hobj

theorem delay_connect_steps (h : Host) : (delay_connect h).2.steps = h.steps ++ [Step.delay] := by
  unfold delay_connect
  split <;> rfl

/-- What one block of `dfu_send_package` adds to the steps: nothing, or the run
of the image of its type. -/
theorem send_block_runs (cfg : Platform) (r0 r : Int × Host) (objs : List dfu_json_object_t)
    (n t : Nat) (settle : Bool)
    (hr : dfu_send_package_block cfg r0 objs n t settle = some r) :
    ∃ runs : List ImageRun,
      r.2.steps = r0.2.steps ++ (runs.map ImageRun.steps).flatten
      ∧ List.Sublist (runs.map ImageRun.img_type) [t]
      ∧ (∀ run ∈ runs, run.img_type = t ∧ run.well_formed
          ∧ (∃ obj ∈ objs.take n, obj.img_type = t)
          ∧ (run.settled = true ↔ (run.session = session_steps ∧ n > 1 ∧ settle = true))
          ∧ (r.1 = 0 → run.session = session_steps))
      ∧ (r.1 = 0 → r0.1 = 0)
      ∧ (r.1 = 0 → (∃ obj ∈ objs.take n, obj.img_type = t) →
          t ∈ runs.map ImageRun.img_type) := by
  unfold dfu_send_package_block at hr
  by_cases h0 : r0.1 ≠ 0
  · rw [if_pos h0] at hr
    simp only [Option.some.injEq] at hr
    subst hr
    exact ⟨[], by simp, by simp, by simp, fun h => absurd h h0, fun h => absurd h h0⟩
  rw [if_neg h0] at hr
  have h00 : r0.1 = 0 := not_not.mp h0
  split at hr
  · rename_i hfind
    simp only [Option.some.injEq] at hr
    subst hr
    refine ⟨[], by simp, by simp, by simp, fun h => h, fun _ hdecl => ?_⟩
    obtain ⟨obj, ho1, ho2⟩ := hdecl
    exact absurd ho2 (find_dfu_object_none objs n t hfind obj ho1)
  rename_i obj hfind
  obtain ⟨ho1, ho2⟩ := find_dfu_object_some objs n t obj hfind
  split at hr
  · simp at hr
  rename_i s hs
  obtain ⟨zs, ss, s1, s2, s3, s4⟩ := dfu_send_object_steps cfg _ obj s hs
  by_cases hc : s.1 = 0 ∧ n > 1 ∧ settle = true
  · rw [if_pos hc] at hr
    simp only [Option.some.injEq] at hr
    subst hr
    refine ⟨[{ img_type := t, entries := zs, session := ss, settled := true }], ?_, ?_, ?_,
      fun _ => h00, fun _ _ => by simp⟩
    · rw [delay_connect_steps, s1]
      simp [ImageRun.steps]
    · simp
    · intro run hrun
      rw [List.mem_singleton.mp hrun]
      refine ⟨rfl, ⟨s2, s3⟩, ⟨obj, ho1, ho2⟩, ?_, fun _ => s4.mp hc.1⟩
      simp only [true_iff]
      exact ⟨s4.mp hc.1, hc.2⟩
  · rw [if_neg hc] at hr
    simp only [Option.some.injEq] at hr
    subst hr
    refine ⟨[{ img_type := t, entries := zs, session := ss, settled := false }], ?_, ?_, ?_,
      fun _ => h00, fun _ _ => by simp⟩
    · rw [s1]
      simp [ImageRun.steps]
    · simp
    · intro run hrun
      rw [List.mem_singleton.mp hrun]
      refine ⟨rfl, ⟨s2, s3⟩, ⟨obj, ho1, ho2⟩, ?_, fun h => s4.mp h⟩
      simp only [Bool.false_eq_true, false_iff]
      intro hh
      exact hc ⟨s4.mpr hh.1, hh.2⟩

/-- The steps of the image part of `dfu_send_package`: a sequence of image
runs in the order of the four blocks. -/
theorem send_package_runs (cfg : Platform) (h0 : Host) (objs : List dfu_json_object_t)
    (n : Nat) (r : Int × Host)
    (hr : dfu_send_package_images cfg h0 0 objs n = some r) :
    ∃ runs : List ImageRun,
      r.2.steps = h0.steps ++ (runs.map ImageRun.steps).flatten
      ∧ List.Sublist (runs.map ImageRun.img_type)
          [DFU_IMG_SD_BL, DFU_IMG_SD, DFU_IMG_BL, DFU_IMG_APP]
      ∧ (∀ run ∈ runs, run.well_formed
          ∧ (∃ obj ∈ objs.take n, obj.img_type = run.img_type)
          ∧ (run.settled = true
              ↔ (run.session = session_steps ∧ n > 1 ∧ run.img_type ≠ DFU_IMG_APP))
          ∧ (r.1 = 0 → run.session = session_steps))
      ∧ (r.1 = 0 → ∀ t ∈ [DFU_IMG_SD_BL, DFU_IMG_SD, DFU_IMG_BL, DFU_IMG_APP],
          (∃ obj ∈ objs.take n, obj.img_type = t) → t ∈ runs.map ImageRun.img_type) := by
  unfold dfu_send_package_images at hr
  obtain ⟨r3, hr3, hb4⟩ := Option.bind_eq_some.mp hr
  obtain ⟨r2, hr2, hb3⟩ := Option.bind_eq_some.mp hr3
  obtain ⟨r1, hb1, hb2⟩ := Option.bind_eq_some.mp hr2
  obtain ⟨u1, a1, b1, c1, d1, e1⟩ := send_block_runs cfg _ r1 objs n _ _ hb1
  obtain ⟨u2, a2, b2, c2, d2, e2⟩ := send_block_runs cfg r1 r2 objs n _ _ hb2
  obtain ⟨u3, a3, b3, c3, d3, e3⟩ := send_block_runs cfg r2 r3 objs n _ _ hb3
  obtain ⟨u4, a4, b4, c4, d4, e4⟩ := send_block_runs cfg r3 r objs n _ _ hb4
  have z3 : r.1 = 0 → r3.1 = 0 := d4
  have z2 : r.1 = 0 → r2.1 = 0 := fun h => d3 (z3 h)
  have z1 : r.1 = 0 → r1.1 = 0 := fun h => d2 (z2 h)
  have hsub : List.Sublist (List.map ImageRun.img_type (u1 ++ (u2 ++ (u3 ++ u4))))
      ([DFU_IMG_SD_BL] ++ ([DFU_IMG_SD] ++ ([DFU_IMG_BL] ++ [DFU_IMG_APP]))) := by
    simp only [List.map_append]
    exact b1.append (b2.append (b3.append b4))
  refine ⟨u1 ++ (u2 ++ (u3 ++ u4)), ?_, hsub, ?_, ?_⟩
  · rw [a4, a3, a2, a1]
    simp only [List.map_append, List.flatten_append, List.append_assoc]
  · intro run hrun
    simp only [List.mem_append] at hrun
    rcases hrun with hrun | hrun | hrun | hrun
    · obtain ⟨p1, p2, p3, p4, p5⟩ := c1 run hrun
      refine ⟨p2, by rw [p1]; exact p3, ?_, fun h => p5 (z1 h)⟩
      rw [p4, p1]
      simp [DFU_IMG_SD_BL, DFU_IMG_APP]
    · obtain ⟨p1, p2, p3, p4, p5⟩ := c2 run hrun
      refine ⟨p2, by rw [p1]; exact p3, ?_, fun h => p5 (z2 h)⟩
      rw [p4, p1]
      simp [DFU_IMG_SD, DFU_IMG_APP]
    · obtain ⟨p1, p2, p3, p4, p5⟩ := c3 run hrun
      refine ⟨p2, by rw [p1]; exact p3, ?_, fun h => p5 (z3 h)⟩
      rw [p4, p1]
      simp [DFU_IMG_BL, DFU_IMG_APP]
    · obtain ⟨p1, p2, p3, p4, p5⟩ := c4 run hrun
      refine ⟨p2, by rw [p1]; exact p3, ?_, fun h => p5 h⟩
      rw [p4, p1]
      simp
  · intro h t ht hdecl
    simp only [List.map_append, List.mem_append]
    simp only [List.mem_cons, List.mem_singleton, List.not_mem_nil, or_false] at ht
    rcases ht with rfl | rfl | rfl | rfl
    · exact Or.inl (e1 (z1 h) hdecl)
    · exact Or.inr (Or.inl (e2 (z2 h) hdecl))
    · exact Or.inr (Or.inr (Or.inl (e3 (z3 h) hdecl)))
    · exact Or.inr (Or.inr (Or.inr (e4 h hdecl)))

theorem run_delay_count (run : ImageRun) (hw : run.well_formed) :
    run.steps.count Step.delay = if run.settled = true then 1 else 0 := by
  obtain ⟨h1, h2⟩ := hw
  have he : run.entries.count Step.delay = 0 := by
    rw [List.count_eq_zero]
    intro hm
    exact absurd (h1 _ hm) (by decide)
  have hs : run.session.count Step.delay = 0 := by
    rw [List.count_eq_zero]
    intro hm
    have := h2.subset hm
    simp [session_steps] at this
  unfold ImageRun.steps
  simp only [List.count_append, he, hs]
  split_ifs <;> simp

theorem runs_delay_count :
    ∀ runs : List ImageRun, (∀ run ∈ runs, run.well_formed) →
      ((runs.map ImageRun.steps).flatten).count Step.delay
        = runs.countP (fun run => run.settled) := by
  intro runs
  induction runs with
  | nil => intro _; rfl
  | cons run rest ih =>
    intro h
    simp only [List.map_cons, List.flatten_cons, List.count_append, List.countP_cons]
    rw [run_delay_count run (h run (List.mem_cons_self _ _)),
      ih (fun x hx => h x (List.mem_cons_of_mem _ hx))]
    cases run.settled
    · simp
    · simp; omega

/-- C29: for every stored manifest (`dfu_objects`, `num_images`) with which the
image part of `dfu_send_package` is entered with `err_code = 0`, and every
behaviour of the device and the archive, the steps made are a sequence of image
runs. The image types of the runs appear in the order SoftDevice+Bootloader,
SoftDevice, Bootloader, Application, each at most once, and each is the type of
one of the `num_images` stored objects. In every run the calls of the protocol
engine are an initial part of `dfu_serial_open`, `dfu_serial_send_init_packet`,
`dfu_serial_send_firmware`, `dfu_serial_close`, preceded by the reads of the
archive. When the result is 0, every run contains all four calls and every
declared type has its run. -/
theorem send_package_order (cfg : Platform) (h0 : Host) (objs : List dfu_json_object_t)
    (n : Nat) (r : Int × Host)
    (hr : dfu_send_package_images cfg h0 0 objs n = some r) :
    ∃ runs : List ImageRun,
      r.2.steps = h0.steps ++ (runs.map ImageRun.steps).flatten
      ∧ (∀ run ∈ runs, run.well_formed)
      ∧ List.Sublist (runs.map ImageRun.img_type)
          [DFU_IMG_SD_BL, DFU_IMG_SD, DFU_IMG_BL, DFU_IMG_APP]
      ∧ (∀ run ∈ runs, ∃ obj ∈ objs.take n, obj.img_type = run.img_type)
      ∧ (r.1 = 0 → (∀ run ∈ runs, run.session = session_steps)
          ∧ ∀ t ∈ [DFU_IMG_SD_BL, DFU_IMG_SD, DFU_IMG_BL, DFU_IMG_APP],
              (∃ obj ∈ objs.take n, obj.img_type = t) → t ∈ runs.map ImageRun.img_type) := by
  obtain ⟨runs, h1, h2, h3, h4⟩ := send_package_runs cfg h0 objs n r hr
  exact ⟨runs, h1, fun run hrun => (h3 run hrun).1, h2, fun run hrun => (h3 run hrun).2.1,
    fun h => ⟨fun run hrun => (h3 run hrun).2.2.2 h, h4 h⟩⟩

set_option maxRecDepth 1000000 in
theorem send_package_order_witness :
    dfu_send_package_images nrf two_image_host 0 two_images 2 = some (0, two_image_done)
    ∧ two_image_done.steps
        = [Step.image 2, Step.entry_open (some [100]), Step.entry_read, Step.entry_close,
           Step.entry_open (some [99]), Step.entry_read, Step.entry_close,
           Step.session_open, Step.init_packet, Step.firmware, Step.session_close, Step.delay,
           Step.image 1, Step.entry_open (some [98]), Step.entry_read, Step.entry_close,
           Step.entry_open (some [97]), Step.entry_read, Step.entry_close,
           Step.session_open, Step.init_packet, Step.firmware, Step.session_close]
    ∧ ∃ runs : List ImageRun,
      two_image_done.steps = two_image_host.steps ++ (runs.map ImageRun.steps).flatten
      ∧ (∀ run ∈ runs, run.well_formed)
      ∧ List.Sublist (runs.map ImageRun.img_type)
          [DFU_IMG_SD_BL, DFU_IMG_SD, DFU_IMG_BL, DFU_IMG_APP] :=
  ⟨by decide!, by decide!,
    (send_package_order nrf two_image_host two_images 2 (0, two_image_done) (by decide!)).imp
      fun _ h => ⟨h.1, h.2.1, h.2.2.1⟩⟩

/-- C30: in the image part of `dfu_send_package`, entered with `err_code = 0`,
the steps made are a sequence of image runs, and a run ends with a call of
`delay_connect`, made immediately after `dfu_serial_close`, if and only if all
four calls of the protocol engine were made (the image was transferred), the
image is not the Application image and `num_images > 1`. Hence with
`num_images ≤ 1` no call of `delay_connect` is made, and when the result is 0
and `num_images > 1` the number of calls of `delay_connect` is the number of
runs of images other than the Application image. -/
theorem settle_delay_placement (cfg : Platform) (h0 : Host) (objs : List dfu_json_object_t)
    (n : Nat) (r : Int × Host)
    (hr : dfu_send_package_images cfg h0 0 objs n = some r) :
    ∃ runs : List ImageRun,
      r.2.steps = h0.steps ++ (runs.map ImageRun.steps).flatten
      ∧ (∀ run ∈ runs, run.well_formed)
      ∧ (∀ run ∈ runs, (run.settled = true
          ↔ (run.session = session_steps ∧ run.img_type ≠ DFU_IMG_APP ∧ n > 1)))
      ∧ (n ≤ 1 → Step.delay ∉ (runs.map ImageRun.steps).flatten)
      ∧ (r.1 = 0 → n > 1 →
          ((runs.map ImageRun.steps).flatten).count Step.delay
            = runs.countP (fun run => run.img_type ≠ DFU_IMG_APP)) := by
  obtain ⟨runs, h1, -, h3, -⟩ := send_package_runs cfg h0 objs n r hr
  have hwf : ∀ run ∈ runs, run.well_formed := fun run hrun => (h3 run hrun).1
  have hcount := runs_delay_count runs hwf
  refine ⟨runs, h1, hwf, ?_, ?_, ?_⟩
  · intro run hrun
    rw [(h3 run hrun).2.2.1]
    constructor
    · exact fun h => ⟨h.1, h.2.2, h.2.1⟩
    · exact fun h => ⟨h.1, h.2.2, h.2.1⟩
  · intro hn hmem
    have hpos : 0 < ((runs.map ImageRun.steps).flatten).count Step.delay :=
      List.count_pos_iff.mpr hmem
    rw [hcount] at hpos
    obtain ⟨run, hrun, hset⟩ := List.countP_pos_iff.mp hpos
    have := ((h3 run hrun).2.2.1.mp hset).2.1
    omega
  · intro h0r hn
    rw [hcount]
    apply List.countP_congr
    intro run hrun
    simp only [decide_not, Bool.not_eq_true', decide_eq_false_iff_not]
    rw [(h3 run hrun).2.2.1]
    constructor
    · exact fun h => h.2.2
    · exact fun h => ⟨(h3 run hrun).2.2.2 h0r, hn, h⟩

set_option maxRecDepth 1000000 in
theorem settle_delay_placement_witness :
    (dfu_send_package_images nrf two_image_host 0 two_images 2 = some (0, two_image_done)
      ∧ two_image_done.steps.count Step.delay = 1
      ∧ ∃ runs : List ImageRun,
        two_image_done.steps = two_image_host.steps ++ (runs.map ImageRun.steps).flatten
        ∧ ((runs.map ImageRun.steps).flatten).count Step.delay
            = runs.countP (fun run => run.img_type ≠ DFU_IMG_APP))
    ∧ (dfu_send_package_images nrf one_image_host 0 one_image 1 = some (0, one_image_done)
      ∧ ∃ runs : List ImageRun,
        one_image_done.steps = one_image_host.steps ++ (runs.map ImageRun.steps).flatten
        ∧ Step.delay ∉ (runs.map ImageRun.steps).flatten) :=
  ⟨⟨by decide!, by decide!,
    (settle_delay_placement nrf two_image_host two_images 2 (0, two_image_done)
      (by decide!)).imp
      fun _ h => ⟨h.1, h.2.2.2.2 rfl (by decide)⟩⟩,
   ⟨by decide!,
    (settle_delay_placement nrf one_image_host one_image 1 (0, one_image_done)
      (by decide!)).imp
      fun _ h => ⟨h.1, h.2.2.2.1 (by decide)⟩⟩⟩

/-! ### The write messages of a slice -/

theorem dfu_serial_send_result (cfg : Platform) (w : World) (d : List Nat) (n : Nat) :
    (dfu_serial_send cfg w d n).1
      = (if n > cfg.UART_SLIP_SIZE_MAX then 1 else w.send_results.getD 0 0)
    ∧ (dfu_serial_send cfg w d n).2.send_results
      = (if n > cfg.UART_SLIP_SIZE_MAX then w.send_results else w.send_results.tail) := by
  unfold dfu_serial_send uart_slip_send
  split_ifs with h
  · exact ⟨rfl, rfl⟩
  · unfold uart_drv_send
    simp only
    split
    · rename_i h0
      simp [h0]
    · rename_i r rest h0
      simp [h0]

theorem stream_loop_stopped (cfg : Platform) (p : List Nat) (n stp_max pos : Nat) (fuel : Nat)
    (w : World) (err : Int) (herr : err ≠ 0) :
    dfu_serial_stream_data_loop cfg fuel w p n stp_max pos err = some (err, w) := by
  cases fuel <;> (unfold dfu_serial_stream_data_loop; rw [if_neg (fun h => herr h.1)])

theorem chunk_size (n wm i : Nat) :
    min n ((i + 1) * wm) - i * wm = min (n - i * wm) wm := by
  rw [Nat.add_mul, Nat.one_mul]
  generalize i * wm = q
  omega

theorem stream_loop_chunks (cfg : Platform) (p : List Nat) (n wm : Nat) (hwm : 1 ≤ wm) :
    ∀ (fuel : Nat) (w : World) (i0 : Nat), n - min n (i0 * wm) ≤ fuel →
      ∃ (m : Nat) (e : Int) (w1 : World),
        dfu_serial_stream_data_loop cfg fuel w p n wm (min n (i0 * wm)) 0 = some (e, w1)
        ∧ w1.log = w.log
            ++ (List.range m).map (fun j => Event.send (8 :: write_chunk p n wm (i0 + j)))
        ∧ (∀ j, j < m → (i0 + j) * wm < n)
        ∧ (∀ j, j + 1 < m →
            (if min n ((i0 + j + 1) * wm) - (i0 + j) * wm + 1 > cfg.UART_SLIP_SIZE_MAX
              then (1 : Int) else w.send_results.getD j 0) = 0)
        ∧ (0 < m → e
            = (if min n ((i0 + (m - 1) + 1) * wm) - (i0 + (m - 1)) * wm + 1
                > cfg.UART_SLIP_SIZE_MAX then (1 : Int) else w.send_results.getD (m - 1) 0))
        ∧ (m = 0 → e = 0)
        ∧ (e = 0 → ¬ (i0 + m) * wm < n) := by
  intro fuel
  induction fuel with
  | zero =>
    intro w i0 hf
    have hc : ¬ i0 * wm < n := by omega
    have hpos : min n (i0 * wm) = n := by omega
    refine ⟨0, 0, w, ?_, by simp, by simp, by simp, by simp, by simp, fun _ => by simpa using hc⟩
    unfold dfu_serial_stream_data_loop
    rw [hpos, if_neg (by omega)]
  | succ fuel ih =>
    intro w i0 hf
    by_cases hc : i0 * wm < n
    swap
    · have hpos : min n (i0 * wm) = n := by omega
      refine ⟨0, 0, w, ?_, by simp, by simp, by simp, by simp, by simp,
        fun _ => by simpa using hc⟩
      unfold dfu_serial_stream_data_loop
      rw [hpos, if_neg (by omega)]
    have hpos : min n (i0 * wm) = i0 * wm := by omega
    have hnext : i0 * wm + min (n - i0 * wm) wm = min n ((i0 + 1) * wm) := by
      rw [Nat.add_mul, Nat.one_mul]
      generalize i0 * wm = q at *
      omega
    have hmsg : List.take (min (n - i0 * wm) wm + 1)
        ([NRF_DFU_OP_OBJECT_WRITE] ++ (p.drop (i0 * wm)).take (min (n - i0 * wm) wm))
        = 8 :: write_chunk p n wm i0 := by
      unfold write_chunk
      rw [chunk_size]
      apply List.take_of_length_le
      simp
    obtain ⟨r1, r2⟩ := dfu_serial_send_result cfg w
      ([NRF_DFU_OP_OBJECT_WRITE] ++ (p.drop (i0 * wm)).take (min (n - i0 * wm) wm))
      (min (n - i0 * wm) wm + 1)
    have hlog := (dfu_serial_send_frame cfg w
      ([NRF_DFU_OP_OBJECT_WRITE] ++ (p.drop (i0 * wm)).take (min (n - i0 * wm) wm))
      (min (n - i0 * wm) wm + 1)).1
    rw [hmsg] at hlog
    have hrun : dfu_serial_stream_data_loop cfg (fuel + 1) w p n wm (min n (i0 * wm)) 0
        = dfu_serial_stream_data_loop cfg fuel
            (dfu_serial_send cfg w
              ([NRF_DFU_OP_OBJECT_WRITE] ++ (p.drop (i0 * wm)).take (min (n - i0 * wm) wm))
              (min (n - i0 * wm) wm + 1)).2 p n wm (min n ((i0 + 1) * wm))
            (dfu_serial_send cfg w
              ([NRF_DFU_OP_OBJECT_WRITE] ++ (p.drop (i0 * wm)).take (min (n - i0 * wm) wm))
              (min (n - i0 * wm) wm + 1)).1 := by
      conv_lhs => unfold dfu_serial_stream_data_loop
      rw [hpos, if_pos ⟨rfl, hc⟩]
      simp only
      rw [hnext]
    rw [hrun]
    generalize dfu_serial_send cfg w
      ([NRF_DFU_OP_OBJECT_WRITE] ++ (p.drop (i0 * wm)).take (min (n - i0 * wm) wm))
      (min (n - i0 * wm) wm + 1) = s at *
    rw [← chunk_size] at r1 r2
    by_cases he : s.1 = 0
    · have hfit : ¬ min n ((i0 + 1) * wm) - i0 * wm + 1 > cfg.UART_SLIP_SIZE_MAX := by
        intro hbig
        rw [if_pos hbig] at r1
        rw [r1] at he
        exact absurd he (by decide)
      rw [if_neg hfit] at r1 r2
      have hf2 : n - min n ((i0 + 1) * wm) ≤ fuel := by
        rw [← hnext]
        generalize i0 * wm = q at *
        omega
      obtain ⟨m, e, w1, h1, h2, h3, h4, h5, h6, h7⟩ := ih s.2 (i0 + 1) hf2
      rw [he]
      refine ⟨m + 1, e, w1, h1, ?_, ?_, ?_, ?_, by omega, ?_⟩
      · rw [h2, hlog, List.range_succ_eq_map, List.map_cons, List.map_map]
        simp only [List.append_assoc, List.singleton_append, Nat.add_zero, Function.comp_def]
        congr 3
        funext j
        congr 3
        omega
      · intro j hj
        cases j with
        | zero => simpa using hc
        | succ j =>
          have := h3 j (by omega)
          rw [show i0 + (j + 1) = i0 + 1 + j by omega]
          exact this
      · intro j hj
        cases j with
        | zero =>
          rw [if_neg (by simpa using hfit)]
          rw [← r1]
          exact he
        | succ j =>
          have := h4 j (by omega)
          rw [r2, List.getD_eq_getElem?_getD, List.getElem?_tail,
            ← List.getD_eq_getElem?_getD] at this
          rw [show i0 + (j + 1) = i0 + 1 + j by omega]
          exact this
      · intro _
        cases m with
        | zero =>
          rw [h6 rfl]
          simp only [Nat.zero_add, Nat.sub_self, Nat.add_zero]
          rw [if_neg hfit, ← r1, he]
        | succ m =>
          have := h5 (by omega)
          rw [r2, List.getD_eq_getElem?_getD, List.getElem?_tail,
            ← List.getD_eq_getElem?_getD] at this
          simp only [Nat.add_sub_cancel] at this ⊢
          rw [show i0 + (m + 1) = i0 + 1 + m by omega]
          exact this
      · intro h0
        have := h7 h0
        rw [show i0 + (m + 1) = i0 + 1 + m by omega]
        exact this
    · rw [stream_loop_stopped cfg p n wm _ fuel s.2 s.1 he]
      refine ⟨1, s.1, s.2, rfl, ?_, ?_, by simp, ?_, by simp, fun h => absurd h he⟩
      · rw [hlog]
        rfl
      · intro j hj
        have : j = 0 := by omega
        subst this
        simpa using hc
      · intro _
        simp only [Nat.sub_self, Nat.add_zero]
        exact r1

theorem ceil_div_iff (n wm i : Nat) (hwm : 1 ≤ wm) :
    i < (n + wm - 1) / wm ↔ i * wm < n := by
  rw [Nat.lt_iff_add_one_le, Nat.le_div_iff_mul_le (by omega), Nat.add_mul, Nat.one_mul]
  generalize i * wm = q
  omega

theorem write_chunks_flatten (data : List Nat) (len wm : Nat) :
    ∀ k, ((List.range k).map (write_chunk data len wm)).flatten
      = data.take (min len (k * wm)) := by
  intro k
  induction k with
  | zero => simp
  | succ k ih =>
    rw [List.range_succ, List.map_append, List.flatten_append, ih]
    simp only [List.map_cons, List.map_nil, List.flatten_cons, List.flatten_nil,
      List.append_nil]
    unfold write_chunk
    by_cases hk : k * wm ≤ len
    · have h1 : min len (k * wm) = k * wm := by omega
      have h2 : min len ((k + 1) * wm) = k * wm + (min len ((k + 1) * wm) - k * wm) := by
        rw [Nat.add_mul, Nat.one_mul]
        generalize k * wm = q at *
        omega
      rw [h1]
      conv_rhs => rw [h2, List.take_add]
    · have h1 : min len (k * wm) = len := by omega
      have h2 : min len ((k + 1) * wm) = len := by
        rw [Nat.add_mul, Nat.one_mul]
        generalize k * wm = q at *
        omega
      have h3 : len - k * wm = 0 := by omega
      rw [h1, h2, h3]
      simp

theorem write_chunk_length (data : List Nat) (len wm i : Nat) (hwm : 1 ≤ wm)
    (hmem : len ≤ data.length) (hi : i * wm < len) :
    1 ≤ (write_chunk data len wm i).length ∧ (write_chunk data len wm i).length ≤ wm := by
  unfold write_chunk
  rw [chunk_size, List.length_take, List.length_drop]
  generalize i * wm = q at *
  omega

/-- C35: `dfu_serial_stream_data` with a cached `mtu ≥ 5` on a slice of `len > 0`
bytes held in memory, with `write_max = (mtu - 1) / 2 - 1`. The function returns,
and what it adds to the log are `m` messages and no read of a response: the
`i`-th is `0x08` followed by `data[i * write_max .. min(len, (i + 1) *
write_max))`. The loop stops at the first failed send: all sends but the last
returned 0 and the result is that of the last send, so `m` is
`ceil(len / write_max)` when no send fails and never more. Each of the
`ceil(len / write_max)` payloads is non-empty and at most `write_max` bytes, and
they concatenate in order to the whole slice. -/
theorem stream_data_writes (cfg : Platform) (w : World) (data : List Nat) (len : Nat)
    (hmtu : 5 ≤ w.mtu) (hlen : 0 < len) (hmem : len ≤ data.length) :
    ∃ (m : Nat) (e : Int) (w1 : World),
      dfu_serial_stream_data cfg w data len = some (e, w1)
      ∧ w1.log = w.log ++ (List.range m).map
          (fun i => Event.send (8 :: write_chunk data len ((w.mtu - 1) / 2 - 1) i))
      ∧ 1 ≤ m ∧ m ≤ (len + ((w.mtu - 1) / 2 - 1) - 1) / ((w.mtu - 1) / 2 - 1)
      ∧ (∀ i, i + 1 < m → write_result cfg w len ((w.mtu - 1) / 2 - 1) i = 0)
      ∧ e = write_result cfg w len ((w.mtu - 1) / 2 - 1) (m - 1)
      ∧ (e = 0 → m = (len + ((w.mtu - 1) / 2 - 1) - 1) / ((w.mtu - 1) / 2 - 1))
      ∧ (∀ i, i < (len + ((w.mtu - 1) / 2 - 1) - 1) / ((w.mtu - 1) / 2 - 1) →
          1 ≤ (write_chunk data len ((w.mtu - 1) / 2 - 1) i).length
          ∧ (write_chunk data len ((w.mtu - 1) / 2 - 1) i).length ≤ (w.mtu - 1) / 2 - 1)
      ∧ ((List.range ((len + ((w.mtu - 1) / 2 - 1) - 1) / ((w.mtu - 1) / 2 - 1))).map
          (write_chunk data len ((w.mtu - 1) / 2 - 1))).flatten = data.take len := by
  have hwm : 1 ≤ (w.mtu - 1) / 2 - 1 := by omega
  generalize hwmdef : (w.mtu - 1) / 2 - 1 = wm at *
  obtain ⟨m, e, w1, h1, h2, h3, h4, h5, h6, h7⟩ :=
    stream_loop_chunks cfg data len wm hwm len w 0 (by simp)
  simp only [Nat.zero_mul, Nat.zero_add, Nat.min_zero, Nat.zero_min] at h1 h2 h3 h4 h5 h6 h7
  have hrun : dfu_serial_stream_data cfg w data len = some (e, w1) := by
    unfold dfu_serial_stream_data
    have e1 : (if len = 0 then (1 : Int) else 0) = 0 := by rw [if_neg (by omega)]
    simp only [e1, if_true, ge_iff_le, hmtu, hwmdef]
    exact h1
  have hm1 : 1 ≤ m := by
    by_contra hm
    have hm0 : m = 0 := by omega
    have := h7 (h6 hm0)
    rw [hm0] at this
    simp at this
    omega
  have hmle : m ≤ (len + wm - 1) / wm := by
    have := h3 (m - 1) (by omega)
    have := (ceil_div_iff len wm (m - 1) hwm).mpr this
    omega
  refine ⟨m, e, w1, hrun, h2, hm1, hmle, ?_, ?_, ?_, ?_, ?_⟩
  · intro i hi
    exact h4 i hi
  · exact h5 (by omega)
  · intro h0
    have hge := h7 h0
    have : ¬ m < (len + wm - 1) / wm := fun hlt => hge ((ceil_div_iff len wm m hwm).mp hlt)
    omega
  · intro i hi
    exact write_chunk_length data len wm i hwm hmem ((ceil_div_iff len wm i hwm).mp hi)
  · rw [write_chunks_flatten]
    congr 1
    have : ¬ ((len + wm - 1) / wm) * wm < len :=
      fun hlt => absurd ((ceil_div_iff len wm _ hwm).mpr hlt) (by omega)
    omega

set_option maxRecDepth 1000000 in
theorem stream_data_writes_witness :
    (5 ≤ (start_world 11 []).mtu ∧ 0 < 10 ∧ 10 ≤ fw10.length)
    ∧ (dfu_serial_stream_data nrf (start_world 11 []) fw10 10).map
        (fun r => (r.1, r.2.log))
      = some (0, [Event.send [8, 1, 2, 3, 4], Event.send [8, 5, 6, 7, 8],
          Event.send [8, 9, 10]])
    ∧ ∃ (m : Nat) (e : Int) (w1 : World),
      dfu_serial_stream_data nrf (start_world 11 []) fw10 10 = some (e, w1)
      ∧ w1.log = (start_world 11 []).log ++ (List.range m).map
          (fun i => Event.send
            (8 :: write_chunk fw10 10 (((start_world 11 []).mtu - 1) / 2 - 1) i))
      ∧ 1 ≤ m :=
  ⟨⟨by decide, by decide, by decide⟩, by decide,
    (stream_data_writes nrf (start_world 11 []) fw10 10 (by decide) (by decide)
      (by decide)).imp
      fun _ h => h.imp fun _ h => h.imp fun _ h => ⟨h.1, h.2.1, h.2.2.1⟩⟩

/-! ### The size of the write messages -/

/-- The run of `dfu_serial_stream_data` on a slice held in memory, in the terms
of `stream_loop_chunks`. -/
theorem stream_data_chunks (cfg : Platform) (w : World) (data : List Nat) (len : Nat)
    (hmtu : 5 ≤ w.mtu) (hlen : 0 < len) :
    ∃ (m : Nat) (e : Int) (w1 : World),
      dfu_serial_stream_data cfg w data len = some (e, w1)
      ∧ w1.log = w.log ++ (List.range m).map
          (fun i => Event.send (8 :: write_chunk data len ((w.mtu - 1) / 2 - 1) i))
      ∧ 1 ≤ m
      ∧ (∀ i, i < m → i * ((w.mtu - 1) / 2 - 1) < len)
      ∧ (∀ i, i + 1 < m → write_result cfg w len ((w.mtu - 1) / 2 - 1) i = 0)
      ∧ e = write_result cfg w len ((w.mtu - 1) / 2 - 1) (m - 1) := by
  have hwm : 1 ≤ (w.mtu - 1) / 2 - 1 := by omega
  generalize hwmdef : (w.mtu - 1) / 2 - 1 = wm at *
  obtain ⟨m, e, w1, h1, h2, h3, h4, h5, h6, h7⟩ :=
    stream_loop_chunks cfg data len wm hwm len w 0 (by simp)
  simp only [Nat.zero_mul, Nat.zero_add, Nat.min_zero, Nat.zero_min] at h1 h2 h3 h4 h5 h6 h7
  have hrun : dfu_serial_stream_data cfg w data len = some (e, w1) := by
    unfold dfu_serial_stream_data
    have e1 : (if len = 0 then (1 : Int) else 0) = 0 := by rw [if_neg (by omega)]
    simp only [e1, if_true, ge_iff_le, hmtu, hwmdef]
    exact h1
  have hm1 : 1 ≤ m := by
    by_contra hm
    have hm0 : m = 0 := by omega
    have := h7 (h6 hm0)
    rw [hm0] at this
    simp at this
    omega
  exact ⟨m, e, w1, hrun, h2, hm1, h3, fun i hi => h4 i hi, h5 (by omega)⟩

theorem write_bound_iff (mtu max : Nat) (hmtu : 5 ≤ mtu) :
    (mtu - 1) / 2 - 1 + 1 ≤ max ↔ mtu ≤ 2 * max + 2 := by
  omega

/-- C38: for every cached `mtu ≥ 5`, every write message that
`dfu_serial_stream_data` hands to the transport (opcode byte plus chunk) has at
most `UART_SLIP_SIZE_MAX` bytes, whatever the slice, if and only if
`mtu ≤ 2 * UART_SLIP_SIZE_MAX + 2`. Under that bound no send is refused as too
large: all sends but the last returned 0 as results of the driver, and the
result of the function is the result of the driver for the last write. -/
theorem write_messages_fit (cfg : Platform) (mtu : Nat) (hmtu : 5 ≤ mtu) :
    ((∀ (w : World) (data : List Nat) (len : Nat) (e : Int) (w1 : World),
        w.mtu = mtu → 0 < len → len ≤ data.length →
        dfu_serial_stream_data cfg w data len = some (e, w1) →
        ∀ msg, Event.send msg ∈ w1.log.drop w.log.length →
          msg.length ≤ cfg.UART_SLIP_SIZE_MAX)
      ↔ mtu ≤ 2 * cfg.UART_SLIP_SIZE_MAX + 2)
    ∧ (mtu ≤ 2 * cfg.UART_SLIP_SIZE_MAX + 2 →
        ∀ (w : World) (data : List Nat) (len : Nat), w.mtu = mtu → 0 < len →
        ∃ (m : Nat) (e : Int) (w1 : World),
          dfu_serial_stream_data cfg w data len = some (e, w1)
          ∧ 1 ≤ m
          ∧ w1.log.length = w.log.length + m
          ∧ (∀ i, i + 1 < m → w.send_results.getD i 0 = 0)
          ∧ e = w.send_results.getD (m - 1) 0) := by
  have hb := write_bound_iff mtu cfg.UART_SLIP_SIZE_MAX hmtu
  have hwm : 1 ≤ (mtu - 1) / 2 - 1 := by omega
  have hres : mtu ≤ 2 * cfg.UART_SLIP_SIZE_MAX + 2 → ∀ (w : World) (len i : Nat),
      w.mtu = mtu → write_result cfg w len ((w.mtu - 1) / 2 - 1) i = w.send_results.getD i 0 := by
    intro hbound w len i hw
    unfold write_result
    rw [hw, if_neg]
    rw [chunk_size]
    have := hb.mpr hbound
    omega
  refine ⟨⟨fun hall => ?_, fun hbound w data len e w1 hw hlen hmem hrun msg hmsg => ?_⟩,
    fun hbound w data len hw hlen => ?_⟩
  · -- a slice of `write_max` bytes gives a first message of `write_max + 1` bytes
    obtain ⟨m, e, w1, h1, h2, h3, -, -, -⟩ := stream_data_chunks cfg (start_world mtu [])
      (List.replicate ((mtu - 1) / 2 - 1) 0) ((mtu - 1) / 2 - 1) hmtu (by omega)
    have hmem : Event.send (8 :: write_chunk (List.replicate ((mtu - 1) / 2 - 1) 0)
        ((mtu - 1) / 2 - 1) ((mtu - 1) / 2 - 1) 0)
        ∈ w1.log.drop (start_world mtu []).log.length := by
      rw [h2]
      simp only [start_world, List.length_nil, List.drop_zero, List.nil_append, List.mem_map,
        List.mem_range]
      exact ⟨0, by omega, rfl⟩
    have hlen := hall (start_world mtu []) _ _ e w1 rfl (by omega) (by simp) h1 _ hmem
    have hc : (write_chunk (List.replicate ((mtu - 1) / 2 - 1) 0)
        ((mtu - 1) / 2 - 1) ((mtu - 1) / 2 - 1) 0).length = (mtu - 1) / 2 - 1 := by
      unfold write_chunk
      simp
    rw [List.length_cons, hc] at hlen
    exact hb.mp hlen
  · obtain ⟨m, e', w1', h1, h2, h3, h4, -, -⟩ := stream_data_chunks cfg w data len
      (by omega) hlen
    rw [hrun] at h1
    simp only [Option.some.injEq, Prod.mk.injEq] at h1
    obtain ⟨-, rfl⟩ := h1
    rw [h2, List.drop_left] at hmsg
    simp only [List.mem_map, List.mem_range] at hmsg
    obtain ⟨i, hi, hmi⟩ := hmsg
    simp only [Event.send.injEq] at hmi
    subst hmi
    have := (write_chunk_length data len _ i (by rw [hw]; exact hwm) hmem (h4 i hi)).2
    rw [hw] at this ⊢
    rw [List.length_cons]
    have := hb.mpr hbound
    omega
  · obtain ⟨m, e, w1, h1, h2, h3, -, h5, h6⟩ := stream_data_chunks cfg w data len
      (by omega) hlen
    refine ⟨m, e, w1, h1, h3, by rw [h2]; simp, fun i hi => ?_, ?_⟩
    · rw [← hres hbound w len i hw]
      exact h5 i hi
    · rw [h6]
      exact hres hbound w len (m - 1) hw

theorem write_messages_fit_witness :
    5 ≤ 64 ∧ 64 ≤ 2 * nrf.UART_SLIP_SIZE_MAX + 2
    ∧ (∃ (m : Nat) (e : Int) (w1 : World),
        dfu_serial_stream_data nrf (start_world 64 []) fw10 10 = some (e, w1)
        ∧ 1 ≤ m
        ∧ w1.log.length = (start_world 64 []).log.length + m
        ∧ (∀ i, i + 1 < m → (start_world 64 []).send_results.getD i 0 = 0)
        ∧ e = (start_world 64 []).send_results.getD (m - 1) 0)
    ∧ ¬ (∀ (w : World) (data : List Nat) (len : Nat) (e : Int) (w1 : World),
        w.mtu = 300 → 0 < len → len ≤ data.length →
        dfu_serial_stream_data nrf w data len = some (e, w1) →
        ∀ msg, Event.send msg ∈ w1.log.drop w.log.length →
          msg.length ≤ nrf.UART_SLIP_SIZE_MAX) :=
  ⟨by decide, by decide,
    (write_messages_fit nrf 64 (by decide)).2 (by decide) (start_world 64 []) fw10 10 rfl
      (by decide),
    fun h => absurd ((write_messages_fit nrf 300 (by decide)).1.mp h) (by decide)⟩

/-! ### Termination of the firmware transfer -/

theorem stream_data_crc_total (cfg : Platform) (w : World) (p : List Nat) (n pos crc : Nat) :
    ∃ r, dfu_serial_stream_data_crc cfg w p n pos crc = some r := by
  obtain ⟨s, hs⟩ := stream_data_total cfg w p n
  unfold dfu_serial_stream_data_crc
  rw [hs]
  simp only
  split_ifs <;> exact ⟨_, rfl⟩

theorem recover_fw_total (cfg : Platform) (w : World) (p : List Nat) (N : Nat)
    (sel : nrf_dfu_response_select_t) (hmax : 0 < sel.max_size) :
    ∃ r, dfu_serial_try_to_recover_fw cfg w p N sel = some r := by
  unfold dfu_serial_try_to_recover_fw
  simp only
  by_cases h1 : sel.offset > N
  · rw [if_pos h1]
    exact ⟨_, rfl⟩
  rw [if_neg h1]
  by_cases h2 : sel.offset > 0
  swap
  · rw [if_neg h2]
    exact ⟨_, rfl⟩
  rw [if_pos h2, if_neg (by omega)]
  by_cases h3 : sel.crc ≠ cfg.crc32_compute (p.take sel.offset) none
  · rw [if_pos h3]
    exact ⟨_, rfl⟩
  rw [if_neg h3]
  by_cases h4 : sel.offset % sel.max_size > 0
  swap
  · rw [if_neg h4]
    exact ⟨_, rfl⟩
  rw [if_pos h4]
  obtain ⟨s, hs⟩ := stream_data_crc_total cfg w (p.drop sel.offset)
    (sel.max_size - sel.offset % sel.max_size) sel.offset
    (cfg.crc32_compute (p.take sel.offset) none)
  rw [hs]
  simp only
  by_cases h5 : s.1 = 0
  · rw [if_pos h5]
    exact ⟨_, rfl⟩
  rw [if_neg h5]
  by_cases h6 : s.1 = 2
  · rw [if_pos h6]
    exact ⟨_, rfl⟩
  rw [if_neg h6]
  exact ⟨_, rfl⟩

theorem send_firmware_loop_total (cfg : Platform) (p : List Nat) (N max : Nat)
    (hmax : 0 < max) :
    ∀ (fuel : Nat) (w : World) (pos crc : Nat), N - pos ≤ fuel →
      ∃ r, dfu_serial_send_firmware_loop cfg fuel w p N max pos crc = some r := by
  intro fuel
  induction fuel with
  | zero =>
    intro w pos crc hf
    unfold dfu_serial_send_firmware_loop
    rw [if_neg (by omega)]
    exact ⟨_, rfl⟩
  | succ fuel ih =>
    intro w pos crc hf
    unfold dfu_serial_send_firmware_loop
    by_cases hc : pos < N
    swap
    · rw [if_neg hc]
      exact ⟨_, rfl⟩
    rw [if_pos hc]
    simp only
    by_cases h1 : (dfu_serial_create_obj cfg w 2 (min (N - pos) max)).1 ≠ 0
    · rw [if_pos h1]
      exact ⟨_, rfl⟩
    rw [if_neg h1]
    obtain ⟨s, hs⟩ := stream_data_crc_total cfg (dfu_serial_create_obj cfg w 2
      (min (N - pos) max)).2 (p.drop pos) (min (N - pos) max) pos crc
    rw [hs]
    simp only
    by_cases h2 : s.1 ≠ 0
    · rw [if_pos h2]
      exact ⟨_, rfl⟩
    rw [if_neg h2]
    by_cases h3 : (dfu_serial_execute_obj cfg s.2.2).1 ≠ 0
    · rw [if_pos h3]
      exact ⟨_, rfl⟩
    rw [if_neg h3]
    exact ih _ _ _ (by omega)

/-- C39: `dfu_serial_send_firmware` is total when the reported `max_size` is
positive (whenever `ObjectSelect` succeeds): it returns a result for every
buffer, every reported offset and CRC and every behaviour of the device. The
remainder by `max_size` in `dfu_serial_try_to_recover_fw` is then defined and
recovery returns; the object loop returns within `N - pos` iterations for a
positive `max_size`, each iteration that goes on advancing `pos` by
`min(N - pos, max_size) ≥ 1`; and the write loop of `dfu_serial_stream_data`
always returns, each iteration advancing by at least 1 when `mtu ≥ 5`. -/
theorem send_firmware_total (cfg : Platform) (w : World) (p_data : Option (List Nat))
    (data_size : Nat)
    (hmax : (dfu_serial_select_obj cfg w 2 { offset := 0, crc := 0, max_size := 0 }).1 = 0 →
      0 < (dfu_serial_select_obj cfg w 2 { offset := 0, crc := 0, max_size := 0 }).2.1.max_size) :
    (∃ r, dfu_serial_send_firmware cfg w p_data data_size = some r)
    ∧ (∀ (w1 : World) (p : List Nat) (N : Nat) (sel : nrf_dfu_response_select_t),
        0 < sel.max_size → ∃ r, dfu_serial_try_to_recover_fw cfg w1 p N sel = some r)
    ∧ (∀ (w1 : World) (p : List Nat) (N max pos crc : Nat), 0 < max →
        (∃ r, dfu_serial_send_firmware_loop cfg (N - pos) w1 p N max pos crc = some r)
        ∧ (pos < N → 1 ≤ min (N - pos) max))
    ∧ (∀ (w1 : World) (p : List Nat) (n : Nat),
        (∃ r, dfu_serial_stream_data cfg w1 p n = some r)
        ∧ (5 ≤ w1.mtu → ∀ pos, pos < n → 1 ≤ min (n - pos) ((w1.mtu - 1) / 2 - 1))) := by
  refine ⟨?_, fun w1 p N sel h => recover_fw_total cfg w1 p N sel h,
    fun w1 p N max pos crc h =>
      ⟨send_firmware_loop_total cfg p N max h _ w1 pos crc (Nat.le_refl _), fun _ => by omega⟩,
    fun w1 p n => ⟨stream_data_total cfg w1 p n, fun _ pos _ => by omega⟩⟩
  unfold dfu_serial_send_firmware
  split
  · exact ⟨_, rfl⟩
  rename_i mem
  by_cases h0 : data_size = 0
  · rw [if_pos h0]
    exact ⟨_, rfl⟩
  rw [if_neg h0]
  simp only
  by_cases h1 : (dfu_serial_select_obj cfg w 2 { offset := 0, crc := 0, max_size := 0 }).1 ≠ 0
  · rw [if_pos h1]
    exact ⟨_, rfl⟩
  rw [if_neg h1]
  have hpos := hmax (not_not.mp h1)
  obtain ⟨rec, hrec⟩ := recover_fw_total cfg
    (dfu_serial_select_obj cfg w 2 { offset := 0, crc := 0, max_size := 0 }).2.2 mem data_size
    (dfu_serial_select_obj cfg w 2 { offset := 0, crc := 0, max_size := 0 }).2.1 hpos
  rw [hrec]
  simp only
  by_cases h2 : rec.1 ≠ 0
  · rw [if_pos h2]
    exact ⟨_, rfl⟩
  rw [if_neg h2]
  exact send_firmware_loop_total cfg mem data_size _ hpos _ _ _ _ (by omega)

set_option maxRecDepth 1000000 in
theorem send_firmware_total_witness :
    ((dfu_serial_select_obj nrf stale_world 2 { offset := 0, crc := 0, max_size := 0 }).1 = 0 →
      0 < (dfu_serial_select_obj nrf stale_world 2
        { offset := 0, crc := 0, max_size := 0 }).2.1.max_size)
    ∧ ∃ r, dfu_serial_send_firmware nrf stale_world (some fw10) 10 = some r :=
  ⟨fun _ => by decide,
    (send_firmware_total nrf stale_world (some fw10) 10 (fun _ => by decide)).1⟩

/-! ### Reads of the firmware buffer -/

set_option maxRecDepth 1000000 in
/-- C36: a run of `dfu_serial_send_firmware` that reads past the firmware
buffer. The image has 10 bytes (`data_size = 10`), `ObjectSelect` reports
`max_size = 4`, `offset = 9 ≤ 10` and the CRC of the first 9 bytes. Recovery
calls `dfu_serial_stream_data_crc` at position 9 with length `4 - 9 % 4 = 3`,
so `9 + 3 = 12 > 10`: the write carries the last image byte and the two bytes
that follow the image in memory, the expected offset recorded for the check is
12, and the transfer returns success. -/
theorem send_firmware_reads_past_end :
    (dfu_serial_send_firmware nrf
        (start_world 64 [select_reply 4 9 (crc32_ieee (fw_mem.take 9) none),
          crc_reply 12 (crc32_ieee fw_mem none), reply [96, 4, 1]])
        (some fw_mem) 10).map
      (fun r => (r.1, requests r.2.log, r.2.checks.map Prod.fst))
      = some (0, [[6, 2], [8, 10, 170, 187], [3], [4]], [12]) := by
  decide

/-! ### The size of a received message -/

/-- C37: `uart_slip_receive` returns success with more decoded bytes than
`receive_data` holds. The driver delivers in one read the frame of a response
of `UART_SLIP_SIZE_MAX + 1` bytes `0x60, oper, 0x01, 0, …, 0` (that many bytes
and one `END`, which fits the SLIP buffer of `2 * UART_SLIP_SIZE_MAX + 1`
bytes): `uart_slip_receive` returns 0 with `*pSize = UART_SLIP_SIZE_MAX + 1`
bytes written to `receive_data`, and `dfu_serial_get_rsp` accepts the response
with that `data_cnt`. -/
theorem uart_slip_receive_overflow (cfg : Platform) (w : World) (oper c0 : Nat)
    (rest : List (Int × List Nat))
    (hmax : 2 ≤ cfg.UART_SLIP_SIZE_MAX) (hbuf : UART_SLIP_BUFF_SIZE cfg + 2 < U32)
    (hoper : oper < 192)
    (hr : w.recv_results
      = reply ([96, oper, 1] ++ List.replicate (cfg.UART_SLIP_SIZE_MAX - 2) 0) :: rest) :
    (reply ([96, oper, 1] ++ List.replicate (cfg.UART_SLIP_SIZE_MAX - 2) 0)).2
        = [96, oper, 1] ++ List.replicate (cfg.UART_SLIP_SIZE_MAX - 2) 0 ++ [192]
    ∧ (reply ([96, oper, 1] ++ List.replicate (cfg.UART_SLIP_SIZE_MAX - 2) 0)).2.length
        ≤ UART_SLIP_BUFF_SIZE cfg
    ∧ (uart_slip_receive cfg w c0).1 = 0
    ∧ (uart_slip_receive cfg w c0).2.1 = cfg.UART_SLIP_SIZE_MAX + 1
    ∧ (uart_slip_receive cfg w c0).2.2.receive_data.length = cfg.UART_SLIP_SIZE_MAX + 1
    ∧ (dfu_serial_get_rsp cfg w oper c0).1 = 0
    ∧ (dfu_serial_get_rsp cfg w oper c0).2.1 = cfg.UART_SLIP_SIZE_MAX + 1 := by
  have hlen : ([96, oper, 1] ++ List.replicate (cfg.UART_SLIP_SIZE_MAX - 2) 0).length
      = cfg.UART_SLIP_SIZE_MAX + 1 := by
    simp only [List.length_append, List.length_cons, List.length_nil, List.length_replicate]
    omega
  have hb : UART_SLIP_BUFF_SIZE cfg = 2 * cfg.UART_SLIP_SIZE_MAX + 1 := by
    unfold UART_SLIP_BUFF_SIZE
    omega
  have hst : slip_stuffed ([96, oper, 1] ++ List.replicate (cfg.UART_SLIP_SIZE_MAX - 2) 0)
      = [96, oper, 1] ++ List.replicate (cfg.UART_SLIP_SIZE_MAX - 2) 0 := by
    rw [slip_stuffed_flatMap]
    have hz : ∀ k : Nat, (List.replicate k 0).flatMap (fun b =>
        if b = 192 then [219, 220] else if b = 219 then [219, 221] else [b])
        = List.replicate k 0 := by
      intro k
      induction k with
      | zero => rfl
      | succ k ih =>
        rw [List.replicate_succ, List.flatMap_cons, ih]
        rfl
    rw [List.flatMap_append, hz]
    have h1 : oper ≠ 192 := by omega
    have h2 : oper ≠ 219 := by omega
    simp [List.flatMap_cons, h1, h2]
  have hrecv := uart_slip_receive_reply cfg w c0
    ([96, oper, 1] ++ List.replicate (cfg.UART_SLIP_SIZE_MAX - 2) 0) rest (by omega)
    (by rw [hlen]; rw [hb] at hbuf; omega) hr
  have hreply : (reply ([96, oper, 1] ++ List.replicate (cfg.UART_SLIP_SIZE_MAX - 2) 0)).2
      = [96, oper, 1] ++ List.replicate (cfg.UART_SLIP_SIZE_MAX - 2) 0 ++ [192] := by
    unfold reply
    rw [encode_slip_eq, hst]
    rfl
  refine ⟨hreply, ?_, ?_, ?_, ?_, ?_, ?_⟩
  · rw [hreply, List.length_append, hlen, hb]
    simp only [List.length_cons, List.length_nil]
    omega
  · rw [hrecv]
  · rw [hrecv, hlen]
  · rw [hrecv, hlen]
  · unfold dfu_serial_get_rsp
    simp only
    rw [hrecv]
    simp [hlen, NRF_DFU_OP_RESPONSE, NRF_DFU_RES_CODE_SUCCESS]
  · unfold dfu_serial_get_rsp
    simp only
    rw [hrecv]
    simp [hlen, NRF_DFU_OP_RESPONSE, NRF_DFU_RES_CODE_SUCCESS]
    omega

set_option maxRecDepth 1000000 in
theorem uart_slip_receive_overflow_witness :
    (2 ≤ nrf.UART_SLIP_SIZE_MAX ∧ UART_SLIP_BUFF_SIZE nrf + 2 < U32 ∧ 9 < 192
      ∧ (start_world 64 [reply ([96, 9, 1] ++ List.replicate (nrf.UART_SLIP_SIZE_MAX - 2) 0)]
          ).recv_results
        = reply ([96, 9, 1] ++ List.replicate (nrf.UART_SLIP_SIZE_MAX - 2) 0) :: [])
    ∧ (uart_slip_receive nrf
        (start_world 64 [reply ([96, 9, 1] ++ List.replicate (nrf.UART_SLIP_SIZE_MAX - 2) 0)])
        0).2.1 = 129 :=
  ⟨⟨by decide, by decide, by decide, rfl⟩,
    (uart_slip_receive_overflow nrf
      (start_world 64 [reply ([96, 9, 1] ++ List.replicate (nrf.UART_SLIP_SIZE_MAX - 2) 0)])
      9 0 [] (by decide) (by decide) (by decide) rfl).2.2.2.1⟩

/-! ### The manifest -/

theorem pattern_loop_result (p_data : List Nat) :
    ∀ (pat : List jsmn_entity_t) (toks : List jsmntok_t) (obj : Option dfu_json_object_t)
      (i : Int),
      ((map_jsmn_token_to_pattern_loop p_data pat toks obj i).1 = -1
        ∨ (map_jsmn_token_to_pattern_loop p_data pat toks obj i).1
            = i + (pattern_body pat).length)
      ∧ (map_jsmn_token_to_pattern_loop p_data pat toks obj i).2.map
            (fun o => o.img_type) = obj.map (fun o => o.img_type) := by
  intro pat
  induction pat with
  | nil =>
    intro toks obj i
    simp [map_jsmn_token_to_pattern_loop, pattern_body]
  | cons e pat ih =>
    intro toks obj i
    unfold map_jsmn_token_to_pattern_loop
    by_cases hu : e.type = JSMN_UNDEFINED
    · rw [if_pos hu]
      simp [pattern_body, hu]
    rw [if_neg hu]
    have hb : (pattern_body (e :: pat)).length = (pattern_body pat).length + 1 := by
      simp [pattern_body, hu]
    cases toks with
    | nil => simp
    | cons t rest =>
      simp only
      by_cases h1 : e.type ≠ t.type ∨ e.size ≠ t.size
      · rw [if_pos h1]
        simp
      rw [if_neg h1]
      by_cases h2 : e.type = JSMN_STRING
      swap
      · rw [if_neg h2]
        obtain ⟨ha, hb2⟩ := ih rest obj (i + 1)
        refine ⟨?_, hb2⟩
        rcases ha with ha | ha
        · exact Or.inl ha
        · right
          rw [ha, hb]
          push_cast
          ring
      rw [if_pos h2]
      cases hp : put_json_to_string (p_data.drop t.start.toNat) (t.end_ - t.start) with
      | none => simp
      | some p_str =>
        simp only
        by_cases h3 : e.str ≠ none ∧ e.str ≠ some p_str
        · rw [if_pos h3]
          simp
        rw [if_neg h3]
        have key : ∀ obj1 : Option dfu_json_object_t,
            obj1.map (fun o => o.img_type) = obj.map (fun o => o.img_type) →
            ((map_jsmn_token_to_pattern_loop p_data pat rest obj1 (i + 1)).1 = -1
              ∨ (map_jsmn_token_to_pattern_loop p_data pat rest obj1 (i + 1)).1
                  = i + (pattern_body (e :: pat)).length)
            ∧ (map_jsmn_token_to_pattern_loop p_data pat rest obj1 (i + 1)).2.map
                (fun o => o.img_type) = obj.map (fun o => o.img_type) := by
          intro obj1 h1
          obtain ⟨ha, hb2⟩ := ih rest obj1 (i + 1)
          refine ⟨?_, hb2.trans h1⟩
          rcases ha with ha | ha
          · exact Or.inl ha
          · right
            rw [ha, hb]
            push_cast
            ring
        cases hst : e.str_type with
        | STR_UNDEFINED => exact key obj rfl
        | STR_FILE_BIN => exact key _ (by cases obj <;> rfl)
        | STR_FILE_DAT => exact key _ (by cases obj <;> rfl)

theorem pattern_loop_matches (p_data : List Nat) :
    ∀ (pat : List jsmn_entity_t) (toks : List jsmntok_t) (obj : Option dfu_json_object_t)
      (i : Int), (map_jsmn_token_to_pattern_loop p_data pat toks obj i).1 ≠ -1 →
      ∃ ms rest, toks = ms ++ rest
        ∧ List.Forall₂ (entity_matches p_data) (pattern_body pat) ms := by
  intro pat
  induction pat with
  | nil =>
    intro toks obj i _
    exact ⟨[], toks, rfl, by simp [pattern_body]⟩
  | cons e pat ih =>
    intro toks obj i h
    unfold map_jsmn_token_to_pattern_loop at h
    by_cases hu : e.type = JSMN_UNDEFINED
    · exact ⟨[], toks, rfl, by simp [pattern_body, hu]⟩
    rw [if_neg hu] at h
    have hb : pattern_body (e :: pat) = e :: pattern_body pat := by
      simp [pattern_body, hu]
    cases toks with
    | nil => simp at h
    | cons t rest =>
      simp only at h
      by_cases h1 : e.type ≠ t.type ∨ e.size ≠ t.size
      · rw [if_pos h1] at h
        simp at h
      rw [if_neg h1] at h
      have h1a : e.type = t.type := by
        by_contra hne
        exact h1 (Or.inl hne)
      have h1b : e.size = t.size := by
        by_contra hne
        exact h1 (Or.inr hne)
      by_cases h2 : e.type = JSMN_STRING
      swap
      · rw [if_neg h2] at h
        obtain ⟨ms, rest1, hr, hm⟩ := ih rest obj (i + 1) h
        refine ⟨t :: ms, rest1, by rw [hr]; rfl, ?_⟩
        rw [hb]
        exact List.Forall₂.cons ⟨h1a, h1b, fun hs => absurd hs h2⟩ hm
      rw [if_pos h2] at h
      cases hp : put_json_to_string (p_data.drop t.start.toNat) (t.end_ - t.start) with
      | none =>
        rw [hp] at h
        simp at h
      | some p_str =>
        rw [hp] at h
        simp only at h
        by_cases h3 : e.str ≠ none ∧ e.str ≠ some p_str
        · rw [if_pos h3] at h
          simp at h
        rw [if_neg h3] at h
        have hstr : e.str = none ∨ e.str = some p_str := by
          by_contra hne
          push_neg at hne
          exact h3 hne
        obtain ⟨ms, rest1, hr, hm⟩ := ih rest _ (i + 1) h
        refine ⟨t :: ms, rest1, by rw [hr]; rfl, ?_⟩
        rw [hb]
        exact List.Forall₂.cons ⟨h1a, h1b, fun _ => ⟨p_str, hp, hstr⟩⟩ hm

theorem simple_pattern_ok (p_data : List Nat) (key bin dat : List Nat) (e rest : List jsmntok_t)
    (obj : dfu_json_object_t) (h : simple_entry p_data key bin dat e) :
    map_jsmn_token_to_pattern (some obj) (simple_pattern key) (e ++ rest) p_data
      = (6, some { obj with file_bin := some bin, file_dat := some dat }) := by
  obtain ⟨t0, t1, t2, t3, t4, t5, he, h0, h1, h2, h3, h4, h5⟩ := h
  subst he
  unfold is_key token_str at h0 h2 h4
  unfold is_name token_str at h3 h5
  unfold is_object at h1
  obtain ⟨a0, b0, c0⟩ := h0
  obtain ⟨a1, b1⟩ := h1
  obtain ⟨a2, b2, c2⟩ := h2
  obtain ⟨a3, b3, c3⟩ := h3
  obtain ⟨a4, b4, c4⟩ := h4
  obtain ⟨a5, b5, c5⟩ := h5
  simp [map_jsmn_token_to_pattern, map_jsmn_token_to_pattern_loop, simple_pattern,
    a0, b0, c0, a1, b1, a2, b2, c2, a3, b3, c3, a4, b4, c4, a5, b5, c5]

theorem simple_pattern_body (key : List Nat) :
    pattern_body (simple_pattern key)
      = [{ type := JSMN_STRING, size := 1, str := some key, str_type := STR_UNDEFINED },
         { type := JSMN_OBJECT, size := 2, str := none, str_type := STR_UNDEFINED },
         { type := JSMN_STRING, size := 1, str := some str_bin_file, str_type := STR_UNDEFINED },
         { type := JSMN_STRING, size := 0, str := none, str_type := STR_FILE_BIN },
         { type := JSMN_STRING, size := 1, str := some str_dat_file, str_type := STR_UNDEFINED },
         { type := JSMN_STRING, size := 0, str := none, str_type := STR_FILE_DAT }] := by
  simp [pattern_body, simple_pattern]

theorem pattern_fail (p_data : List Nat) (pat : List jsmn_entity_t) (toks : List jsmntok_t)
    (obj : dfu_json_object_t)
    (h : ¬ ∃ ms rest, toks = ms ++ rest
      ∧ List.Forall₂ (entity_matches p_data) (pattern_body pat) ms) :
    map_jsmn_token_to_pattern (some obj) pat toks p_data
      = (-1, some (free_dfu_json_obj obj)) := by
  have h1 : (map_jsmn_token_to_pattern_loop p_data pat toks (some obj) 0).1 = -1 := by
    by_contra hne
    exact h (pattern_loop_matches p_data pat toks (some obj) 0 hne)
  have h2 := (pattern_loop_result p_data pat toks (some obj) 0).2
  unfold map_jsmn_token_to_pattern
  simp only
  rw [if_pos (by rw [h1]; decide), h1]
  cases hr : (map_jsmn_token_to_pattern_loop p_data pat toks (some obj) 0).2 with
  | none =>
    rw [hr] at h2
    simp at h2
  | some o =>
    rw [hr] at h2
    simp only [Option.map_some', Option.some.injEq] at h2
    simp only [Option.map_some', free_dfu_json_obj, h2]

theorem pattern_fail_null (p_data : List Nat) (pat : List jsmn_entity_t) (toks : List jsmntok_t)
    (h : ¬ ∃ ms rest, toks = ms ++ rest
      ∧ List.Forall₂ (entity_matches p_data) (pattern_body pat) ms) :
    (map_jsmn_token_to_pattern none pat toks p_data).1 = -1 := by
  have h1 : (map_jsmn_token_to_pattern_loop p_data pat toks none 0).1 = -1 := by
    by_contra hne
    exact h (pattern_loop_matches p_data pat toks none 0 hne)
  unfold map_jsmn_token_to_pattern
  simp only
  rw [if_pos (by rw [h1]; decide), h1]

theorem simple_pattern_matches (p_data : List Nat) (key : List Nat) (ms : List jsmntok_t)
    (h : List.Forall₂ (entity_matches p_data) (pattern_body (simple_pattern key)) ms) :
    ∃ bin dat, simple_entry p_data key bin dat ms := by
  rw [simple_pattern_body] at h
  simp only [List.forall₂_cons_left_iff, List.forall₂_nil_left_iff] at h
  obtain ⟨t0, u0, h0, h, rfl⟩ := h
  obtain ⟨t1, u1, h1, h, rfl⟩ := h
  obtain ⟨t2, u2, h2, h, rfl⟩ := h
  obtain ⟨t3, u3, h3, h, rfl⟩ := h
  obtain ⟨t4, u4, h4, h, rfl⟩ := h
  obtain ⟨t5, u5, h5, rfl, rfl⟩ := h
  unfold entity_matches at h0 h1 h2 h3 h4 h5
  simp only [true_implies, false_or, true_or, and_true, reduceCtorEq, false_implies,
    Option.some.injEq] at h0 h1 h2 h3 h4 h5
  obtain ⟨a0, b0, s0, c0, d0⟩ := h0
  obtain ⟨a1, b1⟩ := h1
  obtain ⟨a2, b2, s2, c2, d2⟩ := h2
  obtain ⟨a3, b3, s3, c3⟩ := h3
  obtain ⟨a4, b4, s4, c4, d4⟩ := h4
  obtain ⟨a5, b5, s5, c5⟩ := h5
  subst d0 d2 d4
  exact ⟨s3, s5, t0, t1, t2, t3, t4, t5, rfl, ⟨a0.symm, b0.symm, c0⟩, ⟨a1.symm, b1.symm⟩,
    ⟨a2.symm, b2.symm, c2⟩, ⟨a3.symm, b3.symm, c3⟩, ⟨a4.symm, b4.symm, c4⟩,
    ⟨a5.symm, b5.symm, c5⟩⟩

theorem simple_pattern_fail (p_data : List Nat) (key : List Nat) (toks : List jsmntok_t)
    (obj : dfu_json_object_t)
    (h : ¬ ∃ bin dat e rest, toks = e ++ rest ∧ simple_entry p_data key bin dat e) :
    map_jsmn_token_to_pattern (some obj) (simple_pattern key) toks p_data
      = (-1, some (free_dfu_json_obj obj)) := by
  apply pattern_fail
  rintro ⟨ms, rest, hr, hm⟩
  obtain ⟨bin, dat, he⟩ := simple_pattern_matches p_data key ms hm
  exact h ⟨bin, dat, ms, rest, hr, he⟩

theorem sd_bl_pattern_ok (p_data : List Nat) (bin dat : List Nat) (e rest : List jsmntok_t)
    (obj : dfu_json_object_t) (h : sd_bl_entry p_data bin dat e) :
    map_jsmn_token_to_pattern (some obj) dfu_sd_bl_pattern (e ++ rest) p_data
      = (12, some { obj with file_bin := some bin, file_dat := some dat }) := by
  obtain ⟨t0, t1, t2, t3, t4, t5, t6, t7, t8, t9, t10, t11, he, h0, h1, h2, h3, h4, h5, h6, h7,
    h8, h9, h10, h11⟩ := h
  subst he
  unfold is_key token_str at h0 h2 h4 h6 h8 h10
  unfold is_name token_str at h3 h5
  unfold is_object at h1 h7
  unfold is_primitive at h9 h11
  obtain ⟨a0, b0, c0⟩ := h0
  obtain ⟨a1, b1⟩ := h1
  obtain ⟨a2, b2, c2⟩ := h2
  obtain ⟨a3, b3, c3⟩ := h3
  obtain ⟨a4, b4, c4⟩ := h4
  obtain ⟨a5, b5, c5⟩ := h5
  obtain ⟨a6, b6, c6⟩ := h6
  obtain ⟨a7, b7⟩ := h7
  obtain ⟨a8, b8, c8⟩ := h8
  obtain ⟨a9, b9⟩ := h9
  obtain ⟨a10, b10, c10⟩ := h10
  obtain ⟨a11, b11⟩ := h11
  simp [map_jsmn_token_to_pattern, map_jsmn_token_to_pattern_loop, dfu_sd_bl_pattern,
    a0, b0, c0, a1, b1, a2, b2, c2, a3, b3, c3, a4, b4, c4, a5, b5, c5, a6, b6, c6, a7, b7,
    a8, b8, c8, a9, b9, a10, b10, c10, a11, b11]

theorem sd_bl_pattern_matches (p_data : List Nat) (ms : List jsmntok_t)
    (h : List.Forall₂ (entity_matches p_data) (pattern_body dfu_sd_bl_pattern) ms) :
    ∃ bin dat, sd_bl_entry p_data bin dat ms := by
  have hb : pattern_body dfu_sd_bl_pattern = dfu_sd_bl_pattern.take 12 := by
    simp [pattern_body, dfu_sd_bl_pattern]
  rw [hb] at h
  simp only [dfu_sd_bl_pattern, List.take_succ_cons, List.take_zero,
    List.forall₂_cons_left_iff, List.forall₂_nil_left_iff] at h
  obtain ⟨t0, u0, h0, h, rfl⟩ := h
  obtain ⟨t1, u1, h1, h, rfl⟩ := h
  obtain ⟨t2, u2, h2, h, rfl⟩ := h
  obtain ⟨t3, u3, h3, h, rfl⟩ := h
  obtain ⟨t4, u4, h4, h, rfl⟩ := h
  obtain ⟨t5, u5, h5, h, rfl⟩ := h
  obtain ⟨t6, u6, h6, h, rfl⟩ := h
  obtain ⟨t7, u7, h7, h, rfl⟩ := h
  obtain ⟨t8, u8, h8, h, rfl⟩ := h
  obtain ⟨t9, u9, h9, h, rfl⟩ := h
  obtain ⟨t10, u10, h10, h, rfl⟩ := h
  obtain ⟨t11, u11, h11, rfl, rfl⟩ := h
  unfold entity_matches at h0 h1 h2 h3 h4 h5 h6 h7 h8 h9 h10 h11
  simp only [true_implies, false_or, true_or, and_true, reduceCtorEq, false_implies,
    Option.some.injEq] at h0 h1 h2 h3 h4 h5 h6 h7 h8 h9 h10 h11
  obtain ⟨a0, b0, s0, c0, d0⟩ := h0
  obtain ⟨a1, b1⟩ := h1
  obtain ⟨a2, b2, s2, c2, d2⟩ := h2
  obtain ⟨a3, b3, s3, c3⟩ := h3
  obtain ⟨a4, b4, s4, c4, d4⟩ := h4
  obtain ⟨a5, b5, s5, c5⟩ := h5
  obtain ⟨a6, b6, s6, c6, d6⟩ := h6
  obtain ⟨a7, b7⟩ := h7
  obtain ⟨a8, b8, s8, c8, d8⟩ := h8
  obtain ⟨a9, b9⟩ := h9
  obtain ⟨a10, b10, s10, c10, d10⟩ := h10
  obtain ⟨a11, b11⟩ := h11
  subst d0 d2 d4 d6 d8 d10
  exact ⟨s3, s5, t0, t1, t2, t3, t4, t5, t6, t7, t8, t9, t10, t11, rfl,
    ⟨a0.symm, b0.symm, c0⟩, ⟨a1.symm, b1.symm⟩,
    ⟨a2.symm, b2.symm, c2⟩, ⟨a3.symm, b3.symm, c3⟩, ⟨a4.symm, b4.symm, c4⟩,
    ⟨a5.symm, b5.symm, c5⟩, ⟨a6.symm, b6.symm, c6⟩, ⟨a7.symm, b7.symm⟩,
    ⟨a8.symm, b8.symm, c8⟩, ⟨a9.symm, b9.symm⟩, ⟨a10.symm, b10.symm, c10⟩,
    ⟨a11.symm, b11.symm⟩⟩

theorem sd_bl_pattern_fail (p_data : List Nat) (toks : List jsmntok_t)
    (obj : dfu_json_object_t)
    (h : ¬ ∃ bin dat e rest, toks = e ++ rest ∧ sd_bl_entry p_data bin dat e) :
    map_jsmn_token_to_pattern (some obj) dfu_sd_bl_pattern toks p_data
      = (-1, some (free_dfu_json_obj obj)) := by
  apply pattern_fail
  rintro ⟨ms, rest, hr, hm⟩
  obtain ⟨bin, dat, he⟩ := sd_bl_pattern_matches p_data ms hm
  exact h ⟨bin, dat, ms, rest, hr, he⟩

theorem simple_entry_head (p_data : List Nat) (key bin dat : List Nat) (e : List jsmntok_t)
    (h : simple_entry p_data key bin dat e) :
    e.length = 6 ∧ ∃ t tl, e = t :: tl ∧ token_str p_data t = some key := by
  obtain ⟨t0, t1, t2, t3, t4, t5, he, h0, -⟩ := h
  subst he
  exact ⟨rfl, t0, _, rfl, h0.2.2⟩

theorem sd_bl_entry_head (p_data : List Nat) (bin dat : List Nat) (e : List jsmntok_t)
    (h : sd_bl_entry p_data bin dat e) :
    e.length = 12
      ∧ ∃ t tl, e = t :: tl ∧ token_str p_data t = some str_softdevice_bootloader := by
  obtain ⟨t0, t1, t2, t3, t4, t5, t6, t7, t8, t9, t10, t11, he, h0, -⟩ := h
  subst he
  exact ⟨rfl, t0, _, rfl, h0.2.2⟩

/-- The key of an image entry: the text of its first token. -/
theorem entry_key_unique (p_data : List Nat) (k1 k2 : List Nat) (e1 e2 r1 r2 : List jsmntok_t)
    (h1 : ∃ t tl, e1 = t :: tl ∧ token_str p_data t = some k1)
    (h2 : ∃ t tl, e2 = t :: tl ∧ token_str p_data t = some k2)
    (h : e1 ++ r1 = e2 ++ r2) : k1 = k2 := by
  obtain ⟨t1, tl1, rfl, hk1⟩ := h1
  obtain ⟨t2, tl2, rfl, hk2⟩ := h2
  simp only [List.cons_append, List.cons.injEq] at h
  rw [h.1, hk2] at hk1
  exact (Option.some.inj hk1).symm

theorem simple_entry_other (p_data : List Nat) (k1 k2 b1 d1 : List Nat)
    (e1 r1 : List jsmntok_t) (hk : k1 ≠ k2) (h1 : simple_entry p_data k1 b1 d1 e1) :
    ¬ ∃ bin dat e rest, e1 ++ r1 = e ++ rest ∧ simple_entry p_data k2 bin dat e := by
  rintro ⟨bin, dat, e, rest, he, h2⟩
  exact hk (entry_key_unique p_data k1 k2 e1 e r1 rest
    (simple_entry_head p_data k1 b1 d1 e1 h1).2 (simple_entry_head p_data k2 bin dat e h2).2 he)

theorem simple_entry_not_sd_bl (p_data : List Nat) (k1 b1 d1 : List Nat)
    (e1 r1 : List jsmntok_t) (hk : k1 ≠ str_softdevice_bootloader)
    (h1 : simple_entry p_data k1 b1 d1 e1) :
    ¬ ∃ bin dat e rest, e1 ++ r1 = e ++ rest ∧ sd_bl_entry p_data bin dat e := by
  rintro ⟨bin, dat, e, rest, he, h2⟩
  exact hk (entry_key_unique p_data k1 _ e1 e r1 rest
    (simple_entry_head p_data k1 b1 d1 e1 h1).2 (sd_bl_entry_head p_data bin dat e h2).2 he)

theorem sd_bl_entry_not_simple (p_data : List Nat) (k2 b1 d1 : List Nat)
    (e1 r1 : List jsmntok_t) (hk : str_softdevice_bootloader ≠ k2)
    (h1 : sd_bl_entry p_data b1 d1 e1) :
    ¬ ∃ bin dat e rest, e1 ++ r1 = e ++ rest ∧ simple_entry p_data k2 bin dat e := by
  rintro ⟨bin, dat, e, rest, he, h2⟩
  exact hk (entry_key_unique p_data _ k2 e1 e r1 rest
    (sd_bl_entry_head p_data b1 d1 e1 h1).2 (simple_entry_head p_data k2 bin dat e h2).2 he)

theorem image_entry_length (p_data : List Nat) (o : dfu_json_object_t) (e : List jsmntok_t)
    (h : image_entry p_data o e) : 6 ≤ e.length := by
  obtain ⟨bin, dat, -, -, h | h | h | h⟩ := h
  · rw [(simple_entry_head _ _ _ _ _ h.2).1]
  · rw [(simple_entry_head _ _ _ _ _ h.2).1]
  · rw [(simple_entry_head _ _ _ _ _ h.2).1]
  · rw [(sd_bl_entry_head _ _ _ _ h.2).1]
    decide

theorem dfu_pattern_tbl_eq :
    dfu_pattern_tbl
      = [(DFU_IMG_APP, simple_pattern str_application),
         (DFU_IMG_BL, simple_pattern str_bootloader),
         (DFU_IMG_SD, simple_pattern str_softdevice),
         (DFU_IMG_SD_BL, dfu_sd_bl_pattern),
         (DFU_IMG_NIL, [])] := rfl

theorem send_package_type_next (p_data : List Nat) (toks : List jsmntok_t) (img_type : Nat)
    (pat : List jsmn_entity_t) (tbl : List (Nat × List jsmn_entity_t))
    (obj obj1 : dfu_json_object_t) (i : Int) (hn : img_type ≠ DFU_IMG_NIL)
    (h : map_jsmn_token_to_pattern (some obj) pat toks p_data = (-1, some obj1)) :
    dfu_send_package_type p_data toks ((img_type, pat) :: tbl) obj i
      = dfu_send_package_type p_data toks tbl obj1 (-1) := by
  conv_lhs => unfold dfu_send_package_type
  rw [if_neg hn]
  simp only
  rw [h]
  simp only [Option.getD_some]
  rw [if_neg (by decide)]

theorem send_package_type_found (p_data : List Nat) (toks : List jsmntok_t) (img_type : Nat)
    (pat : List jsmn_entity_t) (tbl : List (Nat × List jsmn_entity_t))
    (obj obj1 : dfu_json_object_t) (i n : Int) (hn : img_type ≠ DFU_IMG_NIL) (hpos : 0 < n)
    (h : map_jsmn_token_to_pattern (some obj) pat toks p_data = (n, some obj1)) :
    dfu_send_package_type p_data toks ((img_type, pat) :: tbl) obj i
      = (n, { obj1 with img_type := img_type }) := by
  conv_lhs => unfold dfu_send_package_type
  rw [if_neg hn]
  simp only
  rw [h]
  simp only [Option.getD_some]
  rw [if_pos hpos]

theorem send_package_type_end (p_data : List Nat) (toks : List jsmntok_t)
    (pat : List jsmn_entity_t) (tbl : List (Nat × List jsmn_entity_t))
    (obj : dfu_json_object_t) (i : Int) :
    dfu_send_package_type p_data toks ((DFU_IMG_NIL, pat) :: tbl) obj i = (i, obj) := by
  unfold dfu_send_package_type
  rw [if_pos rfl]

theorem free_free (obj : dfu_json_object_t) :
    free_dfu_json_obj (free_dfu_json_obj obj) = free_dfu_json_obj obj := rfl

/-- The loop over the pattern table on the tokens of an image entry: the result
is the number of tokens of the entry and the object of the entry. -/
theorem send_package_type_ok (p_data : List Nat) (o obj : dfu_json_object_t)
    (e rest : List jsmntok_t) (i : Int) (h : image_entry p_data o e) :
    dfu_send_package_type p_data (e ++ rest) dfu_pattern_tbl obj i = ((e.length : Int), o) := by
  obtain ⟨bin, dat, hb, hd, h⟩ := h
  obtain ⟨ot, ob, od⟩ := o
  simp only at hb hd h
  subst hb hd
  rw [dfu_pattern_tbl_eq]
  have f1 : ¬ (∃ b d e1 r1, e ++ rest = e1 ++ r1 ∧ simple_entry p_data str_application b d e1) →
      map_jsmn_token_to_pattern (some obj) (simple_pattern str_application) (e ++ rest) p_data
        = (-1, some (free_dfu_json_obj obj)) :=
    simple_pattern_fail p_data str_application (e ++ rest) obj
  have f2 : ¬ (∃ b d e1 r1, e ++ rest = e1 ++ r1 ∧ simple_entry p_data str_bootloader b d e1) →
      map_jsmn_token_to_pattern (some (free_dfu_json_obj obj)) (simple_pattern str_bootloader)
        (e ++ rest) p_data = (-1, some (free_dfu_json_obj obj)) :=
    simple_pattern_fail p_data str_bootloader (e ++ rest) (free_dfu_json_obj obj)
  have f3 : ¬ (∃ b d e1 r1, e ++ rest = e1 ++ r1 ∧ simple_entry p_data str_softdevice b d e1) →
      map_jsmn_token_to_pattern (some (free_dfu_json_obj obj)) (simple_pattern str_softdevice)
        (e ++ rest) p_data = (-1, some (free_dfu_json_obj obj)) :=
    simple_pattern_fail p_data str_softdevice (e ++ rest) (free_dfu_json_obj obj)
  rcases h with ⟨hk, h⟩ | ⟨hk, h⟩ | ⟨hk, h⟩ | ⟨hk, h⟩
  · subst hk
    rw [(simple_entry_head _ _ _ _ _ h).1]
    rw [send_package_type_found p_data _ _ _ _ _ _ _ 6 (by decide) (by decide)
      (simple_pattern_ok p_data _ bin dat e rest _ h)]
    rfl
  · subst hk
    rw [(simple_entry_head _ _ _ _ _ h).1]
    rw [send_package_type_next p_data _ _ _ _ _ _ _ (by decide)
      (f1 (simple_entry_other p_data _ _ bin dat e rest (by decide) h))]
    rw [send_package_type_found p_data _ _ _ _ _ _ _ 6 (by decide) (by decide)
      (simple_pattern_ok p_data _ bin dat e rest _ h)]
    rfl
  · subst hk
    rw [(simple_entry_head _ _ _ _ _ h).1]
    rw [send_package_type_next p_data _ _ _ _ _ _ _ (by decide)
      (f1 (simple_entry_other p_data _ _ bin dat e rest (by decide) h))]
    rw [send_package_type_next p_data _ _ _ _ _ _ _ (by decide)
      (f2 (simple_entry_other p_data _ _ bin dat e rest (by decide) h))]
    rw [send_package_type_found p_data _ _ _ _ _ _ _ 6 (by decide) (by decide)
      (simple_pattern_ok p_data _ bin dat e rest _ h)]
    rfl
  · subst hk
    rw [(sd_bl_entry_head _ _ _ _ h).1]
    rw [send_package_type_next p_data _ _ _ _ _ _ _ (by decide)
      (f1 (sd_bl_entry_not_simple p_data _ bin dat e rest (by decide) h))]
    rw [send_package_type_next p_data _ _ _ _ _ _ _ (by decide)
      (f2 (sd_bl_entry_not_simple p_data _ bin dat e rest (by decide) h))]
    rw [send_package_type_next p_data _ _ _ _ _ _ _ (by decide)
      (f3 (sd_bl_entry_not_simple p_data _ bin dat e rest (by decide) h))]
    rw [send_package_type_found p_data _ _ _ _ _ _ _ 12 (by decide) (by decide)
      (sd_bl_pattern_ok p_data bin dat e rest _ h)]
    rfl

/-- The loop over the pattern table on tokens that do not start with an image
entry: every pattern gives -1 and the object is left without file names. -/
theorem send_package_type_fail (p_data : List Nat) (obj : dfu_json_object_t)
    (toks : List jsmntok_t) (i : Int)
    (h : ¬ ∃ o e rest, toks = e ++ rest ∧ image_entry p_data o e) :
    dfu_send_package_type p_data toks dfu_pattern_tbl obj i
      = (-1, free_dfu_json_obj obj) := by
  have g1 : ∀ k kind, (kind = DFU_IMG_APP ∧ k = str_application)
      ∨ (kind = DFU_IMG_BL ∧ k = str_bootloader) ∨ (kind = DFU_IMG_SD ∧ k = str_softdevice) →
      ¬ ∃ bin dat e rest, toks = e ++ rest ∧ simple_entry p_data k bin dat e := by
    rintro k kind hk ⟨bin, dat, e, rest, he, hs⟩
    refine h ⟨{ img_type := kind, file_bin := some bin, file_dat := some dat }, e, rest, he,
      bin, dat, rfl, rfl, ?_⟩
    rcases hk with ⟨h1, h2⟩ | ⟨h1, h2⟩ | ⟨h1, h2⟩
    · subst h1 h2
      exact Or.inl ⟨rfl, hs⟩
    · subst h1 h2
      exact Or.inr (Or.inl ⟨rfl, hs⟩)
    · subst h1 h2
      exact Or.inr (Or.inr (Or.inl ⟨rfl, hs⟩))
  have g2 : ¬ ∃ bin dat e rest, toks = e ++ rest ∧ sd_bl_entry p_data bin dat e := by
    rintro ⟨bin, dat, e, rest, he, hs⟩
    exact h ⟨{ img_type := DFU_IMG_SD_BL, file_bin := some bin, file_dat := some dat }, e, rest,
      he, bin, dat, rfl, rfl, Or.inr (Or.inr (Or.inr ⟨rfl, hs⟩))⟩
  rw [dfu_pattern_tbl_eq]
  rw [send_package_type_next p_data _ _ _ _ _ _ _ (by decide)
    (simple_pattern_fail p_data str_application toks obj
      (g1 _ DFU_IMG_APP (Or.inl ⟨rfl, rfl⟩)))]
  rw [send_package_type_next p_data _ _ _ _ _ _ _ (by decide)
    (simple_pattern_fail p_data str_bootloader toks _
      (g1 _ DFU_IMG_BL (Or.inr (Or.inl ⟨rfl, rfl⟩))))]
  rw [send_package_type_next p_data _ _ _ _ _ _ _ (by decide)
    (simple_pattern_fail p_data str_softdevice toks _
      (g1 _ DFU_IMG_SD (Or.inr (Or.inr ⟨rfl, rfl⟩))))]
  rw [send_package_type_next p_data _ _ _ _ _ _ _ (by decide)
    (sd_bl_pattern_fail p_data toks _ g2)]
  rw [send_package_type_end]
  rfl

theorem mft_pattern_value (p_data : List Nat) (toks : List jsmntok_t) :
    ((∃ t0 t1 rest, toks = t0 :: t1 :: rest ∧ is_object 1 t0 ∧ is_key p_data str_manifest t1)
      ∧ (map_jsmn_token_to_pattern none dfu_mft_pattern toks p_data).1 = 2)
    ∨ ((¬ ∃ t0 t1 rest, toks = t0 :: t1 :: rest ∧ is_object 1 t0
          ∧ is_key p_data str_manifest t1)
      ∧ (map_jsmn_token_to_pattern none dfu_mft_pattern toks p_data).1 = -1) := by
  by_cases h : ∃ t0 t1 rest, toks = t0 :: t1 :: rest ∧ is_object 1 t0
      ∧ is_key p_data str_manifest t1
  · left
    refine ⟨h, ?_⟩
    obtain ⟨t0, t1, rest, rfl, ⟨a0, b0⟩, ⟨a1, b1, c1⟩⟩ := h
    unfold token_str at c1
    simp [map_jsmn_token_to_pattern, map_jsmn_token_to_pattern_loop, dfu_mft_pattern,
      a0, b0, a1, b1, c1]
  · right
    refine ⟨h, ?_⟩
    apply pattern_fail_null
    rintro ⟨ms, rest, hr, hm⟩
    have hb : pattern_body dfu_mft_pattern = dfu_mft_pattern.take 2 := by
      simp [pattern_body, dfu_mft_pattern]
    rw [hb] at hm
    simp only [dfu_mft_pattern, List.take_succ_cons, List.take_zero,
      List.forall₂_cons_left_iff, List.forall₂_nil_left_iff] at hm
    obtain ⟨t0, u0, h0, hm, rfl⟩ := hm
    obtain ⟨t1, u1, h1, rfl, rfl⟩ := hm
    unfold entity_matches at h0 h1
    simp only [true_implies, false_or, true_or, and_true, reduceCtorEq, false_implies,
      Option.some.injEq] at h0 h1
    obtain ⟨a0, b0⟩ := h0
    obtain ⟨a1, b1, s1, c1, d1⟩ := h1
    subst d1
    exact h ⟨t0, t1, rest, hr, ⟨a0.symm, b0.symm⟩, ⟨a1.symm, b1.symm, c1⟩⟩

theorem img_pattern_value (p_data : List Nat) (toks : List jsmntok_t) (k : Int) :
    ((∃ t rest, toks = t :: rest ∧ is_object k t)
      ∧ (map_jsmn_token_to_pattern none
          [{ type := JSMN_OBJECT, size := k, str := none, str_type := STR_UNDEFINED },
           { type := JSMN_UNDEFINED, size := 0, str := none, str_type := STR_UNDEFINED }]
          toks p_data).1 = 1)
    ∨ ((¬ ∃ t rest, toks = t :: rest ∧ is_object k t)
      ∧ (map_jsmn_token_to_pattern none
          [{ type := JSMN_OBJECT, size := k, str := none, str_type := STR_UNDEFINED },
           { type := JSMN_UNDEFINED, size := 0, str := none, str_type := STR_UNDEFINED }]
          toks p_data).1 = -1) := by
  by_cases h : ∃ t rest, toks = t :: rest ∧ is_object k t
  · left
    refine ⟨h, ?_⟩
    obtain ⟨t, rest, rfl, ⟨a0, b0⟩⟩ := h
    simp [map_jsmn_token_to_pattern, map_jsmn_token_to_pattern_loop, a0, b0]
  · right
    refine ⟨h, ?_⟩
    apply pattern_fail_null
    rintro ⟨ms, rest, hr, hm⟩
    simp only [pattern_body, List.takeWhile, ne_eq, reduceCtorEq, not_false_eq_true,
      decide_True, not_true_eq_false, decide_False,
      List.forall₂_cons_left_iff, List.forall₂_nil_left_iff] at hm
    obtain ⟨t0, u0, h0, rfl, rfl⟩ := hm
    unfold entity_matches at h0
    simp only [true_implies, false_or, true_or, and_true, reduceCtorEq, false_implies,
      Option.some.injEq] at h0
    obtain ⟨a0, b0⟩ := h0
    exact h ⟨t0, rest, hr, ⟨a0.symm, b0.symm⟩⟩

theorem take_set_succ (objs : List dfu_json_object_t) (o : dfu_json_object_t) (k : Nat)
    (hk : k < objs.length) : (objs.set k o).take (k + 1) = objs.take k ++ [o] := by
  induction objs generalizing k with
  | nil => simp at hk
  | cons x xs ih =>
    cases k with
    | zero => simp
    | succ k =>
      simp only [List.length_cons, Nat.add_lt_add_iff_right] at hk
      simp only [List.set_cons_succ, List.take_succ_cons, List.cons_append, List.cons.injEq,
        true_and]
      exact ih k hk

theorem send_package_entries_total (buf_json : List Nat) (json_tokens : List jsmntok_t) :
    ∀ (fuel : Nat) (objs : List dfu_json_object_t) (i n : Int) (img_n : Nat),
      DFU_OBJECT_NUM_MAX - img_n ≤ fuel →
      ∃ w, dfu_send_package_entries buf_json json_tokens fuel objs i n img_n = some w := by
  intro fuel
  induction fuel with
  | zero =>
    intro objs i n img_n hf
    unfold dfu_send_package_entries
    by_cases h1 : n < (json_tokens.length : Int)
    · rw [if_pos h1, if_pos (by omega)]
      exact ⟨_, rfl⟩
    · rw [if_neg h1]
      exact ⟨_, rfl⟩
  | succ fuel ih =>
    intro objs i n img_n hf
    unfold dfu_send_package_entries
    by_cases h1 : n < (json_tokens.length : Int)
    swap
    · rw [if_neg h1]
      exact ⟨_, rfl⟩
    rw [if_pos h1]
    by_cases h2 : img_n ≥ DFU_OBJECT_NUM_MAX
    · rw [if_pos h2]
      exact ⟨_, rfl⟩
    rw [if_neg h2]
    simp only
    split_ifs
    · exact ⟨_, rfl⟩
    · exact ih _ _ _ _ (by omega)

/-- The `while` loop of `dfu_send_package` on tokens that are image entries:
every entry is stored and the loop ends without error at the last token. -/
theorem send_package_entries_ok (buf_json : List Nat) (json_tokens : List jsmntok_t)
    (new_objs : List dfu_json_object_t) (entries : List (List jsmntok_t))
    (h : List.Forall₂ (image_entry buf_json) new_objs entries) :
    ∀ (fuel : Nat) (objs : List dfu_json_object_t) (i : Int) (n img_n : Nat),
      json_tokens.drop n = entries.flatten → n ≤ json_tokens.length →
      img_n + new_objs.length ≤ DFU_OBJECT_NUM_MAX → new_objs.length ≤ fuel →
      objs.length = DFU_OBJECT_NUM_MAX →
      ∃ objs1, dfu_send_package_entries buf_json json_tokens fuel objs i n img_n
          = some (0, objs1, (json_tokens.length : Int), img_n + new_objs.length)
        ∧ objs1.take (img_n + new_objs.length) = objs.take img_n ++ new_objs := by
  induction h with
  | nil =>
    intro fuel objs i n img_n hd hn _ _ _
    have hlen : json_tokens.length ≤ n := by
      simpa using hd
    have hn2 : n = json_tokens.length := by omega
    unfold dfu_send_package_entries
    rw [if_neg (by omega)]
    refine ⟨objs, ?_, by simp⟩
    rw [hn2]
    rfl
  | @cons o e os es he _ ih =>
    intro fuel objs i n img_n hd hn himg hfuel hobjs
    have h6 := image_entry_length buf_json o e he
    simp only [List.length_cons] at himg hfuel
    have hlt : n < json_tokens.length := by
      by_contra hge
      have : json_tokens.drop n = [] := List.drop_eq_nil_of_le (by omega)
      rw [this, List.flatten_cons] at hd
      have := congrArg List.length hd
      simp only [List.length_nil, List.length_append] at this
      omega
    obtain ⟨fuel1, rfl⟩ : ∃ f, fuel = f + 1 := ⟨fuel - 1, by omega⟩
    unfold dfu_send_package_entries
    rw [if_pos (by exact_mod_cast hlt), if_neg (by omega)]
    simp only [Int.toNat_ofNat]
    rw [hd, List.flatten_cons, send_package_type_ok buf_json o _ e es.flatten i he]
    simp only
    rw [if_neg (by omega)]
    have hd2 : json_tokens.drop (n + e.length) = es.flatten := by
      rw [← List.drop_drop, hd, List.flatten_cons, List.drop_left]
    have hn3 : n + e.length ≤ json_tokens.length := by
      have := congrArg List.length hd
      simp only [List.length_drop, List.flatten_cons, List.length_append] at this
      omega
    obtain ⟨objs1, hr, ht⟩ := ih fuel1 (objs.set img_n o) (e.length : Int) (n + e.length)
      (img_n + 1) hd2 hn3 (by omega) (by omega) (by rw [List.length_set]; exact hobjs)
    refine ⟨objs1, ?_, ?_⟩
    · have hc : ((n : Int) + (e.length : Int)) = ((n + e.length : Nat) : Int) := by push_cast; rfl
      rw [hc, hr]
      simp only [Option.some.injEq, Prod.mk.injEq, true_and, List.length_cons]
      omega
    · have e1 : img_n + (os.length + 1) = img_n + 1 + os.length := by omega
      rw [List.length_cons, e1, ht, take_set_succ objs o img_n (by omega)]
      simp

/-- The `while` loop of `dfu_send_package` ends without error only if the
tokens from `n` on are image entries, which it has stored then. -/
theorem send_package_entries_sound (buf_json : List Nat) (json_tokens : List jsmntok_t) :
    ∀ (fuel : Nat) (objs : List dfu_json_object_t) (i : Int) (n img_n : Nat)
      (w : Int × List dfu_json_object_t × Int × Nat),
      n ≤ json_tokens.length → objs.length = DFU_OBJECT_NUM_MAX →
      dfu_send_package_entries buf_json json_tokens fuel objs i n img_n = some w → w.1 = 0 →
      ∃ new_objs entries, List.Forall₂ (image_entry buf_json) new_objs entries
        ∧ json_tokens.drop n = entries.flatten
        ∧ w.2.2.1 = (json_tokens.length : Int)
        ∧ w.2.2.2 = img_n + new_objs.length
        ∧ w.2.1.take (img_n + new_objs.length) = objs.take img_n ++ new_objs := by
  intro fuel
  induction fuel with
  | zero =>
    intro objs i n img_n w hn hobjs h hw
    unfold dfu_send_package_entries at h
    by_cases h1 : (n : Int) < (json_tokens.length : Int)
    · rw [if_pos h1] at h
      by_cases h2 : img_n ≥ DFU_OBJECT_NUM_MAX
      · rw [if_pos h2] at h
        simp only [Option.some.injEq] at h
        subst h
        simp at hw
      · rw [if_neg h2] at h
        simp at h
    · rw [if_neg h1] at h
      simp only [Option.some.injEq] at h
      subst h
      have hn2 : n = json_tokens.length := by omega
      refine ⟨[], [], List.Forall₂.nil, ?_, ?_, rfl, by simp⟩
      · rw [hn2]
        simp
      · simp only
        rw [hn2]
  | succ fuel ih =>
    intro objs i n img_n w hn hobjs h hw
    unfold dfu_send_package_entries at h
    by_cases h1 : (n : Int) < (json_tokens.length : Int)
    swap
    · rw [if_neg h1] at h
      simp only [Option.some.injEq] at h
      subst h
      have hn2 : n = json_tokens.length := by omega
      refine ⟨[], [], List.Forall₂.nil, ?_, ?_, rfl, by simp⟩
      · rw [hn2]
        simp
      · simp only
        rw [hn2]
    rw [if_pos h1] at h
    by_cases h2 : img_n ≥ DFU_OBJECT_NUM_MAX
    · rw [if_pos h2] at h
      simp only [Option.some.injEq] at h
      subst h
      simp at hw
    rw [if_neg h2] at h
    simp only [Int.toNat_ofNat] at h
    by_cases hm : ∃ o e rest, json_tokens.drop n = e ++ rest ∧ image_entry buf_json o e
    swap
    · rw [send_package_type_fail buf_json _ _ i hm] at h
      simp only at h
      rw [if_pos (by decide)] at h
      simp only [Option.some.injEq] at h
      subst h
      simp at hw
    obtain ⟨o, e, rest, hd, he⟩ := hm
    have h6 := image_entry_length buf_json o e he
    rw [hd, send_package_type_ok buf_json o _ e rest i he] at h
    simp only at h
    rw [if_neg (by omega)] at h
    have hd2 : json_tokens.drop (n + e.length) = rest := by
      rw [← List.drop_drop, hd, List.drop_left]
    have hn3 : n + e.length ≤ json_tokens.length := by
      have := congrArg List.length hd
      simp only [List.length_drop, List.length_append] at this
      omega
    have hc : ((n : Int) + (e.length : Int)) = ((n + e.length : Nat) : Int) := by push_cast; rfl
    rw [hc] at h
    obtain ⟨os, es, hf, hdr, hwn, hwi, hwt⟩ := ih (objs.set img_n o) (e.length : Int)
      (n + e.length) (img_n + 1) w hn3 (by rw [List.length_set]; exact hobjs) h hw
    refine ⟨o :: os, e :: es, List.Forall₂.cons he hf, ?_, hwn, ?_, ?_⟩
    · rw [hd, List.flatten_cons, ← hdr, hd2]
    · rw [hwi, List.length_cons]
      omega
    · have e1 : img_n + (os.length + 1) = img_n + 1 + os.length := by omega
      have h3 : img_n < DFU_OBJECT_NUM_MAX := by omega
      rw [List.length_cons, e1, hwt, take_set_succ objs o img_n (by omega)]
      simp

theorem send_package_manifest_head (buf_json : List Nat) (toks : List jsmntok_t)
    (h : ¬ ∃ t0 t1 t2 rest, toks = t0 :: t1 :: t2 :: rest ∧ is_object 1 t0
      ∧ is_key buf_json str_manifest t1 ∧ (is_object 1 t2 ∨ is_object 2 t2)) :
    ∃ objs k, dfu_send_package_manifest buf_json toks = some (1, objs, k) := by
  unfold dfu_send_package_manifest
  simp only
  rcases mft_pattern_value buf_json toks with ⟨hm, hv⟩ | ⟨-, hv⟩
  swap
  · rw [hv]
    simp
  obtain ⟨t0, t1, rest, rfl, h0, h1⟩ := hm
  rw [hv]
  have hd : (t0 :: t1 :: rest).drop (2 : Int).toNat = rest := rfl
  rw [hd]
  have h1n : ¬ ∃ t r, rest = t :: r ∧ is_object 1 t := by
    rintro ⟨t, r, rfl, ht⟩
    exact h ⟨t0, t1, t, r, rfl, h0, h1, Or.inl ht⟩
  have h2n : ¬ ∃ t r, rest = t :: r ∧ is_object 2 t := by
    rintro ⟨t, r, rfl, ht⟩
    exact h ⟨t0, t1, t, r, rfl, h0, h1, Or.inr ht⟩
  rcases img_pattern_value buf_json rest 1 with ⟨h1p, -⟩ | ⟨-, hv1⟩
  · exact absurd h1p h1n
  rcases img_pattern_value buf_json rest 2 with ⟨h2p, -⟩ | ⟨-, hv2⟩
  · exact absurd h2p h2n
  unfold dfu_img_1_pattern dfu_img_2_pattern
  rw [hv1, hv2]
  simp

theorem send_package_manifest_body (buf_json : List Nat) (t0 t1 t2 : jsmntok_t)
    (rest : List jsmntok_t) (k : Nat) (h0 : is_object 1 t0)
    (h1 : is_key buf_json str_manifest t1) (h2 : is_object k t2) (hk : k = 1 ∨ k = 2) :
    dfu_send_package_manifest buf_json (t0 :: t1 :: t2 :: rest)
      = (dfu_send_package_entries buf_json (t0 :: t1 :: t2 :: rest) DFU_OBJECT_NUM_MAX
          (List.replicate DFU_OBJECT_NUM_MAX
            { img_type := DFU_IMG_NIL, file_bin := none, file_dat := none }) 1 3 0).map
        (fun w =>
          (if w.1 = 0 ∧ (w.2.2.1 ≠ ((t0 :: t1 :: t2 :: rest).length : Int) ∨ w.2.2.2 ≠ k)
            then 1 else w.1, w.2.1, k)) := by
  unfold dfu_send_package_manifest
  simp only
  rcases mft_pattern_value buf_json (t0 :: t1 :: t2 :: rest) with ⟨-, hv⟩ | ⟨hm, -⟩
  swap
  · exact absurd ⟨t0, t1, t2 :: rest, rfl, h0, h1⟩ hm
  rw [hv]
  have hd : (t0 :: t1 :: t2 :: rest).drop (2 : Int).toNat = t2 :: rest := rfl
  rw [hd]
  unfold dfu_img_1_pattern dfu_img_2_pattern
  rcases hk with hk | hk
  · subst hk
    rcases img_pattern_value buf_json (t2 :: rest) 1 with ⟨-, hv1⟩ | ⟨h1n, -⟩
    swap
    · exact absurd ⟨t2, rest, rfl, h2⟩ h1n
    rw [hv1]
    simp
    generalize dfu_send_package_entries buf_json (t0 :: t1 :: t2 :: rest) DFU_OBJECT_NUM_MAX
      (List.replicate DFU_OBJECT_NUM_MAX
        { img_type := DFU_IMG_NIL, file_bin := none, file_dat := none }) 1 3 0 = x
    cases x with
    | none => rfl
    | some w =>
      simp only [Option.map_some']
      split_ifs <;> rfl
  · subst hk
    rcases img_pattern_value buf_json (t2 :: rest) 1 with ⟨⟨t, r, hr, ht⟩, -⟩ | ⟨-, hv1⟩
    · simp only [List.cons.injEq] at hr
      rw [← hr.1] at ht
      have := h2.2.symm.trans ht.2
      simp at this
    rcases img_pattern_value buf_json (t2 :: rest) 2 with ⟨-, hv2⟩ | ⟨h2n, -⟩
    swap
    · exact absurd ⟨t2, rest, rfl, h2⟩ h2n
    rw [hv1, hv2]
    simp
    generalize dfu_send_package_entries buf_json (t0 :: t1 :: t2 :: rest) DFU_OBJECT_NUM_MAX
      (List.replicate DFU_OBJECT_NUM_MAX
        { img_type := DFU_IMG_NIL, file_bin := none, file_dat := none }) 1 3 0 = x
    cases x with
    | none => rfl
    | some w =>
      simp only [Option.map_some']
      split_ifs <;> rfl

/-- C32: the part of `dfu_send_package` that checks the manifest always returns,
and it accepts the tokens (leaves `err_code` at 0) if and only if they are an
object of size 1, the key `"manifest"`, an object of size `k` with `k` 1 or 2,
and then exactly `k` image entries, each matching one of the four patterns, and
no further token. On acceptance `num_images` is `k` and the `j`-th stored object
has the kind of the pattern of the `j`-th entry and, as `file_bin` and
`file_dat`, the strings that follow `"bin_file"` and `"dat_file"`. -/
theorem manifest_accepted_iff (buf_json : List Nat) (json_tokens : List jsmntok_t) :
    ∃ r, dfu_send_package_manifest buf_json json_tokens = some r
      ∧ (r.1 = 0 ↔ ∃ objs, manifest_tokens buf_json json_tokens objs)
      ∧ ∀ objs, manifest_tokens buf_json json_tokens objs →
          r.2.2 = objs.length ∧ r.2.1.take objs.length = objs := by
  by_cases hs : ∃ t0 t1 t2 rest, json_tokens = t0 :: t1 :: t2 :: rest ∧ is_object 1 t0
      ∧ is_key buf_json str_manifest t1 ∧ (is_object 1 t2 ∨ is_object 2 t2)
  swap
  · obtain ⟨objs0, k0, hr⟩ := send_package_manifest_head buf_json json_tokens hs
    have hno : ∀ objs, ¬ manifest_tokens buf_json json_tokens objs := by
      rintro objs ⟨t0, t1, t2, entries, ht, h0, h1, h2, hk, -⟩
      refine hs ⟨t0, t1, t2, entries.flatten, ht, h0, h1, ?_⟩
      rcases hk with hk | hk
      · rw [hk] at h2
        exact Or.inl h2
      · rw [hk] at h2
        exact Or.inr h2
    refine ⟨_, hr, ⟨fun h => by simp at h, fun ⟨objs, h⟩ => absurd h (hno objs)⟩,
      fun objs h => absurd h (hno objs)⟩
  obtain ⟨t0, t1, t2, rest, rfl, h0, h1, h2⟩ := hs
  obtain ⟨k, hk, h2k⟩ : ∃ k : Nat, (k = 1 ∨ k = 2) ∧ is_object k t2 := by
    rcases h2 with h2 | h2
    · exact ⟨1, Or.inl rfl, h2⟩
    · exact ⟨2, Or.inr rfl, h2⟩
  have hbody := send_package_manifest_body buf_json t0 t1 t2 rest k h0 h1 h2k hk
  obtain ⟨w, hw⟩ := send_package_entries_total buf_json (t0 :: t1 :: t2 :: rest)
    DFU_OBJECT_NUM_MAX (List.replicate DFU_OBJECT_NUM_MAX
      { img_type := DFU_IMG_NIL, file_bin := none, file_dat := none }) 1 3 0 (by omega)
  rw [hw] at hbody
  simp only [Option.map_some'] at hbody
  have hspec : ∀ objs, manifest_tokens buf_json (t0 :: t1 :: t2 :: rest) objs →
      objs.length = k
      ∧ ∃ objs1, w = (0, objs1, ((t0 :: t1 :: t2 :: rest).length : Int), objs.length)
        ∧ objs1.take objs.length = objs := by
    rintro objs ⟨s0, s1, s2, entries, ht, -, -, g2, gk, gf⟩
    simp only [List.cons.injEq] at ht
    obtain ⟨-, -, rfl, rfl⟩ := ht
    have hlen : objs.length = k := by
      have := g2.2.symm.trans h2k.2
      exact_mod_cast this
    refine ⟨hlen, ?_⟩
    obtain ⟨objs1, hr, ht⟩ := send_package_entries_ok buf_json (t0 :: t1 :: t2 :: entries.flatten)
      objs entries gf DFU_OBJECT_NUM_MAX (List.replicate DFU_OBJECT_NUM_MAX
      { img_type := DFU_IMG_NIL, file_bin := none, file_dat := none }) 1 3 0 rfl
      (by simp) (by unfold DFU_OBJECT_NUM_MAX; omega) (by unfold DFU_OBJECT_NUM_MAX; omega)
      (by simp)
    have hw2 := hw
    simp only [Nat.cast_ofNat] at hr
    rw [hr] at hw2
    simp only [Option.some.injEq] at hw2
    refine ⟨objs1, ?_, by simpa using ht⟩
    rw [← hw2]
    simp
  refine ⟨_, hbody, ⟨?_, ?_⟩, ?_⟩
  · intro hr
    simp only at hr
    have hw0 : w.1 = 0 := by
      by_contra hne
      rw [if_neg (fun hc => hne hc.1)] at hr
      exact hne hr
    have hrest : ¬ (w.2.2.1 ≠ ((t0 :: t1 :: t2 :: rest).length : Int) ∨ w.2.2.2 ≠ k) := by
      intro hc
      rw [if_pos ⟨hw0, hc⟩] at hr
      simp at hr
    push_neg at hrest
    obtain ⟨os, es, hf, hdr, -, hwi, hwt⟩ := send_package_entries_sound buf_json
      (t0 :: t1 :: t2 :: rest) DFU_OBJECT_NUM_MAX (List.replicate DFU_OBJECT_NUM_MAX
        { img_type := DFU_IMG_NIL, file_bin := none, file_dat := none }) 1 3 0 w (by simp)
      (by simp) (by simpa using hw) hw0
    have hlen : os.length = k := by omega
    refine ⟨os, t0, t1, t2, es, ?_, h0, h1, by rw [hlen]; exact h2k, by rw [hlen]; exact hk, hf⟩
    simp only [List.drop_succ_cons, List.drop_zero] at hdr
    rw [hdr]
  · rintro ⟨objs, hm⟩
    obtain ⟨hlen, objs1, hw1, -⟩ := hspec objs hm
    subst hw1
    simp only
    rw [if_neg (by simp [hlen])]
  · intro objs hm
    obtain ⟨hlen, objs1, hw1, ht⟩ := hspec objs hm
    subst hw1
    exact ⟨hlen.symm, ht⟩


/-! ### The order of the keys of an image entry -/

theorem get?_append_some (l1 l2 : List jsmntok_t) (i : Nat) (t : jsmntok_t)
    (h : l1.get? i = some t) : (l1 ++ l2).get? i = some t := by
  have hlt : i < l1.length := by
    by_contra hge
    rw [List.get?_eq_none.mpr (by omega)] at h
    simp at h
  rw [List.get?_eq_getElem?, List.getElem?_append_left hlt, ← List.get?_eq_getElem?, h]

theorem image_entry_keys (p_data : List Nat) (o : dfu_json_object_t) (e : List jsmntok_t)
    (h : image_entry p_data o e) :
    (∃ t2, e.get? 2 = some t2 ∧ token_str p_data t2 = some str_bin_file)
    ∧ (∃ t4, e.get? 4 = some t4 ∧ token_str p_data t4 = some str_dat_file)
    ∧ (∀ t0, e.get? 0 = some t0 → token_str p_data t0 = some str_softdevice_bootloader →
        ∃ t8, e.get? 8 = some t8 ∧ token_str p_data t8 = some str_bl_size) := by
  have simple : ∀ key bin dat, key ≠ str_softdevice_bootloader →
      simple_entry p_data key bin dat e →
      (∃ t2, e.get? 2 = some t2 ∧ token_str p_data t2 = some str_bin_file)
      ∧ (∃ t4, e.get? 4 = some t4 ∧ token_str p_data t4 = some str_dat_file)
      ∧ (∀ t0, e.get? 0 = some t0 → token_str p_data t0 = some str_softdevice_bootloader →
          ∃ t8, e.get? 8 = some t8 ∧ token_str p_data t8 = some str_bl_size) := by
    rintro key bin dat hk ⟨t0, t1, t2, t3, t4, t5, rfl, h0, -, h2, -, h4, -⟩
    refine ⟨⟨t2, rfl, h2.2.2⟩, ⟨t4, rfl, h4.2.2⟩, ?_⟩
    intro s0 hs0 hs
    simp only [List.get?_cons_zero, Option.some.injEq] at hs0
    subst hs0
    rw [h0.2.2] at hs
    exact absurd (Option.some.inj hs) hk
  obtain ⟨bin, dat, -, -, h | h | h | h⟩ := h
  · exact simple _ bin dat (by decide) h.2
  · exact simple _ bin dat (by decide) h.2
  · exact simple _ bin dat (by decide) h.2
  · obtain ⟨t0, t1, t2, t3, t4, t5, t6, t7, t8, t9, t10, t11, rfl, -, -, h2, -, h4, -, -, -,
      h8, -⟩ := h.2
    exact ⟨⟨t2, rfl, h2.2.2⟩, ⟨t4, rfl, h4.2.2⟩, fun _ _ _ => ⟨t8, rfl, h8.2.2⟩⟩

theorem misordered_no_entry (p_data : List Nat) (bad rest : List jsmntok_t)
    (h : misordered p_data bad) :
    ¬ ∃ o e rest1, bad ++ rest = e ++ rest1 ∧ image_entry p_data o e := by
  rintro ⟨o, e, rest1, heq, he⟩
  obtain ⟨⟨t2, g2, s2⟩, ⟨t4, g4, s4⟩, h8⟩ := image_entry_keys p_data o e he
  have e2 := get?_append_some e rest1 2 t2 g2
  have e4 := get?_append_some e rest1 4 t4 g4
  rw [← heq] at e2 e4
  rcases h with ⟨t, gt, st⟩ | ⟨t, gt, st⟩ | ⟨t, gt, st⟩ | ⟨t0, t8, g0, s0, g8, s8⟩
  · rw [get?_append_some bad rest 2 t gt] at e2
    rw [Option.some.inj e2, s2] at st
    exact absurd (Option.some.inj st) (by decide)
  · rw [get?_append_some bad rest 2 t gt] at e2
    rw [Option.some.inj e2, s2] at st
    exact absurd (Option.some.inj st) (by decide)
  · rw [get?_append_some bad rest 4 t gt] at e4
    rw [Option.some.inj e4, s4] at st
    exact absurd (Option.some.inj st) (by decide)
  · have b0 := get?_append_some bad rest 0 t0 g0
    have b8 := get?_append_some bad rest 8 t8 g8
    rw [heq] at b0 b8
    have c0 : e.get? 0 = some t0 := by
      cases e with
      | nil =>
        have := image_entry_length p_data o [] he
        simp at this
      | cons x xs =>
        simpa using b0
    obtain ⟨u8, gu8, su8⟩ := h8 t0 c0 s0
    rw [get?_append_some e rest1 8 u8 gu8] at b8
    rw [← Option.some.inj b8, su8] at s8
    exact absurd (Option.some.inj s8) (by decide)

/-- The `while` loop of `dfu_send_package` ends with an error when, after some
image entries, it meets tokens that do not start with an image entry. -/
theorem send_package_entries_reject (buf_json : List Nat) (json_tokens : List jsmntok_t)
    (tail : List jsmntok_t) (htail : tail ≠ [])
    (hno : ¬ ∃ o e rest, tail = e ++ rest ∧ image_entry buf_json o e)
    (good_objs : List dfu_json_object_t) (good : List (List jsmntok_t))
    (h : List.Forall₂ (image_entry buf_json) good_objs good) :
    ∀ (fuel : Nat) (objs : List dfu_json_object_t) (i : Int) (n img_n : Nat)
      (w : Int × List dfu_json_object_t × Int × Nat),
      json_tokens.drop n = good.flatten ++ tail →
      dfu_send_package_entries buf_json json_tokens fuel objs i n img_n = some w → w.1 ≠ 0 := by
  induction h with
  | nil =>
    intro fuel objs i n img_n w hd hw
    simp only [List.flatten_nil, List.nil_append] at hd
    have hlt : n < json_tokens.length := by
      by_contra hge
      rw [List.drop_eq_nil_of_le (by omega)] at hd
      exact htail hd.symm
    unfold dfu_send_package_entries at hw
    rw [if_pos (by exact_mod_cast hlt)] at hw
    by_cases h2 : img_n ≥ DFU_OBJECT_NUM_MAX
    · rw [if_pos h2] at hw
      simp only [Option.some.injEq] at hw
      subst hw
      simp
    rw [if_neg h2] at hw
    cases fuel with
    | zero => simp at hw
    | succ fuel1 =>
      simp only [Int.toNat_ofNat] at hw
      rw [hd, send_package_type_fail buf_json _ _ i hno] at hw
      simp only at hw
      rw [if_pos (by decide)] at hw
      simp only [Option.some.injEq] at hw
      subst hw
      simp
  | @cons o e os es he _ ih =>
    intro fuel objs i n img_n w hd hw
    have h6 := image_entry_length buf_json o e he
    have hlt : n < json_tokens.length := by
      by_contra hge
      rw [List.drop_eq_nil_of_le (by omega), List.flatten_cons] at hd
      have := congrArg List.length hd
      simp only [List.length_nil, List.length_append] at this
      omega
    unfold dfu_send_package_entries at hw
    rw [if_pos (by exact_mod_cast hlt)] at hw
    by_cases h2 : img_n ≥ DFU_OBJECT_NUM_MAX
    · rw [if_pos h2] at hw
      simp only [Option.some.injEq] at hw
      subst hw
      simp
    rw [if_neg h2] at hw
    cases fuel with
    | zero => simp at hw
    | succ fuel1 =>
      simp only [Int.toNat_ofNat] at hw
      rw [hd, List.flatten_cons, List.append_assoc,
        send_package_type_ok buf_json o _ e (es.flatten ++ tail) i he] at hw
      simp only at hw
      rw [if_neg (by omega)] at hw
      have hd2 : json_tokens.drop (n + e.length) = es.flatten ++ tail := by
        rw [← List.drop_drop, hd, List.flatten_cons, List.append_assoc, List.drop_left]
      have hc : ((n : Int) + (e.length : Int)) = ((n + e.length : Nat) : Int) := by
        push_cast; rfl
      rw [hc] at hw
      exact ih fuel1 _ _ _ _ w hd2 hw

theorem send_package_manifest_reject (buf_json : List Nat) (t0 t1 t2 : jsmntok_t)
    (tail : List jsmntok_t) (htail : tail ≠ [])
    (hno : ¬ ∃ o e rest, tail = e ++ rest ∧ image_entry buf_json o e)
    (good_objs : List dfu_json_object_t) (good : List (List jsmntok_t))
    (h : List.Forall₂ (image_entry buf_json) good_objs good) :
    ∃ r, dfu_send_package_manifest buf_json (t0 :: t1 :: t2 :: (good.flatten ++ tail)) = some r
      ∧ r.1 ≠ 0 := by
  by_cases hs : ∃ s0 s1 s2 rest, t0 :: t1 :: t2 :: (good.flatten ++ tail) = s0 :: s1 :: s2 :: rest
      ∧ is_object 1 s0 ∧ is_key buf_json str_manifest s1 ∧ (is_object 1 s2 ∨ is_object 2 s2)
  swap
  · obtain ⟨objs0, k0, hr⟩ := send_package_manifest_head buf_json _ hs
    exact ⟨_, hr, by simp⟩
  obtain ⟨s0, s1, s2, rest, heq, h0, h1, h2⟩ := hs
  simp only [List.cons.injEq] at heq
  obtain ⟨rfl, rfl, rfl, rfl⟩ := heq
  obtain ⟨k, hk, h2k⟩ : ∃ k : Nat, (k = 1 ∨ k = 2) ∧ is_object k t2 := by
    rcases h2 with h2 | h2
    · exact ⟨1, Or.inl rfl, h2⟩
    · exact ⟨2, Or.inr rfl, h2⟩
  have hbody := send_package_manifest_body buf_json t0 t1 t2 (good.flatten ++ tail) k h0 h1 h2k hk
  obtain ⟨w, hw⟩ := send_package_entries_total buf_json
    (t0 :: t1 :: t2 :: (good.flatten ++ tail))
    DFU_OBJECT_NUM_MAX (List.replicate DFU_OBJECT_NUM_MAX
      { img_type := DFU_IMG_NIL, file_bin := none, file_dat := none }) 1 3 0 (by omega)
  have hw0 : w.1 ≠ 0 :=
    send_package_entries_reject buf_json (t0 :: t1 :: t2 :: (good.flatten ++ tail)) tail htail
      hno good_objs good h DFU_OBJECT_NUM_MAX (List.replicate DFU_OBJECT_NUM_MAX
      { img_type := DFU_IMG_NIL, file_bin := none, file_dat := none }) 1 3 0 w rfl
      (by simpa using hw)
  rw [hw] at hbody
  simp only [Option.map_some'] at hbody
  refine ⟨_, hbody, ?_⟩
  simp only
  rw [if_neg (fun hc => hw0 hc.1)]
  exact hw0

theorem send_package_images_skip (cfg : Platform) (h : Host) (e : Int)
    (objs : List dfu_json_object_t) (n : Nat) (he : e ≠ 0) :
    dfu_send_package_images cfg h e objs n = some (e, h) := by
  have hb : ∀ t s, dfu_send_package_block cfg (e, h) objs n t s = some (e, h) := by
    intro t s
    unfold dfu_send_package_block
    rw [if_pos he]
  unfold dfu_send_package_images
  rw [hb]
  simp only [Option.some_bind]
  rw [hb]
  simp only [Option.some_bind]
  rw [hb]
  simp only [Option.some_bind]
  rw [hb]

/-- The start of `dfu_send_package` when the archive opens, `manifest.json` can
be read and the parser returns tokens: the tokens are checked and the images
sent from the state left by the reading of the manifest. -/
theorem send_package_read (cfg : Platform) (h : Host) (buf_json : List Nat)
    (zrest : List ZipEntry) (jsmn_parse : List Nat → Option (List jsmntok_t))
    (json_tokens : List jsmntok_t)
    (hz : h.zip_results = ZipEntry.content buf_json :: zrest)
    (hp : jsmn_parse buf_json = some json_tokens) :
    dfu_send_package cfg h true jsmn_parse
      = (dfu_send_package_manifest buf_json json_tokens).bind
          (fun p => dfu_send_package_images cfg (manifest_read h) p.1 p.2.1 p.2.2) := by
  unfold dfu_send_package
  simp only [zip_entry_open, zip_entry_read, zip_entry_close, hz]
  simp only [Bool.true_eq_false, if_false, ne_eq, not_true_eq_false, Option.getD_some, hp,
    List.tail_cons]
  cases dfu_send_package_manifest buf_json json_tokens with
  | none => rfl
  | some p =>
    simp only [Option.some_bind, manifest_read, hz, List.tail_cons, List.append_assoc,
      List.cons_append, List.nil_append]

/-- C40: the matching of the manifest depends on the order of the keys. When
the tokens of the manifest, after the three tokens of its head and some image
entries, go on with an entry that lists `"dat_file"` first, or
`"info_read_only_metadata"` before a file name, or `"sd_size"` where `"bl_size"`
is expected in a `"softdevice_bootloader"` entry, then
`map_jsmn_token_to_pattern` returns -1 on that entry for each of the four
patterns, and `dfu_send_package` returns a non-zero result after reading
`manifest.json`, the three calls of the archive reader being all it has done:
no device session is opened and the device is left as it was. -/
theorem misordered_entry_rejected (cfg : Platform) (h : Host) (buf_json : List Nat)
    (zrest : List ZipEntry) (jsmn_parse : List Nat → Option (List jsmntok_t))
    (t0 t1 t2 : jsmntok_t) (good_objs : List dfu_json_object_t)
    (good : List (List jsmntok_t)) (bad rest : List jsmntok_t)
    (hz : h.zip_results = ZipEntry.content buf_json :: zrest)
    (hp : jsmn_parse buf_json = some (t0 :: t1 :: t2 :: (good.flatten ++ (bad ++ rest))))
    (hg : List.Forall₂ (image_entry buf_json) good_objs good)
    (hb : misordered buf_json bad) :
    (∀ obj,
      (map_jsmn_token_to_pattern (some obj) dfu_app_pattern (bad ++ rest) buf_json).1 = -1
      ∧ (map_jsmn_token_to_pattern (some obj) dfu_bl_pattern (bad ++ rest) buf_json).1 = -1
      ∧ (map_jsmn_token_to_pattern (some obj) dfu_sd_pattern (bad ++ rest) buf_json).1 = -1
      ∧ (map_jsmn_token_to_pattern (some obj) dfu_sd_bl_pattern (bad ++ rest) buf_json).1 = -1)
    ∧ ∃ e, e ≠ 0
      ∧ dfu_send_package cfg h true jsmn_parse
        = some (e, { h with
            steps := h.steps ++ [Step.entry_open (some str_manifest_json), Step.entry_read,
              Step.entry_close],
            zip_results := zrest })
      ∧ (Step.session_open ∉ h.steps →
          Step.session_open ∉ h.steps ++ [Step.entry_open (some str_manifest_json),
            Step.entry_read, Step.entry_close]) := by
  have hno := misordered_no_entry buf_json bad rest hb
  have hne : bad ++ rest ≠ [] := by
    intro hnil
    have hbn : bad = [] := (List.append_eq_nil.mp hnil).1
    subst hbn
    rcases hb with ⟨t, gt, -⟩ | ⟨t, gt, -⟩ | ⟨t, gt, -⟩ | ⟨s0, s8, g0, -⟩
    · simp at gt
    · simp at gt
    · simp at gt
    · simp at g0
  have g1 : ∀ key kind, (kind = DFU_IMG_APP ∧ key = str_application)
      ∨ (kind = DFU_IMG_BL ∧ key = str_bootloader) ∨ (kind = DFU_IMG_SD ∧ key = str_softdevice) →
      ¬ ∃ bin dat e r, bad ++ rest = e ++ r ∧ simple_entry buf_json key bin dat e := by
    rintro key kind hk ⟨bin, dat, e, r, he, hs⟩
    refine hno ⟨{ img_type := kind, file_bin := some bin, file_dat := some dat }, e, r, he,
      bin, dat, rfl, rfl, ?_⟩
    rcases hk with ⟨h1, h2⟩ | ⟨h1, h2⟩ | ⟨h1, h2⟩
    · subst h1 h2
      exact Or.inl ⟨rfl, hs⟩
    · subst h1 h2
      exact Or.inr (Or.inl ⟨rfl, hs⟩)
    · subst h1 h2
      exact Or.inr (Or.inr (Or.inl ⟨rfl, hs⟩))
  have g2 : ¬ ∃ bin dat e r, bad ++ rest = e ++ r ∧ sd_bl_entry buf_json bin dat e := by
    rintro ⟨bin, dat, e, r, he, hs⟩
    exact hno ⟨{ img_type := DFU_IMG_SD_BL, file_bin := some bin, file_dat := some dat }, e, r,
      he, bin, dat, rfl, rfl, Or.inr (Or.inr (Or.inr ⟨rfl, hs⟩))⟩
  refine ⟨fun obj => ⟨?_, ?_, ?_, ?_⟩, ?_⟩
  · have := simple_pattern_fail buf_json str_application (bad ++ rest) obj
      (g1 _ DFU_IMG_APP (Or.inl ⟨rfl, rfl⟩))
    exact congrArg Prod.fst this
  · have := simple_pattern_fail buf_json str_bootloader (bad ++ rest) obj
      (g1 _ DFU_IMG_BL (Or.inr (Or.inl ⟨rfl, rfl⟩)))
    exact congrArg Prod.fst this
  · have := simple_pattern_fail buf_json str_softdevice (bad ++ rest) obj
      (g1 _ DFU_IMG_SD (Or.inr (Or.inr ⟨rfl, rfl⟩)))
    exact congrArg Prod.fst this
  · exact congrArg Prod.fst (sd_bl_pattern_fail buf_json (bad ++ rest) obj g2)
  · obtain ⟨r, hr, hr0⟩ := send_package_manifest_reject buf_json t0 t1 t2 (bad ++ rest) hne hno
      good_objs good hg
    refine ⟨r.1, hr0, ?_, ?_⟩
    · rw [send_package_read cfg h buf_json zrest jsmn_parse _ hz hp, hr]
      simp only [Option.some_bind]
      rw [send_package_images_skip cfg _ _ _ _ hr0]
      simp only [manifest_read, hz, List.tail_cons]
    · intro hs
      simp only [List.mem_append, List.mem_cons, List.mem_singleton, reduceCtorEq,
        List.not_mem_nil, or_self, or_false]
      exact hs

set_option maxRecDepth 1000000 in
theorem misordered_entry_rejected_witness :
    (swapped_host.zip_results = ZipEntry.content swapped_manifest_json :: []
      ∧ misordered swapped_manifest_json (app_manifest_tokens.drop 3))
    ∧ ∃ e, e ≠ 0
      ∧ dfu_send_package nrf swapped_host true (fun _ => some app_manifest_tokens)
        = some (e, { swapped_host with
            steps := swapped_host.steps ++ [Step.entry_open (some str_manifest_json),
              Step.entry_read, Step.entry_close],
            zip_results := [] }) :=
  ⟨⟨rfl, Or.inl ⟨_, rfl, by decide⟩⟩,
    let thm := misordered_entry_rejected nrf swapped_host swapped_manifest_json []
      (fun _ => some app_manifest_tokens)
      { type := JSMN_OBJECT, start := 0, end_ := 68, size := 1 }
      { type := JSMN_STRING, start := 2, end_ := 10, size := 1 }
      { type := JSMN_OBJECT, start := 12, end_ := 67, size := 1 }
      [] [] (app_manifest_tokens.drop 3) [] rfl rfl List.Forall₂.nil
      (Or.inl ⟨_, rfl, by decide⟩)
    ⟨thm.2.choose, thm.2.choose_spec.1, thm.2.choose_spec.2.1⟩⟩


/-! ### Failure of a step of an image -/

theorem stream_data_crc_ne_none (cfg : Platform) (w : World) (p : List Nat) (n pos crc : Nat) :
    dfu_serial_stream_data_crc cfg w p n pos crc ≠ none := by
  obtain ⟨s, hs⟩ := stream_data_crc_total cfg w p n pos crc
  rw [hs]
  exact Option.some_ne_none s

theorem send_init_packet_total (cfg : Platform) (w : World) (p_data : Option (List Nat))
    (data_size : Nat) : ∃ r, dfu_serial_send_init_packet cfg w p_data data_size = some r := by
  have hrec : ∀ w1 mem n sel, ∃ r, dfu_serial_try_to_recover_ip cfg w1 mem n sel = some r := by
    intro w1 mem n sel
    cases hr : dfu_serial_try_to_recover_ip cfg w1 mem n sel with
    | some r => exact ⟨r, rfl⟩
    | none =>
      exfalso
      unfold dfu_serial_try_to_recover_ip at hr
      simp only at hr
      split_ifs at hr
      all_goals first
        | cases hr
        | (split at hr
           · rename_i heq
             exact stream_data_crc_ne_none _ _ _ _ _ _ heq
           · split_ifs at hr)
  unfold dfu_serial_send_init_packet
  split
  · exact ⟨_, rfl⟩
  rename_i mem
  by_cases h0 : data_size = 0
  · rw [if_pos h0]
    exact ⟨_, rfl⟩
  rw [if_neg h0]
  simp only
  by_cases h1 : (dfu_serial_select_obj cfg w 1 { offset := 0, crc := 0, max_size := 0 }).1 ≠ 0
  · rw [if_pos h1]
    exact ⟨_, rfl⟩
  rw [if_neg h1]
  obtain ⟨rec, hr⟩ := hrec
    (dfu_serial_select_obj cfg w 1 { offset := 0, crc := 0, max_size := 0 }).2.2 mem data_size
    (dfu_serial_select_obj cfg w 1 { offset := 0, crc := 0, max_size := 0 }).2.1
  rw [hr]
  simp only
  by_cases h2 : rec.1 ≠ 0
  · rw [if_pos h2]
    exact ⟨_, rfl⟩
  rw [if_neg h2]
  by_cases h3 : rec.2.1.offset = data_size
  · rw [if_pos h3]
    exact ⟨_, rfl⟩
  rw [if_neg h3]
  by_cases h4 : data_size
      > (dfu_serial_select_obj cfg w 1 { offset := 0, crc := 0, max_size := 0 }).2.1.max_size
  · rw [if_pos h4]
    exact ⟨_, rfl⟩
  rw [if_neg h4]
  by_cases h5 : (dfu_serial_create_obj cfg rec.2.2 1 data_size).1 ≠ 0
  · rw [if_pos h5]
    exact ⟨_, rfl⟩
  rw [if_neg h5]
  obtain ⟨s, hs⟩ := stream_data_crc_total cfg (dfu_serial_create_obj cfg rec.2.2 1 data_size).2
    mem data_size 0 0
  rw [hs]
  simp only
  split_ifs <;> exact ⟨_, rfl⟩

theorem execution_append (cfg : Platform) (h h1 h2 : Host) (tr1 tr2 : List (Step × Int))
    (e1 : Execution cfg h tr1 h1) (e2 : Execution cfg h1 tr2 h2) :
    Execution cfg h (tr1 ++ tr2) h2 := by
  induction e1 with
  | nil h => exact e2
  | cons h h1 h3 s e tr first _ ih => exact Execution.cons h h1 h2 s e _ first (ih e2)

theorem execution_one (cfg : Platform) (h h1 : Host) (s : Step) (e : Int)
    (a : Attempt cfg h s e h1) : Execution cfg h [(s, e)] h1 :=
  Execution.cons h h1 h1 s e [] a (Execution.nil h1)

theorem execution_steps (cfg : Platform) (h h1 : Host) (tr : List (Step × Int))
    (e : Execution cfg h tr h1) : h1.steps = h.steps ++ tr.map Prod.fst := by
  induction e with
  | nil h => simp
  | cons h h1 h2 s e tr first _ ih =>
    rw [ih]
    have : h1.steps = h.steps ++ [s] := by
      cases first with
      | image => rfl
      | entry_open name => exact (zip_entry_open_steps h name).1
      | entry_read => exact (zip_entry_read_steps h).1
      | entry_close => rfl
      | session_open => rfl
      | init_packet => rfl
      | firmware => rfl
      | session_close => rfl
      | delay => exact delay_connect_steps h
    rw [this]
    simp

theorem clean_append (a b : List (Step × Int)) (ha : clean a) (hb : clean b) :
    clean (a ++ b) := by
  intro x hx
  rcases List.mem_append.mp hx with hx | hx
  · exact ha x hx
  · exact hb x hx

theorem clean_succeeded (ss : List Step) : clean (succeeded ss) := by
  intro x hx
  unfold succeeded at hx
  obtain ⟨s, -, rfl⟩ := List.mem_map.mp hx
  rfl

theorem stopped_append (a b : List (Step × Int)) (ha : clean a) (hb : stopped b) :
    stopped (a ++ b) := by
  obtain ⟨pre, s, e, he, hpre, hb | ⟨hs, hb⟩⟩ := hb
  · exact ⟨a ++ pre, s, e, he, clean_append a pre ha hpre, Or.inl (by rw [hb, List.append_assoc])⟩
  · exact ⟨a ++ pre, s, e, he, clean_append a pre ha hpre,
      Or.inr ⟨hs, by rw [hb, List.append_assoc]⟩⟩

theorem clean_split (pre post : List (Step × Int)) (s : Step) (e : Int)
    (h : clean (pre ++ (s, e) :: post)) : e = 0 :=
  h (s, e) (List.mem_append.mpr (Or.inr (List.mem_cons_self _ _)))

/-- In a sequence that stopped, the call that failed is the last one, the
closing of an entry whose read failed apart. -/
theorem stopped_last (tr : List (Step × Int)) (h : stopped tr) (pre post : List (Step × Int))
    (s : Step) (e : Int) (ht : tr = pre ++ (s, e) :: post) (he : e ≠ 0) :
    post = [] ∨ (s = Step.entry_read ∧ post = [(Step.entry_close, 0)]) := by
  obtain ⟨pre1, s1, e1, he1, hpre1, hform⟩ := h
  have key : ∀ (p1 p2 : List (Step × Int)) (post1 : List (Step × Int)), clean p1 →
      clean post1 → p1 ++ (s1, e1) :: post1 = p2 ++ (s, e) :: post →
      (s, e) = (s1, e1) ∧ post = post1 := by
    intro p1
    induction p1 with
    | nil =>
      intro p2 post1 _ hpost hh
      cases p2 with
      | nil =>
        simp only [List.nil_append, List.cons.injEq] at hh
        exact ⟨hh.1.symm, hh.2.symm⟩
      | cons y p =>
        simp only [List.nil_append, List.cons_append, List.cons.injEq] at hh
        have : e = 0 := by
          apply clean_split p post s e
          rw [← hh.2]
          exact hpost
        exact absurd this he
    | cons x q ih =>
      intro p2 post1 hp hpost hh
      cases p2 with
      | nil =>
        simp only [List.nil_append, List.cons_append, List.cons.injEq] at hh
        have : e = 0 := by
          have := hp x (List.mem_cons_self _ _)
          rw [hh.1] at this
          exact this
        exact absurd this he
      | cons y p =>
        simp only [List.cons_append, List.cons.injEq] at hh
        exact ih p post1 (fun z hz => hp z (List.mem_cons_of_mem _ hz)) hpost hh.2
  rcases hform with hform | ⟨hs1, hform⟩
  · obtain ⟨-, hpost⟩ := key pre1 pre [] hpre1 (by intro x hx; simp at hx) (by rw [← hform, ht])
    exact Or.inl hpost
  · obtain ⟨hse, hpost⟩ := key pre1 pre [(Step.entry_close, 0)] hpre1
      (by intro x hx; simp only [List.mem_singleton] at hx; rw [hx])
      (by rw [← ht, hform])
    right
    simp only [Prod.mk.injEq] at hse
    exact ⟨hse.1.trans hs1, hpost⟩

theorem outcome_mono (cfg : Platform) (h : Host) (res : Option (Int × Host))
    (good1 good2 : List (Step × Int) → Prop) (hg : ∀ tr, good1 tr → good2 tr)
    (ho : Outcome cfg h res good1) : Outcome cfg h res good2 := by
  cases res with
  | none => exact ho
  | some r =>
    obtain ⟨tr, he, hc⟩ := ho
    refine ⟨tr, he, ?_⟩
    rcases hc with ⟨h0, hgood⟩ | hc
    · exact Or.inl ⟨h0, hg tr hgood⟩
    · exact Or.inr hc

/-- A part of the transfer followed by another one that is skipped when the
first did not return 0. -/
theorem outcome_then (cfg : Platform) (h : Host) (res : Option (Int × Host))
    (f : Int × Host → Option (Int × Host)) (good1 good2 : List (Step × Int) → Prop)
    (hclean : ∀ tr, good1 tr → clean tr)
    (h1 : Outcome cfg h res good1)
    (hskip : ∀ r, r.1 ≠ 0 → f r = some r)
    (hf : ∀ h1, Outcome cfg h1 (f (0, h1)) good2) :
    Outcome cfg h (res.bind f) (fun tr => ∃ a b, tr = a ++ b ∧ good1 a ∧ good2 b) := by
  cases res with
  | none => exact h1
  | some r =>
    obtain ⟨tr1, he1, hc⟩ := h1
    simp only [Option.some_bind]
    rcases hc with ⟨h0, hgood⟩ | ⟨h0, hstop⟩
    swap
    · rw [hskip r h0]
      exact ⟨tr1, he1, Or.inr ⟨h0, hstop⟩⟩
    have hr : r = (0, r.2) := by
      rw [← h0]
    rw [hr]
    have h2 := hf r.2
    cases hres : f (0, r.2) with
    | none =>
      rw [hres] at h2
      obtain ⟨tr2, h3, img, len, he2, hc2, hnone⟩ := h2
      exact ⟨tr1 ++ tr2, h3, img, len, execution_append cfg h r.2 h3 tr1 tr2 he1 he2,
        clean_append tr1 tr2 (hclean tr1 hgood) hc2, hnone⟩
    | some r2 =>
      rw [hres] at h2
      obtain ⟨tr2, he2, hc2⟩ := h2
      refine ⟨tr1 ++ tr2, execution_append cfg h r.2 r2.2 tr1 tr2 he1 he2, ?_⟩
      rcases hc2 with ⟨h20, hgood2⟩ | ⟨h20, hstop2⟩
      · exact Or.inl ⟨h20, tr1, tr2, rfl, hgood, hgood2⟩
      · exact Or.inr ⟨h20, stopped_append tr1 tr2 (hclean tr1 hgood) hstop2⟩

theorem outcome_prepend (cfg : Platform) (h h1 : Host) (pre : List (Step × Int))
    (res : Option (Int × Host)) (good : List (Step × Int) → Prop)
    (he : Execution cfg h pre h1) (hc : clean pre) (ho : Outcome cfg h1 res good) :
    Outcome cfg h res (fun tr => ∃ b, tr = pre ++ b ∧ good b) := by
  cases res with
  | none =>
    obtain ⟨tr, h2, img, len, he2, hc2, hnone⟩ := ho
    exact ⟨pre ++ tr, h2, img, len, execution_append cfg h h1 h2 pre tr he he2,
      clean_append pre tr hc hc2, hnone⟩
  | some r =>
    obtain ⟨tr, he2, hcases⟩ := ho
    refine ⟨pre ++ tr, execution_append cfg h h1 r.2 pre tr he he2, ?_⟩
    rcases hcases with ⟨h0, hg⟩ | ⟨h0, hs⟩
    · exact Or.inl ⟨h0, tr, rfl, hg⟩
    · exact Or.inr ⟨h0, stopped_append pre tr hc hs⟩

/-- The reading of one file of the archive by `dfu_send_object`. -/
theorem send_object_read_outcome (cfg : Platform) (h : Host) (name : Option (List Nat)) :
    ∃ tr, Execution cfg h tr (dfu_send_object_read h name).2.2.2
      ∧ (((dfu_send_object_read h name).1 = 0
          ∧ tr = succeeded [Step.entry_open name, Step.entry_read, Step.entry_close])
        ∨ ((dfu_send_object_read h name).1 ≠ 0 ∧ stopped tr)) := by
  unfold dfu_send_object_read
  simp only
  by_cases h1 : (zip_entry_open h name).1 ≠ 0
  · rw [if_pos h1]
    refine ⟨[(Step.entry_open name, (zip_entry_open h name).1)],
      execution_one cfg _ _ _ _ (Attempt.entry_open h name), Or.inr ⟨by simp, ?_⟩⟩
    exact ⟨[], _, _, h1, by intro x hx; simp at hx, Or.inl rfl⟩
  rw [if_neg h1]
  have h10 : (zip_entry_open h name).1 = 0 := not_not.mp h1
  have hex : Execution cfg h
      [(Step.entry_open name, 0), (Step.entry_read, (zip_entry_read (zip_entry_open h name).2).1),
       (Step.entry_close, 0)]
      (zip_entry_close (zip_entry_read (zip_entry_open h name).2).2.2) := by
    have a1 := @Attempt.entry_open cfg h name
    rw [h10] at a1
    exact Execution.cons _ _ _ _ _ _ a1
      (Execution.cons _ _ _ _ _ _ (Attempt.entry_read _)
        (execution_one cfg _ _ _ _ (Attempt.entry_close _)))
  refine ⟨_, hex, ?_⟩
  by_cases h2 : (zip_entry_read (zip_entry_open h name).2).1 ≠ 0
  · right
    rw [if_pos h2]
    refine ⟨by simp, [(Step.entry_open name, 0)], Step.entry_read, _, h2, ?_, Or.inr ⟨rfl, rfl⟩⟩
    intro x hx
    simp only [List.mem_singleton] at hx
    rw [hx]
  · left
    rw [if_neg h2]
    refine ⟨rfl, ?_⟩
    rw [not_not.mp h2]
    rfl

/-- The four calls of `dfu_send_image`. -/
theorem send_image_outcome (cfg : Platform) (h : Host) (p_img_dat : Option (List Nat))
    (n_dat_size : Nat) (p_img_bin : Option (List Nat)) (n_bin_size : Nat) :
    Outcome cfg h (dfu_send_image cfg h p_img_dat n_dat_size p_img_bin n_bin_size)
      (fun tr => tr = succeeded session_steps) := by
  unfold dfu_send_image
  simp only
  have a1 := @Attempt.session_open cfg h
  by_cases h1 : (dfu_serial_open cfg h.dev).1 ≠ 0
  · rw [if_pos h1]
    exact ⟨[(Step.session_open, (dfu_serial_open cfg h.dev).1)], execution_one cfg _ _ _ _ a1,
      Or.inr ⟨h1, [], _, _, h1, by intro x hx; simp at hx, Or.inl rfl⟩⟩
  rw [if_neg h1]
  rw [not_not.mp h1] at a1
  obtain ⟨i, hi⟩ := send_init_packet_total cfg (dfu_serial_open cfg h.dev).2 p_img_dat n_dat_size
  rw [hi]
  simp only
  have a2 := @Attempt.init_packet cfg
    { h with dev := (dfu_serial_open cfg h.dev).2, steps := h.steps ++ [Step.session_open] }
    p_img_dat n_dat_size i hi
  by_cases h2 : i.1 ≠ 0
  · rw [if_pos h2]
    refine ⟨[(Step.session_open, 0), (Step.init_packet, i.1)],
      Execution.cons _ _ _ _ _ _ a1 (execution_one cfg _ _ _ _ a2),
      Or.inr ⟨h2, [(Step.session_open, 0)], _, _, h2, ?_, Or.inl rfl⟩⟩
    intro x hx
    simp only [List.mem_singleton] at hx
    rw [hx]
  rw [if_neg h2]
  rw [not_not.mp h2] at a2
  cases hf : dfu_serial_send_firmware cfg i.2 p_img_bin n_bin_size with
  | none =>
    refine ⟨[(Step.session_open, 0), (Step.init_packet, 0)], _, p_img_bin, n_bin_size,
      Execution.cons _ _ _ _ _ _ a1 (execution_one cfg _ _ _ _ a2), ?_, hf⟩
    intro x hx
    simp only [List.mem_cons, List.mem_singleton, List.not_mem_nil, or_false] at hx
    rcases hx with hx | hx <;> rw [hx]
  | some f =>
    simp only
    have a3 := @Attempt.firmware cfg
      { dev := i.2, steps := h.steps ++ [Step.session_open] ++ [Step.init_packet],
        zip_results := h.zip_results, delay_results := h.delay_results }
      p_img_bin n_bin_size f hf
    by_cases h3 : f.1 ≠ 0
    · rw [if_pos h3]
      refine ⟨[(Step.session_open, 0), (Step.init_packet, 0), (Step.firmware, f.1)],
        Execution.cons _ _ _ _ _ _ a1 (Execution.cons _ _ _ _ _ _ a2
          (execution_one cfg _ _ _ _ a3)),
        Or.inr ⟨h3, [(Step.session_open, 0), (Step.init_packet, 0)], _, _, h3, ?_, Or.inl rfl⟩⟩
      intro x hx
      simp only [List.mem_cons, List.mem_singleton, List.not_mem_nil, or_false] at hx
      rcases hx with hx | hx <;> rw [hx]
    rw [if_neg h3]
    rw [not_not.mp h3] at a3
    have a4 := @Attempt.session_close cfg
      { dev := f.2,
        steps := h.steps ++ [Step.session_open] ++ [Step.init_packet] ++ [Step.firmware],
        zip_results := h.zip_results, delay_results := h.delay_results }
    exact ⟨[(Step.session_open, 0), (Step.init_packet, 0), (Step.firmware, 0),
        (Step.session_close, 0)],
      Execution.cons _ _ _ _ _ _ a1 (Execution.cons _ _ _ _ _ _ a2
        (Execution.cons _ _ _ _ _ _ a3 (execution_one cfg _ _ _ _ a4))),
      Or.inl ⟨rfl, rfl⟩⟩

/-- The calls of `dfu_send_object`: the two files, then the image. -/
theorem send_object_outcome (cfg : Platform) (h : Host) (obj : dfu_json_object_t) :
    Outcome cfg h (dfu_send_object cfg h obj)
      (fun tr => tr = succeeded ([Step.entry_open obj.file_dat, Step.entry_read,
        Step.entry_close, Step.entry_open obj.file_bin, Step.entry_read, Step.entry_close]
        ++ session_steps)) := by
  unfold dfu_send_object
  simp only
  obtain ⟨trd, hed, hcd⟩ := send_object_read_outcome cfg h obj.file_dat
  by_cases h1 : (dfu_send_object_read h obj.file_dat).1 ≠ 0
  · rw [if_pos h1]
    rcases hcd with ⟨h0, -⟩ | ⟨-, hs⟩
    · exact absurd h0 h1
    · exact ⟨trd, hed, Or.inr ⟨h1, hs⟩⟩
  rw [if_neg h1]
  rcases hcd with ⟨-, htd⟩ | ⟨hne, -⟩
  swap
  · exact absurd hne h1
  obtain ⟨trb, heb, hcb⟩ := send_object_read_outcome cfg
    (dfu_send_object_read h obj.file_dat).2.2.2 obj.file_bin
  have hcleand : clean trd := by
    rw [htd]
    exact clean_succeeded _
  by_cases h2 : (dfu_send_object_read (dfu_send_object_read h obj.file_dat).2.2.2
      obj.file_bin).1 ≠ 0
  · rw [if_pos h2]
    rcases hcb with ⟨h0, -⟩ | ⟨-, hs⟩
    · exact absurd h0 h2
    · exact ⟨trd ++ trb, execution_append cfg _ _ _ _ _ hed heb,
        Or.inr ⟨h2, stopped_append trd trb hcleand hs⟩⟩
  rw [if_neg h2]
  rcases hcb with ⟨-, htb⟩ | ⟨hne, -⟩
  swap
  · exact absurd hne h2
  have hcleanb : clean trb := by
    rw [htb]
    exact clean_succeeded _
  have hpre := outcome_prepend cfg h _ (trd ++ trb) _ _
    (execution_append cfg _ _ _ _ _ hed heb) (clean_append trd trb hcleand hcleanb)
    (send_image_outcome cfg
      (dfu_send_object_read (dfu_send_object_read h obj.file_dat).2.2.2 obj.file_bin).2.2.2
      (dfu_send_object_read h obj.file_dat).2.1
      ((dfu_send_object_read h obj.file_dat).2.2.1 % U32)
      (dfu_send_object_read (dfu_send_object_read h obj.file_dat).2.2.2 obj.file_bin).2.1
      ((dfu_send_object_read (dfu_send_object_read h obj.file_dat).2.2.2
        obj.file_bin).2.2.1 % U32))
  refine outcome_mono cfg h _ _ _ ?_ hpre
  rintro tr ⟨b, rfl, rfl⟩
  rw [htd, htb]
  simp [succeeded]

/-- One block of `dfu_send_package` entered without error: it does nothing, or
it makes the calls of one image. -/
theorem send_block_outcome (cfg : Platform) (h : Host) (objs : List dfu_json_object_t)
    (n t : Nat) (settle : Bool) :
    Outcome cfg h (dfu_send_package_block cfg (0, h) objs n t settle)
      (fun tr => tr = [] ∨ ∃ obj s, tr = succeeded (image_steps t obj s)) := by
  unfold dfu_send_package_block
  rw [if_neg (by simp)]
  cases hfind : find_dfu_object objs n t with
  | none => exact ⟨[], Execution.nil h, Or.inl ⟨rfl, Or.inl rfl⟩⟩
  | some obj =>
    simp only
    have a0 := @Attempt.image cfg h t
    have hobj := outcome_prepend cfg h _ [(Step.image t, 0)] _ _ (execution_one cfg _ _ _ _ a0)
      (by intro x hx; simp only [List.mem_singleton] at hx; rw [hx])
      (send_object_outcome cfg { h with steps := h.steps ++ [Step.image t] } obj)
    cases hres : dfu_send_object cfg { h with steps := h.steps ++ [Step.image t] } obj with
    | none =>
      rw [hres] at hobj
      exact hobj
    | some s =>
      rw [hres] at hobj
      obtain ⟨tr, he, hc⟩ := hobj
      simp only
      rcases hc with ⟨h0, b, htr, hb⟩ | ⟨h0, hs⟩
      swap
      · rw [if_neg (fun hc => h0 hc.1)]
        exact ⟨tr, he, Or.inr ⟨h0, hs⟩⟩
      have hclean : clean tr := by
        rw [htr, hb]
        intro x hx
        simp only [List.singleton_append, List.mem_cons] at hx
        rcases hx with hx | hx
        · rw [hx]
        · exact clean_succeeded _ x hx
      by_cases hd : s.1 = 0 ∧ n > 1 ∧ settle = true
      · rw [if_pos hd]
        have a1 := @Attempt.delay cfg s.2
        refine ⟨tr ++ [(Step.delay, (delay_connect s.2).1)],
          execution_append cfg _ _ _ _ _ he (execution_one cfg _ _ _ _ a1), ?_⟩
        by_cases hz : (delay_connect s.2).1 = 0
        · left
          refine ⟨hz, Or.inr ⟨obj, true, ?_⟩⟩
          rw [hz, htr, hb]
          simp [succeeded, image_steps]
        · right
          exact ⟨hz, tr, _, _, hz, hclean, Or.inl rfl⟩
      · rw [if_neg hd]
        refine ⟨tr, he, Or.inl ⟨h0, Or.inr ⟨obj, false, ?_⟩⟩⟩
        rw [htr, hb]
        simp [succeeded, image_steps]

theorem complete_images_append (a b : List (Step × Int)) (ha : complete_images a)
    (hb : complete_images b) : complete_images (a ++ b) := by
  obtain ⟨ra, rfl⟩ := ha
  obtain ⟨rb, rfl⟩ := hb
  exact ⟨ra ++ rb, by simp [succeeded]⟩

theorem complete_images_clean (tr : List (Step × Int)) (h : complete_images tr) : clean tr := by
  obtain ⟨runs, rfl⟩ := h
  exact clean_succeeded _

theorem send_block_outcome_images (cfg : Platform) (h : Host) (objs : List dfu_json_object_t)
    (n t : Nat) (settle : Bool) :
    Outcome cfg h (dfu_send_package_block cfg (0, h) objs n t settle) complete_images := by
  refine outcome_mono cfg h _ _ _ ?_ (send_block_outcome cfg h objs n t settle)
  rintro tr (rfl | ⟨obj, s, rfl⟩)
  · exact ⟨[], rfl⟩
  · exact ⟨[(t, obj, s)], by simp⟩

/-- The four blocks of `dfu_send_package`, entered without error. -/
theorem send_package_images_outcome (cfg : Platform) (h : Host)
    (objs : List dfu_json_object_t) (n : Nat) :
    Outcome cfg h (dfu_send_package_images cfg h 0 objs n) complete_images := by
  have hskip : ∀ t s (r : Int × Host), r.1 ≠ 0 →
      dfu_send_package_block cfg r objs n t s = some r := by
    intro t s r hr
    unfold dfu_send_package_block
    rw [if_pos hr]
  have hjoin : ∀ tr, (∃ a b, tr = a ++ b ∧ complete_images a ∧ complete_images b) →
      complete_images tr := by
    rintro tr ⟨a, b, rfl, ha, hb⟩
    exact complete_images_append a b ha hb
  unfold dfu_send_package_images
  have o1 := send_block_outcome_images cfg h objs n DFU_IMG_SD_BL true
  have o2 := outcome_mono cfg h _ _ _ hjoin (outcome_then cfg h _
    (fun r => dfu_send_package_block cfg r objs n DFU_IMG_SD true) _ _
    complete_images_clean o1 (hskip _ _)
    (fun h1 => send_block_outcome_images cfg h1 objs n DFU_IMG_SD true))
  have o3 := outcome_mono cfg h _ _ _ hjoin (outcome_then cfg h _
    (fun r => dfu_send_package_block cfg r objs n DFU_IMG_BL true) _ _
    complete_images_clean o2 (hskip _ _)
    (fun h1 => send_block_outcome_images cfg h1 objs n DFU_IMG_BL true))
  exact outcome_mono cfg h _ _ _ hjoin (outcome_then cfg h _
    (fun r => dfu_send_package_block cfg r objs n DFU_IMG_APP false) _ _
    complete_images_clean o3 (hskip _ _)
    (fun h1 => send_block_outcome_images cfg h1 objs n DFU_IMG_APP false))

theorem send_package_manifest_total (buf_json : List Nat) (json_tokens : List jsmntok_t) :
    ∃ r, dfu_send_package_manifest buf_json json_tokens = some r := by
  by_cases hs : ∃ t0 t1 t2 rest, json_tokens = t0 :: t1 :: t2 :: rest ∧ is_object 1 t0
      ∧ is_key buf_json str_manifest t1 ∧ (is_object 1 t2 ∨ is_object 2 t2)
  swap
  · obtain ⟨objs0, k0, hr⟩ := send_package_manifest_head buf_json json_tokens hs
    exact ⟨_, hr⟩
  obtain ⟨t0, t1, t2, rest, rfl, h0, h1, h2⟩ := hs
  obtain ⟨k, hk, h2k⟩ : ∃ k : Nat, (k = 1 ∨ k = 2) ∧ is_object k t2 := by
    rcases h2 with h2 | h2
    · exact ⟨1, Or.inl rfl, h2⟩
    · exact ⟨2, Or.inr rfl, h2⟩
  have hbody := send_package_manifest_body buf_json t0 t1 t2 rest k h0 h1 h2k hk
  obtain ⟨w, hw⟩ := send_package_entries_total buf_json (t0 :: t1 :: t2 :: rest)
    DFU_OBJECT_NUM_MAX (List.replicate DFU_OBJECT_NUM_MAX
      { img_type := DFU_IMG_NIL, file_bin := none, file_dat := none }) 1 3 0 (by omega)
  rw [hw] at hbody
  exact ⟨_, hbody⟩

/-- What `dfu_send_package` does before the blocks of the images: it calls the
archive reader for `manifest.json` at most, and goes on to the blocks with the
`err_code`, the objects and the number of images that it has then. -/
theorem send_package_stage (cfg : Platform) (h : Host) (zip_pkg : Bool)
    (jsmn_parse : List Nat → Option (List jsmntok_t)) :
    ∃ (h0 : Host) (e : Int) (objs : List dfu_json_object_t) (k : Nat),
      h0.dev = h.dev ∧ (∃ zs, h0.steps = h.steps ++ zs ∧ ∀ s ∈ zs, s.is_entry = true)
      ∧ dfu_send_package cfg h zip_pkg jsmn_parse = dfu_send_package_images cfg h0 e objs k := by
  unfold dfu_send_package
  simp only
  by_cases hz : zip_pkg = false
  · rw [if_pos hz]
    simp only [ne_eq, one_ne_zero, not_false_eq_true, if_true]
    exact ⟨h, _, _, _, rfl, ⟨[], by simp, by simp⟩, rfl⟩
  rw [if_neg hz]
  have s1 := zip_entry_open_steps h (some str_manifest_json)
  have s2 := zip_entry_read_steps (zip_entry_open h (some str_manifest_json)).2
  by_cases h1 : (zip_entry_open h (some str_manifest_json)).1 ≠ 0
  · rw [if_pos h1]
    simp only [ne_eq, one_ne_zero, not_false_eq_true, if_true]
    refine ⟨_, _, _, _, s1.2, ⟨[Step.entry_open (some str_manifest_json)], s1.1, ?_⟩, rfl⟩
    intro s hs
    rw [List.mem_singleton.mp hs]
    rfl
  rw [if_neg h1]
  by_cases h2 : (zip_entry_read (zip_entry_open h (some str_manifest_json)).2).1 ≠ 0
  · rw [if_pos h2]
    simp only [ne_eq, one_ne_zero, not_false_eq_true, if_true]
    refine ⟨_, _, _, _, s2.2.trans s1.2,
      ⟨[Step.entry_open (some str_manifest_json), Step.entry_read], ?_, ?_⟩, rfl⟩
    · rw [s2.1, s1.1]
      simp
    · intro s hs
      simp only [List.mem_cons, List.mem_singleton, List.not_mem_nil, or_false] at hs
      rcases hs with hs | hs <;> rw [hs] <;> rfl
  rw [if_neg h2]
  simp only [ne_eq, not_true_eq_false, if_false]
  have hstage : (zip_entry_close (zip_entry_read (zip_entry_open h
        (some str_manifest_json)).2).2.2).dev = h.dev
      ∧ ∃ zs, (zip_entry_close (zip_entry_read (zip_entry_open h
        (some str_manifest_json)).2).2.2).steps = h.steps ++ zs ∧ ∀ s ∈ zs, s.is_entry = true := by
    refine ⟨s2.2.trans s1.2,
      [Step.entry_open (some str_manifest_json), Step.entry_read, Step.entry_close], ?_, ?_⟩
    · unfold zip_entry_close
      simp only
      rw [s2.1, s1.1]
      simp
    · intro s hs
      simp only [List.mem_cons, List.mem_singleton, List.not_mem_nil, or_false] at hs
      rcases hs with hs | hs | hs <;> rw [hs] <;> rfl
  cases hparse : jsmn_parse
      ((zip_entry_read (zip_entry_open h (some str_manifest_json)).2).2.1.getD []) with
  | none => exact ⟨_, _, _, _, hstage.1, hstage.2, rfl⟩
  | some toks =>
    simp only
    obtain ⟨p, hp⟩ := send_package_manifest_total
      ((zip_entry_read (zip_entry_open h (some str_manifest_json)).2).2.1.getD []) toks
    rw [hp]
    exact ⟨_, _, _, _, hstage.1, hstage.2, rfl⟩

/-- C31: a step of an image that fails ends the transfer. After what
`dfu_send_package` does for the manifest (calls of the archive reader only), the
calls it makes form a sequence `tr` of steps with their results, each made in
the state left by the one before, and they are all its calls. If a call of
`tr` returned a non-zero result (an archive entry that cannot be opened or read,
`dfu_serial_open`, the init packet, the firmware, `delay_connect`), then it is
the last call, the `zip_entry_close` of an entry whose read failed apart, so
that no later step of the image and no later image is attempted, and
`dfu_send_package` returns a non-zero result. When `dfu_send_package` returns
0, `tr` is made of the complete steps of images, one image after the other,
and every call returned 0. `dfu_send_package` returns a result whenever the
calls of `dfu_serial_send_firmware` that it makes do. -/
theorem image_failure_aborts (cfg : Platform) (h : Host) (zip_pkg : Bool)
    (jsmn_parse : List Nat → Option (List jsmntok_t)) :
    ∃ h0 : Host, h0.dev = h.dev
      ∧ (∃ zs, h0.steps = h.steps ++ zs ∧ ∀ s ∈ zs, s.is_entry = true)
      ∧ ((∃ r tr, dfu_send_package cfg h zip_pkg jsmn_parse = some r
            ∧ Execution cfg h0 tr r.2
            ∧ r.2.steps = h0.steps ++ tr.map Prod.fst
            ∧ (r.1 = 0 → complete_images tr)
            ∧ (∀ pre s e post, tr = pre ++ (s, e) :: post → e ≠ 0 →
                r.1 ≠ 0
                ∧ (post = [] ∨ (s = Step.entry_read ∧ post = [(Step.entry_close, 0)]))))
        ∨ (dfu_send_package cfg h zip_pkg jsmn_parse = none
            ∧ ∃ tr h1 img len, Execution cfg h0 tr h1 ∧ clean tr
              ∧ dfu_serial_send_firmware cfg h1.dev img len = none)) := by
  obtain ⟨h0, e, objs, k, hdev, hsteps, heq⟩ := send_package_stage cfg h zip_pkg jsmn_parse
  refine ⟨h0, hdev, hsteps, ?_⟩
  rw [heq]
  by_cases he : e ≠ 0
  · left
    refine ⟨(e, h0), [], send_package_images_skip cfg h0 e objs k he, Execution.nil h0,
      by simp, fun h0 => absurd h0 he, ?_⟩
    intro pre s e1 post hp
    simp at hp
  rw [not_not.mp he]
  have ho := send_package_images_outcome cfg h0 objs k
  cases hres : dfu_send_package_images cfg h0 0 objs k with
  | none =>
    rw [hres] at ho
    exact Or.inr ⟨rfl, ho⟩
  | some r =>
    rw [hres] at ho
    obtain ⟨tr, hex, hc⟩ := ho
    left
    refine ⟨r, tr, rfl, hex, execution_steps cfg h0 r.2 tr hex, ?_, ?_⟩
    · intro hr0
      rcases hc with ⟨-, hg⟩ | ⟨hne, -⟩
      · exact hg
      · exact absurd hr0 hne
    · intro pre s e1 post hp he1
      rcases hc with ⟨-, hg⟩ | ⟨hne, hs⟩
      · have := complete_images_clean tr hg
        rw [hp] at this
        exact absurd (clean_split pre post s e1 this) he1
      · exact ⟨hne, stopped_last tr hs pre post s e1 hp he1⟩


/-! ### The arguments of `main` -/

set_option maxRecDepth 1000000 in
/-- C33: an unknown flag after three `-v` is not refused. For the arguments
`tool ttyS0 p.zip -v -v -v -x`, with a port that opens and a package whose
application the device accepts, `main` prints no usage line, opens the serial
port, transfers the image and returns the exit code 0. -/
theorem unknown_flag_after_three_v :
    main_arguments unknown_flag_argv
        = (0, false, some [116, 116, 121, 83, 48], some [112, 46, 122, 105, 112], 3)
    ∧ (main nrf unknown_flag_argv app_package_host 0 0 true
        (fun _ => some app_manifest_tokens)).map (fun r => (r.1, r.2.1, r.2.2.steps))
      = some (0, [MainEvent.port_open (some [116, 116, 121, 83, 48]),
          MainEvent.package (some [112, 46, 122, 105, 112]), MainEvent.port_close],
          [Step.entry_open (some str_manifest_json), Step.entry_read, Step.entry_close]
          ++ image_steps DFU_IMG_APP
            { img_type := DFU_IMG_APP, file_bin := some [97, 46, 98, 105, 110],
              file_dat := some [97, 46, 100, 97, 116] } false) := by
  decide!

theorem is_argv_verbose_iff (p : List Nat) :
    is_argv_verbose p = 0 ↔ (p = str_dash_v ∨ p = str_dash_V) := by
  unfold is_argv_verbose
  split_ifs with h
  · simp [h]
  · simp [h]

/-- The loop over the flags looks at the arguments up to the one that brings the
level to `LOGGER_INFO_LVL_3`: `k` more arguments when the level is `k` below
it. -/
theorem main_flags_usage (args : List (List Nat)) :
    ∀ (info_lvl : Int) (k : Nat), LOGGER_INFO_LVL_3 - info_lvl = ((k + 1 : Nat) : Int) →
      ((main_flags args info_lvl).1 = 0 ↔ (main_flags args info_lvl).2.1 = false)
      ∧ ((main_flags args info_lvl).1 ≠ 0 → (main_flags args info_lvl).1 = 1)
      ∧ ((main_flags args info_lvl).2.1 = true ↔
          ∃ i a, i < k + 1 ∧ args.get? i = some a ∧ a ≠ str_dash_v ∧ a ≠ str_dash_V) := by
  induction args with
  | nil =>
    intro info_lvl k _
    simp [main_flags]
  | cons p rest ih =>
    intro info_lvl k hk
    unfold main_flags
    by_cases hv : is_argv_verbose p = 0
    · have hp := (is_argv_verbose_iff p).mp hv
      rw [if_pos hv]
      by_cases hl : info_lvl + 1 ≥ LOGGER_INFO_LVL_3
      · rw [if_pos hl]
        have hk0 : k = 0 := by
          push_cast at hk
          omega
        subst hk0
        refine ⟨by simp, by simp, ?_⟩
        simp only [Bool.false_eq_true, false_iff, not_exists]
        rintro i a ⟨hi, hg, h1, h2⟩
        have hi0 : i = 0 := by omega
        subst hi0
        simp only [List.get?_cons_zero, Option.some.injEq] at hg
        subst hg
        rcases hp with hp | hp
        · exact h1 hp
        · exact h2 hp
      · rw [if_neg hl]
        obtain ⟨k1, rfl⟩ : ∃ k1, k = k1 + 1 := by
          refine ⟨k - 1, ?_⟩
          push_cast at hk
          omega
        obtain ⟨i1, i2, i3⟩ := ih (info_lvl + 1) k1 (by push_cast at hk ⊢; omega)
        refine ⟨i1, i2, ?_⟩
        rw [i3]
        constructor
        · rintro ⟨i, a, hi, hg, h1, h2⟩
          exact ⟨i + 1, a, by omega, by simpa using hg, h1, h2⟩
        · rintro ⟨i, a, hi, hg, h1, h2⟩
          cases i with
          | zero =>
            simp only [List.get?_cons_zero, Option.some.injEq] at hg
            subst hg
            rcases hp with hp | hp
            · exact absurd hp h1
            · exact absurd hp h2
          | succ i => exact ⟨i, a, by omega, by simpa using hg, h1, h2⟩
    · rw [if_neg hv]
      have hp : p ≠ str_dash_v ∧ p ≠ str_dash_V := by
        constructor
        · intro hc
          exact hv ((is_argv_verbose_iff p).mpr (Or.inl hc))
        · intro hc
          exact hv ((is_argv_verbose_iff p).mpr (Or.inr hc))
      refine ⟨by simp, by simp, ?_⟩
      simp only [true_iff]
      exact ⟨0, p, by omega, rfl, hp.1, hp.2⟩

theorem main_arguments_spec (argv : List (List Nat)) :
    ((main_arguments argv).2.1 = true ↔ arguments_rejected argv)
    ∧ ((main_arguments argv).2.1 = true → (main_arguments argv).1 = 1)
    ∧ ((main_arguments argv).2.1 = false →
        (main_arguments argv).1 = 0 ∧ (main_arguments argv).2.2.1 = argv.get? 1
        ∧ (main_arguments argv).2.2.2.1 = argv.get? 2) := by
  unfold main_arguments arguments_rejected
  cases h1 : argv.get? 1 with
  | none =>
    have hl : argv.length < 2 := by
      have := List.get?_eq_none.mp h1
      omega
    have h2 : argv.get? 2 = none := List.get?_eq_none.mpr (by omega)
    rw [h2]
    simp [hl]
  | some p1 =>
    have hl1 : ¬ argv.length < 2 := by
      intro hc
      rw [List.get?_eq_none.mpr (by omega)] at h1
      simp at h1
    cases h2 : argv.get? 2 with
    | none =>
      have hl : argv.length < 3 := by
        have := List.get?_eq_none.mp h2
        omega
      simp [hl]
    | some p2 =>
      have hl2 : ¬ argv.length < 3 := by
        intro hc
        rw [List.get?_eq_none.mpr (by omega)] at h2
        simp at h2
      simp only [hl1, hl2, false_or, Option.some.injEq, reduceCtorEq]
      by_cases e2 : p2 = []
      · subst e2
        simp
      have e2l : p2.length > 0 := List.length_pos.mpr e2
      by_cases e1 : p1 = []
      · subst e1
        simp [e2l]
      have e1l : p1.length > 0 := List.length_pos.mpr e1
      obtain ⟨f1, f2, f3⟩ := main_flags_usage (argv.drop 3) LOGGER_INFO_LVL_0 2 (by decide)
      simp only [e1l, e2l, if_true, ne_eq, not_true_eq_false, if_false, Bool.false_or, e1, e2,
        false_or]
      refine ⟨f3, fun hu => f2 (fun hc => ?_), fun hu => ⟨f1.mpr hu, trivial, trivial⟩⟩
      rw [f1.mp hc] at hu
      simp at hu

/-- C33, as the code has it: when the serial port or the package is missing or
empty, or one of the first three arguments after them is not `-v` or `-V`,
`main` prints the usage line, returns the exit code 1 and calls neither
`uart_slip_open` nor `dfu_send_package` nor `uart_slip_close`. (The loop over
the flags ends at the third `-v`; what follows it is not looked at.) -/
theorem main_usage (cfg : Platform) (argv : List (List Nat)) (h : Host)
    (open_result close_result : Int) (zip_pkg : Bool)
    (jsmn_parse : List Nat → Option (List jsmntok_t)) (hrej : arguments_rejected argv) :
    main cfg argv h open_result close_result zip_pkg jsmn_parse
      = some (1, [MainEvent.usage], h) := by
  obtain ⟨s1, s2, -⟩ := main_arguments_spec argv
  have hu := s1.mpr hrej
  have he := s2 hu
  unfold main
  simp only [hu, he, if_true, one_ne_zero, if_false, Bool.true_eq_false]

set_option maxRecDepth 1000000 in
theorem main_usage_witness :
    arguments_rejected [[116, 111, 111, 108], [116, 116, 121, 83, 48], [112, 46, 122, 105, 112],
        str_dash_v, [45, 120]]
    ∧ main nrf [[116, 111, 111, 108], [116, 116, 121, 83, 48], [112, 46, 122, 105, 112],
        str_dash_v, [45, 120]] swapped_host 0 0 true (fun _ => none)
      = some (1, [MainEvent.usage], swapped_host) :=
  ⟨Or.inr (Or.inr (Or.inr (Or.inr ⟨1, [45, 120], by decide, rfl, by decide, by decide⟩))),
    main_usage nrf _ swapped_host 0 0 true (fun _ => none)
      (Or.inr (Or.inr (Or.inr (Or.inr ⟨1, [45, 120], by decide, rfl, by decide, by decide⟩))))⟩

/-- C34: for arguments that `main` accepts, `uart_slip_close` is called once, as
the last thing `main` does: after `uart_slip_open` alone when the port could
not be opened (the transfer is skipped), after `dfu_send_package` has returned
otherwise, whatever its result. `main` returns whenever `dfu_send_package`
does, and its exit code is 0 if and only if `uart_slip_open`,
`dfu_send_package` and `uart_slip_close` all returned 0. -/
theorem main_closes_port (cfg : Platform) (argv : List (List Nat)) (h : Host)
    (open_result close_result : Int) (zip_pkg : Bool)
    (jsmn_parse : List Nat → Option (List jsmntok_t)) (hacc : ¬ arguments_rejected argv) :
    (open_result ≠ 0 →
      main cfg argv h open_result close_result zip_pkg jsmn_parse
        = some (open_result,
            [MainEvent.port_open (argv.get? 1), MainEvent.port_close], h))
    ∧ (open_result = 0 → ∀ r, dfu_send_package cfg h zip_pkg jsmn_parse = some r →
        main cfg argv h open_result close_result zip_pkg jsmn_parse
          = some (if r.1 = 0 then close_result else r.1,
              [MainEvent.port_open (argv.get? 1), MainEvent.package (argv.get? 2),
               MainEvent.port_close], r.2))
    ∧ (main cfg argv h open_result close_result zip_pkg jsmn_parse = none
        ↔ open_result = 0 ∧ dfu_send_package cfg h zip_pkg jsmn_parse = none)
    ∧ (∀ m, main cfg argv h open_result close_result zip_pkg jsmn_parse = some m →
        (m.1 = 0 ↔ open_result = 0
          ∧ (∃ r, dfu_send_package cfg h zip_pkg jsmn_parse = some r ∧ r.1 = 0)
          ∧ close_result = 0)
        ∧ m.2.1.count MainEvent.port_close = 1
        ∧ m.2.1.getLast? = some MainEvent.port_close) := by
  obtain ⟨s1, -, s3⟩ := main_arguments_spec argv
  have hu : (main_arguments argv).2.1 = false := by
    cases hc : (main_arguments argv).2.1 with
    | false => rfl
    | true => exact absurd (s1.mp hc) hacc
  obtain ⟨he, hport, hzip⟩ := s3 hu
  have hopen : open_result ≠ 0 →
      main cfg argv h open_result close_result zip_pkg jsmn_parse
        = some (open_result,
            [MainEvent.port_open (argv.get? 1), MainEvent.port_close], h) := by
    intro ho
    unfold main
    simp only [hu, he, hport, if_true, Bool.false_eq_true, if_false, List.nil_append, ho,
      List.singleton_append]
  have hsend : open_result = 0 → ∀ r, dfu_send_package cfg h zip_pkg jsmn_parse = some r →
      main cfg argv h open_result close_result zip_pkg jsmn_parse
        = some (if r.1 = 0 then close_result else r.1,
            [MainEvent.port_open (argv.get? 1), MainEvent.package (argv.get? 2),
             MainEvent.port_close], r.2) := by
    intro ho r hr
    unfold main
    simp only [hu, he, hport, hzip, if_true, Bool.false_eq_true, if_false, List.nil_append, ho,
      hr, List.singleton_append, List.cons_append]
  have hnone : open_result = 0 → dfu_send_package cfg h zip_pkg jsmn_parse = none →
      main cfg argv h open_result close_result zip_pkg jsmn_parse = none := by
    intro ho hr
    unfold main
    simp only [hu, he, if_true, ho, hr]
  refine ⟨hopen, hsend, ⟨?_, fun ⟨ho, hr⟩ => hnone ho hr⟩, ?_⟩
  · intro hm
    by_cases ho : open_result = 0
    · refine ⟨ho, ?_⟩
      cases hr : dfu_send_package cfg h zip_pkg jsmn_parse with
      | none => rfl
      | some r =>
        rw [hsend ho r hr] at hm
        simp at hm
    · rw [hopen ho] at hm
      simp at hm
  · intro m hm
    by_cases ho : open_result = 0
    · cases hr : dfu_send_package cfg h zip_pkg jsmn_parse with
      | none =>
        rw [hnone ho hr] at hm
        simp at hm
      | some r =>
        rw [hsend ho r hr] at hm
        simp only [Option.some.injEq] at hm
        subst hm
        refine ⟨?_, by simp [List.count_cons], rfl⟩
        simp only
        by_cases hr0 : r.1 = 0
        · rw [if_pos hr0]
          exact ⟨fun hc => ⟨ho, ⟨r, rfl, hr0⟩, hc⟩, fun hc => hc.2.2⟩
        · rw [if_neg hr0]
          refine ⟨fun hc => absurd hc hr0, fun hc => ?_⟩
          obtain ⟨-, ⟨r1, hr1, hr10⟩, -⟩ := hc
          rw [Option.some.inj hr1] at hr0
          exact absurd hr10 hr0
    · rw [hopen ho] at hm
      simp only [Option.some.injEq] at hm
      subst hm
      refine ⟨?_, by simp [List.count_cons], rfl⟩
      simp only
      exact ⟨fun hc => absurd hc ho, fun hc => absurd hc.1 ho⟩

set_option maxRecDepth 1000000 in
theorem main_closes_port_witness :
    ¬ arguments_rejected [[116, 111, 111, 108], [116, 116, 121, 83, 48], [112, 46, 122, 105, 112]]
    ∧ main nrf [[116, 111, 111, 108], [116, 116, 121, 83, 48], [112, 46, 122, 105, 112]]
        swapped_host 5 0 true (fun _ => none)
      = some (5, [MainEvent.port_open (some [116, 116, 121, 83, 48]), MainEvent.port_close],
          swapped_host) :=
  have hacc : ¬ arguments_rejected
      [[116, 111, 111, 108], [116, 116, 121, 83, 48], [112, 46, 122, 105, 112]] := by
    rintro (h | h | h | h | ⟨i, a, -, hg, -⟩)
    · simp at h
    · simp at h
    · simp at h
    · simp at h
    · simp at hg
  ⟨hacc, (main_closes_port nrf _ swapped_host 5 0 true (fun _ => none) hacc).1 (by decide)⟩

end UartSecureDFU
